import Mathlib

/-!
Reviewer appointment service.

A shallow embedding of the reviewer-assignment engine
(`internal/services/pr_service.go`), of the repository interfaces it is
written against (`internal/storage/interfacesStorages.go`) and of the
PostgreSQL repositories (`internal/storage/postgresql`).

Conventions of the embedding:

* a Go method `f(ctx, args) (T, error)` of a repository or service becomes
  a function `args → σ → Except Err T × σ`: the state `σ` of the backing
  store is threaded explicitly and is returned on failure too (Go keeps
  every write made before an error is returned);
* a struct passed by pointer and written through (`Scan(&pr.ID, ...)`)
  is returned as the result of the call;
* `int64` and `int` are `Int` (the services do no arithmetic on them),
  `time.Time` is a `Nat` timestamp and `*time.Time` an `Option Nat`;
* the pseudo-random generator created inside `selectRandomReviewers` is
  the list of the values it would hand out, `r.Intn(n)` being the next
  value reduced modulo `n`; `time.Now()` is a parameter.
-/

namespace ReviewerService

/-! ## Domain model (`internal/models/domain`) -/

/-- A user (`domain.User`). `ID` is the surrogate id, `UserID` the external id. -/
structure User where
  ID : Int
  UserID : String
  Username : String
  IsActive : Bool
  TeamID : Int
  CreatedAt : Nat
  deriving DecidableEq, Repr

/-- A team (`domain.Team`). -/
structure Team where
  ID : Int
  Name : String
  CreatedAt : Nat
  Users : List User
  deriving DecidableEq, Repr

/-- A pull request (`domain.PullRequest`). -/
structure PullRequest where
  ID : Int
  PullRequestID : String
  PullRequestName : String
  AuthorID : Int
  StatusID : Int
  MergedAt : Option Nat
  CreatedAt : Nat
  Author : Option User
  Reviewers : List User
  deriving DecidableEq, Repr

/-- Status id of an open pull request (`StatusOpenID`). -/
def StatusOpenID : Int := 1

/-- Status id of a merged pull request (`StatusMergedID`). -/
def StatusMergedID : Int := 2

/-- Upper bound on the reviewers picked at creation (`MaxReviewers`). -/
def MaxReviewers : Int := 2

/-! ## Errors (`internal/storage/storage.go`) -/

/-- The sentinel error variables of package `storage`. -/
inductive Sentinel where
  | TeamExists
  | PRExists
  | PRMerged
  | NotAssigned
  | NoCandidate
  | NotFound
  | UserExists
  deriving DecidableEq, Repr

/-- Go error values: a sentinel of package `storage`, any other error
(driver errors, `errors.New` inside a repository), an error built by
`fmt.Errorf` with one `%w` verb (the format string and the wrapped error),
and a run-time panic, which is not an error value but has to be some
outcome of the model. -/
inductive Err where
  | sentinel (s : Sentinel)
  | other (msg : String)
  | wrap (format : String) (inner : Err)
  | panic (msg : String)
  deriving DecidableEq, Repr

def ErrTeamExists : Err := Err.sentinel Sentinel.TeamExists
def ErrPRExists : Err := Err.sentinel Sentinel.PRExists
def ErrPRMerged : Err := Err.sentinel Sentinel.PRMerged
def ErrNotAssigned : Err := Err.sentinel Sentinel.NotAssigned
def ErrNoCandidate : Err := Err.sentinel Sentinel.NoCandidate
def ErrNotFound : Err := Err.sentinel Sentinel.NotFound
def ErrUserExists : Err := Err.sentinel Sentinel.UserExists

/-- The standard library's `errors.Is`: the error itself or an error of its
`%w` chain is the target. -/
def errorsIs (e target : Err) : Bool :=
  match e with
  | Err.wrap f inner => decide (Err.wrap f inner = target) || errorsIs inner target
  | e => decide (e = target)

/-! ## Repository interfaces (`internal/storage/interfacesStorages.go`) -/

/-- One repository call on a store of type `σ`. -/
abbrev Op (σ : Type) (α : Type) : Type := σ → Except Err α × σ

/-- The methods of `PRRepository`, `UserRepository` and `TeamRepository`
that the services call, over a store of type `σ`. A method returning
`(*T, error)` is taken to return a non-nil pointer exactly when the error is
nil, as every repository of package `postgresql` does. -/
structure Repos (σ : Type) where
  prCreate : PullRequest → Op σ PullRequest
  prUpdate : PullRequest → Op σ PullRequest
  prGetByPRID : String → Op σ PullRequest
  prAddReviewer : Int → Int → Op σ Unit
  prRemoveReviewer : Int → Int → Op σ Unit
  prGetReviewers : Int → Op σ (List User)
  userCreate : User → Op σ User
  userUpdate : User → Op σ User
  userGetByUserID : String → Op σ User
  userGetByTeamID : Int → Op σ (List User)
  userSetIsActive : String → Bool → Op σ Unit
  userDeactivateByTeamID : Int → Op σ Unit
  teamCreate : Team → Op σ Team
  teamGetByName : String → Op σ Team
  teamGetByID : Int → Op σ Team
  teamGetWithUsers : Int → Op σ Team
  teamExistsByName : String → Op σ Bool

/-! ## The candidate selector (`pr_service.go`, lines 182-237) -/

/-- A Go `map[int64]bool`, read with the zero value `false` for a missing key. -/
abbrev IDSet : Type := Int → Bool

/-- The empty map `make(map[int64]bool)`. -/
def IDSet.empty : IDSet := fun _ => false

/-- The assignment `m[k] = true`. -/
def IDSet.insert (m : IDSet) (k : Int) : IDSet := fun i => if i = k then true else m i

/-- Method `PRService.getActiveTeamMembers`. -/
def getActiveTeamMembers {σ : Type} (R : Repos σ) (teamID excludeUserID : Int) :
    Op σ (List User) := fun s =>
  match R.userGetByTeamID teamID s with
  | (Except.error err, s1) => (Except.error err, s1)
  | (Except.ok allUsers, s1) =>
    (Except.ok (allUsers.filter (fun user => user.IsActive && user.ID != excludeUserID)), s1)

/-- Method `PRService.getActiveTeamMembersExcluding`. -/
def getActiveTeamMembersExcluding {σ : Type} (R : Repos σ) (teamID : Int)
    (excludeIDs : IDSet) : Op σ (List User) := fun s =>
  match R.userGetByTeamID teamID s with
  | (Except.error err, s1) => (Except.error err, s1)
  | (Except.ok allUsers, s1) =>
    (Except.ok (allUsers.filter (fun user => user.IsActive && !excludeIDs user.ID)), s1)

/-- The statement `shuffled[i], shuffled[j] = shuffled[j], shuffled[i]`;
an index out of range leaves the slice as it is. -/
def swap (shuffled : List User) (i j : Nat) : List User :=
  match shuffled[i]?, shuffled[j]? with
  | some a, some b => (shuffled.set i b).set j a
  | _, _ => shuffled

/-- The loop `for i := len(shuffled) - 1; i > 0; i--` of
`selectRandomReviewers`, entered with the current `i`; `draws` are the
values the generator still has to hand out (`0` once they are used up). -/
def shuffleFrom (draws : List Nat) : Nat → List User → List User
  | 0, shuffled => shuffled
  | i + 1, shuffled =>
    let j := draws.headD 0 % (i + 1 + 1)
    shuffleFrom draws.tail i (swap shuffled (i + 1) j)

/-- Method `PRService.selectRandomReviewers`. -/
def selectRandomReviewers (draws : List Nat) (candidates : List User) (count : Int) :
    List User :=
  if count ≤ 0 ∨ candidates.length = 0 then []
  else if count ≥ (candidates.length : Int) then candidates
  else (shuffleFrom draws (candidates.length - 1) candidates).take count.toNat

/-! ## The assignment engine (`pr_service.go`, lines 32-180) -/

/-- The loop `for _, reviewer := range selectedReviewers` of `CreatePR`. -/
def addReviewers {σ : Type} (R : Repos σ) (prID : Int) : List User → Op σ Unit
  | [], s => (Except.ok (), s)
  | reviewer :: rest, s =>
    match R.prAddReviewer prID reviewer.ID s with
    | (Except.error err, s1) => (Except.error (Err.wrap "failed to add reviewer: %w" err), s1)
    | (Except.ok _, s1) => addReviewers R prID rest s1

/-- Method `PRService.CreatePR`. -/
def CreatePR {σ : Type} (R : Repos σ) (draws : List Nat)
    (prID prName authorUserID : String) : Op σ PullRequest := fun s =>
  match R.prGetByPRID prID s with
  | (Except.ok _, s1) => (Except.error ErrPRExists, s1)
  | (Except.error _, s1) =>
  match R.userGetByUserID authorUserID s1 with
  | (Except.error _, s2) => (Except.error (Err.wrap "%w: author not found" ErrNotFound), s2)
  | (Except.ok author, s2) =>
  match R.teamGetByID author.TeamID s2 with
  | (Except.error _, s3) =>
    (Except.error (Err.wrap "%w: author team not found" ErrNotFound), s3)
  | (Except.ok _, s3) =>
  match R.prCreate
      { ID := 0, PullRequestID := prID, PullRequestName := prName, AuthorID := author.ID,
        StatusID := StatusOpenID, MergedAt := none, CreatedAt := 0, Author := none,
        Reviewers := [] } s3 with
  | (Except.error err, s4) => (Except.error (Err.wrap "failed to create PR: %w" err), s4)
  | (Except.ok pr, s4) =>
  match getActiveTeamMembers R author.TeamID author.ID s4 with
  | (Except.error err, s5) =>
    (Except.error (Err.wrap "failed to get team members: %w" err), s5)
  | (Except.ok candidates, s5) =>
  let reviewersCount : Int :=
    if (candidates.length : Int) < MaxReviewers then (candidates.length : Int) else MaxReviewers
  let selectedReviewers := selectRandomReviewers draws candidates reviewersCount
  match addReviewers R pr.ID selectedReviewers s5 with
  | (Except.error err, s6) => (Except.error err, s6)
  | (Except.ok _, s6) =>
  match R.prGetByPRID prID s6 with
  | (Except.error err, s7) =>
    (Except.error (Err.wrap "failed to get created PR: %w" err), s7)
  | (Except.ok result, s7) => (Except.ok result, s7)

/-- Method `PRService.MergePR`; `now` is the value of `time.Now()`. -/
def MergePR {σ : Type} (R : Repos σ) (now : Nat) (prID : String) : Op σ PullRequest :=
  fun s =>
  match R.prGetByPRID prID s with
  | (Except.error _, s1) => (Except.error (Err.wrap "%w: PR not found" ErrNotFound), s1)
  | (Except.ok pr, s1) =>
  if pr.StatusID = StatusMergedID then (Except.ok pr, s1)
  else
  match R.prUpdate { pr with StatusID := StatusMergedID, MergedAt := some now } s1 with
  | (Except.error err, s2) => (Except.error (Err.wrap "failed to merge PR: %w" err), s2)
  | (Except.ok _, s2) =>
  match R.prGetByPRID prID s2 with
  | (Except.error err, s3) =>
    (Except.error (Err.wrap "failed to get merged PR: %w" err), s3)
  | (Except.ok result, s3) => (Except.ok result, s3)

/-- The loop of `ReassignReviewer` that sets `isAssigned`. -/
def isAssigned (reviewers : List User) (oldUserID : String) : Bool :=
  reviewers.any (fun reviewer => reviewer.UserID == oldUserID)

/-- The map `excludeIDs` that `ReassignReviewer` builds. -/
def excludeIDs (authorID oldReviewerID : Int) (reviewers : List User) : IDSet :=
  reviewers.foldl (fun m reviewer => m.insert reviewer.ID)
    ((IDSet.empty.insert authorID).insert oldReviewerID)

/-- Method `PRService.ReassignReviewer`. -/
def ReassignReviewer {σ : Type} (R : Repos σ) (draws : List Nat)
    (prID oldUserID : String) : Op σ String := fun s =>
  match R.prGetByPRID prID s with
  | (Except.error _, s1) => (Except.error (Err.wrap "%w: PR not found" ErrNotFound), s1)
  | (Except.ok pr, s1) =>
  if pr.StatusID = StatusMergedID then (Except.error ErrPRMerged, s1)
  else
  match R.userGetByUserID oldUserID s1 with
  | (Except.error _, s2) =>
    (Except.error (Err.wrap "%w: old reviewer not found" ErrNotFound), s2)
  | (Except.ok oldReviewer, s2) =>
  match R.prGetReviewers pr.ID s2 with
  | (Except.error err, s3) => (Except.error (Err.wrap "failed to get reviewers: %w" err), s3)
  | (Except.ok reviewers, s3) =>
  if !isAssigned reviewers oldUserID then (Except.error ErrNotAssigned, s3)
  else
  match R.teamGetByID oldReviewer.TeamID s3 with
  | (Except.error _, s4) =>
    (Except.error (Err.wrap "%w: reviewer team not found" ErrNotFound), s4)
  | (Except.ok _, s4) =>
  match getActiveTeamMembersExcluding R oldReviewer.TeamID
      (excludeIDs pr.AuthorID oldReviewer.ID reviewers) s4 with
  | (Except.error err, s5) =>
    (Except.error (Err.wrap "failed to get replacement candidates: %w" err), s5)
  | (Except.ok candidates, s5) =>
  if candidates.length = 0 then (Except.error ErrNoCandidate, s5)
  else
  match selectRandomReviewers draws candidates 1 with
  | [] => (Except.error (Err.panic "index out of range [0] with length 0"), s5)
  | newReviewer :: _ =>
  match R.prRemoveReviewer pr.ID oldReviewer.ID s5 with
  | (Except.error err, s6) =>
    (Except.error (Err.wrap "failed to remove old reviewer: %w" err), s6)
  | (Except.ok _, s6) =>
  match R.prAddReviewer pr.ID newReviewer.ID s6 with
  | (Except.error err, s7) =>
    (Except.error (Err.wrap "failed to add new reviewer: %w" err), s7)
  | (Except.ok _, s7) => (Except.ok newReviewer.UserID, s7)

/-! ## Team lifecycle and user activity (`team_service.go`, `user_service.go`) -/

/-- The loop `for i := range team.Users` of `CreateTeam`, for the team with
surrogate id `teamID`: the users as the loop leaves them in `team.Users`. -/
def upsertUsers {σ : Type} (R : Repos σ) (teamID : Int) : List User → Op σ (List User)
  | [], s => (Except.ok [], s)
  | user :: rest, s =>
    match R.userGetByUserID user.UserID s with
    | (Except.error _, s1) =>
      match R.userCreate { user with TeamID := teamID } s1 with
      | (Except.error err, s2) =>
        (Except.error (Err.wrap ("failed to create user " ++ user.UserID ++ ": %w") err), s2)
      | (Except.ok created, s2) =>
        match upsertUsers R teamID rest s2 with
        | (Except.error err, s3) => (Except.error err, s3)
        | (Except.ok users, s3) => (Except.ok (created :: users), s3)
    | (Except.ok existingUser, s1) =>
      match R.userUpdate
          { existingUser with Username := user.Username, IsActive := user.IsActive,
                              TeamID := teamID } s1 with
      | (Except.error err, s2) =>
        (Except.error (Err.wrap ("failed to update user " ++ user.UserID ++ ": %w") err), s2)
      | (Except.ok updated, s2) =>
        match upsertUsers R teamID rest s2 with
        | (Except.error err, s3) => (Except.error err, s3)
        | (Except.ok users, s3) =>
          (Except.ok ({ user with TeamID := teamID, ID := updated.ID,
                                  CreatedAt := updated.CreatedAt } :: users), s3)

/-- Method `TeamService.CreateTeam`. -/
def CreateTeam {σ : Type} (R : Repos σ) (team : Team) : Op σ Team := fun s =>
  match R.teamExistsByName team.Name s with
  | (Except.error err, s1) =>
    (Except.error (Err.wrap "failed to check team existence: %w" err), s1)
  | (Except.ok teamExists, s1) =>
  if teamExists then (Except.error ErrTeamExists, s1)
  else
  match R.teamCreate team s1 with
  | (Except.error err, s2) => (Except.error (Err.wrap "failed to create team: %w" err), s2)
  | (Except.ok created, s2) =>
  match upsertUsers R created.ID created.Users s2 with
  | (Except.error err, s3) => (Except.error err, s3)
  | (Except.ok _, s3) =>
  match R.teamGetWithUsers created.ID s3 with
  | (Except.error err, s4) =>
    (Except.error (Err.wrap "failed to get team with users: %w" err), s4)
  | (Except.ok result, s4) => (Except.ok result, s4)

/-- Method `TeamService.GetTeam`. -/
def GetTeam {σ : Type} (R : Repos σ) (teamName : String) : Op σ Team := fun s =>
  match R.teamGetByName teamName s with
  | (Except.error _, s1) => (Except.error (Err.wrap "%w: team not found" ErrNotFound), s1)
  | (Except.ok team, s1) =>
  match R.teamGetWithUsers team.ID s1 with
  | (Except.error err, s2) =>
    (Except.error (Err.wrap "failed to get team with users: %w" err), s2)
  | (Except.ok teamWithUsers, s2) => (Except.ok teamWithUsers, s2)

/-- Method `TeamService.DeactivateTeamUsers`. -/
def DeactivateTeamUsers {σ : Type} (R : Repos σ) (teamID : Int) : Op σ Unit := fun s =>
  match R.teamGetByID teamID s with
  | (Except.error _, s1) => (Except.error (Err.wrap "%w: team not found" ErrNotFound), s1)
  | (Except.ok _, s1) =>
  match R.userDeactivateByTeamID teamID s1 with
  | (Except.error err, s2) =>
    (Except.error (Err.wrap "failed to deactivate team users: %w" err), s2)
  | (Except.ok _, s2) => (Except.ok (), s2)

/-- Method `UserService.SetIsActive`. -/
def SetIsActive {σ : Type} (R : Repos σ) (userID : String) (isActive : Bool) :
    Op σ User := fun s =>
  match R.userGetByUserID userID s with
  | (Except.error _, s1) => (Except.error (Err.wrap "%w: user not found" ErrNotFound), s1)
  | (Except.ok user, s1) =>
  match R.userSetIsActive userID isActive s1 with
  | (Except.error err, s2) => (Except.error (Err.wrap "failed to set is_active: %w" err), s2)
  | (Except.ok _, s2) => (Except.ok { user with IsActive := isActive }, s2)

/-! ## Observing the repository calls -/

/-- Equality of call results is decidable. -/
instance decEqExcept {ε α : Type} [DecidableEq ε] [DecidableEq α] :
    DecidableEq (Except ε α)
  | Except.ok a, Except.ok b =>
    if h : a = b then isTrue (by rw [h]) else isFalse (by intro h2; cases h2; exact h rfl)
  | Except.error a, Except.error b =>
    if h : a = b then isTrue (by rw [h]) else isFalse (by intro h2; cases h2; exact h rfl)
  | Except.ok _, Except.error _ => isFalse (by intro h; cases h)
  | Except.error _, Except.ok _ => isFalse (by intro h; cases h)

/-- A repository call with its arguments and its result. -/
inductive Event where
  | prCreate (pr : PullRequest) (res : Except Err PullRequest)
  | prUpdate (pr : PullRequest) (res : Except Err PullRequest)
  | prGetByPRID (prID : String) (res : Except Err PullRequest)
  | prAddReviewer (prID reviewerID : Int) (res : Except Err Unit)
  | prRemoveReviewer (prID reviewerID : Int) (res : Except Err Unit)
  | prGetReviewers (prID : Int) (res : Except Err (List User))
  | userCreate (user : User) (res : Except Err User)
  | userUpdate (user : User) (res : Except Err User)
  | userGetByUserID (userID : String) (res : Except Err User)
  | userGetByTeamID (teamID : Int) (res : Except Err (List User))
  | userSetIsActive (userID : String) (isActive : Bool) (res : Except Err Unit)
  | userDeactivateByTeamID (teamID : Int) (res : Except Err Unit)
  | teamCreate (team : Team) (res : Except Err Team)
  | teamGetByName (teamName : String) (res : Except Err Team)
  | teamGetByID (teamID : Int) (res : Except Err Team)
  | teamGetWithUsers (teamID : Int) (res : Except Err Team)
  | teamExistsByName (teamName : String) (res : Except Err Bool)
  deriving DecidableEq, Repr

/-- Whether the call is one of the writes of `PRRepository`, `UserRepository`
or `TeamRepository` (an INSERT, UPDATE or DELETE). -/
def Event.isWrite : Event → Bool
  | Event.prCreate _ _ => true
  | Event.prUpdate _ _ => true
  | Event.prAddReviewer _ _ _ => true
  | Event.prRemoveReviewer _ _ _ => true
  | Event.userCreate _ _ => true
  | Event.userUpdate _ _ => true
  | Event.userSetIsActive _ _ _ => true
  | Event.userDeactivateByTeamID _ _ => true
  | Event.teamCreate _ _ => true
  | _ => false

/-- Run a repository call and append it, with its result, to the log. -/
def logged {σ α : Type} (mk : Except Err α → Event) (op : Op σ α) :
    Op (σ × List Event) α := fun st =>
  match op st.1 with
  | (res, s1) => (res, (s1, st.2 ++ [mk res]))

/-- The repositories `R` with every call recorded, in order, in a log kept
next to the store. The results and the store are those of `R`. -/
def traced {σ : Type} (R : Repos σ) : Repos (σ × List Event) where
  prCreate := fun pr => logged (Event.prCreate pr) (R.prCreate pr)
  prUpdate := fun pr => logged (Event.prUpdate pr) (R.prUpdate pr)
  prGetByPRID := fun prID => logged (Event.prGetByPRID prID) (R.prGetByPRID prID)
  prAddReviewer := fun prID reviewerID =>
    logged (Event.prAddReviewer prID reviewerID) (R.prAddReviewer prID reviewerID)
  prRemoveReviewer := fun prID reviewerID =>
    logged (Event.prRemoveReviewer prID reviewerID) (R.prRemoveReviewer prID reviewerID)
  prGetReviewers := fun prID => logged (Event.prGetReviewers prID) (R.prGetReviewers prID)
  userCreate := fun user => logged (Event.userCreate user) (R.userCreate user)
  userUpdate := fun user => logged (Event.userUpdate user) (R.userUpdate user)
  userGetByUserID := fun userID =>
    logged (Event.userGetByUserID userID) (R.userGetByUserID userID)
  userGetByTeamID := fun teamID =>
    logged (Event.userGetByTeamID teamID) (R.userGetByTeamID teamID)
  userSetIsActive := fun userID isActive =>
    logged (Event.userSetIsActive userID isActive) (R.userSetIsActive userID isActive)
  userDeactivateByTeamID := fun teamID =>
    logged (Event.userDeactivateByTeamID teamID) (R.userDeactivateByTeamID teamID)
  teamCreate := fun team => logged (Event.teamCreate team) (R.teamCreate team)
  teamGetByName := fun teamName =>
    logged (Event.teamGetByName teamName) (R.teamGetByName teamName)
  teamGetByID := fun teamID => logged (Event.teamGetByID teamID) (R.teamGetByID teamID)
  teamGetWithUsers := fun teamID =>
    logged (Event.teamGetWithUsers teamID) (R.teamGetWithUsers teamID)
  teamExistsByName := fun teamName =>
    logged (Event.teamExistsByName teamName) (R.teamExistsByName teamName)

/-- The reviewer ids of the `AddReviewer` calls of a log, in call order. -/
def addedReviewers : List Event → List Int
  | [] => []
  | Event.prAddReviewer _ reviewerID _ :: rest => reviewerID :: addedReviewers rest
  | _ :: rest => addedReviewers rest

/-! ## Storage failures -/

/-- The error of a round trip to the database that did not go through. -/
def ErrConnection : Err := Err.other "failed to connect"

/-- Run a repository call under a schedule of storage failures: the head of
the schedule says whether this round trip fails, in which case the call
returns `ErrConnection` and the store is untouched. An exhausted schedule
means no further failure. -/
def failing {σ α : Type} (op : Op σ α) : Op (σ × List Bool) α := fun st =>
  match st.2 with
  | true :: rest => (Except.error ErrConnection, (st.1, rest))
  | false :: rest =>
    match op st.1 with
    | (res, s1) => (res, (s1, rest))
  | [] =>
    match op st.1 with
    | (res, s1) => (res, (s1, []))

/-- The repositories `R` behind a connection that fails according to the
schedule kept next to the store. -/
def faulty {σ : Type} (R : Repos σ) : Repos (σ × List Bool) where
  prCreate := fun pr => failing (R.prCreate pr)
  prUpdate := fun pr => failing (R.prUpdate pr)
  prGetByPRID := fun prID => failing (R.prGetByPRID prID)
  prAddReviewer := fun prID reviewerID => failing (R.prAddReviewer prID reviewerID)
  prRemoveReviewer := fun prID reviewerID => failing (R.prRemoveReviewer prID reviewerID)
  prGetReviewers := fun prID => failing (R.prGetReviewers prID)
  userCreate := fun user => failing (R.userCreate user)
  userUpdate := fun user => failing (R.userUpdate user)
  userGetByUserID := fun userID => failing (R.userGetByUserID userID)
  userGetByTeamID := fun teamID => failing (R.userGetByTeamID teamID)
  userSetIsActive := fun userID isActive => failing (R.userSetIsActive userID isActive)
  userDeactivateByTeamID := fun teamID => failing (R.userDeactivateByTeamID teamID)
  teamCreate := fun team => failing (R.teamCreate team)
  teamGetByName := fun teamName => failing (R.teamGetByName teamName)
  teamGetByID := fun teamID => failing (R.teamGetByID teamID)
  teamGetWithUsers := fun teamID => failing (R.teamGetWithUsers teamID)
  teamExistsByName := fun teamName => failing (R.teamExistsByName teamName)

/-! ## The PostgreSQL repositories (`internal/storage/postgresql`)

The tables of schema `pr_system` as lists of rows, and every SQL statement
of the repositories as the list operation it denotes. A statement that
matches several rows acts on all of them, `QueryRow(...).Scan` reads the
first row of the result and fails on an empty one. -/

/-- A row of `pr_system.pull_requests`. -/
structure PRRow where
  id : Int
  pull_request_id : String
  pull_request_name : String
  author_id : Int
  status_id : Int
  merged_at : Option Nat
  created_at : Nat
  deriving DecidableEq, Repr

/-- A row of `pr_system.teams`. -/
structure TeamRow where
  id : Int
  name : String
  created_at : Nat
  deriving DecidableEq, Repr

/-- Modelled from the spec: the schema of `pr_system` (its migration is not
among the sources). The tables hold the columns the statements name;
`users.user_id`, `teams.name` and `pull_requests.pull_request_id` are unique
(the storage tests expect a duplicate insert to fail, and the spec calls them
unique), `pr_reviewers` is keyed by `(pr_id, reviewer_id)` (the conflict
target of `AddReviewer`); surrogate ids come from one sequence per table and
`created_at` from the clock `now` of the database. Foreign keys are not
checked. -/
structure Store where
  teams : List TeamRow
  users : List User
  pull_requests : List PRRow
  pr_reviewers : List (Int × Int)
  teamSeq : Int
  userSeq : Int
  prSeq : Int
  now : Nat
  deriving DecidableEq, Repr

/-- The error `fmt.Errorf("%s: %w", op, err)` of a repository method. -/
def pgError (op cause : String) : Err := Err.wrap (op ++ ": %w") (Err.other cause)

/-- The pull request scanned from a row of `pull_requests`. -/
def PRRow.toPR (row : PRRow) (reviewers : List User) : PullRequest :=
  { ID := row.id, PullRequestID := row.pull_request_id,
    PullRequestName := row.pull_request_name, AuthorID := row.author_id,
    StatusID := row.status_id, MergedAt := row.merged_at, CreatedAt := row.created_at,
    Author := none, Reviewers := reviewers }

/-- The team scanned from a row of `teams`. -/
def TeamRow.toTeam (row : TeamRow) (users : List User) : Team :=
  { ID := row.id, Name := row.name, CreatedAt := row.created_at, Users := users }

/-- The rows of `pr_reviewers JOIN users ON reviewer_id = users.id` with the
given `pr_id`: the query of `PRRepo.GetReviewers`. -/
def Store.reviewersOf (s : Store) (prID : Int) : List User :=
  ((s.pr_reviewers.filter (fun prr => prr.1 == prID)).map
    (fun prr => s.users.filter (fun u => u.ID == prr.2))).flatten

/-- Method `PRRepo.Create`. -/
def PRRepo.Create (pr : PullRequest) : Op Store PullRequest := fun s =>
  if s.pull_requests.any (fun row => row.pull_request_id == pr.PullRequestID) then
    (Except.error (pgError "repository.PRRepo.Create" "duplicate key value"), s)
  else
    (Except.ok { pr with ID := s.prSeq, CreatedAt := s.now },
      { s with
        pull_requests := s.pull_requests ++
          [{ id := s.prSeq, pull_request_id := pr.PullRequestID,
             pull_request_name := pr.PullRequestName, author_id := pr.AuthorID,
             status_id := pr.StatusID, merged_at := none, created_at := s.now }],
        prSeq := s.prSeq + 1 })

/-- Method `PRRepo.Update`. -/
def PRRepo.Update (pr : PullRequest) : Op Store PullRequest := fun s =>
  match s.pull_requests.find? (fun row => row.pull_request_id == pr.PullRequestID) with
  | none => (Except.error (pgError "repository.PRRepo.Update" "no rows in result set"), s)
  | some first =>
    (Except.ok { pr with ID := first.id, AuthorID := first.author_id,
                         CreatedAt := first.created_at },
      { s with
        pull_requests := s.pull_requests.map (fun row =>
          if row.pull_request_id == pr.PullRequestID then
            { row with pull_request_name := pr.PullRequestName, status_id := pr.StatusID,
                       merged_at := pr.MergedAt }
          else row) })

/-- Method `PRRepo.GetReviewers`. -/
def PRRepo.GetReviewers (prID : Int) : Op Store (List User) := fun s =>
  (Except.ok (s.reviewersOf prID), s)

/-- Method `PRRepo.GetByPRID`. -/
def PRRepo.GetByPRID (prID : String) : Op Store PullRequest := fun s =>
  match s.pull_requests.find? (fun row => row.pull_request_id == prID) with
  | none => (Except.error (pgError "repository.PRRepo.GetByPRID" "no rows in result set"), s)
  | some row =>
    match PRRepo.GetReviewers row.id s with
    | (Except.error err, s1) =>
      (Except.error
        (Err.wrap "repository.PRRepo.GetByPRID: failed to get reviewers: %w" err), s1)
    | (Except.ok reviewers, s1) => (Except.ok (row.toPR reviewers), s1)

/-- Method `PRRepo.AddReviewer`. -/
def PRRepo.AddReviewer (prID reviewerID : Int) : Op Store Unit := fun s =>
  if (prID, reviewerID) ∈ s.pr_reviewers then (Except.ok (), s)
  else (Except.ok (), { s with pr_reviewers := s.pr_reviewers ++ [(prID, reviewerID)] })

/-- Method `PRRepo.RemoveReviewer`. -/
def PRRepo.RemoveReviewer (prID reviewerID : Int) : Op Store Unit := fun s =>
  if (s.pr_reviewers.filter (fun prr => prr == (prID, reviewerID))).length = 0 then
    (Except.error
      (Err.other "repository.PRRepo.RemoveReviewer: reviewer not found for this PR"), s)
  else
    (Except.ok (),
      { s with pr_reviewers := s.pr_reviewers.filter (fun prr => !(prr == (prID, reviewerID))) })

/-- Method `UserStorage.Create`. -/
def UserStorage.Create (user : User) : Op Store User := fun s =>
  if s.users.any (fun u => u.UserID == user.UserID) then
    (Except.error (pgError "storage.postgresql.UserStorage.Create" "duplicate key value"), s)
  else
    (Except.ok { user with ID := s.userSeq, CreatedAt := s.now },
      { s with users := s.users ++ [{ user with ID := s.userSeq, CreatedAt := s.now }],
               userSeq := s.userSeq + 1 })

/-- Method `UserStorage.Update`. -/
def UserStorage.Update (user : User) : Op Store User := fun s =>
  match s.users.find? (fun u => u.UserID == user.UserID) with
  | none =>
    (Except.error (pgError "storage.postgresql.UserStorage.Update" "no rows in result set"), s)
  | some first =>
    (Except.ok { user with ID := first.ID, CreatedAt := first.CreatedAt },
      { s with
        users := s.users.map (fun u =>
          if u.UserID == user.UserID then
            { u with Username := user.Username, TeamID := user.TeamID,
                     IsActive := user.IsActive }
          else u) })

/-- Method `UserStorage.GetByUserID`. -/
def UserStorage.GetByUserID (userID : String) : Op Store User := fun s =>
  match s.users.find? (fun u => u.UserID == userID) with
  | none =>
    (Except.error
      (pgError "storage.postgresql.UserStorage.GetByUserID" "no rows in result set"), s)
  | some user => (Except.ok user, s)

/-- Method `UserStorage.GetByTeamID`. -/
def UserStorage.GetByTeamID (teamID : Int) : Op Store (List User) := fun s =>
  (Except.ok (s.users.filter (fun u => u.TeamID == teamID)), s)

/-- Method `UserStorage.SetIsActive`. -/
def UserStorage.SetIsActive (userID : String) (isActive : Bool) : Op Store Unit := fun s =>
  if (s.users.filter (fun u => u.UserID == userID)).length = 0 then
    (Except.error (Err.other "storage.postgresql.UserStorage.SetIsActive: user not found"), s)
  else
    (Except.ok (),
      { s with
        users := s.users.map (fun u =>
          if u.UserID == userID then { u with IsActive := isActive } else u) })

/-- Method `UserStorage.DeactivateByTeamID`. -/
def UserStorage.DeactivateByTeamID (teamID : Int) : Op Store Unit := fun s =>
  (Except.ok (),
    { s with
      users := s.users.map (fun u =>
        if u.TeamID == teamID then { u with IsActive := false } else u) })

/-- Method `TeamRepo.Create`. -/
def TeamRepo.Create (team : Team) : Op Store Team := fun s =>
  if s.teams.any (fun row => row.name == team.Name) then
    (Except.error (pgError "repository.TeamRepo.Create" "duplicate key value"), s)
  else
    (Except.ok { team with ID := s.teamSeq, CreatedAt := s.now },
      { s with teams := s.teams ++ [{ id := s.teamSeq, name := team.Name, created_at := s.now }],
               teamSeq := s.teamSeq + 1 })

/-- Method `TeamRepo.GetByName`. -/
def TeamRepo.GetByName (teamName : String) : Op Store Team := fun s =>
  match s.teams.find? (fun row => row.name == teamName) with
  | none => (Except.error (pgError "repository.TeamRepo.GetByName" "no rows in result set"), s)
  | some row => (Except.ok (row.toTeam []), s)

/-- Method `TeamRepo.GetByID`. -/
def TeamRepo.GetByID (teamID : Int) : Op Store Team := fun s =>
  match s.teams.find? (fun row => row.id == teamID) with
  | none => (Except.error (pgError "repository.TeamRepo.GetByID" "no rows in result set"), s)
  | some row => (Except.ok (row.toTeam []), s)

/-- Method `TeamRepo.GetWithUsers`. -/
def TeamRepo.GetWithUsers (teamID : Int) : Op Store Team := fun s =>
  match s.teams.find? (fun row => row.id == teamID) with
  | none =>
    (Except.error (pgError "repository.TeamRepo.GetWithUsers" "no rows in result set"), s)
  | some row => (Except.ok (row.toTeam (s.users.filter (fun u => u.TeamID == teamID))), s)

/-- Method `TeamRepo.ExistsByName`. -/
def TeamRepo.ExistsByName (teamName : String) : Op Store Bool := fun s =>
  (Except.ok (s.teams.any (fun row => row.name == teamName)), s)

/-- The repositories of package `postgresql` on a connection that never
fails. -/
def pgRepos : Repos Store where
  prCreate := PRRepo.Create
  prUpdate := PRRepo.Update
  prGetByPRID := PRRepo.GetByPRID
  prAddReviewer := PRRepo.AddReviewer
  prRemoveReviewer := PRRepo.RemoveReviewer
  prGetReviewers := PRRepo.GetReviewers
  userCreate := UserStorage.Create
  userUpdate := UserStorage.Update
  userGetByUserID := UserStorage.GetByUserID
  userGetByTeamID := UserStorage.GetByTeamID
  userSetIsActive := UserStorage.SetIsActive
  userDeactivateByTeamID := UserStorage.DeactivateByTeamID
  teamCreate := TeamRepo.Create
  teamGetByName := TeamRepo.GetByName
  teamGetByID := TeamRepo.GetByID
  teamGetWithUsers := TeamRepo.GetWithUsers
  teamExistsByName := TeamRepo.ExistsByName

/-! ## Vocabulary of the statements -/

/-- The pull request `CreatePR` hands to `prRepo.Create`. -/
def newPR (prID prName : String) (authorID : Int) : PullRequest :=
  { ID := 0, PullRequestID := prID, PullRequestName := prName, AuthorID := authorID,
    StatusID := StatusOpenID, MergedAt := none, CreatedAt := 0, Author := none,
    Reviewers := [] }

/-- The candidate pool of `CreatePR`: the active users of the team list
other than the author. -/
def pool (team : List User) (authorID : Int) : List User :=
  team.filter (fun user => user.IsActive && user.ID != authorID)

/-! ## Sample data -/

/-- A user of the sample store. -/
def sampleUser (id : Int) (userID : String) (isActive : Bool) (teamID : Int) : User :=
  { ID := id, UserID := userID, Username := userID, IsActive := isActive, TeamID := teamID,
    CreatedAt := 0 }

/-- Team "backend" with the active members u1 to u4 and no pull request. -/
def sampleStore : Store :=
  { teams := [{ id := 1, name := "backend", created_at := 0 }],
    users := [sampleUser 1 "u1" true 1, sampleUser 2 "u2" true 1, sampleUser 3 "u3" true 1,
      sampleUser 4 "u4" true 1],
    pull_requests := [], pr_reviewers := [], teamSeq := 2, userSeq := 5, prSeq := 1,
    now := 100 }

/-- The call `CreatePR` of "pr-1" by u1 on the sample store, with the draws 2, 0, 1,
every call recorded. -/
def sampleCreate : Except Err PullRequest × (Store × List Event) :=
  CreatePR (traced pgRepos) [2, 0, 1] "pr-1" "Add X" "u1" (sampleStore, [])

/-- Whether a call returned without error. -/
def succeeded {α : Type} : Except Err α → Bool
  | Except.ok _ => true
  | Except.error _ => false

/-- A sequence of `CreatePR` calls with the same `pull_request_id`, each
with its own draws, name and author: the results in call order and the
final store. -/
def createAll {σ : Type} (R : Repos σ) (prID : String) :
    List (List Nat × String × String) → σ → List (Except Err PullRequest) × σ
  | [], s => ([], s)
  | (draws, prName, authorUserID) :: rest, s =>
    match CreatePR R draws prID prName authorUserID s with
    | (res, s1) =>
      match createAll R prID rest s1 with
      | (results, s2) => (res :: results, s2)

/-- A store that keeps the pull requests it created: `Has prID s` holds once
`prRepo.Create` has stored a pull request with that id, it makes
`GetByPRID` return a pull request, and none of the repository calls that
`CreatePR` makes loses it. -/
structure KeepsPRs {σ : Type} (R : Repos σ) (Has : String → σ → Prop) : Prop where
  created : ∀ (pr pr' : PullRequest) (s s' : σ),
    R.prCreate pr s = (Except.ok pr', s') → Has pr.PullRequestID s'
  found : ∀ (prID : String) (s : σ), Has prID s →
    ∃ pr : PullRequest, (R.prGetByPRID prID s).1 = Except.ok pr
  prGetByPRID : ∀ (prID x : String) (s : σ), Has prID s → Has prID (R.prGetByPRID x s).2
  userGetByUserID : ∀ (prID x : String) (s : σ), Has prID s →
    Has prID (R.userGetByUserID x s).2
  teamGetByID : ∀ (prID : String) (x : Int) (s : σ), Has prID s →
    Has prID (R.teamGetByID x s).2
  prCreate : ∀ (prID : String) (x : PullRequest) (s : σ), Has prID s →
    Has prID (R.prCreate x s).2
  userGetByTeamID : ∀ (prID : String) (x : Int) (s : σ), Has prID s →
    Has prID (R.userGetByTeamID x s).2
  prAddReviewer : ∀ (prID : String) (x y : Int) (s : σ), Has prID s →
    Has prID (R.prAddReviewer x y s).2

/-- The table `pull_requests` has a row with this `pull_request_id`. -/
def Store.hasPR (prID : String) (s : Store) : Prop :=
  ∃ row ∈ s.pull_requests, row.pull_request_id = prID

/-- The pull request "pr-1" as `sampleCreate` leaves it: open, by u1, with
the reviewers u3 and u2. -/
def samplePR : PullRequest :=
  { ID := 1, PullRequestID := "pr-1", PullRequestName := "Add X", AuthorID := 1,
    StatusID := StatusOpenID, MergedAt := none, CreatedAt := 100, Author := none,
    Reviewers := [sampleUser 3 "u3" true 1, sampleUser 2 "u2" true 1] }

/-- The sample store after `sampleCreate` and `MergePR` of "pr-1" at time 7. -/
def sampleMerged : Except Err PullRequest × Store :=
  MergePR pgRepos 7 "pr-1" sampleCreate.2.1

/-- The pull request "pr-1" as `sampleMerged` leaves it. -/
def sampleMergedPR : PullRequest :=
  { samplePR with StatusID := StatusMergedID, MergedAt := some 7 }

/-- The candidate pool of `ReassignReviewer`: the active users of the team
list that are neither the author, nor the old reviewer, nor a current
reviewer. -/
def replacementPool (team : List User) (authorID oldReviewerID : Int)
    (reviewers : List User) : List User :=
  team.filter (fun user =>
    user.IsActive && !excludeIDs authorID oldReviewerID reviewers user.ID)

/-- The reviewer ids associated with a pull request in `pr_reviewers`. -/
def Store.reviewerIDs (s : Store) (prID : Int) : List Int :=
  (s.pr_reviewers.filter (fun prr => prr.1 == prID)).map (fun prr => prr.2)

/-- The call `ReassignReviewer` of u2 on "pr-1" after `sampleCreate`, with the draw 5,
every call recorded. -/
def sampleReassign : Except Err String × (Store × List Event) :=
  ReassignReviewer (traced pgRepos) [5] "pr-1" "u2" (sampleCreate.2.1, [])

/-- Team "backend" with the two active members u1 and u2 only, after
`CreatePR` of "pr-1" by u1: the pull request is open with the reviewer u2. -/
def smallStore : Store :=
  (CreatePR pgRepos [] "pr-1" "Add X" "u1"
    { teams := [{ id := 1, name := "backend", created_at := 0 }],
      users := [sampleUser 1 "u1" true 1, sampleUser 2 "u2" true 1],
      pull_requests := [], pr_reviewers := [], teamSeq := 2, userSeq := 3, prSeq := 1,
      now := 100 }).2

/-- The pull request "pr-1" of `smallStore`. -/
def smallPR : PullRequest :=
  { ID := 1, PullRequestID := "pr-1", PullRequestName := "Add X", AuthorID := 1,
    StatusID := StatusOpenID, MergedAt := none, CreatedAt := 100, Author := none,
    Reviewers := [sampleUser 2 "u2" true 1] }

/-- A test double in the manner of the mocks of `pr_service_test.go`, with
no state: `GetByPRID` returns `pr`, `GetByUserID` returns `oldReviewer`,
`GetReviewers` returns `reviewers`, `GetByTeamID` returns `team`, the team
look-up and every write of `PRRepository` succeed, and the calls the
assignment engine does not make fail. -/
def stubRepos (pr : PullRequest) (oldReviewer : User) (reviewers team : List User) :
    Repos Unit where
  prCreate := fun x s => (Except.ok x, s)
  prUpdate := fun x s => (Except.ok x, s)
  prGetByPRID := fun _ s => (Except.ok pr, s)
  prAddReviewer := fun _ _ s => (Except.ok (), s)
  prRemoveReviewer := fun _ _ s => (Except.ok (), s)
  prGetReviewers := fun _ s => (Except.ok reviewers, s)
  userCreate := fun _ s => (Except.error (Err.other "unexpected call"), s)
  userUpdate := fun _ s => (Except.error (Err.other "unexpected call"), s)
  userGetByUserID := fun _ s => (Except.ok oldReviewer, s)
  userGetByTeamID := fun _ s => (Except.ok team, s)
  userSetIsActive := fun _ _ s => (Except.error (Err.other "unexpected call"), s)
  userDeactivateByTeamID := fun _ s => (Except.error (Err.other "unexpected call"), s)
  teamCreate := fun _ s => (Except.error (Err.other "unexpected call"), s)
  teamGetByName := fun _ s => (Except.error (Err.other "unexpected call"), s)
  teamGetByID := fun teamID s =>
    (Except.ok { ID := teamID, Name := "backend", CreatedAt := 0, Users := [] }, s)
  teamGetWithUsers := fun _ s => (Except.error (Err.other "unexpected call"), s)
  teamExistsByName := fun _ s => (Except.error (Err.other "unexpected call"), s)

/-- No two users of the store share a `user_id`. -/
def Store.uniqueUserIDs (s : Store) : Prop :=
  ∀ u ∈ s.users, ∀ v ∈ s.users, u.UserID = v.UserID → u = v

/-- The call `ReassignReviewer` of u2 on "pr-1" after `sampleCreate`, as in
`sampleReassign`, behind a connection that fails at the seventh call, the
`AddReviewer`. -/
def sampleHalfReassign : Except Err String × (Store × List Bool) :=
  ReassignReviewer (faulty pgRepos) [5] "pr-1" "u2"
    (sampleCreate.2.1, [false, false, false, false, false, false, true])

/-- The sample store after `sampleCreate`. -/
def sampleCreated : Store := sampleCreate.2.1

/-- The sample store with u1 on team 7, which does not exist. -/
def orphanStore : Store :=
  { sampleStore with
    users := [sampleUser 1 "u1" true 7, sampleUser 2 "u2" true 1, sampleUser 3 "u3" true 1,
      sampleUser 4 "u4" true 1] }

/-- A second `CreatePR` of "pr-1" after `sampleCreate`, behind a connection
that fails at the first call, the look-up of the id. -/
def sampleCollide : Except Err PullRequest × (Store × List Bool) :=
  CreatePR (faulty pgRepos) [] "pr-1" "Again" "u1" (sampleCreated, [true])

/-- A sequence of `CreateTeam` calls: the results in call order and the
final store. -/
def createTeamAll {σ : Type} (R : Repos σ) :
    List Team → σ → List (Except Err Team) × σ
  | [], s => ([], s)
  | team :: rest, s =>
    match CreateTeam R team s with
    | (res, s1) =>
      match createTeamAll R rest s1 with
      | (results, s2) => (res :: results, s2)

/-- A store that keeps the teams it created: `Has name s` holds once
`teamRepo.Create` has stored a team with that name, it makes `ExistsByName`
return true, and none of the repository calls that `CreateTeam` makes loses
it. -/
structure KeepsTeams {σ : Type} (R : Repos σ) (Has : String → σ → Prop) : Prop where
  created : ∀ (team team' : Team) (s s' : σ),
    R.teamCreate team s = (Except.ok team', s') → Has team.Name s'
  found : ∀ (name : String) (s : σ), Has name s →
    (R.teamExistsByName name s).1 = Except.ok true
  teamExistsByName : ∀ (name x : String) (s : σ), Has name s →
    Has name (R.teamExistsByName x s).2
  teamCreate : ∀ (name : String) (x : Team) (s : σ), Has name s →
    Has name (R.teamCreate x s).2
  userGetByUserID : ∀ (name x : String) (s : σ), Has name s →
    Has name (R.userGetByUserID x s).2
  userCreate : ∀ (name : String) (x : User) (s : σ), Has name s →
    Has name (R.userCreate x s).2
  userUpdate : ∀ (name : String) (x : User) (s : σ), Has name s →
    Has name (R.userUpdate x s).2
  teamGetWithUsers : ∀ (name : String) (x : Int) (s : σ), Has name s →
    Has name (R.teamGetWithUsers x s).2

/-- The table `teams` has a row with this name. -/
def Store.hasTeam (name : String) (s : Store) : Prop :=
  ∃ row ∈ s.teams, row.name = name

/-- The store with no row, its sequences at 1 and its clock at `now`. -/
def emptyStore (now : Nat) : Store :=
  { teams := [], users := [], pull_requests := [], pr_reviewers := [], teamSeq := 1,
    userSeq := 1, prSeq := 1, now := now }

/-- The team "backend" with the roster Alice (u1) and Bob (u2), as a request
carries it. -/
def backendTeam : Team :=
  { ID := 0, Name := "backend", CreatedAt := 0,
    Users := [{ ID := 0, UserID := "u1", Username := "Alice", IsActive := true, TeamID := 0,
                CreatedAt := 0 },
              { ID := 0, UserID := "u2", Username := "Bob", IsActive := true, TeamID := 0,
                CreatedAt := 0 }] }

/-- The repository calls of a successful run of the member loop of
`CreateTeam` for the team `teamID`: for every member in turn a `GetByUserID`
and then, when it failed, a `Create` of the member under the team and, when
it found a user, an `Update` of that user with the member's name and active
flag and the team. -/
inductive UpsertCalls (teamID : Int) : List User → List Event → Prop where
  | nil : UpsertCalls teamID [] []
  | create (user : User) (rest : List User) (e : Err) (created : User) (log : List Event) :
      UpsertCalls teamID rest log →
      UpsertCalls teamID (user :: rest)
        (Event.userGetByUserID user.UserID (Except.error e) ::
          Event.userCreate { user with TeamID := teamID } (Except.ok created) :: log)
  | update (user : User) (rest : List User) (existingUser updated : User)
      (log : List Event) :
      UpsertCalls teamID rest log →
      UpsertCalls teamID (user :: rest)
        (Event.userGetByUserID user.UserID (Except.ok existingUser) ::
          Event.userUpdate
            { existingUser with Username := user.Username, IsActive := user.IsActive,
                                TeamID := teamID } (Except.ok updated) :: log)

/-- The last member of a roster with the given external id. -/
def lastWith (users : List User) (userID : String) : Option User :=
  users.reverse.find? (fun m => m.UserID == userID)

/-- What one round of the member loop of `CreateTeam` does to the PostgreSQL
store: the rows with the member's `user_id` take the member's name and active
flag and the team, or, when there is none, a row is inserted. -/
def Store.upsert (teamID : Int) (s : Store) (user : User) : Store :=
  match s.users.find? (fun u => u.UserID == user.UserID) with
  | none =>
    { s with users := s.users ++
               [{ user with TeamID := teamID, ID := s.userSeq, CreatedAt := s.now }],
             userSeq := s.userSeq + 1 }
  | some _ =>
    { s with
      users := s.users.map (fun u =>
        if u.UserID == user.UserID then
          { u with Username := user.Username, TeamID := teamID, IsActive := user.IsActive }
        else u) }

/-- The empty store after `CreateTeam` of `backendTeam`. -/
def backendStore : Store := (CreateTeam pgRepos backendTeam (emptyStore 100)).2

/-- The team "frontend" with Bob (u2) listed twice, first inactive as Bobby,
then active as Rob, and a new member Carol (u3). -/
def frontendTeam : Team :=
  { ID := 0, Name := "frontend", CreatedAt := 0,
    Users := [{ ID := 0, UserID := "u2", Username := "Bobby", IsActive := false, TeamID := 0,
                CreatedAt := 0 },
              { ID := 0, UserID := "u3", Username := "Carol", IsActive := true, TeamID := 0,
                CreatedAt := 0 },
              { ID := 0, UserID := "u2", Username := "Rob", IsActive := true, TeamID := 0,
                CreatedAt := 0 }] }

/-- The team "frontend" as `CreateTeam` of `frontendTeam` on `backendStore`
returns it. -/
def frontendCreated : Team :=
  { ID := 2, Name := "frontend", CreatedAt := 100,
    Users := [{ ID := 2, UserID := "u2", Username := "Rob", IsActive := true, TeamID := 2,
                CreatedAt := 100 },
              { ID := 3, UserID := "u3", Username := "Carol", IsActive := true, TeamID := 2,
                CreatedAt := 100 }] }

/-- The column `user_id` of `users` has no duplicate: at most one user per
external id. -/
def Store.uniqueUsers (s : Store) : Prop := (s.users.map User.UserID).Nodup

/-- The store has a user with the surrogate id, external id and creation
timestamp of `u`. -/
def Store.hasIdentity (u : User) (s : Store) : Prop :=
  ∃ u' ∈ s.users, u'.ID = u.ID ∧ u'.UserID = u.UserID ∧ u'.CreatedAt = u.CreatedAt

/-- The operations of the engine, each with the random draws or the clock
reading it consumes. -/
inductive EngineOp where
  | createPR (draws : List Nat) (prID prName authorUserID : String)
  | mergePR (now : Nat) (prID : String)
  | reassignReviewer (draws : List Nat) (prID oldUserID : String)
  | createTeam (team : Team)
  | setIsActive (userID : String) (isActive : Bool)
  | deactivateTeamUsers (teamID : Int)

/-- The store an engine operation leaves, whatever it returns. -/
def EngineOp.run {σ : Type} (R : Repos σ) : EngineOp → σ → σ
  | EngineOp.createPR draws prID prName authorUserID, s =>
    (CreatePR R draws prID prName authorUserID s).2
  | EngineOp.mergePR now prID, s => (MergePR R now prID s).2
  | EngineOp.reassignReviewer draws prID oldUserID, s =>
    (ReassignReviewer R draws prID oldUserID s).2
  | EngineOp.createTeam team, s => (CreateTeam R team s).2
  | EngineOp.setIsActive userID isActive, s => (SetIsActive R userID isActive s).2
  | EngineOp.deactivateTeamUsers teamID, s => (DeactivateTeamUsers R teamID s).2

/-- The histories of a store: `Steps s s1` when `s1` is reached from `s` by
engine operations on the PostgreSQL repositories, each behind a connection
that may fail at any of its calls, with the clock of the database moving
between them. -/
inductive Steps : Store → Store → Prop where
  | refl (s : Store) : Steps s s
  | tick {s s1 : Store} (t : Nat) : Steps s s1 → Steps s { s1 with now := t }
  | step {s s1 : Store} (op : EngineOp) (faults : List Bool) :
    Steps s s1 → Steps s (op.run (faulty pgRepos) (s1, faults)).1

/-- The column `pull_request_id` of `pull_requests` has no duplicate. -/
def Store.uniquePRs (s : Store) : Prop :=
  (s.pull_requests.map PRRow.pull_request_id).Nodup

/-- Every row of `pull_requests` with `merged_at` set has status MERGED. -/
def Store.mergedAtMerged (s : Store) : Prop :=
  ∀ row ∈ s.pull_requests, row.merged_at ≠ none → row.status_id = StatusMergedID

/-- The row `PRRepo.Create` inserts for the pull request `CreatePR` hands to
it, on the store `s`. -/
def Store.newRow (s : Store) (prID prName : String) (authorID : Int) : PRRow :=
  { id := s.prSeq, pull_request_id := prID, pull_request_name := prName,
    author_id := authorID, status_id := StatusOpenID, merged_at := none,
    created_at := s.now }

/-- The rows `rs` are rows of `pull_requests`, whose column `pull_request_id`
has no duplicate and whose rows with `merged_at` set have status MERGED. -/
def Store.keepsRows (rs : List PRRow) (s : Store) : Prop :=
  s.uniquePRs ∧ s.mergedAtMerged ∧ ∀ r ∈ rs, r ∈ s.pull_requests

/-- The empty store after team "backend" is created, Alice opens "pr-1" and
"pr-1" is merged at time 7. -/
def mergedStore : Store :=
  ((EngineOp.mergePR 7 "pr-1").run (faulty pgRepos)
    (((EngineOp.createPR [] "pr-1" "Add X" "u1").run (faulty pgRepos)
      (((EngineOp.createTeam backendTeam).run (faulty pgRepos) (emptyStore 100, [])).1,
        [])).1, [])).1

/-- The row of "pr-1" in `mergedStore`. -/
def mergedRow : PRRow :=
  { id := 1, pull_request_id := "pr-1", pull_request_name := "Add X", author_id := 1,
    status_id := StatusMergedID, merged_at := some 7, created_at := 100 }

/-- The store `mergedStore` after a reassignment of Bob on "pr-1" and a
second merge of "pr-1", at time 9, behind a connection that fails at the
second call. -/
def laterStore : Store :=
  ((EngineOp.mergePR 9 "pr-1").run (faulty pgRepos)
    (((EngineOp.reassignReviewer [1] "pr-1" "u2").run (faulty pgRepos)
      (mergedStore, [])).1, [false, true])).1

/-- The number of rows of `pr_reviewers` for the pull request with
surrogate id `prID`. -/
def Store.reviewerCount (s : Store) (prID : Int) : Nat :=
  s.pr_reviewers.countP (fun prr => prr.1 == prID)

/-- The invariant of the tables `pull_requests` and `pr_reviewers`: no
pair twice, at most two pairs per pull request, no pair of a pull request
with its author, and surrogate ids below the sequence, so that a surrogate
id names one author. -/
structure ReviewersOK (s : Store) : Prop where
  nodup : s.pr_reviewers.Nodup
  atMost : ∀ p : Int, s.reviewerCount p ≤ 2
  notAuthor : ∀ row ∈ s.pull_requests, (row.id, row.author_id) ∉ s.pr_reviewers
  pairsBelow : ∀ prr ∈ s.pr_reviewers, prr.1 < s.prSeq
  rowsBelow : ∀ row ∈ s.pull_requests, row.id < s.prSeq
  oneAuthor : ∀ r ∈ s.pull_requests, ∀ r1 ∈ s.pull_requests, r.id = r1.id →
    r.author_id = r1.author_id

/-- The invariant `ReviewersOK` while a service works on the pull request
with surrogate id `p` and author `a`: the pull request can take `k` more
reviewers. -/
structure Budget (p a : Int) (k : Nat) (s : Store) : Prop where
  ok : ReviewersOK s
  count : s.reviewerCount p + k ≤ 2
  author : ∀ row ∈ s.pull_requests, row.id = p → row.author_id = a
  below : p < s.prSeq

/-- The invariant of the table `users`: surrogate ids are below the
sequence and no two users share one. -/
structure UsersOK (s : Store) : Prop where
  nodup : (s.users.map User.ID).Nodup
  below : ∀ u ∈ s.users, u.ID < s.userSeq

/-- The empty store after team "backend" is created and Alice opens "pr-1",
which Bob reviews. -/
def openStore : Store :=
  ((EngineOp.createPR [] "pr-1" "Add X" "u1").run (faulty pgRepos)
    (((EngineOp.createTeam backendTeam).run (faulty pgRepos) (emptyStore 100, [])).1, [])).1

/-- The draw sequences of the shuffle loop entered at index `i`: for every
index `k` from `i` down to 1, in that order, one value of `r.Intn(k + 1)`, a
number from 0 to `k`. -/
def drawSeqs : Nat → List (List Nat)
  | 0 => [[]]
  | i + 1 => ((List.range (i + 2)).map (fun j => (drawSeqs i).map (fun d => j :: d))).flatten

/-- The candidate pool u2, u3, u4 of the sample store for a pull request
of u1. -/
def samplePool : List User :=
  [sampleUser 2 "u2" true 1, sampleUser 3 "u3" true 1, sampleUser 4 "u4" true 1]

/-- The loop `for _, user := range allUsers` of both candidate filters, which
appends to `activeUsers` every user that passes the test `keep`. -/
def appendLoop (keep : User → Bool) (allUsers : List User) : List User :=
  allUsers.foldl (fun activeUsers user => if keep user then activeUsers ++ [user]
    else activeUsers) []

/-- The candidate filter in the words of the specification: the users of the
team list, in the order of the list, that are active and whose surrogate id
is not excluded. -/
def activeNotExcluded (teamList : List User) (excluded : Int → Bool) : List User :=
  teamList.filter (fun user => user.IsActive && !excluded user.ID)

/-- The team list of the sample store with u3 inactive. -/
def sampleTeamList : List User :=
  [sampleUser 1 "u1" true 1, sampleUser 2 "u2" true 1, sampleUser 3 "u3" false 1,
    sampleUser 4 "u4" true 1]

/-- The call `r.Intn(n)` with the run-time check of `math/rand`: it panics
(`none`) unless `0 < n`, and returns the next draw reduced to `[0, n)`. -/
def IntnChecked (n : Nat) (draw : Nat) : Option Nat :=
  if 0 < n then some (draw % n) else none

/-- The statement `shuffled[i], shuffled[j] = shuffled[j], shuffled[i]` with
the run-time index checks of Go: `none` when an index is out of range. -/
def swapChecked (shuffled : List User) (i j : Nat) : Option (List User) :=
  match shuffled[i]?, shuffled[j]? with
  | some a, some b => some ((shuffled.set i b).set j a)
  | _, _ => none

/-- The shuffle loop of `selectRandomReviewers` with the run-time checks of
`Intn` and of slice indexing: `none` when an iteration panics. -/
def shuffleFromChecked (draws : List Nat) : Nat → List User → Option (List User)
  | 0, shuffled => some shuffled
  | i + 1, shuffled =>
    match IntnChecked (i + 1 + 1) (draws.headD 0) with
    | none => none
    | some j =>
      match swapChecked shuffled (i + 1) j with
      | none => none
      | some swapped => shuffleFromChecked draws.tail i swapped

/-- Method `PRService.selectRandomReviewers` with the run-time checks of
`Intn`, of slice indexing and of the slice expression `shuffled[:count]`:
`none` when the call panics. -/
def selectRandomReviewersChecked (draws : List Nat) (candidates : List User) (count : Int) :
    Option (List User) :=
  if count ≤ 0 ∨ candidates.length = 0 then some []
  else if count ≥ (candidates.length : Int) then some candidates
  else
    match shuffleFromChecked draws (candidates.length - 1) candidates with
    | none => none
    | some shuffled =>
      if count.toNat ≤ shuffled.length then some (shuffled.take count.toNat) else none

/-- The precondition checks of a reassignment in the order of the
specification, on a store of the PostgreSQL repositories: the error of the
first check that fails, or `none` when all six pass. -/
def Store.firstFailedCheck (s : Store) (prID oldUserID : String) : Option Err :=
  match s.pull_requests.find? (fun row => row.pull_request_id == prID) with
  | none => some (Err.wrap "%w: PR not found" ErrNotFound)
  | some row =>
    if row.status_id = StatusMergedID then some ErrPRMerged
    else
      match s.users.find? (fun u => u.UserID == oldUserID) with
      | none => some (Err.wrap "%w: old reviewer not found" ErrNotFound)
      | some oldReviewer =>
        if isAssigned (s.reviewersOf row.id) oldUserID = false then some ErrNotAssigned
        else
          match s.teams.find? (fun t => t.id == oldReviewer.TeamID) with
          | none => some (Err.wrap "%w: reviewer team not found" ErrNotFound)
          | some _ =>
            if replacementPool (s.users.filter (fun u => u.TeamID == oldReviewer.TeamID))
                row.author_id oldReviewer.ID (s.reviewersOf row.id) = [] then
              some ErrNoCandidate
            else none

/-! ## The HTTP layer (`internal/errors/errors.go`, `internal/handlers/handler.go`) -/

/-- Type `errors.ErrorCode`, a string. -/
abbrev errors.ErrorCode : Type := String

def errors.TeamExists : errors.ErrorCode := "TEAM_EXISTS"
def errors.PRExists : errors.ErrorCode := "PR_EXISTS"
def errors.PRMerged : errors.ErrorCode := "PR_MERGED"
def errors.NotAssigned : errors.ErrorCode := "NOT_ASSIGNED"
def errors.NoCandidate : errors.ErrorCode := "NO_CANDIDATE"
def errors.NotFound : errors.ErrorCode := "NOT_FOUND"

/-- Type `errors.AppError`. -/
structure errors.AppError where
  Code : errors.ErrorCode
  Message : String
  deriving DecidableEq, Repr

def errors.ErrTeamExists : errors.AppError :=
  { Code := errors.TeamExists, Message := "team_name already exists" }
def errors.ErrPRExists : errors.AppError :=
  { Code := errors.PRExists, Message := "PR id already exists" }
def errors.ErrPRMerged : errors.AppError :=
  { Code := errors.PRMerged, Message := "cannot modify merged PR" }
def errors.ErrNotAssigned : errors.AppError :=
  { Code := errors.NotAssigned, Message := "reviewer is not assigned to this PR" }
def errors.ErrNoCandidate : errors.AppError :=
  { Code := errors.NoCandidate, Message := "no active replacement candidate in team" }
def errors.ErrNotFound : errors.AppError :=
  { Code := errors.NotFound, Message := "resource not found" }

/-- A value of the interface type `error` as `errorResponse` receives it,
by its dynamic type: a `*errors.AppError`, or an error of another type. The
errors of the services and repositories (`Err`: the sentinels of package
`storage` made with `errors.New`, the errors of `fmt.Errorf`, driver errors)
are all of the second kind. -/
inductive GoError where
  | appError (e : errors.AppError)
  | plain (e : Err)
  deriving DecidableEq, Repr

/-- Type `handlers.ErrorResponse`. -/
structure ErrorResponse where
  Code : String
  Message : String
  deriving DecidableEq, Repr

/-- Type `handlers.Response`, of which the error branch sets `Error` only. -/
structure Response where
  Error : Option ErrorResponse
  deriving DecidableEq, Repr

/-- Function `handlers.getHTTPStatus`. -/
def getHTTPStatus (code : errors.ErrorCode) : Nat :=
  if code = errors.NotFound then 404
  else if code = errors.TeamExists ∨ code = errors.PRExists then 400
  else if code = errors.PRMerged ∨ code = errors.NotAssigned ∨ code = errors.NoCandidate then 409
  else 500

/-- Function `handlers.errorResponse`: a type switch on the dynamic type of
`err`, which does not unwrap. -/
def errorResponse (err : GoError) : Nat × Response :=
  match err with
  | GoError.appError e =>
    (getHTTPStatus e.Code, { Error := some { Code := e.Code, Message := e.Message } })
  | _ =>
    (500, { Error := some { Code := "INTERNAL_ERROR", Message := "Internal server error" } })

/-- The status with which the handlers `CreatePR`, `MergePR`,
`ReassignReviewer`, `CreateTeam`, `SetIsActive` and `DeactivateTeamUsers`
answer the result of their service call: `errorResponse(err)` on an error,
which they pass on as the service returned it, and `success` otherwise. -/
def handlerStatus {α : Type} (success : Nat) (result : Except Err α) : Nat :=
  match result with
  | Except.error err => (errorResponse (GoError.plain err)).1
  | Except.ok _ => success

/-- The invariant of a run of `CreatePR` for the id `prID` on the recorded
PostgreSQL repositories behind a failing connection: every recorded insert
of a pull request is for `prID` and, when it succeeded, the row is in the
store; every recorded `AddReviewer` that succeeded has its pair in the
store; and no `RemoveReviewer` and no `Update` is recorded. -/
structure Uncompensated (prID : String) (st : (Store × List Bool) × List Event) : Prop where
  forID : ∀ (x : PullRequest) (r : Except Err PullRequest),
    Event.prCreate x r ∈ st.2 → x.PullRequestID = prID
  created : ∀ (x pr : PullRequest),
    Event.prCreate x (Except.ok pr) ∈ st.2 → st.1.1.hasPR x.PullRequestID
  added : ∀ (p y : Int), Event.prAddReviewer p y (Except.ok ()) ∈ st.2 →
    (p, y) ∈ st.1.1.pr_reviewers
  noUndo : ∀ ev ∈ st.2,
    (∀ (p y : Int) (r : Except Err Unit), ev ≠ Event.prRemoveReviewer p y r) ∧
    (∀ (x : PullRequest) (r : Except Err PullRequest), ev ≠ Event.prUpdate x r)

/-- The call `CreatePR` of "pr-1" by u1 on the sample store, every call
recorded, behind a connection that fails at the seventh call, the second
`AddReviewer`. -/
def sampleHalfCreate : Except Err PullRequest × ((Store × List Bool) × List Event) :=
  CreatePR (traced (faulty pgRepos)) [2, 0, 1] "pr-1" "Add X" "u1"
    ((sampleStore, [false, false, false, false, false, false, true]), [])

/-- The sample store with u2, u3 and u4, the teammates of u1, inactive. -/
def idleStore : Store := (DeactivateTeamUsers pgRepos 1 sampleStore).2

/-- The store `idleStore` with u1 active again. -/
def soloStore : Store := (SetIsActive pgRepos "u1" true idleStore).2

/-- The sample store after `sampleCreate` with the reviewer u3 of "pr-1"
inactive. -/
def sampleInactive : Store := (SetIsActive pgRepos "u3" false sampleCreated).2

/-- The error a recorded repository call returned, if it failed. -/
def Event.failure : Event → Option Err
  | Event.prCreate _ (Except.error e) => some e
  | Event.prUpdate _ (Except.error e) => some e
  | Event.prGetByPRID _ (Except.error e) => some e
  | Event.prAddReviewer _ _ (Except.error e) => some e
  | Event.prRemoveReviewer _ _ (Except.error e) => some e
  | Event.prGetReviewers _ (Except.error e) => some e
  | Event.userCreate _ (Except.error e) => some e
  | Event.userUpdate _ (Except.error e) => some e
  | Event.userGetByUserID _ (Except.error e) => some e
  | Event.userGetByTeamID _ (Except.error e) => some e
  | Event.userSetIsActive _ _ (Except.error e) => some e
  | Event.userDeactivateByTeamID _ (Except.error e) => some e
  | Event.teamCreate _ (Except.error e) => some e
  | Event.teamGetByName _ (Except.error e) => some e
  | Event.teamGetByID _ (Except.error e) => some e
  | Event.teamGetWithUsers _ (Except.error e) => some e
  | Event.teamExistsByName _ (Except.error e) => some e
  | _ => none

/-- Whether the call looks one entity up by its key: `PRRepo.GetByPRID`,
`UserRepository.GetByUserID`, `TeamRepository.GetByID` or `GetByName`. -/
def Event.isLookup : Event → Bool
  | Event.prGetByPRID _ _ => true
  | Event.userGetByUserID _ _ => true
  | Event.teamGetByID _ _ => true
  | Event.teamGetByName _ _ => true
  | _ => false

/-- How the error `e` of a service relates to the repository call `ev` its
run ended on. After a call that succeeded, `e` is one of the bare sentinels of
the service's own tests. After a call that failed with `e0`, `e` is `e0`
wrapped by `fmt.Errorf` with `%w`, or, when the call is a look-up, possibly
`ErrNotFound` wrapped instead, whatever `e0` is. -/
def Reports (ev : Event) (e : Err) : Prop :=
  match ev.failure with
  | none =>
    e = ErrPRExists ∨ e = ErrPRMerged ∨ e = ErrNotAssigned ∨ e = ErrNoCandidate ∨
      e = ErrTeamExists
  | some e0 =>
    (∃ format : String, e = Err.wrap format e0) ∨
    (ev.isLookup = true ∧ ∃ format : String, e = Err.wrap format ErrNotFound)

/-- The error of a call result, if it is one. -/
def errorOf {α : Type} : Except Err α → Option Err
  | Except.error e => some e
  | Except.ok _ => none

/-- The error an engine operation returns, if it returns one. -/
def EngineOp.failure {σ : Type} (R : Repos σ) : EngineOp → σ → Option Err
  | EngineOp.createPR draws prID prName authorUserID, s =>
    errorOf (CreatePR R draws prID prName authorUserID s).1
  | EngineOp.mergePR now prID, s => errorOf (MergePR R now prID s).1
  | EngineOp.reassignReviewer draws prID oldUserID, s =>
    errorOf (ReassignReviewer R draws prID oldUserID s).1
  | EngineOp.createTeam team, s => errorOf (CreateTeam R team s).1
  | EngineOp.setIsActive userID isActive, s => errorOf (SetIsActive R userID isActive s).1
  | EngineOp.deactivateTeamUsers teamID, s => errorOf (DeactivateTeamUsers R teamID s).1

/-- The call `MergePR` of "pr-1" after `sampleCreate`, behind a connection
that fails at the first round trip. -/
def sampleLostMerge : Except Err PullRequest × (Store × List Bool) :=
  MergePR (faulty pgRepos) 7 "pr-1" (sampleCreated, [true])

/-- The call `CreatePR` of "pr-2" by u1 after `sampleCreate`, behind a
connection that fails at the first round trip, every call recorded. -/
def sampleBlindCreate : Except Err PullRequest × ((Store × List Bool) × List Event) :=
  CreatePR (traced (faulty pgRepos)) [2, 0, 1] "pr-2" "Add Y" "u1" ((sampleCreated, [true]), [])

/-- A repository call of a request while another request is under way. The
state keeps, next to the store, how many repository calls of this request
still come before the other request runs (`none`: it is not waiting), and what
the other request returned once it has run. The other request `other` runs in
one piece, right before the call at count `0`. -/
def interleaved {σ γ α : Type} (other : σ → γ × σ) (op : Op σ α) :
    Op (σ × Option Nat × Option γ) α := fun st =>
  match st.2.1 with
  | some 0 =>
    match other st.1 with
    | (seen, s1) =>
      match op s1 with
      | (res, s2) => (res, (s2, none, some seen))
  | some (n + 1) =>
    match op st.1 with
    | (res, s1) => (res, (s1, some n, st.2.2))
  | none =>
    match op st.1 with
    | (res, s1) => (res, (s1, none, st.2.2))

/-- The repositories `R` as a request sees them while the request `other`
runs between two of its calls. -/
def raced {σ γ : Type} (R : Repos σ) (other : σ → γ × σ) :
    Repos (σ × Option Nat × Option γ) where
  prCreate := fun pr => interleaved other (R.prCreate pr)
  prUpdate := fun pr => interleaved other (R.prUpdate pr)
  prGetByPRID := fun prID => interleaved other (R.prGetByPRID prID)
  prAddReviewer := fun prID reviewerID => interleaved other (R.prAddReviewer prID reviewerID)
  prRemoveReviewer := fun prID reviewerID =>
    interleaved other (R.prRemoveReviewer prID reviewerID)
  prGetReviewers := fun prID => interleaved other (R.prGetReviewers prID)
  userCreate := fun user => interleaved other (R.userCreate user)
  userUpdate := fun user => interleaved other (R.userUpdate user)
  userGetByUserID := fun userID => interleaved other (R.userGetByUserID userID)
  userGetByTeamID := fun teamID => interleaved other (R.userGetByTeamID teamID)
  userSetIsActive := fun userID isActive =>
    interleaved other (R.userSetIsActive userID isActive)
  userDeactivateByTeamID := fun teamID => interleaved other (R.userDeactivateByTeamID teamID)
  teamCreate := fun team => interleaved other (R.teamCreate team)
  teamGetByName := fun teamName => interleaved other (R.teamGetByName teamName)
  teamGetByID := fun teamID => interleaved other (R.teamGetByID teamID)
  teamGetWithUsers := fun teamID => interleaved other (R.teamGetWithUsers teamID)
  teamExistsByName := fun teamName => interleaved other (R.teamExistsByName teamName)

/-- The call `ReassignReviewer` of u2 on "pr-1" after `sampleCreate`, with
the draw 5, while a reader of "pr-1" runs between its `RemoveReviewer` and its
`AddReviewer`. -/
def sampleTornRead :
    Except Err String × (Store × Option Nat × Option (Except Err PullRequest)) :=
  ReassignReviewer (raced pgRepos (PRRepo.GetByPRID "pr-1")) [5] "pr-1" "u2"
    (sampleCreated, some 6, none)

/-- Two calls `ReassignReviewer` of u2 on "pr-1" after `sampleCreate`: the
second runs after the first has read the reviewers and the candidates and
before its `RemoveReviewer`. -/
def sampleRace : Except Err String × (Store × Option Nat × Option (Except Err String)) :=
  ReassignReviewer (raced pgRepos (ReassignReviewer pgRepos [5] "pr-1" "u2")) [5] "pr-1" "u2"
    (sampleCreated, some 5, none)

/-- Where a call of `ReassignReviewer` stands between two of its repository
calls: the local variables it holds so far, or the result it has returned. -/
inductive Reassigning where
  | start
  | gotPR (pr : PullRequest)
  | gotOld (pr : PullRequest) (oldReviewer : User)
  | gotReviewers (pr : PullRequest) (oldReviewer : User) (reviewers : List User)
  | gotTeam (pr : PullRequest) (oldReviewer : User) (reviewers : List User)
  | chosen (pr : PullRequest) (oldReviewer newReviewer : User)
  | removed (pr : PullRequest) (oldReviewer newReviewer : User)
  | done (result : Except Err String)

/-- Method `PRService.ReassignReviewer` cut at its repository calls: the next
repository call of a call that stands at the given point, with the tests that
follow it in the method. A call that has returned does nothing. -/
def Reassigning.step {σ : Type} (R : Repos σ) (draws : List Nat) (prID oldUserID : String) :
    Reassigning → σ → Reassigning × σ
  | Reassigning.start, s =>
    match R.prGetByPRID prID s with
    | (Except.error _, s1) =>
      (Reassigning.done (Except.error (Err.wrap "%w: PR not found" ErrNotFound)), s1)
    | (Except.ok pr, s1) =>
      if pr.StatusID = StatusMergedID then (Reassigning.done (Except.error ErrPRMerged), s1)
      else (Reassigning.gotPR pr, s1)
  | Reassigning.gotPR pr, s =>
    match R.userGetByUserID oldUserID s with
    | (Except.error _, s1) =>
      (Reassigning.done (Except.error (Err.wrap "%w: old reviewer not found" ErrNotFound)), s1)
    | (Except.ok oldReviewer, s1) => (Reassigning.gotOld pr oldReviewer, s1)
  | Reassigning.gotOld pr oldReviewer, s =>
    match R.prGetReviewers pr.ID s with
    | (Except.error err, s1) =>
      (Reassigning.done (Except.error (Err.wrap "failed to get reviewers: %w" err)), s1)
    | (Except.ok reviewers, s1) =>
      if !isAssigned reviewers oldUserID then
        (Reassigning.done (Except.error ErrNotAssigned), s1)
      else (Reassigning.gotReviewers pr oldReviewer reviewers, s1)
  | Reassigning.gotReviewers pr oldReviewer reviewers, s =>
    match R.teamGetByID oldReviewer.TeamID s with
    | (Except.error _, s1) =>
      (Reassigning.done
        (Except.error (Err.wrap "%w: reviewer team not found" ErrNotFound)), s1)
    | (Except.ok _, s1) => (Reassigning.gotTeam pr oldReviewer reviewers, s1)
  | Reassigning.gotTeam pr oldReviewer reviewers, s =>
    match getActiveTeamMembersExcluding R oldReviewer.TeamID
        (excludeIDs pr.AuthorID oldReviewer.ID reviewers) s with
    | (Except.error err, s1) =>
      (Reassigning.done
        (Except.error (Err.wrap "failed to get replacement candidates: %w" err)), s1)
    | (Except.ok candidates, s1) =>
      if candidates.length = 0 then (Reassigning.done (Except.error ErrNoCandidate), s1)
      else
      match selectRandomReviewers draws candidates 1 with
      | [] =>
        (Reassigning.done
          (Except.error (Err.panic "index out of range [0] with length 0")), s1)
      | newReviewer :: _ => (Reassigning.chosen pr oldReviewer newReviewer, s1)
  | Reassigning.chosen pr oldReviewer newReviewer, s =>
    match R.prRemoveReviewer pr.ID oldReviewer.ID s with
    | (Except.error err, s1) =>
      (Reassigning.done (Except.error (Err.wrap "failed to remove old reviewer: %w" err)), s1)
    | (Except.ok _, s1) => (Reassigning.removed pr oldReviewer newReviewer, s1)
  | Reassigning.removed pr _ newReviewer, s =>
    match R.prAddReviewer pr.ID newReviewer.ID s with
    | (Except.error err, s1) =>
      (Reassigning.done (Except.error (Err.wrap "failed to add new reviewer: %w" err)), s1)
    | (Except.ok _, s1) => (Reassigning.done (Except.ok newReviewer.UserID), s1)
  | Reassigning.done result, s => (Reassigning.done result, s)

/-- The next `n` repository calls of a call of `ReassignReviewer`. -/
def Reassigning.steps {σ : Type} (R : Repos σ) (draws : List Nat) (prID oldUserID : String) :
    Nat → Reassigning × σ → Reassigning × σ
  | 0, c => c
  | n + 1, c => Reassigning.steps R draws prID oldUserID n
      (Reassigning.step R draws prID oldUserID c.1 c.2)

/-- Two calls of `ReassignReviewer` of the same old reviewer on the same pull
request, with the draws `drawsA` and `drawsB`, interleaved call by call: the
schedule says, repository call after repository call, which of the two makes
its next call on the common store (`true` the first, `false` the second). -/
def race {σ : Type} (R : Repos σ) (drawsA drawsB : List Nat) (prID oldUserID : String) :
    List Bool → Reassigning × Reassigning × σ → Reassigning × Reassigning × σ
  | [], c => c
  | true :: rest, c =>
    race R drawsA drawsB prID oldUserID rest
      ((Reassigning.step R drawsA prID oldUserID c.1 c.2.2).1, c.2.1,
        (Reassigning.step R drawsA prID oldUserID c.1 c.2.2).2)
  | false :: rest, c =>
    race R drawsA drawsB prID oldUserID rest
      (c.1, (Reassigning.step R drawsB prID oldUserID c.2.1 c.2.2).1,
        (Reassigning.step R drawsB prID oldUserID c.2.1 c.2.2).2)

/-- Whether the `RemoveReviewer` of the call has succeeded. -/
def Reassigning.hasRemoved : Reassigning → Bool
  | Reassigning.removed _ _ _ => true
  | Reassigning.done (Except.ok _) => true
  | _ => false

/-- The surrogate ids the local variables of a call hold: `rid` for the pull
request, `oid` for the old reviewer, and another id than `oid` for the
replacement. -/
def Reassigning.holds (rid oid : Int) : Reassigning → Prop
  | Reassigning.gotPR pr => pr.ID = rid
  | Reassigning.gotOld pr oldReviewer => pr.ID = rid ∧ oldReviewer.ID = oid
  | Reassigning.gotReviewers pr oldReviewer _ => pr.ID = rid ∧ oldReviewer.ID = oid
  | Reassigning.gotTeam pr oldReviewer _ => pr.ID = rid ∧ oldReviewer.ID = oid
  | Reassigning.chosen pr oldReviewer newReviewer =>
    pr.ID = rid ∧ oldReviewer.ID = oid ∧ newReviewer.ID ≠ oid
  | Reassigning.removed pr oldReviewer newReviewer =>
    pr.ID = rid ∧ oldReviewer.ID = oid ∧ newReviewer.ID ≠ oid
  | _ => True

/-- The local variables of a call that has not yet called `RemoveReviewer`
are the row, the old reviewer and the reviewer list given. -/
def Reassigning.reads (row : PRRow) (old : User) (current : List User) : Reassigning → Prop
  | Reassigning.start => True
  | Reassigning.gotPR pr => pr = row.toPR current
  | Reassigning.gotOld pr oldReviewer => pr = row.toPR current ∧ oldReviewer = old
  | Reassigning.gotReviewers pr oldReviewer reviewers =>
    pr = row.toPR current ∧ oldReviewer = old ∧ reviewers = current
  | Reassigning.gotTeam pr oldReviewer reviewers =>
    pr = row.toPR current ∧ oldReviewer = old ∧ reviewers = current
  | Reassigning.chosen pr oldReviewer _ => pr = row.toPR current ∧ oldReviewer = old
  | Reassigning.removed _ _ _ => False
  | Reassigning.done _ => False

/-- The local variables of a call agree with the row and the old reviewer
given and with the reviewer list `current`, and a call that has failed has
failed with `ErrNotAssigned` or with the wrapped error of `RemoveReviewer`. -/
def Reassigning.fine (row : PRRow) (old : User) (current : List User) : Reassigning → Prop
  | Reassigning.start => True
  | Reassigning.gotPR pr => pr.ID = row.id ∧ pr.AuthorID = row.author_id
  | Reassigning.gotOld pr oldReviewer =>
    pr.ID = row.id ∧ pr.AuthorID = row.author_id ∧ oldReviewer = old
  | Reassigning.gotReviewers pr oldReviewer reviewers =>
    pr.ID = row.id ∧ pr.AuthorID = row.author_id ∧ oldReviewer = old ∧ reviewers = current
  | Reassigning.gotTeam pr oldReviewer reviewers =>
    pr.ID = row.id ∧ pr.AuthorID = row.author_id ∧ oldReviewer = old ∧ reviewers = current
  | Reassigning.chosen pr oldReviewer newReviewer =>
    pr.ID = row.id ∧ oldReviewer = old ∧ newReviewer.ID ≠ old.ID
  | Reassigning.removed pr oldReviewer newReviewer =>
    pr.ID = row.id ∧ oldReviewer = old ∧ newReviewer.ID ≠ old.ID
  | Reassigning.done (Except.ok _) => True
  | Reassigning.done (Except.error e) =>
    e = ErrNotAssigned ∨
    e = Err.wrap "failed to remove old reviewer: %w"
      (Err.other "repository.PRRepo.RemoveReviewer: reviewer not found for this PR")

/-! ## Properties of the candidate selector -/

/-- Overwriting position `j`, which held `b`, with `x` and putting `b` in
front rearranges `x :: xs`. -/
theorem cons_set_perm (x : User) :
    ∀ (xs : List User) (j : Nat) (b : User), xs[j]? = some b →
      (b :: xs.set j x).Perm (x :: xs)
  | [], j, b, h => by simp at h
  | y :: ys, 0, b, h => by
    simp only [List.getElem?_cons_zero, Option.some.injEq] at h
    subst h
    simpa using List.Perm.swap x y ys
  | y :: ys, j + 1, b, h => by
    simp only [List.getElem?_cons_succ] at h
    have ih := cons_set_perm x ys j b h
    simp only [List.set_cons_succ]
    exact (List.Perm.swap y b _).trans (((ih.cons y).trans (List.Perm.swap x y ys)))

/-- A swap rearranges the slice. -/
theorem swap_perm : ∀ (l : List User) (i j : Nat), (swap l i j).Perm l
  | [], i, j => by simp [swap]
  | x :: xs, 0, 0 => by simp [swap]
  | x :: xs, 0, j + 1 => by
    unfold swap
    cases h : xs[j]? with
    | none => simp [h]
    | some b => simpa [h] using cons_set_perm x xs j b h
  | x :: xs, i + 1, 0 => by
    unfold swap
    cases h : xs[i]? with
    | none => simp [h]
    | some a => simpa [h] using cons_set_perm x xs i a h
  | x :: xs, i + 1, j + 1 => by
    have ih := swap_perm xs i j
    unfold swap at ih ⊢
    cases hi : xs[i]? with
    | none => simp [hi]
    | some a =>
      cases hj : xs[j]? with
      | none => simp [hi, hj]
      | some b =>
        simp only [hi, hj] at ih
        simpa [hi, hj] using ih

/-- The shuffle loop rearranges the slice. -/
theorem shuffleFrom_perm (draws : List Nat) (i : Nat) (l : List User) :
    (shuffleFrom draws i l).Perm l := by
  induction i generalizing draws l with
  | zero => simp [shuffleFrom]
  | succ i ih =>
    simp only [shuffleFrom]
    exact (ih _ _).trans (swap_perm _ _ _)

/-- What `selectRandomReviewers` returns is a prefix of a rearrangement of
the candidates. -/
theorem selectRandomReviewers_prefix (draws : List Nat) (candidates : List User)
    (count : Int) :
    ∃ p : List User, p.Perm candidates ∧
      selectRandomReviewers draws candidates count = p.take count.toNat := by
  unfold selectRandomReviewers
  by_cases h1 : count ≤ 0 ∨ candidates.length = 0
  · refine ⟨candidates, List.Perm.refl _, ?_⟩
    rw [if_pos h1]
    rcases h1 with h | h
    · have : count.toNat = 0 := by omega
      simp [this]
    · have : candidates = [] := List.length_eq_zero.mp h
      simp [this]
  · rw [if_neg h1]
    by_cases h2 : count ≥ (candidates.length : Int)
    · refine ⟨candidates, List.Perm.refl _, ?_⟩
      rw [if_pos h2, List.take_of_length_le (by omega)]
    · rw [if_neg h2]
      exact ⟨_, shuffleFrom_perm _ _ _, rfl⟩

/-- The number of users `selectRandomReviewers` returns. -/
theorem selectRandomReviewers_length (draws : List Nat) (candidates : List User)
    (count : Int) :
    (selectRandomReviewers draws candidates count).length
      = min count.toNat candidates.length := by
  obtain ⟨p, hp, h⟩ := selectRandomReviewers_prefix draws candidates count
  rw [h, List.length_take, hp.length_eq]

/-- When the candidates number at most `count`, all of them are returned, in
their order. -/
theorem selectRandomReviewers_all (draws : List Nat) (candidates : List User)
    (count : Int) (h : (candidates.length : Int) ≤ count) :
    selectRandomReviewers draws candidates count = candidates := by
  unfold selectRandomReviewers
  by_cases h1 : count ≤ 0 ∨ candidates.length = 0
  · rw [if_pos h1]
    have : candidates.length = 0 := by omega
    exact (List.length_eq_zero.mp this).symm
  · rw [if_neg h1, if_pos h]

/-! ## The log of a traced run -/

@[simp]
theorem traced_prCreate {σ : Type} (R : Repos σ) (pr : PullRequest) (s : σ) (log : List Event) :
    (traced R).prCreate pr (s, log)
      = ((R.prCreate pr s).1, ((R.prCreate pr s).2,
          log ++ [Event.prCreate pr (R.prCreate pr s).1])) := rfl

@[simp]
theorem traced_prUpdate {σ : Type} (R : Repos σ) (pr : PullRequest) (s : σ) (log : List Event) :
    (traced R).prUpdate pr (s, log)
      = ((R.prUpdate pr s).1, ((R.prUpdate pr s).2,
          log ++ [Event.prUpdate pr (R.prUpdate pr s).1])) := rfl

@[simp]
theorem traced_prGetByPRID {σ : Type} (R : Repos σ) (prID : String) (s : σ) (log : List Event) :
    (traced R).prGetByPRID prID (s, log)
      = ((R.prGetByPRID prID s).1, ((R.prGetByPRID prID s).2,
          log ++ [Event.prGetByPRID prID (R.prGetByPRID prID s).1])) := rfl

@[simp]
theorem traced_prAddReviewer {σ : Type} (R : Repos σ) (prID reviewerID : Int)
    (s : σ) (log : List Event) :
    (traced R).prAddReviewer prID reviewerID (s, log)
      = ((R.prAddReviewer prID reviewerID s).1, ((R.prAddReviewer prID reviewerID s).2,
          log ++ [Event.prAddReviewer prID reviewerID
            (R.prAddReviewer prID reviewerID s).1])) := rfl

@[simp]
theorem traced_prRemoveReviewer {σ : Type} (R : Repos σ) (prID reviewerID : Int)
    (s : σ) (log : List Event) :
    (traced R).prRemoveReviewer prID reviewerID (s, log)
      = ((R.prRemoveReviewer prID reviewerID s).1, ((R.prRemoveReviewer prID reviewerID s).2,
          log ++ [Event.prRemoveReviewer prID reviewerID
            (R.prRemoveReviewer prID reviewerID s).1])) := rfl

@[simp]
theorem traced_prGetReviewers {σ : Type} (R : Repos σ) (prID : Int) (s : σ) (log : List Event) :
    (traced R).prGetReviewers prID (s, log)
      = ((R.prGetReviewers prID s).1, ((R.prGetReviewers prID s).2,
          log ++ [Event.prGetReviewers prID (R.prGetReviewers prID s).1])) := rfl

@[simp]
theorem traced_userCreate {σ : Type} (R : Repos σ) (user : User) (s : σ) (log : List Event) :
    (traced R).userCreate user (s, log)
      = ((R.userCreate user s).1, ((R.userCreate user s).2,
          log ++ [Event.userCreate user (R.userCreate user s).1])) := rfl

@[simp]
theorem traced_userUpdate {σ : Type} (R : Repos σ) (user : User) (s : σ) (log : List Event) :
    (traced R).userUpdate user (s, log)
      = ((R.userUpdate user s).1, ((R.userUpdate user s).2,
          log ++ [Event.userUpdate user (R.userUpdate user s).1])) := rfl

@[simp]
theorem traced_userGetByUserID {σ : Type} (R : Repos σ) (userID : String)
    (s : σ) (log : List Event) :
    (traced R).userGetByUserID userID (s, log)
      = ((R.userGetByUserID userID s).1, ((R.userGetByUserID userID s).2,
          log ++ [Event.userGetByUserID userID (R.userGetByUserID userID s).1])) := rfl

@[simp]
theorem traced_userGetByTeamID {σ : Type} (R : Repos σ) (teamID : Int) (s : σ) (log : List Event) :
    (traced R).userGetByTeamID teamID (s, log)
      = ((R.userGetByTeamID teamID s).1, ((R.userGetByTeamID teamID s).2,
          log ++ [Event.userGetByTeamID teamID (R.userGetByTeamID teamID s).1])) := rfl

@[simp]
theorem traced_userSetIsActive {σ : Type} (R : Repos σ) (userID : String) (isActive : Bool)
    (s : σ) (log : List Event) :
    (traced R).userSetIsActive userID isActive (s, log)
      = ((R.userSetIsActive userID isActive s).1, ((R.userSetIsActive userID isActive s).2,
          log ++ [Event.userSetIsActive userID isActive
            (R.userSetIsActive userID isActive s).1])) := rfl

@[simp]
theorem traced_userDeactivateByTeamID {σ : Type} (R : Repos σ) (teamID : Int)
    (s : σ) (log : List Event) :
    (traced R).userDeactivateByTeamID teamID (s, log)
      = ((R.userDeactivateByTeamID teamID s).1, ((R.userDeactivateByTeamID teamID s).2,
          log ++ [Event.userDeactivateByTeamID teamID
            (R.userDeactivateByTeamID teamID s).1])) := rfl

@[simp]
theorem traced_teamCreate {σ : Type} (R : Repos σ) (team : Team) (s : σ) (log : List Event) :
    (traced R).teamCreate team (s, log)
      = ((R.teamCreate team s).1, ((R.teamCreate team s).2,
          log ++ [Event.teamCreate team (R.teamCreate team s).1])) := rfl

@[simp]
theorem traced_teamGetByName {σ : Type} (R : Repos σ) (teamName : String)
    (s : σ) (log : List Event) :
    (traced R).teamGetByName teamName (s, log)
      = ((R.teamGetByName teamName s).1, ((R.teamGetByName teamName s).2,
          log ++ [Event.teamGetByName teamName (R.teamGetByName teamName s).1])) := rfl

@[simp]
theorem traced_teamGetByID {σ : Type} (R : Repos σ) (teamID : Int) (s : σ) (log : List Event) :
    (traced R).teamGetByID teamID (s, log)
      = ((R.teamGetByID teamID s).1, ((R.teamGetByID teamID s).2,
          log ++ [Event.teamGetByID teamID (R.teamGetByID teamID s).1])) := rfl

@[simp]
theorem traced_teamGetWithUsers {σ : Type} (R : Repos σ) (teamID : Int) (s : σ) (log : List Event) :
    (traced R).teamGetWithUsers teamID (s, log)
      = ((R.teamGetWithUsers teamID s).1, ((R.teamGetWithUsers teamID s).2,
          log ++ [Event.teamGetWithUsers teamID (R.teamGetWithUsers teamID s).1])) := rfl

@[simp]
theorem traced_teamExistsByName {σ : Type} (R : Repos σ) (teamName : String)
    (s : σ) (log : List Event) :
    (traced R).teamExistsByName teamName (s, log)
      = ((R.teamExistsByName teamName s).1, ((R.teamExistsByName teamName s).2,
          log ++ [Event.teamExistsByName teamName (R.teamExistsByName teamName s).1])) := rfl

/-- A successful run of the reviewer loop of `CreatePR` logs one successful
`AddReviewer` per selected reviewer, in order, and nothing else. -/
theorem addReviewers_traced_ok {σ : Type} (R : Repos σ) (prID : Int) :
    ∀ (l : List User) (s : σ) (log : List Event) (s' : σ) (log' : List Event),
      addReviewers (traced R) prID l (s, log) = (Except.ok (), (s', log')) →
      log' = log ++ l.map (fun u => Event.prAddReviewer prID u.ID (Except.ok ()))
  | [], s, log, s', log', h => by
    simp only [addReviewers, Prod.mk.injEq, true_and] at h
    simp [h.2]
  | u :: rest, s, log, s', log', h => by
    rcases h1 : R.prAddReviewer prID u.ID s with ⟨r1, s1⟩
    cases r1 with
    | error e => simp [addReviewers, h1] at h
    | ok v =>
      simp only [addReviewers, traced_prAddReviewer, h1] at h
      have ih := addReviewers_traced_ok R prID rest _ _ _ _ h
      simp [ih]

theorem addedReviewers_append (l1 l2 : List Event) :
    addedReviewers (l1 ++ l2) = addedReviewers l1 ++ addedReviewers l2 := by
  induction l1 with
  | nil => rfl
  | cons e rest ih => cases e <;> simp [addedReviewers, ih]

theorem addedReviewers_map (prID : Int) (l : List User) :
    addedReviewers (l.map (fun u => Event.prAddReviewer prID u.ID (Except.ok ())))
      = l.map User.ID := by
  induction l with
  | nil => rfl
  | cons u rest ih => simp [addedReviewers, ih]

/-- The calls of a successful `CreatePR`, in order: the look-up that finds no
pull request, the author, the author's team, the insert, the team list, one
successful `AddReviewer` per selected reviewer, and the final look-up. -/
theorem CreatePR_traced_ok {σ : Type} (R : Repos σ) (draws : List Nat)
    (prID prName authorUserID : String) (s : σ) (log0 : List Event)
    (result : PullRequest) (s' : σ) (log : List Event)
    (h : CreatePR (traced R) draws prID prName authorUserID (s, log0)
      = (Except.ok result, (s', log))) :
    ∃ (e : Err) (author : User) (team : Team) (pr : PullRequest) (all : List User),
      log = log0 ++
        [Event.prGetByPRID prID (Except.error e),
         Event.userGetByUserID authorUserID (Except.ok author),
         Event.teamGetByID author.TeamID (Except.ok team),
         Event.prCreate (newPR prID prName author.ID) (Except.ok pr),
         Event.userGetByTeamID author.TeamID (Except.ok all)] ++
        (selectRandomReviewers draws (pool all author.ID)
            (if ((pool all author.ID).length : Int) < MaxReviewers
              then ((pool all author.ID).length : Int) else MaxReviewers)).map
          (fun u => Event.prAddReviewer pr.ID u.ID (Except.ok ())) ++
        [Event.prGetByPRID prID (Except.ok result)] := by
  unfold CreatePR at h
  rcases h1 : R.prGetByPRID prID s with ⟨r1, s1⟩
  cases r1 with
  | ok v => simp [h1] at h
  | error e =>
  simp only [traced_prGetByPRID, traced_userGetByUserID, traced_teamGetByID, traced_prCreate,
    traced_userGetByTeamID, h1] at h
  rcases h2 : R.userGetByUserID authorUserID s1 with ⟨r2, s2⟩
  cases r2 with
  | error e2 => simp [h2] at h
  | ok author =>
  simp only [traced_prGetByPRID, traced_userGetByUserID, traced_teamGetByID, traced_prCreate,
    traced_userGetByTeamID, h2] at h
  rcases h3 : R.teamGetByID author.TeamID s2 with ⟨r3, s3⟩
  cases r3 with
  | error e3 => simp [h3] at h
  | ok team =>
  simp only [traced_prGetByPRID, traced_userGetByUserID, traced_teamGetByID, traced_prCreate,
    traced_userGetByTeamID, h3] at h
  rcases h4 : R.prCreate (newPR prID prName author.ID) s3 with ⟨r4, s4⟩
  simp only [newPR] at h4
  cases r4 with
  | error e4 => simp [h4] at h
  | ok pr =>
  simp only [traced_prGetByPRID, traced_userGetByUserID, traced_teamGetByID, traced_prCreate,
    traced_userGetByTeamID, h4] at h
  rcases h5 : R.userGetByTeamID author.TeamID s4 with ⟨r5, s5⟩
  cases r5 with
  | error e5 => simp [getActiveTeamMembers, h5] at h
  | ok all =>
  simp only [getActiveTeamMembers, traced_userGetByTeamID, h5] at h
  simp only [List.append_assoc, List.singleton_append, List.cons_append, List.nil_append] at h
  generalize hsel : selectRandomReviewers draws _ _ = sel at h
  rcases h6 : addReviewers (traced R) pr.ID sel
    (s5, log0 ++ [Event.prGetByPRID prID (Except.error e),
        Event.userGetByUserID authorUserID (Except.ok author),
        Event.teamGetByID author.TeamID (Except.ok team),
        Event.prCreate (newPR prID prName author.ID) (Except.ok pr),
        Event.userGetByTeamID author.TeamID (Except.ok all)]) with ⟨r6, s6, log6⟩
  simp only [newPR] at h6
  cases r6 with
  | error e6 => simp [h6] at h
  | ok u =>
  simp only [traced_prGetByPRID, traced_userGetByUserID, traced_teamGetByID, traced_prCreate,
    traced_userGetByTeamID, h6] at h
  have hlog6 := addReviewers_traced_ok R pr.ID sel _ _ _ _ h6
  rcases h7 : R.prGetByPRID prID s6 with ⟨r7, s7⟩
  cases r7 with
  | error e7 => simp [h7] at h
  | ok res =>
  simp only [h7, Prod.mk.injEq, Except.ok.injEq] at h
  obtain ⟨hres, _, hlog⟩ := h
  refine ⟨e, author, team, pr, all, ?_⟩
  subst hres
  rw [← hlog, hlog6, ← hsel]
  simp [pool, newPR]

/-! ## Lemmas on the PostgreSQL repositories -/

@[simp]
theorem pgRepos_prCreate : pgRepos.prCreate = PRRepo.Create := rfl

@[simp]
theorem pgRepos_prUpdate : pgRepos.prUpdate = PRRepo.Update := rfl

@[simp]
theorem pgRepos_prGetByPRID : pgRepos.prGetByPRID = PRRepo.GetByPRID := rfl

@[simp]
theorem pgRepos_prAddReviewer : pgRepos.prAddReviewer = PRRepo.AddReviewer := rfl

@[simp]
theorem pgRepos_prRemoveReviewer : pgRepos.prRemoveReviewer = PRRepo.RemoveReviewer := rfl

@[simp]
theorem pgRepos_prGetReviewers : pgRepos.prGetReviewers = PRRepo.GetReviewers := rfl

@[simp]
theorem pgRepos_userCreate : pgRepos.userCreate = UserStorage.Create := rfl

@[simp]
theorem pgRepos_userUpdate : pgRepos.userUpdate = UserStorage.Update := rfl

@[simp]
theorem pgRepos_userGetByUserID : pgRepos.userGetByUserID = UserStorage.GetByUserID := rfl

@[simp]
theorem pgRepos_userGetByTeamID : pgRepos.userGetByTeamID = UserStorage.GetByTeamID := rfl

@[simp]
theorem pgRepos_userSetIsActive : pgRepos.userSetIsActive = UserStorage.SetIsActive := rfl

@[simp]
theorem pgRepos_userDeactivateByTeamID :
    pgRepos.userDeactivateByTeamID = UserStorage.DeactivateByTeamID := rfl

@[simp]
theorem pgRepos_teamCreate : pgRepos.teamCreate = TeamRepo.Create := rfl

@[simp]
theorem pgRepos_teamGetByName : pgRepos.teamGetByName = TeamRepo.GetByName := rfl

@[simp]
theorem pgRepos_teamGetByID : pgRepos.teamGetByID = TeamRepo.GetByID := rfl

@[simp]
theorem pgRepos_teamGetWithUsers : pgRepos.teamGetWithUsers = TeamRepo.GetWithUsers := rfl

@[simp]
theorem pgRepos_teamExistsByName : pgRepos.teamExistsByName = TeamRepo.ExistsByName := rfl

theorem find_append_new {α : Type} (p : α → Bool) (l : List α) (a : α) (h : p a = true) :
    ∃ b, (l ++ [a]).find? p = some b := by
  cases hf : l.find? p with
  | some b => exact ⟨b, by simp [List.find?_append, hf]⟩
  | none => exact ⟨a, by simp [List.find?_append, hf, h]⟩

theorem any_eq_false_of_find_none {α : Type} (p : α → Bool) (l : List α)
    (h : l.find? p = none) : l.any p = false := by
  rw [List.find?_eq_none] at h
  rw [List.any_eq_false]
  exact h

/-- On a connection that never fails the reviewer loop of `CreatePR` does
not fail and touches `pr_reviewers` only. -/
theorem addReviewers_pg (prID : Int) :
    ∀ (l : List User) (s : Store), ∃ s' : Store,
      addReviewers pgRepos prID l s = (Except.ok (), s') ∧
      s'.pull_requests = s.pull_requests ∧ s'.users = s.users ∧ s'.teams = s.teams
  | [], s => ⟨s, rfl, rfl, rfl, rfl⟩
  | u :: rest, s => by
    by_cases hm : (prID, u.ID) ∈ s.pr_reviewers
    · obtain ⟨s', h, h1, h2, h3⟩ := addReviewers_pg prID rest s
      exact ⟨s', by simp [addReviewers, PRRepo.AddReviewer, hm, h], h1, h2, h3⟩
    · obtain ⟨s', h, h1, h2, h3⟩ := addReviewers_pg prID rest
        { s with pr_reviewers := s.pr_reviewers ++ [(prID, u.ID)] }
      exact ⟨s', by simp [addReviewers, PRRepo.AddReviewer, hm, h], h1, h2, h3⟩

/-- On a connection that never fails `CreatePR` succeeds whenever the id is
free, the author exists and the author's team exists, whatever the size of
the candidate pool. -/
theorem CreatePR_pg_succeeds (draws : List Nat) (prID prName authorUserID : String)
    (s : Store) (author : User) (team : TeamRow)
    (hfree : s.pull_requests.find? (fun row => row.pull_request_id == prID) = none)
    (hauthor : s.users.find? (fun u => u.UserID == authorUserID) = some author)
    (hteam : s.teams.find? (fun row => row.id == author.TeamID) = some team) :
    ∃ (result : PullRequest) (s' : Store),
      CreatePR pgRepos draws prID prName authorUserID s = (Except.ok result, s') := by
  have hany := any_eq_false_of_find_none _ _ hfree
  simp only [CreatePR, pgRepos_prGetByPRID, pgRepos_userGetByUserID, pgRepos_teamGetByID,
    pgRepos_prCreate, pgRepos_userGetByTeamID, PRRepo.GetByPRID, hfree,
    UserStorage.GetByUserID, hauthor,
    TeamRepo.GetByID, hteam, PRRepo.Create, hany, getActiveTeamMembers,
    UserStorage.GetByTeamID]
  simp only [Bool.false_eq_true, if_false]
  generalize hsel : selectRandomReviewers draws _ _ = sel
  obtain ⟨s6, h6, hprs, _, _⟩ := addReviewers_pg s.prSeq sel
    { s with
      pull_requests := s.pull_requests ++
        [{ id := s.prSeq, pull_request_id := prID, pull_request_name := prName,
           author_id := author.ID, status_id := StatusOpenID, merged_at := none,
           created_at := s.now }],
      prSeq := s.prSeq + 1 }
  simp only [h6]
  obtain ⟨row, hrow⟩ := find_append_new (fun row : PRRow => row.pull_request_id == prID)
    s.pull_requests
    { id := s.prSeq, pull_request_id := prID, pull_request_name := prName,
      author_id := author.ID, status_id := StatusOpenID, merged_at := none,
      created_at := s.now } (by simp)
  simp only [hprs, hrow, PRRepo.GetReviewers]
  exact ⟨_, _, rfl⟩

/-! ## C1: the reviewers added by CreatePR -/

/-- C1. After a successful `CreatePR` the reviewers it adds (the reviewer ids
of its `AddReviewer` calls) are active members of the list `GetByTeamID`
returned for the author's team, none of them is the author, their number is
`min 2 n` for `n` the number of active members other than the author, they
are pairwise distinct when the team list has distinct surrogate ids, and when
`n ≤ 2` they are the whole pool. Moreover, on the PostgreSQL repositories the
call succeeds whenever the id is free and the author and the author's team
exist, whatever the size of the pool, so that an empty and a singleton pool
give 0 and 1 reviewers without error. -/
theorem createPR_reviewer_bound :
    (∀ {σ : Type} (R : Repos σ) (draws : List Nat) (prID prName authorUserID : String)
      (s s' : σ) (result : PullRequest) (log : List Event),
      CreatePR (traced R) draws prID prName authorUserID (s, [])
        = (Except.ok result, (s', log)) →
      ∃ (author : User) (all : List User),
        Event.userGetByUserID authorUserID (Except.ok author) ∈ log ∧
        Event.userGetByTeamID author.TeamID (Except.ok all) ∈ log ∧
        (∀ r ∈ addedReviewers log,
          r ≠ author.ID ∧ ∃ u ∈ all, u.ID = r ∧ u.IsActive = true) ∧
        (addedReviewers log).length = min 2 (pool all author.ID).length ∧
        ((all.map User.ID).Nodup → (addedReviewers log).Nodup) ∧
        ((pool all author.ID).length ≤ 2 →
          addedReviewers log = (pool all author.ID).map User.ID)) ∧
    (∀ (draws : List Nat) (prID prName authorUserID : String) (s : Store) (author : User)
      (team : TeamRow),
      s.pull_requests.find? (fun row => row.pull_request_id == prID) = none →
      s.users.find? (fun u => u.UserID == authorUserID) = some author →
      s.teams.find? (fun row => row.id == author.TeamID) = some team →
      ∃ (result : PullRequest) (s' : Store),
        CreatePR pgRepos draws prID prName authorUserID s = (Except.ok result, s')) := by
  refine ⟨?_, fun draws prID prName authorUserID s author team h1 h2 h3 =>
    CreatePR_pg_succeeds draws prID prName authorUserID s author team h1 h2 h3⟩
  intro σ R draws prID prName authorUserID s s' result log h
  obtain ⟨e, author, team, pr, all, hlog⟩ :=
    CreatePR_traced_ok R draws prID prName authorUserID s [] result s' log h
  have hcount : (if ((pool all author.ID).length : Int) < MaxReviewers
      then ((pool all author.ID).length : Int) else MaxReviewers)
      = ((min 2 (pool all author.ID).length : Nat) : Int) := by
    unfold MaxReviewers
    split <;> omega
  rw [hcount] at hlog
  have hadded : addedReviewers log
      = (selectRandomReviewers draws (pool all author.ID)
          ((min 2 (pool all author.ID).length : Nat) : Int)).map User.ID := by
    rw [hlog]
    simp [addedReviewers_append, addedReviewers_map, addedReviewers]
  obtain ⟨p, hperm, hsel⟩ := selectRandomReviewers_prefix draws (pool all author.ID)
    ((min 2 (pool all author.ID).length : Nat) : Int)
  refine ⟨author, all, by simp [hlog], by simp [hlog], ?_, ?_, ?_, ?_⟩
  · intro r hr
    rw [hadded, hsel, List.mem_map] at hr
    obtain ⟨u, hu, rfl⟩ := hr
    have hu' : u ∈ pool all author.ID := hperm.subset (List.mem_of_mem_take hu)
    simp only [pool, List.mem_filter, Bool.and_eq_true, bne_iff_ne, ne_eq] at hu'
    exact ⟨hu'.2.2, u, hu'.1, rfl, hu'.2.1⟩
  · rw [hadded, List.length_map, selectRandomReviewers_length, Int.toNat_ofNat]
    omega
  · intro hnd
    rw [hadded, hsel]
    have h1 : ((pool all author.ID).map User.ID).Nodup :=
      hnd.sublist (List.Sublist.map _ (List.filter_sublist _))
    have h2 : (p.map User.ID).Nodup := ((hperm.map User.ID).nodup_iff).mpr h1
    exact h2.sublist (List.Sublist.map _ (List.take_sublist _ _))
  · intro hn
    rw [hadded, selectRandomReviewers_all _ _ _ (by omega)]

/-- Witness of C1 on the sample store: author u1 and the draws 2, 0, 1. -/
theorem createPR_reviewer_bound_witness :
    (∃ (author : User) (all : List User),
      Event.userGetByUserID "u1" (Except.ok author) ∈ sampleCreate.2.2 ∧
      Event.userGetByTeamID author.TeamID (Except.ok all) ∈ sampleCreate.2.2 ∧
      (∀ r ∈ addedReviewers sampleCreate.2.2,
        r ≠ author.ID ∧ ∃ u ∈ all, u.ID = r ∧ u.IsActive = true) ∧
      (addedReviewers sampleCreate.2.2).length
        = min 2 (pool all author.ID).length ∧
      ((all.map User.ID).Nodup → (addedReviewers sampleCreate.2.2).Nodup) ∧
      ((pool all author.ID).length ≤ 2 →
        addedReviewers sampleCreate.2.2
          = (pool all author.ID).map User.ID)) ∧
    (∃ (result : PullRequest) (s' : Store),
      CreatePR pgRepos [2, 0, 1] "pr-1" "Add X" "u1" sampleStore = (Except.ok result, s')) :=
  ⟨createPR_reviewer_bound.1 pgRepos [2, 0, 1] "pr-1" "Add X" "u1" sampleStore _ _ _ rfl,
   createPR_reviewer_bound.2 [2, 0, 1] "pr-1" "Add X" "u1" sampleStore
     (sampleUser 1 "u1" true 1) { id := 1, name := "backend", created_at := 0 } rfl rfl rfl⟩

/-! ## C2: a taken pull request id -/

/-- Calling `CreatePR` on an id that `GetByPRID` finds: `ErrPRExists`, and the
look-up is the only call. -/
theorem CreatePR_exists {σ : Type} (R : Repos σ) (draws : List Nat)
    (prID prName authorUserID : String) (s s1 : σ) (log0 : List Event) (pr : PullRequest)
    (h : R.prGetByPRID prID s = (Except.ok pr, s1)) :
    CreatePR (traced R) draws prID prName authorUserID (s, log0)
      = (Except.error ErrPRExists, (s1, log0 ++ [Event.prGetByPRID prID (Except.ok pr)])) := by
  simp [CreatePR, h]

/-- The reviewer loop of `CreatePR` keeps the stored pull requests. -/
theorem addReviewers_keeps {σ : Type} (R : Repos σ) (Has : String → σ → Prop)
    (hR : KeepsPRs R Has) (prID : String) (x : Int) :
    ∀ (l : List User) (s : σ), Has prID s → Has prID (addReviewers R x l s).2
  | [], s, h => h
  | u :: rest, s, h => by
    have h1 := hR.prAddReviewer prID x u.ID s h
    rcases hr : R.prAddReviewer x u.ID s with ⟨r, s1⟩
    rw [hr] at h1
    cases r with
    | error e => simpa [addReviewers, hr] using h1
    | ok v =>
      simp only [addReviewers, hr]
      exact addReviewers_keeps R Has hR prID x rest s1 h1

/-- On a store that keeps its pull requests, `CreatePR` on a stored id fails
with `ErrPRExists` and the id stays stored. -/
theorem CreatePR_has {σ : Type} (R : Repos σ) (Has : String → σ → Prop)
    (hR : KeepsPRs R Has) (draws : List Nat) (prID prName authorUserID : String) (s : σ)
    (h : Has prID s) :
    (CreatePR R draws prID prName authorUserID s).1 = Except.error ErrPRExists ∧
      Has prID (CreatePR R draws prID prName authorUserID s).2 := by
  obtain ⟨pr, hpr⟩ := hR.found prID s h
  have hk := hR.prGetByPRID prID prID s h
  rcases h1 : R.prGetByPRID prID s with ⟨r1, s1⟩
  rw [h1] at hpr hk
  simp only at hpr
  subst hpr
  simp only [CreatePR, h1]
  exact ⟨trivial, hk⟩

/-- On a store that keeps its pull requests, a successful `CreatePR` leaves
its id stored. -/
theorem CreatePR_ok_has {σ : Type} (R : Repos σ) (Has : String → σ → Prop)
    (hR : KeepsPRs R Has) (draws : List Nat) (prID prName authorUserID : String) (s : σ)
    (h : succeeded (CreatePR R draws prID prName authorUserID s).1 = true) :
    Has prID (CreatePR R draws prID prName authorUserID s).2 := by
  unfold CreatePR at h ⊢
  rcases h1 : R.prGetByPRID prID s with ⟨r1, s1⟩
  cases r1 with
  | ok v => simp [h1, succeeded] at h
  | error e =>
  simp only [h1] at h ⊢
  rcases h2 : R.userGetByUserID authorUserID s1 with ⟨r2, s2⟩
  cases r2 with
  | error e2 => simp [h2, succeeded] at h
  | ok author =>
  simp only [h2] at h ⊢
  rcases h3 : R.teamGetByID author.TeamID s2 with ⟨r3, s3⟩
  cases r3 with
  | error e3 => simp [h3, succeeded] at h
  | ok team =>
  simp only [h3] at h ⊢
  rcases h4 : R.prCreate (newPR prID prName author.ID) s3 with ⟨r4, s4⟩
  simp only [newPR] at h4
  cases r4 with
  | error e4 => simp [h4, succeeded] at h
  | ok pr =>
  simp only [h4] at h ⊢
  have k4 : Has prID s4 := hR.created _ _ _ _ h4
  have k5 := hR.userGetByTeamID prID author.TeamID s4 k4
  rcases h5 : R.userGetByTeamID author.TeamID s4 with ⟨r5, s5⟩
  rw [h5] at k5
  cases r5 with
  | error e5 => simp [getActiveTeamMembers, h5, succeeded] at h
  | ok all =>
  simp only [getActiveTeamMembers, h5] at h ⊢
  generalize hsel : selectRandomReviewers draws _ _ = sel at h ⊢
  have k6 := addReviewers_keeps R Has hR prID pr.ID sel s5 k5
  rcases h6 : addReviewers R pr.ID sel s5 with ⟨r6, s6⟩
  rw [h6] at k6
  cases r6 with
  | error e6 => simp [h6, succeeded] at h
  | ok u =>
  simp only [h6] at h ⊢
  have k7 := hR.prGetByPRID prID prID s6 k6
  rcases h7 : R.prGetByPRID prID s6 with ⟨r7, s7⟩
  rw [h7] at k7
  cases r7 <;> simpa [h7] using k7

/-- Once the id is stored, every further `CreatePR` with it fails. -/
theorem createAll_has {σ : Type} (R : Repos σ) (Has : String → σ → Prop)
    (hR : KeepsPRs R Has) (prID : String) :
    ∀ (calls : List (List Nat × String × String)) (s : σ), Has prID s →
      ((createAll R prID calls s).1.filter succeeded).length = 0
  | [], s, h => rfl
  | (draws, prName, authorUserID) :: rest, s, h => by
    obtain ⟨h1, h2⟩ := CreatePR_has R Has hR draws prID prName authorUserID s h
    have ih := createAll_has R Has hR prID rest _ h2
    simp only [createAll]
    simp [h1, succeeded, ih]

/-- Of a sequence of `CreatePR` calls with one id on a store that keeps its
pull requests, at most one succeeds. -/
theorem createAll_at_most_one {σ : Type} (R : Repos σ) (Has : String → σ → Prop)
    (hR : KeepsPRs R Has) (prID : String) :
    ∀ (calls : List (List Nat × String × String)) (s : σ),
      ((createAll R prID calls s).1.filter succeeded).length ≤ 1
  | [], s => by simp [createAll]
  | (draws, prName, authorUserID) :: rest, s => by
    simp only [createAll]
    by_cases hs : succeeded (CreatePR R draws prID prName authorUserID s).1 = true
    · have hk := CreatePR_ok_has R Has hR draws prID prName authorUserID s hs
      have h0 := createAll_has R Has hR prID rest _ hk
      simp [hs, h0]
    · have ih := createAll_at_most_one R Has hR prID rest
        (CreatePR R draws prID prName authorUserID s).2
      simpa [hs] using ih

/-- The PostgreSQL repositories keep the pull requests they created. -/
theorem pgRepos_keepsPRs : KeepsPRs pgRepos Store.hasPR where
  created := by
    intro pr pr' s s' h
    simp only [pgRepos_prCreate, PRRepo.Create] at h
    split at h
    · simp at h
    · simp only [Prod.mk.injEq] at h
      rw [← h.2]
      exact ⟨_, List.mem_append_right _ (List.mem_singleton_self _), rfl⟩
  found := by
    intro prID s h
    obtain ⟨row, hrow, hid⟩ := h
    simp only [pgRepos_prGetByPRID, PRRepo.GetByPRID]
    cases hf : s.pull_requests.find? (fun row => row.pull_request_id == prID) with
    | none =>
      rw [List.find?_eq_none] at hf
      exact absurd (by simpa using hid) (hf row hrow)
    | some r => exact ⟨_, rfl⟩
  prGetByPRID := by
    intro prID x s h
    simp only [pgRepos_prGetByPRID, PRRepo.GetByPRID, PRRepo.GetReviewers]
    split <;> exact h
  userGetByUserID := by
    intro prID x s h
    simp only [pgRepos_userGetByUserID, UserStorage.GetByUserID]
    split <;> exact h
  teamGetByID := by
    intro prID x s h
    simp only [pgRepos_teamGetByID, TeamRepo.GetByID]
    split <;> exact h
  prCreate := by
    intro prID x s h
    simp only [pgRepos_prCreate, PRRepo.Create]
    split
    · exact h
    · obtain ⟨row, hrow, hid⟩ := h
      exact ⟨row, by simp [hrow], hid⟩
  userGetByTeamID := by
    intro prID x s h
    exact h
  prAddReviewer := by
    intro prID x y s h
    simp only [pgRepos_prAddReviewer, PRRepo.AddReviewer]
    split <;> exact h

/-- C2. `CreatePR` with a `pull_request_id` for which `GetByPRID` returns a
pull request fails with exactly `ErrPRExists` and makes no other repository
call, hence no `Create` and no `AddReviewer`. Consequently, of every sequence
of `CreatePR` calls with the same id against a store that keeps the pull
requests it created, at most one succeeds. -/
theorem createPR_exists_at_most_one :
    (∀ {σ : Type} (R : Repos σ) (draws : List Nat) (prID prName authorUserID : String)
      (s s1 : σ) (pr : PullRequest),
      R.prGetByPRID prID s = (Except.ok pr, s1) →
      CreatePR (traced R) draws prID prName authorUserID (s, [])
        = (Except.error ErrPRExists, (s1, [Event.prGetByPRID prID (Except.ok pr)]))) ∧
    (∀ {σ : Type} (R : Repos σ) (Has : String → σ → Prop), KeepsPRs R Has →
      ∀ (prID : String) (calls : List (List Nat × String × String)) (s : σ),
        ((createAll R prID calls s).1.filter succeeded).length ≤ 1) :=
  ⟨fun R draws prID prName authorUserID s s1 pr h => by
      simpa using CreatePR_exists R draws prID prName authorUserID s s1 [] pr h,
   fun R Has hR prID calls s => createAll_at_most_one R Has hR prID calls s⟩

/-- Witness of C2: `CreatePR` of "pr-1" a second time on the sample store,
and two calls in sequence. -/
theorem createPR_exists_at_most_one_witness :
    CreatePR (traced pgRepos) [] "pr-1" "Again" "u2" (sampleCreate.2.1, [])
        = (Except.error ErrPRExists, (sampleCreate.2.1,
            [Event.prGetByPRID "pr-1" (Except.ok samplePR)])) ∧
    ((createAll pgRepos "pr-1" [([2, 0, 1], "Add X", "u1"), ([], "Again", "u2")]
        sampleStore).1.filter succeeded).length ≤ 1 :=
  ⟨createPR_exists_at_most_one.1 pgRepos [] "pr-1" "Again" "u2" sampleCreate.2.1
      sampleCreate.2.1 samplePR rfl,
   createPR_exists_at_most_one.2 pgRepos Store.hasPR pgRepos_keepsPRs "pr-1"
      [([2, 0, 1], "Add X", "u1"), ([], "Again", "u2")] sampleStore⟩

/-! ## C3: merging twice -/

theorem find_of_hasPR (prID : String) (s : Store) (h : s.hasPR prID) :
    ∃ row, s.pull_requests.find? (fun row => row.pull_request_id == prID) = some row := by
  obtain ⟨row, hrow, hid⟩ := h
  cases hf : s.pull_requests.find? (fun row => row.pull_request_id == prID) with
  | none =>
    rw [List.find?_eq_none] at hf
    exact absurd (by simpa using hid) (hf row hrow)
  | some r => exact ⟨r, rfl⟩

/-- The first row with the given id after the UPDATE of `PRRepo.Update` is the
updated first row. -/
theorem find_after_update (rows : List PRRow) (prID name : String) (status : Int)
    (mergedAt : Option Nat) (row : PRRow)
    (h : rows.find? (fun row => row.pull_request_id == prID) = some row) :
    (rows.map (fun row =>
        if row.pull_request_id == prID then
          { row with pull_request_name := name, status_id := status, merged_at := mergedAt }
        else row)).find? (fun row => row.pull_request_id == prID)
      = some { row with pull_request_name := name, status_id := status,
                        merged_at := mergedAt } := by
  induction rows with
  | nil => simp at h
  | cons r rest ih =>
    by_cases hr : r.pull_request_id = prID
    · simp only [List.find?_cons, hr, beq_self_eq_true, Option.some.injEq] at h
      subst h
      simp [hr]
    · have hr' : (r.pull_request_id == prID) = false := by simpa using hr
      simp only [List.find?_cons, hr'] at h
      simp only [List.map_cons, hr', Bool.false_eq_true, if_false, List.find?_cons]
      exact ih h

/-- Calling `MergePR` on the PostgreSQL repositories, for a stored pull request: the
result and the store after the call. -/
theorem MergePR_pg (now : Nat) (prID : String) (s : Store) (row : PRRow)
    (h : s.pull_requests.find? (fun row => row.pull_request_id == prID) = some row) :
    MergePR pgRepos now prID s =
      if row.status_id = StatusMergedID then
        (Except.ok (row.toPR (s.reviewersOf row.id)), s)
      else
        (Except.ok ({ row with status_id := StatusMergedID, merged_at := some now }.toPR
            (s.reviewersOf row.id)),
          { s with pull_requests := s.pull_requests.map (fun r =>
              if r.pull_request_id == prID then
                { r with pull_request_name := row.pull_request_name,
                         status_id := StatusMergedID, merged_at := some now }
              else r) }) := by
  have hid : row.pull_request_id = prID := by
    simpa using List.find?_some h
  by_cases hst : row.status_id = StatusMergedID
  · simp [MergePR, PRRepo.GetByPRID, PRRepo.GetReviewers, h, PRRow.toPR, hst]
  · have h2 := find_after_update s.pull_requests prID row.pull_request_name StatusMergedID
      (some now) row h
    simp only [MergePR, pgRepos_prGetByPRID, pgRepos_prUpdate, PRRepo.GetByPRID,
      PRRepo.GetReviewers, PRRepo.Update, h, PRRow.toPR, hst, hid, if_false, h2,
      Store.reviewersOf]

/-- Calling `MergePR` on a pull request that `GetByPRID` returns as merged: the pull
request is returned as it is and the look-up is the only call. -/
theorem MergePR_merged {σ : Type} (R : Repos σ) (now : Nat) (prID : String) (s s1 : σ)
    (log0 : List Event) (pr : PullRequest)
    (h : R.prGetByPRID prID s = (Except.ok pr, s1)) (hst : pr.StatusID = StatusMergedID) :
    MergePR (traced R) now prID (s, log0)
      = (Except.ok pr, (s1, log0 ++ [Event.prGetByPRID prID (Except.ok pr)])) := by
  simp [MergePR, h, hst]

/-- On the PostgreSQL repositories `MergePR` of a stored pull request
succeeds with a merged pull request, and a second `MergePR` returns the same
pull request and leaves the store as the first call left it. -/
theorem MergePR_pg_twice (now1 now2 : Nat) (prID : String) (s : Store)
    (h : s.hasPR prID) :
    ∃ (pr1 : PullRequest) (s1 : Store),
      MergePR pgRepos now1 prID s = (Except.ok pr1, s1) ∧
      pr1.StatusID = StatusMergedID ∧
      MergePR pgRepos now2 prID s1 = (Except.ok pr1, s1) := by
  obtain ⟨row, hrow⟩ := find_of_hasPR prID s h
  by_cases hst : row.status_id = StatusMergedID
  · refine ⟨row.toPR (s.reviewersOf row.id), s, ?_, hst, ?_⟩
    · rw [MergePR_pg now1 prID s row hrow, if_pos hst]
    · rw [MergePR_pg now2 prID s row hrow, if_pos hst]
  · have h2 := find_after_update s.pull_requests prID row.pull_request_name StatusMergedID
      (some now1) row hrow
    refine ⟨_, _, by rw [MergePR_pg now1 prID s row hrow, if_neg hst], rfl, ?_⟩
    rw [MergePR_pg now2 prID _ _ h2, if_pos rfl]
    rfl

/-- C3. `MergePR` is idempotent: on a pull request that is already merged it
returns the stored pull request unchanged (status and `merged_at` included)
and issues no `Update`, the look-up being its only repository call. Hence,
for every state of the PostgreSQL store containing the pull request, the
first `MergePR` returns it merged and a second `MergePR` right after returns
the same pull request, so the same `merged_at`, and leaves the store in the
state reached after the first call. -/
theorem mergePR_idempotent :
    (∀ {σ : Type} (R : Repos σ) (now : Nat) (prID : String) (s s1 : σ) (pr : PullRequest),
      R.prGetByPRID prID s = (Except.ok pr, s1) → pr.StatusID = StatusMergedID →
      MergePR (traced R) now prID (s, [])
        = (Except.ok pr, (s1, [Event.prGetByPRID prID (Except.ok pr)]))) ∧
    (∀ (now1 now2 : Nat) (prID : String) (s : Store), s.hasPR prID →
      ∃ (pr1 : PullRequest) (s1 : Store),
        MergePR pgRepos now1 prID s = (Except.ok pr1, s1) ∧
        pr1.StatusID = StatusMergedID ∧
        MergePR pgRepos now2 prID s1 = (Except.ok pr1, s1)) :=
  ⟨fun R now prID s s1 pr h hst => by
      simpa using MergePR_merged R now prID s s1 [] pr h hst,
   fun now1 now2 prID s h => MergePR_pg_twice now1 now2 prID s h⟩

/-- Witness of C3: "pr-1" of the sample store, merged at time 7 and merged
again at time 9. -/
theorem mergePR_idempotent_witness :
    MergePR (traced pgRepos) 9 "pr-1" (sampleMerged.2, [])
        = (Except.ok sampleMergedPR,
            (sampleMerged.2, [Event.prGetByPRID "pr-1" (Except.ok sampleMergedPR)])) ∧
    (∃ (pr1 : PullRequest) (s1 : Store),
      MergePR pgRepos 7 "pr-1" sampleCreate.2.1 = (Except.ok pr1, s1) ∧
      pr1.StatusID = StatusMergedID ∧
      MergePR pgRepos 9 "pr-1" s1 = (Except.ok pr1, s1)) :=
  ⟨mergePR_idempotent.1 pgRepos 9 "pr-1" sampleMerged.2 sampleMerged.2 sampleMergedPR rfl rfl,
   mergePR_idempotent.2 7 9 "pr-1" sampleCreate.2.1 ⟨_, List.Mem.head _, rfl⟩⟩

/-! ## The calls of ReassignReviewer -/

/-- What the map `excludeIDs` holds: the author, the old reviewer and the
current reviewers. -/
theorem excludeIDs_eq_true (authorID oldReviewerID : Int) (reviewers : List User) (x : Int) :
    excludeIDs authorID oldReviewerID reviewers x = true ↔
      x = authorID ∨ x = oldReviewerID ∨ x ∈ reviewers.map User.ID := by
  unfold excludeIDs
  suffices hgen : ∀ (m : IDSet), (reviewers.foldl (fun m reviewer => m.insert reviewer.ID) m) x
      = true ↔ m x = true ∨ x ∈ reviewers.map User.ID by
    rw [hgen]
    simp only [IDSet.insert, IDSet.empty]
    by_cases h1 : x = oldReviewerID <;> by_cases h2 : x = authorID <;> simp [h1, h2]
  induction reviewers with
  | nil => intro m; simp
  | cons r rest ih =>
    intro m
    simp only [List.foldl_cons, List.map_cons, List.mem_cons]
    rw [ih]
    simp only [IDSet.insert]
    by_cases h : x = r.ID <;> simp [h]

/-- The calls of a successful `ReassignReviewer`, in order, and what it
returns: the pull request (not merged), the old reviewer, the current
reviewers (the old one among them by external id), the old reviewer's team,
the team list, the removal of the old reviewer and the addition of the first
user selected from the replacement pool. -/
theorem ReassignReviewer_traced_ok {σ : Type} (R : Repos σ) (draws : List Nat)
    (prID oldUserID : String) (s : σ) (log0 : List Event)
    (newUserID : String) (s' : σ) (log : List Event)
    (h : ReassignReviewer (traced R) draws prID oldUserID (s, log0)
      = (Except.ok newUserID, (s', log))) :
    ∃ (pr : PullRequest) (oldReviewer : User) (reviewers : List User) (team : Team)
      (all : List User) (newReviewer : User) (others : List User),
      pr.StatusID ≠ StatusMergedID ∧
      isAssigned reviewers oldUserID = true ∧
      selectRandomReviewers draws
        (replacementPool all pr.AuthorID oldReviewer.ID reviewers) 1 = newReviewer :: others ∧
      newUserID = newReviewer.UserID ∧
      log = log0 ++
        [Event.prGetByPRID prID (Except.ok pr),
         Event.userGetByUserID oldUserID (Except.ok oldReviewer),
         Event.prGetReviewers pr.ID (Except.ok reviewers),
         Event.teamGetByID oldReviewer.TeamID (Except.ok team),
         Event.userGetByTeamID oldReviewer.TeamID (Except.ok all),
         Event.prRemoveReviewer pr.ID oldReviewer.ID (Except.ok ()),
         Event.prAddReviewer pr.ID newReviewer.ID (Except.ok ())] := by
  unfold ReassignReviewer at h
  rcases h1 : R.prGetByPRID prID s with ⟨r1, s1⟩
  cases r1 with
  | error e => simp [h1] at h
  | ok pr =>
  simp only [traced_prGetByPRID, h1] at h
  by_cases hst : pr.StatusID = StatusMergedID
  · simp [hst] at h
  simp only [hst, if_false] at h
  rcases h2 : R.userGetByUserID oldUserID s1 with ⟨r2, s2⟩
  cases r2 with
  | error e2 => simp [h2] at h
  | ok oldReviewer =>
  simp only [traced_userGetByUserID, h2] at h
  rcases h3 : R.prGetReviewers pr.ID s2 with ⟨r3, s3⟩
  cases r3 with
  | error e3 => simp [h3] at h
  | ok reviewers =>
  simp only [traced_prGetReviewers, h3] at h
  by_cases has : isAssigned reviewers oldUserID = true
  swap
  · simp [has] at h
  simp only [has, Bool.not_true, Bool.false_eq_true, if_false] at h
  rcases h4 : R.teamGetByID oldReviewer.TeamID s3 with ⟨r4, s4⟩
  cases r4 with
  | error e4 => simp [h4] at h
  | ok team =>
  simp only [traced_teamGetByID, h4] at h
  rcases h5 : R.userGetByTeamID oldReviewer.TeamID s4 with ⟨r5, s5⟩
  cases r5 with
  | error e5 => simp [getActiveTeamMembersExcluding, h5] at h
  | ok all =>
  simp only [getActiveTeamMembersExcluding, traced_userGetByTeamID, h5] at h
  by_cases hlen : (List.filter (fun user => user.IsActive &&
      !excludeIDs pr.AuthorID oldReviewer.ID reviewers user.ID) all).length = 0
  · simp [hlen] at h
  simp only [hlen, if_false] at h
  rcases hsel : selectRandomReviewers draws (List.filter (fun user => user.IsActive &&
      !excludeIDs pr.AuthorID oldReviewer.ID reviewers user.ID) all) 1
      with _ | ⟨newReviewer, others⟩
  · simp [hsel] at h
  simp only [hsel] at h
  rcases h6 : R.prRemoveReviewer pr.ID oldReviewer.ID s5 with ⟨r6, s6⟩
  cases r6 with
  | error e6 => simp [h6] at h
  | ok u6 =>
  simp only [traced_prRemoveReviewer, h6] at h
  rcases h7 : R.prAddReviewer pr.ID newReviewer.ID s6 with ⟨r7, s7⟩
  cases r7 with
  | error e7 => simp [h7] at h
  | ok u7 =>
  simp only [traced_prAddReviewer, h7, Prod.mk.injEq, Except.ok.injEq] at h
  obtain ⟨hres, _, hlog⟩ := h
  refine ⟨pr, oldReviewer, reviewers, team, all, newReviewer, others, hst, has, hsel,
    hres.symm, ?_⟩
  rw [← hlog]
  simp

/-- The steps of a successful `ReassignReviewer`, with the store after each
repository call. -/
theorem ReassignReviewer_ok_inv {σ : Type} (R : Repos σ) (draws : List Nat)
    (prID oldUserID : String) (s : σ) (newUserID : String) (s' : σ)
    (h : ReassignReviewer R draws prID oldUserID s = (Except.ok newUserID, s')) :
    ∃ (pr : PullRequest) (oldReviewer : User) (reviewers : List User) (team : Team)
      (all : List User) (newReviewer : User) (others : List User) (s1 s2 s3 s4 s5 s6 : σ),
      R.prGetByPRID prID s = (Except.ok pr, s1) ∧
      pr.StatusID ≠ StatusMergedID ∧
      R.userGetByUserID oldUserID s1 = (Except.ok oldReviewer, s2) ∧
      R.prGetReviewers pr.ID s2 = (Except.ok reviewers, s3) ∧
      isAssigned reviewers oldUserID = true ∧
      R.teamGetByID oldReviewer.TeamID s3 = (Except.ok team, s4) ∧
      R.userGetByTeamID oldReviewer.TeamID s4 = (Except.ok all, s5) ∧
      selectRandomReviewers draws
        (replacementPool all pr.AuthorID oldReviewer.ID reviewers) 1 = newReviewer :: others ∧
      R.prRemoveReviewer pr.ID oldReviewer.ID s5 = (Except.ok (), s6) ∧
      R.prAddReviewer pr.ID newReviewer.ID s6 = (Except.ok (), s') ∧
      newUserID = newReviewer.UserID := by
  unfold ReassignReviewer at h
  rcases h1 : R.prGetByPRID prID s with ⟨r1, s1⟩
  cases r1 with
  | error e => simp [h1] at h
  | ok pr =>
  simp only [h1] at h
  by_cases hst : pr.StatusID = StatusMergedID
  · simp [hst] at h
  simp only [hst, if_false] at h
  rcases h2 : R.userGetByUserID oldUserID s1 with ⟨r2, s2⟩
  cases r2 with
  | error e2 => simp [h2] at h
  | ok oldReviewer =>
  simp only [h2] at h
  rcases h3 : R.prGetReviewers pr.ID s2 with ⟨r3, s3⟩
  cases r3 with
  | error e3 => simp [h3] at h
  | ok reviewers =>
  simp only [h3] at h
  by_cases has : isAssigned reviewers oldUserID = true
  swap
  · simp [has] at h
  simp only [has, Bool.not_true, Bool.false_eq_true, if_false] at h
  rcases h4 : R.teamGetByID oldReviewer.TeamID s3 with ⟨r4, s4⟩
  cases r4 with
  | error e4 => simp [h4] at h
  | ok team =>
  simp only [h4] at h
  rcases h5 : R.userGetByTeamID oldReviewer.TeamID s4 with ⟨r5, s5⟩
  cases r5 with
  | error e5 => simp [getActiveTeamMembersExcluding, h5] at h
  | ok all =>
  simp only [getActiveTeamMembersExcluding, h5] at h
  by_cases hlen : (List.filter (fun user => user.IsActive &&
      !excludeIDs pr.AuthorID oldReviewer.ID reviewers user.ID) all).length = 0
  · simp [hlen] at h
  simp only [hlen, if_false] at h
  rcases hsel : selectRandomReviewers draws (List.filter (fun user => user.IsActive &&
      !excludeIDs pr.AuthorID oldReviewer.ID reviewers user.ID) all) 1
      with _ | ⟨newReviewer, others⟩
  · simp [hsel] at h
  simp only [hsel] at h
  rcases h6 : R.prRemoveReviewer pr.ID oldReviewer.ID s5 with ⟨r6, s6⟩
  cases r6 with
  | error e6 => simp [h6] at h
  | ok u6 =>
  simp only [h6] at h
  rcases h7 : R.prAddReviewer pr.ID newReviewer.ID s6 with ⟨r7, s7⟩
  cases r7 with
  | error e7 => simp [h7] at h
  | ok u7 =>
  simp only [h7, Prod.mk.injEq, Except.ok.injEq] at h
  obtain ⟨hres, hs'⟩ := h
  subst hs'
  exact ⟨pr, oldReviewer, reviewers, team, all, newReviewer, others, s1, s2, s3, s4, s5, s6,
    rfl, hst, h2, h3, has, h4, h5, hsel, h6, h7, hres.symm⟩

/-- The user `ReassignReviewer` picks is a member of the replacement pool. -/
theorem selected_mem_pool (draws : List Nat) (candidates : List User)
    (newReviewer : User) (others : List User)
    (h : selectRandomReviewers draws candidates 1 = newReviewer :: others) :
    newReviewer ∈ candidates ∧ others = [] := by
  obtain ⟨p, hp, hsel⟩ := selectRandomReviewers_prefix draws candidates 1
  rw [h] at hsel
  have hmem : newReviewer ∈ List.take (1 : Int).toNat p := by
    rw [← hsel]; exact List.mem_cons_self _ _
  refine ⟨hp.subset (List.mem_of_mem_take hmem), ?_⟩
  have hlen := congrArg List.length hsel
  simp only [List.length_cons, List.length_take] at hlen
  have : others.length = 0 := by
    have : (1 : Int).toNat = 1 := rfl
    omega
  exact List.length_eq_zero.mp this

/-- A member of the replacement pool is an active user of the team list that
is neither the author, nor the old reviewer, nor a current reviewer. -/
theorem mem_replacementPool (team : List User) (authorID oldReviewerID : Int)
    (reviewers : List User) (u : User)
    (h : u ∈ replacementPool team authorID oldReviewerID reviewers) :
    u ∈ team ∧ u.IsActive = true ∧ u.ID ≠ authorID ∧ u.ID ≠ oldReviewerID ∧
      u.ID ∉ reviewers.map User.ID := by
  simp only [replacementPool, List.mem_filter, Bool.and_eq_true, Bool.not_eq_true',
    ← Bool.not_eq_true, excludeIDs_eq_true, not_or] at h
  exact ⟨h.1, h.2.1, h.2.2.1, h.2.2.2.1, h.2.2.2.2⟩

/-! ## Successful calls of the PostgreSQL repositories -/

theorem GetByPRID_pg_ok (prID : String) (s s1 : Store) (pr : PullRequest)
    (h : PRRepo.GetByPRID prID s = (Except.ok pr, s1)) :
    ∃ row, s.pull_requests.find? (fun row => row.pull_request_id == prID) = some row ∧
      pr = row.toPR (s.reviewersOf row.id) ∧ s1 = s := by
  unfold PRRepo.GetByPRID at h
  cases hf : s.pull_requests.find? (fun row => row.pull_request_id == prID) with
  | none => simp [hf] at h
  | some row =>
    simp only [hf, PRRepo.GetReviewers, Prod.mk.injEq, Except.ok.injEq] at h
    exact ⟨row, rfl, h.1.symm, h.2.symm⟩

theorem GetByUserID_pg_ok (userID : String) (s s1 : Store) (user : User)
    (h : UserStorage.GetByUserID userID s = (Except.ok user, s1)) :
    s.users.find? (fun u => u.UserID == userID) = some user ∧ s1 = s := by
  unfold UserStorage.GetByUserID at h
  cases hf : s.users.find? (fun u => u.UserID == userID) with
  | none => simp [hf] at h
  | some u =>
    simp only [hf, Prod.mk.injEq, Except.ok.injEq] at h
    exact ⟨by rw [h.1], h.2.symm⟩

theorem GetByID_pg_ok (teamID : Int) (s s1 : Store) (team : Team)
    (h : TeamRepo.GetByID teamID s = (Except.ok team, s1)) : s1 = s := by
  unfold TeamRepo.GetByID at h
  cases hf : s.teams.find? (fun row => row.id == teamID) with
  | none => simp [hf] at h
  | some row =>
    simp only [hf, Prod.mk.injEq] at h
    exact h.2.symm

theorem RemoveReviewer_pg_ok (prID reviewerID : Int) (s s1 : Store)
    (h : PRRepo.RemoveReviewer prID reviewerID s = (Except.ok (), s1)) :
    (prID, reviewerID) ∈ s.pr_reviewers ∧
      s1 = { s with pr_reviewers :=
        s.pr_reviewers.filter (fun prr => !(prr == (prID, reviewerID))) } := by
  unfold PRRepo.RemoveReviewer at h
  split at h
  · simp at h
  · rename_i hne
    simp only [Prod.mk.injEq, true_and] at h
    refine ⟨?_, h.symm⟩
    have hpos : 0 < (s.pr_reviewers.filter (fun prr => prr == (prID, reviewerID))).length :=
      Nat.pos_of_ne_zero hne
    obtain ⟨x, hx⟩ := List.exists_mem_of_length_pos hpos
    rw [List.mem_filter] at hx
    have : x = (prID, reviewerID) := by simpa using hx.2
    rw [← this]
    exact hx.1

/-- A user of the store who is associated with the pull request is among the
reviewers `GetReviewers` returns. -/
theorem mem_reviewersOf (s : Store) (prID : Int) (u : User)
    (hu : u ∈ s.users) (hr : (prID, u.ID) ∈ s.pr_reviewers) : u ∈ s.reviewersOf prID := by
  unfold Store.reviewersOf
  rw [List.mem_flatten]
  refine ⟨s.users.filter (fun v => v.ID == u.ID), ?_, ?_⟩
  · rw [List.mem_map]
    exact ⟨(prID, u.ID), by simp [List.mem_filter, hr], rfl⟩
  · simp [List.mem_filter, hu]

/-- A successful `ReassignReviewer` on the PostgreSQL repositories: the rows
it read, the user it picked and the store it leaves. -/
theorem ReassignReviewer_pg_ok (draws : List Nat) (prID oldUserID : String) (s s' : Store)
    (newUserID : String)
    (h : ReassignReviewer pgRepos draws prID oldUserID s = (Except.ok newUserID, s')) :
    ∃ (row : PRRow) (oldReviewer newReviewer : User),
      s.pull_requests.find? (fun row => row.pull_request_id == prID) = some row ∧
      row.status_id ≠ StatusMergedID ∧
      s.users.find? (fun u => u.UserID == oldUserID) = some oldReviewer ∧
      selectRandomReviewers draws
        (replacementPool (s.users.filter (fun u => u.TeamID == oldReviewer.TeamID))
          row.author_id oldReviewer.ID (s.reviewersOf row.id)) 1 = [newReviewer] ∧
      newUserID = newReviewer.UserID ∧
      (row.id, oldReviewer.ID) ∈ s.pr_reviewers ∧
      (row.id, newReviewer.ID) ∉ s.pr_reviewers ∧
      s' = { s with pr_reviewers :=
        s.pr_reviewers.filter (fun prr => !(prr == (row.id, oldReviewer.ID)))
          ++ [(row.id, newReviewer.ID)] } := by
  obtain ⟨pr, oldReviewer, reviewers, team, all, newReviewer, others, s1, s2, s3, s4, s5, s6,
    h1, hst, h2, h3, has, h4, h5, hsel, h6, h7, hres⟩ :=
    ReassignReviewer_ok_inv pgRepos draws prID oldUserID s newUserID s' h
  simp only [pgRepos_prGetByPRID, pgRepos_userGetByUserID, pgRepos_prGetReviewers,
    pgRepos_teamGetByID, pgRepos_userGetByTeamID, pgRepos_prRemoveReviewer,
    pgRepos_prAddReviewer] at h1 h2 h3 h4 h5 h6 h7
  obtain ⟨row, hrow, hpr, rfl⟩ := GetByPRID_pg_ok prID s s1 pr h1
  obtain ⟨hold, rfl⟩ := GetByUserID_pg_ok oldUserID _ s2 oldReviewer h2
  simp only [PRRepo.GetReviewers, Prod.mk.injEq, Except.ok.injEq] at h3
  obtain ⟨hrev, rfl⟩ := h3
  have := GetByID_pg_ok _ _ s4 team h4
  subst this
  simp only [UserStorage.GetByTeamID, Prod.mk.injEq, Except.ok.injEq] at h5
  obtain ⟨hall, rfl⟩ := h5
  obtain ⟨hmem, hothers⟩ := selected_mem_pool draws _ newReviewer others hsel
  subst hothers
  obtain ⟨hrm, hs6⟩ := RemoveReviewer_pg_ok _ _ _ s6 h6
  have hprid : pr.ID = row.id := by rw [hpr]; rfl
  have hauth : pr.AuthorID = row.author_id := by rw [hpr]; rfl
  have hpool := mem_replacementPool _ _ _ _ _ hmem
  have hnew_users : newReviewer ∈ s4.users := by
    have := hpool.1
    rw [← hall] at this
    exact (List.mem_filter.mp this).1
  have hnotin : (row.id, newReviewer.ID) ∉ s4.pr_reviewers := by
    intro hin
    have := mem_reviewersOf s4 row.id newReviewer hnew_users hin
    apply hpool.2.2.2.2
    rw [← hrev, hprid]
    exact List.mem_map_of_mem _ this
  refine ⟨row, oldReviewer, newReviewer, hrow, by rw [hpr] at hst; exact hst, hold, ?_, hres,
    by rw [← hprid]; exact hrm, hnotin, ?_⟩
  · rw [← hsel, ← hall, ← hrev, hprid, hauth]
  · subst hs6
    have hnotin' : (pr.ID, newReviewer.ID) ∉
        s4.pr_reviewers.filter (fun prr => !(prr == (pr.ID, oldReviewer.ID))) := by
      intro hin
      rw [hprid] at hin
      exact hnotin (List.mem_filter.mp hin).1
    simp only [PRRepo.AddReviewer, hnotin', if_false, Prod.mk.injEq, true_and] at h7
    rw [← h7, hprid]

theorem mem_reviewerIDs (s : Store) (prID x : Int) :
    x ∈ s.reviewerIDs prID ↔ (prID, x) ∈ s.pr_reviewers := by
  unfold Store.reviewerIDs
  simp only [List.mem_map, List.mem_filter, beq_iff_eq]
  constructor
  · rintro ⟨⟨a, b⟩, ⟨hmem, ha⟩, hb⟩
    simp only at ha hb
    subst ha; subst hb
    exact hmem
  · intro h
    exact ⟨(prID, x), ⟨h, rfl⟩, rfl⟩

/-! ## C4: whom a reassignment puts in -/

/-- C4. After every successful `ReassignReviewer` the new reviewer's surrogate
id differs from the author's and from the old reviewer's and is not the id of
a reviewer the pull request had before the call (the list `GetReviewers`
returned), and the old reviewer has been removed: for every repository
implementation the call removes `(pr, old reviewer)` and then adds
`(pr, new reviewer)`, and on the PostgreSQL repositories the old reviewer's
id is no longer associated with the pull request afterwards while the new
one, which was not associated before, is. -/
theorem reassign_exclusion :
    (∀ {σ : Type} (R : Repos σ) (draws : List Nat) (prID oldUserID : String) (s s' : σ)
      (newUserID : String) (log : List Event),
      ReassignReviewer (traced R) draws prID oldUserID (s, [])
        = (Except.ok newUserID, (s', log)) →
      ∃ (pr : PullRequest) (oldReviewer : User) (reviewers : List User) (team : Team)
        (all : List User) (newReviewer : User),
        log = [Event.prGetByPRID prID (Except.ok pr),
          Event.userGetByUserID oldUserID (Except.ok oldReviewer),
          Event.prGetReviewers pr.ID (Except.ok reviewers),
          Event.teamGetByID oldReviewer.TeamID (Except.ok team),
          Event.userGetByTeamID oldReviewer.TeamID (Except.ok all),
          Event.prRemoveReviewer pr.ID oldReviewer.ID (Except.ok ()),
          Event.prAddReviewer pr.ID newReviewer.ID (Except.ok ())] ∧
        newUserID = newReviewer.UserID ∧
        newReviewer.ID ≠ pr.AuthorID ∧
        newReviewer.ID ≠ oldReviewer.ID ∧
        newReviewer.ID ∉ reviewers.map User.ID) ∧
    (∀ (draws : List Nat) (prID oldUserID : String) (s s' : Store) (newUserID : String),
      ReassignReviewer pgRepos draws prID oldUserID s = (Except.ok newUserID, s') →
      ∃ (row : PRRow) (oldReviewer newReviewer : User),
        s.pull_requests.find? (fun row => row.pull_request_id == prID) = some row ∧
        s.users.find? (fun u => u.UserID == oldUserID) = some oldReviewer ∧
        newReviewer ∈ s.users ∧
        newUserID = newReviewer.UserID ∧
        newReviewer.ID ≠ row.author_id ∧
        newReviewer.ID ≠ oldReviewer.ID ∧
        newReviewer.ID ∉ s.reviewerIDs row.id ∧
        oldReviewer.ID ∉ s'.reviewerIDs row.id ∧
        newReviewer.ID ∈ s'.reviewerIDs row.id) := by
  constructor
  · intro σ R draws prID oldUserID s s' newUserID log h
    obtain ⟨pr, oldReviewer, reviewers, team, all, newReviewer, others, _, _, hsel, hres,
      hlog⟩ := ReassignReviewer_traced_ok R draws prID oldUserID s [] newUserID s' log h
    have hpool := mem_replacementPool _ _ _ _ _ (selected_mem_pool draws _ _ _ hsel).1
    exact ⟨pr, oldReviewer, reviewers, team, all, newReviewer, by simpa using hlog, hres,
      hpool.2.2.1, hpool.2.2.2.1, hpool.2.2.2.2⟩
  · intro draws prID oldUserID s s' newUserID h
    obtain ⟨row, oldReviewer, newReviewer, hrow, _, hold, hsel, hres, _, hnotin, hs'⟩ :=
      ReassignReviewer_pg_ok draws prID oldUserID s s' newUserID h
    have hpool := mem_replacementPool _ _ _ _ _
      (selected_mem_pool draws _ _ _ hsel).1
    refine ⟨row, oldReviewer, newReviewer, hrow, hold, (List.mem_filter.mp hpool.1).1, hres,
      hpool.2.2.1, hpool.2.2.2.1, ?_, ?_, ?_⟩
    · rw [mem_reviewerIDs]; exact hnotin
    · rw [mem_reviewerIDs, hs']
      simp only [List.mem_append, List.mem_filter, List.mem_singleton, Prod.mk.injEq,
        true_and, not_or]
      refine ⟨by simp, fun heq => hpool.2.2.2.1 heq.symm⟩
    · rw [mem_reviewerIDs, hs']
      simp

/-- Witness of C4: u2 is replaced on "pr-1" of the sample store. -/
theorem reassign_exclusion_witness :
    (∃ (pr : PullRequest) (oldReviewer : User) (reviewers : List User) (team : Team)
        (all : List User) (newReviewer : User),
        sampleReassign.2.2 = [Event.prGetByPRID "pr-1" (Except.ok pr),
          Event.userGetByUserID "u2" (Except.ok oldReviewer),
          Event.prGetReviewers pr.ID (Except.ok reviewers),
          Event.teamGetByID oldReviewer.TeamID (Except.ok team),
          Event.userGetByTeamID oldReviewer.TeamID (Except.ok all),
          Event.prRemoveReviewer pr.ID oldReviewer.ID (Except.ok ()),
          Event.prAddReviewer pr.ID newReviewer.ID (Except.ok ())] ∧
        "u4" = newReviewer.UserID ∧
        newReviewer.ID ≠ pr.AuthorID ∧
        newReviewer.ID ≠ oldReviewer.ID ∧
        newReviewer.ID ∉ reviewers.map User.ID) ∧
    (∃ (row : PRRow) (oldReviewer newReviewer : User),
        sampleCreate.2.1.pull_requests.find? (fun row => row.pull_request_id == "pr-1")
          = some row ∧
        sampleCreate.2.1.users.find? (fun u => u.UserID == "u2") = some oldReviewer ∧
        newReviewer ∈ sampleCreate.2.1.users ∧
        "u4" = newReviewer.UserID ∧
        newReviewer.ID ≠ row.author_id ∧
        newReviewer.ID ≠ oldReviewer.ID ∧
        newReviewer.ID ∉ sampleCreate.2.1.reviewerIDs row.id ∧
        oldReviewer.ID ∉ sampleReassign.2.1.reviewerIDs row.id ∧
        newReviewer.ID ∈ sampleReassign.2.1.reviewerIDs row.id) :=
  ⟨reassign_exclusion.1 pgRepos [5] "pr-1" "u2" sampleCreate.2.1 sampleReassign.2.1 "u4"
      sampleReassign.2.2 rfl,
   reassign_exclusion.2 [5] "pr-1" "u2" sampleCreate.2.1 sampleReassign.2.1 "u4" rfl⟩

/-! ## C5 and C6: reassignments that are refused -/

/-- C5. `ReassignReviewer` on a pull request that `GetByPRID` returns as
merged fails with exactly `ErrPRMerged`, whatever the `old_reviewer_id`, and
the look-up is its only repository call: neither `RemoveReviewer` nor
`AddReviewer` is called. On the PostgreSQL repositories the store, and with
it the reviewer set, is unchanged. -/
theorem reassign_merged :
    (∀ {σ : Type} (R : Repos σ) (draws : List Nat) (prID oldUserID : String) (s s1 : σ)
      (pr : PullRequest),
      R.prGetByPRID prID s = (Except.ok pr, s1) → pr.StatusID = StatusMergedID →
      ReassignReviewer (traced R) draws prID oldUserID (s, [])
        = (Except.error ErrPRMerged, (s1, [Event.prGetByPRID prID (Except.ok pr)]))) ∧
    (∀ (draws : List Nat) (prID oldUserID : String) (s : Store) (row : PRRow),
      s.pull_requests.find? (fun row => row.pull_request_id == prID) = some row →
      row.status_id = StatusMergedID →
      ReassignReviewer pgRepos draws prID oldUserID s = (Except.error ErrPRMerged, s)) := by
  constructor
  · intro σ R draws prID oldUserID s s1 pr h hst
    simp [ReassignReviewer, h, hst]
  · intro draws prID oldUserID s row h hst
    simp [ReassignReviewer, PRRepo.GetByPRID, PRRepo.GetReviewers, h, PRRow.toPR, hst]

/-- Witness of C5: the merged "pr-1" of the sample store and a user id that
does not exist. -/
theorem reassign_merged_witness :
    ReassignReviewer (traced pgRepos) [] "pr-1" "nobody" (sampleMerged.2, [])
        = (Except.error ErrPRMerged,
            (sampleMerged.2, [Event.prGetByPRID "pr-1" (Except.ok sampleMergedPR)])) ∧
    ReassignReviewer pgRepos [] "pr-1" "nobody" sampleMerged.2
        = (Except.error ErrPRMerged, sampleMerged.2) :=
  ⟨reassign_merged.1 pgRepos [] "pr-1" "nobody" sampleMerged.2 sampleMerged.2
      sampleMergedPR rfl rfl,
   reassign_merged.2 [] "pr-1" "nobody" sampleMerged.2
      { id := 1, pull_request_id := "pr-1", pull_request_name := "Add X", author_id := 1,
        status_id := StatusMergedID, merged_at := some 7, created_at := 100 } rfl rfl⟩

/-- On the PostgreSQL repositories a user of the store whose surrogate id is
associated with the pull request passes the assignment check of
`ReassignReviewer` under their own external id. -/
theorem isAssigned_pg (s : Store) (prID : Int) (userID : String) (user : User)
    (hu : s.users.find? (fun u => u.UserID == userID) = some user)
    (hr : (prID, user.ID) ∈ s.pr_reviewers) :
    isAssigned (s.reviewersOf prID) userID = true := by
  have hmem : user ∈ s.users := List.mem_of_find?_eq_some hu
  have hid : user.UserID = userID := by simpa using List.find?_some hu
  unfold isAssigned
  rw [List.any_eq_true]
  exact ⟨user, mem_reviewersOf s prID user hmem hr, by simp [hid]⟩

/-- C6. For an open pull request and an assigned old reviewer, when no
active member of the old reviewer's team remains after excluding the author,
the old reviewer and the current reviewers, `ReassignReviewer` fails with
exactly `ErrNoCandidate` after its five look-ups and calls neither
`RemoveReviewer` nor `AddReviewer`. On the PostgreSQL repositories the store
is unchanged, so the old reviewer remains assigned. -/
theorem reassign_no_candidate :
    (∀ {σ : Type} (R : Repos σ) (draws : List Nat) (prID oldUserID : String)
      (s s1 s2 s3 s4 s5 : σ) (pr : PullRequest) (oldReviewer : User)
      (reviewers : List User) (team : Team) (all : List User),
      R.prGetByPRID prID s = (Except.ok pr, s1) → pr.StatusID = StatusOpenID →
      R.userGetByUserID oldUserID s1 = (Except.ok oldReviewer, s2) →
      R.prGetReviewers pr.ID s2 = (Except.ok reviewers, s3) →
      isAssigned reviewers oldUserID = true →
      R.teamGetByID oldReviewer.TeamID s3 = (Except.ok team, s4) →
      R.userGetByTeamID oldReviewer.TeamID s4 = (Except.ok all, s5) →
      replacementPool all pr.AuthorID oldReviewer.ID reviewers = [] →
      ReassignReviewer (traced R) draws prID oldUserID (s, [])
        = (Except.error ErrNoCandidate,
            (s5, [Event.prGetByPRID prID (Except.ok pr),
              Event.userGetByUserID oldUserID (Except.ok oldReviewer),
              Event.prGetReviewers pr.ID (Except.ok reviewers),
              Event.teamGetByID oldReviewer.TeamID (Except.ok team),
              Event.userGetByTeamID oldReviewer.TeamID (Except.ok all)]))) ∧
    (∀ (draws : List Nat) (prID oldUserID : String) (s : Store) (row : PRRow)
      (oldReviewer : User) (team : TeamRow),
      s.pull_requests.find? (fun row => row.pull_request_id == prID) = some row →
      row.status_id = StatusOpenID →
      s.users.find? (fun u => u.UserID == oldUserID) = some oldReviewer →
      (row.id, oldReviewer.ID) ∈ s.pr_reviewers →
      s.teams.find? (fun t => t.id == oldReviewer.TeamID) = some team →
      replacementPool (s.users.filter (fun u => u.TeamID == oldReviewer.TeamID))
        row.author_id oldReviewer.ID (s.reviewersOf row.id) = [] →
      ReassignReviewer pgRepos draws prID oldUserID s = (Except.error ErrNoCandidate, s)) := by
  constructor
  · intro σ R draws prID oldUserID s s1 s2 s3 s4 s5 pr oldReviewer reviewers team all
      h1 hst h2 h3 has h4 h5 hpool
    have hst' : pr.StatusID ≠ StatusMergedID := by
      rw [hst]; decide
    unfold replacementPool at hpool
    simp [ReassignReviewer, getActiveTeamMembersExcluding, h1, hst', h2, h3, has, h4, h5,
      hpool]
  · intro draws prID oldUserID s row oldReviewer team h1 hst h2 hr h4 hpool
    have hst' : row.status_id ≠ StatusMergedID := by
      rw [hst]; decide
    have has := isAssigned_pg s row.id oldUserID oldReviewer h2 hr
    unfold replacementPool at hpool
    simp only [ReassignReviewer, getActiveTeamMembersExcluding, pgRepos_prGetByPRID,
      pgRepos_userGetByUserID, pgRepos_prGetReviewers, pgRepos_teamGetByID,
      pgRepos_userGetByTeamID, PRRepo.GetByPRID, PRRepo.GetReviewers, h1, PRRow.toPR, hst',
      if_false, UserStorage.GetByUserID, h2, has, Bool.not_true, Bool.false_eq_true,
      TeamRepo.GetByID, h4, UserStorage.GetByTeamID, hpool, List.length_nil, if_true]

/-- Witness of C6: the team has only the author u1 and the reviewer u2. -/
theorem reassign_no_candidate_witness :
    ReassignReviewer (traced pgRepos) [] "pr-1" "u2" (smallStore, [])
        = (Except.error ErrNoCandidate,
            (smallStore, [Event.prGetByPRID "pr-1" (Except.ok smallPR),
              Event.userGetByUserID "u2" (Except.ok (sampleUser 2 "u2" true 1)),
              Event.prGetReviewers 1 (Except.ok [sampleUser 2 "u2" true 1]),
              Event.teamGetByID 1
                (Except.ok { ID := 1, Name := "backend", CreatedAt := 0, Users := [] }),
              Event.userGetByTeamID 1
                (Except.ok [sampleUser 1 "u1" true 1, sampleUser 2 "u2" true 1])])) ∧
    ReassignReviewer pgRepos [] "pr-1" "u2" smallStore
        = (Except.error ErrNoCandidate, smallStore) :=
  ⟨reassign_no_candidate.1 pgRepos [] "pr-1" "u2" smallStore smallStore smallStore
      smallStore smallStore smallStore smallPR (sampleUser 2 "u2" true 1)
      [sampleUser 2 "u2" true 1]
      { ID := 1, Name := "backend", CreatedAt := 0, Users := [] }
      [sampleUser 1 "u1" true 1, sampleUser 2 "u2" true 1] rfl rfl rfl rfl rfl rfl rfl rfl,
   reassign_no_candidate.2 [] "pr-1" "u2" smallStore
      { id := 1, pull_request_id := "pr-1", pull_request_name := "Add X", author_id := 1,
        status_id := StatusOpenID, merged_at := none, created_at := 100 }
      (sampleUser 2 "u2" true 1) { id := 1, name := "backend", created_at := 0 }
      rfl rfl rfl (List.Mem.head _) rfl rfl⟩

/-! ## C7: the assignment check -/

/-- C7 fails as stated: the assignment check compares external ids. With a
reviewer list whose only member has surrogate id 3 and external id "u2", the
old reviewer "u2", resolved to surrogate id 2, has no reviewer with their
surrogate id and yet the call does not fail with `ErrNotAssigned` (it goes on
to `ErrNoCandidate`); and with a reviewer of surrogate id 2 and external id
"u9" the call fails with `ErrNotAssigned` although a reviewer has the old
reviewer's surrogate id. -/
theorem reassign_not_assigned_by_surrogate_id_fails :
    ((∀ r ∈ [sampleUser 3 "u2" true 1], r.ID ≠ (sampleUser 2 "u2" true 1).ID) ∧
      (ReassignReviewer
        (stubRepos smallPR (sampleUser 2 "u2" true 1) [sampleUser 3 "u2" true 1] [])
        [] "pr-1" "u2" ()).1 = Except.error ErrNoCandidate) ∧
    ((∃ r ∈ [sampleUser 2 "u9" true 1], r.ID = (sampleUser 2 "u2" true 1).ID) ∧
      (ReassignReviewer
        (stubRepos smallPR (sampleUser 2 "u2" true 1) [sampleUser 2 "u9" true 1] [])
        [] "pr-1" "u2" ()).1 = Except.error ErrNotAssigned) := by
  refine ⟨⟨by decide, rfl⟩, ⟨by decide, rfl⟩⟩

/-- Past the assignment check `ReassignReviewer` never returns
`ErrNotAssigned`. -/
theorem ReassignReviewer_assigned_ne {σ : Type} (R : Repos σ) (draws : List Nat)
    (prID oldUserID : String) (s s1 s2 s3 : σ) (pr : PullRequest) (oldReviewer : User)
    (reviewers : List User)
    (h1 : R.prGetByPRID prID s = (Except.ok pr, s1)) (hst : pr.StatusID ≠ StatusMergedID)
    (h2 : R.userGetByUserID oldUserID s1 = (Except.ok oldReviewer, s2))
    (h3 : R.prGetReviewers pr.ID s2 = (Except.ok reviewers, s3))
    (has : isAssigned reviewers oldUserID = true) :
    (ReassignReviewer R draws prID oldUserID s).1 ≠ Except.error ErrNotAssigned := by
  simp only [ReassignReviewer, h1, hst, if_false, h2, h3, has, Bool.not_true,
    Bool.false_eq_true, getActiveTeamMembersExcluding]
  rcases R.teamGetByID oldReviewer.TeamID s3 with ⟨r4, s4⟩
  cases r4 with
  | error e4 => simp [ErrNotAssigned]
  | ok team =>
  simp only
  rcases R.userGetByTeamID oldReviewer.TeamID s4 with ⟨r5, s5⟩
  cases r5 with
  | error e5 => simp [ErrNotAssigned]
  | ok all =>
  simp only
  split
  · simp [ErrNotAssigned, ErrNoCandidate]
  · split
    · simp [ErrNotAssigned]
    · rename_i newReviewer others hsel
      rcases R.prRemoveReviewer pr.ID oldReviewer.ID s5 with ⟨r6, s6⟩
      cases r6 with
      | error e6 => simp [ErrNotAssigned]
      | ok u6 =>
      simp only
      rcases R.prAddReviewer pr.ID newReviewer.ID s6 with ⟨r7, s7⟩
      cases r7 <;> simp [ErrNotAssigned]

/-- The reviewers `GetReviewers` returns are users of the store whose
surrogate id is associated with the pull request. -/
theorem of_mem_reviewersOf (s : Store) (prID : Int) (u : User)
    (h : u ∈ s.reviewersOf prID) : u ∈ s.users ∧ (prID, u.ID) ∈ s.pr_reviewers := by
  unfold Store.reviewersOf at h
  rw [List.mem_flatten] at h
  obtain ⟨l, hl, hu⟩ := h
  rw [List.mem_map] at hl
  obtain ⟨⟨a, b⟩, hprr, rfl⟩ := hl
  simp only [List.mem_filter, beq_iff_eq] at hprr hu
  obtain ⟨hmem, ha⟩ := hprr
  obtain ⟨hu1, hu2⟩ := hu
  have ha' : a = prID := ha
  have hu2' : u.ID = b := hu2
  subst ha'
  subst hu2'
  exact ⟨hu1, hmem⟩

/-- C7, amended. For an open pull request, an `old_reviewer_id` that resolves
to a user and the reviewer list `GetReviewers` returns, `ReassignReviewer`
fails with exactly `ErrNotAssigned` if and only if no member of the list has
the external id (`User.UserID`) equal to `old_reviewer_id`: the membership
test is an exact match on the external id, not on the surrogate id. On the
PostgreSQL repositories with unique `user_id`s this is the case exactly when
the resolved old reviewer's surrogate id is not associated with the pull
request. -/
theorem reassign_not_assigned_iff :
    (∀ {σ : Type} (R : Repos σ) (draws : List Nat) (prID oldUserID : String)
      (s s1 s2 s3 : σ) (pr : PullRequest) (oldReviewer : User) (reviewers : List User),
      R.prGetByPRID prID s = (Except.ok pr, s1) → pr.StatusID = StatusOpenID →
      R.userGetByUserID oldUserID s1 = (Except.ok oldReviewer, s2) →
      R.prGetReviewers pr.ID s2 = (Except.ok reviewers, s3) →
      ((ReassignReviewer R draws prID oldUserID s).1 = Except.error ErrNotAssigned ↔
        ∀ r ∈ reviewers, r.UserID ≠ oldUserID)) ∧
    (∀ (draws : List Nat) (prID oldUserID : String) (s : Store) (row : PRRow)
      (oldReviewer : User),
      s.uniqueUserIDs →
      s.pull_requests.find? (fun row => row.pull_request_id == prID) = some row →
      row.status_id = StatusOpenID →
      s.users.find? (fun u => u.UserID == oldUserID) = some oldReviewer →
      ((ReassignReviewer pgRepos draws prID oldUserID s).1 = Except.error ErrNotAssigned ↔
        oldReviewer.ID ∉ s.reviewerIDs row.id)) := by
  have hgen : ∀ {σ : Type} (R : Repos σ) (draws : List Nat) (prID oldUserID : String)
      (s s1 s2 s3 : σ) (pr : PullRequest) (oldReviewer : User) (reviewers : List User),
      R.prGetByPRID prID s = (Except.ok pr, s1) → pr.StatusID = StatusOpenID →
      R.userGetByUserID oldUserID s1 = (Except.ok oldReviewer, s2) →
      R.prGetReviewers pr.ID s2 = (Except.ok reviewers, s3) →
      ((ReassignReviewer R draws prID oldUserID s).1 = Except.error ErrNotAssigned ↔
        ∀ r ∈ reviewers, r.UserID ≠ oldUserID) := by
    intro σ R draws prID oldUserID s s1 s2 s3 pr oldReviewer reviewers h1 hst h2 h3
    have hst' : pr.StatusID ≠ StatusMergedID := by
      rw [hst]; decide
    by_cases has : isAssigned reviewers oldUserID = true
    · have hne := ReassignReviewer_assigned_ne R draws prID oldUserID s s1 s2 s3 pr
        oldReviewer reviewers h1 hst' h2 h3 has
      constructor
      · intro h; exact absurd h hne
      · intro h
        unfold isAssigned at has
        rw [List.any_eq_true] at has
        obtain ⟨r, hr, heq⟩ := has
        exact absurd (by simpa using heq) (h r hr)
    · constructor
      · intro _ r hr heq
        apply has
        unfold isAssigned
        rw [List.any_eq_true]
        exact ⟨r, hr, by simp [heq]⟩
      · intro _
        simp [ReassignReviewer, h1, hst', h2, h3, has]
  refine ⟨hgen, ?_⟩
  intro draws prID oldUserID s row oldReviewer huniq hrow hst hold
  have hmem : oldReviewer ∈ s.users := List.mem_of_find?_eq_some hold
  have hid : oldReviewer.UserID = oldUserID := by simpa using List.find?_some hold
  have h := hgen pgRepos draws prID oldUserID s s s s (row.toPR (s.reviewersOf row.id))
    oldReviewer (s.reviewersOf row.id)
    (by simp [PRRepo.GetByPRID, PRRepo.GetReviewers, hrow]) hst
    (by simp [UserStorage.GetByUserID, hold])
    (by simp [PRRepo.GetReviewers, PRRow.toPR])
  rw [h, mem_reviewerIDs]
  constructor
  · intro hall hin
    exact hall oldReviewer (mem_reviewersOf s row.id oldReviewer hmem hin) hid
  · intro hnot r hr heq
    obtain ⟨hru, hrr⟩ := of_mem_reviewersOf s row.id r hr
    have : r = oldReviewer := huniq r hru oldReviewer hmem (by rw [heq, hid])
    rw [this] at hrr
    exact hnot hrr

/-- Witness of C7, amended: u3 is not a reviewer of "pr-1" of the small
store. -/
theorem reassign_not_assigned_iff_witness :
    ((ReassignReviewer
        (stubRepos smallPR (sampleUser 2 "u2" true 1) [sampleUser 3 "u3" true 1] [])
        [] "pr-1" "u2" ()).1 = Except.error ErrNotAssigned ↔
      ∀ r ∈ [sampleUser 3 "u3" true 1], r.UserID ≠ "u2") ∧
    ((ReassignReviewer pgRepos [] "pr-1" "u1" smallStore).1 = Except.error ErrNotAssigned ↔
      (sampleUser 1 "u1" true 1).ID ∉ smallStore.reviewerIDs 1) :=
  ⟨reassign_not_assigned_iff.1
      (stubRepos smallPR (sampleUser 2 "u2" true 1) [sampleUser 3 "u3" true 1] [])
      [] "pr-1" "u2" () () () () smallPR (sampleUser 2 "u2" true 1)
      [sampleUser 3 "u3" true 1] rfl rfl rfl rfl,
   reassign_not_assigned_iff.2 [] "pr-1" "u1" smallStore
      { id := 1, pull_request_id := "pr-1", pull_request_name := "Add X", author_id := 1,
        status_id := StatusOpenID, merged_at := none, created_at := 100 }
      (sampleUser 1 "u1" true 1) (by unfold Store.uniqueUserIDs; decide) rfl rfl rfl⟩

/-! ## C8: a reassignment that fails half way -/

/-- What a failed `ReassignReviewer` leaves behind: a property of the store
that the five look-ups and a failed `RemoveReviewer` preserve still holds,
unless `RemoveReviewer` succeeded and `AddReviewer` failed. -/
theorem ReassignReviewer_error_frame {σ : Type} (R : Repos σ) (P : σ → Prop)
    (hP1 : ∀ (x : String) (s : σ), P s → P (R.prGetByPRID x s).2)
    (hP2 : ∀ (x : String) (s : σ), P s → P (R.userGetByUserID x s).2)
    (hP3 : ∀ (x : Int) (s : σ), P s → P (R.prGetReviewers x s).2)
    (hP4 : ∀ (x : Int) (s : σ), P s → P (R.teamGetByID x s).2)
    (hP5 : ∀ (x : Int) (s : σ), P s → P (R.userGetByTeamID x s).2)
    (hP6 : ∀ (x y : Int) (s s' : σ) (e : Err), P s →
      R.prRemoveReviewer x y s = (Except.error e, s') → P s')
    (draws : List Nat) (prID oldUserID : String) (s s' : σ) (e : Err) (hs : P s)
    (h : ReassignReviewer R draws prID oldUserID s = (Except.error e, s')) :
    P s' ∨
    ∃ (pr : PullRequest) (oldReviewer newReviewer : User) (s1 s2 s5 s6 : σ) (e7 : Err),
      R.prGetByPRID prID s = (Except.ok pr, s1) ∧ P s1 ∧
      R.userGetByUserID oldUserID s1 = (Except.ok oldReviewer, s2) ∧ P s5 ∧
      R.prRemoveReviewer pr.ID oldReviewer.ID s5 = (Except.ok (), s6) ∧
      R.prAddReviewer pr.ID newReviewer.ID s6 = (Except.error e7, s') ∧
      e = Err.wrap "failed to add new reviewer: %w" e7 := by
  unfold ReassignReviewer at h
  have k1 := hP1 prID s hs
  rcases h1 : R.prGetByPRID prID s with ⟨r1, s1⟩
  rw [h1] at k1
  cases r1 with
  | error e1 =>
    simp only [h1, Prod.mk.injEq] at h
    exact Or.inl (h.2 ▸ k1)
  | ok pr =>
  simp only [h1] at h
  by_cases hst : pr.StatusID = StatusMergedID
  · simp only [hst, if_true, Prod.mk.injEq] at h
    exact Or.inl (h.2 ▸ k1)
  simp only [hst, if_false] at h
  have k2 := hP2 oldUserID s1 k1
  rcases h2 : R.userGetByUserID oldUserID s1 with ⟨r2, s2⟩
  rw [h2] at k2
  cases r2 with
  | error e2 =>
    simp only [h2, Prod.mk.injEq] at h
    exact Or.inl (h.2 ▸ k2)
  | ok oldReviewer =>
  simp only [h2] at h
  have k3 := hP3 pr.ID s2 k2
  rcases h3 : R.prGetReviewers pr.ID s2 with ⟨r3, s3⟩
  rw [h3] at k3
  cases r3 with
  | error e3 =>
    simp only [h3, Prod.mk.injEq] at h
    exact Or.inl (h.2 ▸ k3)
  | ok reviewers =>
  simp only [h3] at h
  by_cases has : isAssigned reviewers oldUserID = true
  swap
  · simp only [has, Bool.not_false, if_true, Prod.mk.injEq] at h
    exact Or.inl (h.2 ▸ k3)
  simp only [has, Bool.not_true, Bool.false_eq_true, if_false] at h
  have k4 := hP4 oldReviewer.TeamID s3 k3
  rcases h4 : R.teamGetByID oldReviewer.TeamID s3 with ⟨r4, s4⟩
  rw [h4] at k4
  cases r4 with
  | error e4 =>
    simp only [h4, Prod.mk.injEq] at h
    exact Or.inl (h.2 ▸ k4)
  | ok team =>
  simp only [h4] at h
  have k5 := hP5 oldReviewer.TeamID s4 k4
  rcases h5 : R.userGetByTeamID oldReviewer.TeamID s4 with ⟨r5, s5⟩
  rw [h5] at k5
  cases r5 with
  | error e5 =>
    simp only [getActiveTeamMembersExcluding, h5, Prod.mk.injEq] at h
    exact Or.inl (h.2 ▸ k5)
  | ok all =>
  simp only [getActiveTeamMembersExcluding, h5] at h
  by_cases hlen : (List.filter (fun user => user.IsActive &&
      !excludeIDs pr.AuthorID oldReviewer.ID reviewers user.ID) all).length = 0
  · simp only [hlen, if_true, Prod.mk.injEq] at h
    exact Or.inl (h.2 ▸ k5)
  simp only [hlen, if_false] at h
  rcases hsel : selectRandomReviewers draws (List.filter (fun user => user.IsActive &&
      !excludeIDs pr.AuthorID oldReviewer.ID reviewers user.ID) all) 1
      with _ | ⟨newReviewer, others⟩
  · simp only [hsel, Prod.mk.injEq] at h
    exact Or.inl (h.2 ▸ k5)
  simp only [hsel] at h
  rcases h6 : R.prRemoveReviewer pr.ID oldReviewer.ID s5 with ⟨r6, s6⟩
  cases r6 with
  | error e6 =>
    simp only [h6, Prod.mk.injEq] at h
    exact Or.inl (h.2 ▸ hP6 _ _ _ _ _ k5 h6)
  | ok u6 =>
  simp only [h6] at h
  rcases h7 : R.prAddReviewer pr.ID newReviewer.ID s6 with ⟨r7, s7⟩
  cases r7 with
  | ok u7 => simp [h7] at h
  | error e7 =>
  simp only [h7, Prod.mk.injEq, Except.error.injEq] at h
  obtain ⟨he, hs'⟩ := h
  subst hs'
  exact Or.inr ⟨pr, oldReviewer, newReviewer, s1, s2, s5, s6, e7, rfl, k1, h2, k5, h6, h7,
    he.symm⟩
/-! ## Repositories behind a failing connection -/

@[simp]
theorem faulty_prCreate {σ : Type} (R : Repos σ) (pr : PullRequest) :
    (faulty R).prCreate pr = failing (R.prCreate pr) := rfl

@[simp]
theorem faulty_prUpdate {σ : Type} (R : Repos σ) (pr : PullRequest) :
    (faulty R).prUpdate pr = failing (R.prUpdate pr) := rfl

@[simp]
theorem faulty_prGetByPRID {σ : Type} (R : Repos σ) (prID : String) :
    (faulty R).prGetByPRID prID = failing (R.prGetByPRID prID) := rfl

@[simp]
theorem faulty_prAddReviewer {σ : Type} (R : Repos σ) (prID reviewerID : Int) :
    (faulty R).prAddReviewer prID reviewerID = failing (R.prAddReviewer prID reviewerID) := rfl

@[simp]
theorem faulty_prRemoveReviewer {σ : Type} (R : Repos σ) (prID reviewerID : Int) :
    (faulty R).prRemoveReviewer prID reviewerID = failing (R.prRemoveReviewer prID reviewerID) := rfl

@[simp]
theorem faulty_prGetReviewers {σ : Type} (R : Repos σ) (prID : Int) :
    (faulty R).prGetReviewers prID = failing (R.prGetReviewers prID) := rfl

@[simp]
theorem faulty_userCreate {σ : Type} (R : Repos σ) (user : User) :
    (faulty R).userCreate user = failing (R.userCreate user) := rfl

@[simp]
theorem faulty_userUpdate {σ : Type} (R : Repos σ) (user : User) :
    (faulty R).userUpdate user = failing (R.userUpdate user) := rfl

@[simp]
theorem faulty_userGetByUserID {σ : Type} (R : Repos σ) (userID : String) :
    (faulty R).userGetByUserID userID = failing (R.userGetByUserID userID) := rfl

@[simp]
theorem faulty_userGetByTeamID {σ : Type} (R : Repos σ) (teamID : Int) :
    (faulty R).userGetByTeamID teamID = failing (R.userGetByTeamID teamID) := rfl

@[simp]
theorem faulty_userSetIsActive {σ : Type} (R : Repos σ) (userID : String) (isActive : Bool) :
    (faulty R).userSetIsActive userID isActive = failing (R.userSetIsActive userID isActive) := rfl

@[simp]
theorem faulty_userDeactivateByTeamID {σ : Type} (R : Repos σ) (teamID : Int) :
    (faulty R).userDeactivateByTeamID teamID = failing (R.userDeactivateByTeamID teamID) := rfl

@[simp]
theorem faulty_teamCreate {σ : Type} (R : Repos σ) (team : Team) :
    (faulty R).teamCreate team = failing (R.teamCreate team) := rfl

@[simp]
theorem faulty_teamGetByName {σ : Type} (R : Repos σ) (teamName : String) :
    (faulty R).teamGetByName teamName = failing (R.teamGetByName teamName) := rfl

@[simp]
theorem faulty_teamGetByID {σ : Type} (R : Repos σ) (teamID : Int) :
    (faulty R).teamGetByID teamID = failing (R.teamGetByID teamID) := rfl

@[simp]
theorem faulty_teamGetWithUsers {σ : Type} (R : Repos σ) (teamID : Int) :
    (faulty R).teamGetWithUsers teamID = failing (R.teamGetWithUsers teamID) := rfl

@[simp]
theorem faulty_teamExistsByName {σ : Type} (R : Repos σ) (teamName : String) :
    (faulty R).teamExistsByName teamName = failing (R.teamExistsByName teamName) := rfl

/-- A call that the failing connection lets succeed is a successful call of
the repository. -/
theorem failing_ok {σ α : Type} (op : Op σ α) (st st' : σ × List Bool) (a : α)
    (h : failing op st = (Except.ok a, st')) : op st.1 = (Except.ok a, st'.1) := by
  unfold failing at h
  rcases hop : op st.1 with ⟨r, s1⟩
  rcases hf : st.2 with _ | ⟨b, rest⟩
  · simp only [hf, hop, Prod.mk.injEq] at h
    rw [← h.2, h.1]
  · cases b with
    | true => simp [hf] at h
    | false =>
      simp only [hf, hop, Prod.mk.injEq] at h
      rw [← h.2, h.1]

/-- A call that fails behind the failing connection either did not reach the
repository, which leaves the store untouched, or failed in the repository. -/
theorem failing_error {σ α : Type} (op : Op σ α) (st st' : σ × List Bool) (e : Err)
    (h : failing op st = (Except.error e, st')) :
    (e = ErrConnection ∧ st'.1 = st.1) ∨ op st.1 = (Except.error e, st'.1) := by
  unfold failing at h
  rcases hop : op st.1 with ⟨r, s1⟩
  rcases hf : st.2 with _ | ⟨b, rest⟩
  · simp only [hf, hop, Prod.mk.injEq] at h
    right
    rw [← h.2, h.1]
  · cases b with
    | true =>
      simp only [hf, Prod.mk.injEq, Except.error.injEq] at h
      left
      exact ⟨h.1.symm, by rw [← h.2]⟩
    | false =>
      simp only [hf, hop, Prod.mk.injEq] at h
      right
      rw [← h.2, h.1]

/-- A call that leaves the store as it is does so behind the failing
connection too. -/
theorem failing_frame {σ α : Type} (op : Op σ α) (hop : ∀ s, (op s).2 = s)
    (st : σ × List Bool) : (failing op st).2.1 = st.1 := by
  unfold failing
  rcases hf : st.2 with _ | ⟨b, rest⟩
  · simpa using hop st.1
  · cases b with
    | true => rfl
    | false => simpa using hop st.1

theorem GetByPRID_pg_frame (prID : String) (s : Store) : (PRRepo.GetByPRID prID s).2 = s := by
  unfold PRRepo.GetByPRID PRRepo.GetReviewers
  split <;> rfl

theorem GetByUserID_pg_frame (userID : String) (s : Store) :
    (UserStorage.GetByUserID userID s).2 = s := by
  unfold UserStorage.GetByUserID
  split <;> rfl

theorem GetByID_pg_frame (teamID : Int) (s : Store) : (TeamRepo.GetByID teamID s).2 = s := by
  unfold TeamRepo.GetByID
  split <;> rfl

theorem RemoveReviewer_pg_error (prID reviewerID : Int) (s s' : Store) (e : Err)
    (h : PRRepo.RemoveReviewer prID reviewerID s = (Except.error e, s')) : s' = s := by
  unfold PRRepo.RemoveReviewer at h
  split at h
  · simp only [Prod.mk.injEq] at h
    exact h.2.symm
  · simp at h

theorem AddReviewer_pg_ne_error (prID reviewerID : Int) (s s' : Store) (e : Err) :
    PRRepo.AddReviewer prID reviewerID s ≠ (Except.error e, s') := by
  unfold PRRepo.AddReviewer
  split <;> simp

/-- C8, amended. Whenever `ReassignReviewer` returns an error on the
PostgreSQL repositories behind a connection that may fail at any call, the
store is either as it was before the call or, when `AddReviewer` failed after
`RemoveReviewer` had succeeded, as it was before the call without the
association of the old reviewer: the removal is not undone and no
replacement is added. -/
theorem reassign_failure_states (draws : List Nat) (prID oldUserID : String) (s s' : Store)
    (faults faults' : List Bool) (e : Err)
    (h : ReassignReviewer (faulty pgRepos) draws prID oldUserID (s, faults)
      = (Except.error e, (s', faults'))) :
    s' = s ∨
    ∃ (row : PRRow) (oldReviewer : User),
      s.pull_requests.find? (fun row => row.pull_request_id == prID) = some row ∧
      s.users.find? (fun u => u.UserID == oldUserID) = some oldReviewer ∧
      (row.id, oldReviewer.ID) ∈ s.pr_reviewers ∧
      e = Err.wrap "failed to add new reviewer: %w" ErrConnection ∧
      s' = { s with pr_reviewers :=
        s.pr_reviewers.filter (fun prr => !(prr == (row.id, oldReviewer.ID))) } := by
  have hframe := ReassignReviewer_error_frame (faulty pgRepos) (fun st => st.1 = s)
    (fun x st hst => (failing_frame (PRRepo.GetByPRID x) (GetByPRID_pg_frame x) st).trans hst)
    (fun x st hst =>
      (failing_frame (UserStorage.GetByUserID x) (GetByUserID_pg_frame x) st).trans hst)
    (fun x st hst => (failing_frame (PRRepo.GetReviewers x) (fun _ => rfl) st).trans hst)
    (fun x st hst => (failing_frame (TeamRepo.GetByID x) (GetByID_pg_frame x) st).trans hst)
    (fun x st hst => (failing_frame (UserStorage.GetByTeamID x) (fun _ => rfl) st).trans hst)
    (fun x y st st' e hst hrm => by
      rw [faulty_prRemoveReviewer] at hrm
      rcases failing_error _ _ _ _ hrm with ⟨_, heq⟩ | hpg
      · exact heq.trans hst
      · rw [pgRepos_prRemoveReviewer] at hpg
        exact (RemoveReviewer_pg_error _ _ _ _ _ hpg).trans hst)
    draws prID oldUserID (s, faults) (s', faults') e rfl h
  rcases hframe with hsame | ⟨pr, oldReviewer, newReviewer, s1, s2, s5, s6, e7, h1, k1, h2,
    k5, h6, h7, he⟩
  · exact Or.inl hsame
  · right
    rw [faulty_prGetByPRID] at h1
    have h1' := failing_ok _ _ _ _ h1
    obtain ⟨row, hrow, hpr, _⟩ := GetByPRID_pg_ok prID s s1.1 pr h1'
    rw [faulty_userGetByUserID] at h2
    have h2' := failing_ok _ _ _ _ h2
    have k1' : s1.1 = s := k1
    have k5' : s5.1 = s := k5
    rw [pgRepos_userGetByUserID, k1'] at h2'
    obtain ⟨hold, _⟩ := GetByUserID_pg_ok oldUserID s s2.1 oldReviewer h2'
    rw [faulty_prRemoveReviewer] at h6
    have h6' := failing_ok _ _ _ _ h6
    rw [pgRepos_prRemoveReviewer, k5'] at h6'
    obtain ⟨hmem, hs6⟩ := RemoveReviewer_pg_ok _ _ _ _ h6'
    rw [faulty_prAddReviewer] at h7
    have hprid : pr.ID = row.id := by rw [hpr]; rfl
    rcases failing_error _ _ _ _ h7 with ⟨hconn, heq⟩ | hpg
    · refine ⟨row, oldReviewer, hrow, hold, by rw [← hprid]; exact hmem, ?_, ?_⟩
      · rw [he, hconn]
      · have heq' : s' = s6.1 := heq
        rw [heq', hs6, hprid]
    · exact absurd hpg (AddReviewer_pg_ne_error _ _ _ _ _)

/-- C8 fails as stated: when the connection fails at `AddReviewer`, after
`RemoveReviewer` has succeeded, `ReassignReviewer` returns an error and leaves
"pr-1", which had the reviewers 3 and 2 and would have the reviewers 3 and 4
after the reassignment, with the reviewer 3 alone. -/
theorem reassign_failure_leaves_mixture :
    sampleHalfReassign.1
        = Except.error (Err.wrap "failed to add new reviewer: %w" ErrConnection) ∧
    sampleCreate.2.1.reviewerIDs 1 = [3, 2] ∧
    sampleReassign.2.1.reviewerIDs 1 = [3, 4] ∧
    sampleHalfReassign.2.1.reviewerIDs 1 = [3] := by
  refine ⟨rfl, rfl, rfl, rfl⟩

/-- Witness of C8, amended: the call of `sampleHalfReassign`. -/
theorem reassign_failure_states_witness :
    sampleHalfReassign.2.1 = sampleCreated ∨
    ∃ (row : PRRow) (oldReviewer : User),
      sampleCreated.pull_requests.find? (fun row => row.pull_request_id == "pr-1")
        = some row ∧
      sampleCreated.users.find? (fun u => u.UserID == "u2") = some oldReviewer ∧
      (row.id, oldReviewer.ID) ∈ sampleCreated.pr_reviewers ∧
      Err.wrap "failed to add new reviewer: %w" ErrConnection
        = Err.wrap "failed to add new reviewer: %w" ErrConnection ∧
      sampleHalfReassign.2.1 =
        { sampleCreated with
          pr_reviewers := sampleCreated.pr_reviewers.filter
            (fun prr => !(prr == (row.id, oldReviewer.ID))) } :=
  reassign_failure_states [5] "pr-1" "u2" sampleCreated sampleHalfReassign.2.1
    [false, false, false, false, false, false, true] sampleHalfReassign.2.2
    (Err.wrap "failed to add new reviewer: %w" ErrConnection) rfl

/-! ## C9: what a reassignment returns and leaves -/

/-- The reviewer ids of a pull request after the DELETE and the INSERT of a
successful reassignment. -/
theorem reviewerIDs_after_reassign (s : Store) (prID oldID newID : Int) :
    ({ s with pr_reviewers :=
        s.pr_reviewers.filter (fun prr => !(prr == (prID, oldID))) ++ [(prID, newID)] }
      : Store).reviewerIDs prID
      = (s.reviewerIDs prID).filter (fun x => x != oldID) ++ [newID] := by
  unfold Store.reviewerIDs
  simp only [List.filter_append, List.map_append, List.filter_filter, List.filter_map]
  congr 1
  · congr 1
    apply List.filter_congr
    intro ⟨a, b⟩ _
    rw [Bool.eq_iff_iff]
    by_cases ha : a = prID <;> by_cases hb : b = oldID <;> simp [ha, hb]
  · simp

/-- C9. A successful `ReassignReviewer` returns the external id of a user of
the list `GetByTeamID` returned for the old reviewer's team who is active,
and when the replacement pool is a single user `D` that user is `D`. On the
PostgreSQL repositories the user is an active user of the store on the old
reviewer's team, and the reviewer ids of the pull request become the previous
ones without the old reviewer's, followed by the new one, so that their
number is unchanged. -/
theorem reassign_result :
    (∀ {σ : Type} (R : Repos σ) (draws : List Nat) (prID oldUserID : String) (s s' : σ)
      (newUserID : String) (log : List Event),
      ReassignReviewer (traced R) draws prID oldUserID (s, [])
        = (Except.ok newUserID, (s', log)) →
      ∃ (pr : PullRequest) (oldReviewer : User) (reviewers : List User) (team : Team)
        (all : List User) (newReviewer : User),
        log = [Event.prGetByPRID prID (Except.ok pr),
          Event.userGetByUserID oldUserID (Except.ok oldReviewer),
          Event.prGetReviewers pr.ID (Except.ok reviewers),
          Event.teamGetByID oldReviewer.TeamID (Except.ok team),
          Event.userGetByTeamID oldReviewer.TeamID (Except.ok all),
          Event.prRemoveReviewer pr.ID oldReviewer.ID (Except.ok ()),
          Event.prAddReviewer pr.ID newReviewer.ID (Except.ok ())] ∧
        newUserID = newReviewer.UserID ∧
        newReviewer ∈ all ∧
        newReviewer.IsActive = true ∧
        (∀ D : User, replacementPool all pr.AuthorID oldReviewer.ID reviewers = [D] →
          newReviewer = D)) ∧
    (∀ (draws : List Nat) (prID oldUserID : String) (s s' : Store) (newUserID : String),
      ReassignReviewer pgRepos draws prID oldUserID s = (Except.ok newUserID, s') →
      ∃ (row : PRRow) (oldReviewer newReviewer : User),
        s.pull_requests.find? (fun row => row.pull_request_id == prID) = some row ∧
        s.users.find? (fun u => u.UserID == oldUserID) = some oldReviewer ∧
        newReviewer ∈ s.users ∧
        newReviewer.IsActive = true ∧
        newReviewer.TeamID = oldReviewer.TeamID ∧
        newUserID = newReviewer.UserID ∧
        s'.reviewerIDs row.id
          = (s.reviewerIDs row.id).filter (fun x => x != oldReviewer.ID)
            ++ [newReviewer.ID] ∧
        (s'.reviewerIDs row.id).toFinset.card = (s.reviewerIDs row.id).toFinset.card) := by
  constructor
  · intro σ R draws prID oldUserID s s' newUserID log h
    obtain ⟨pr, oldReviewer, reviewers, team, all, newReviewer, others, _, _, hsel, hres,
      hlog⟩ := ReassignReviewer_traced_ok R draws prID oldUserID s [] newUserID s' log h
    have hpool := mem_replacementPool _ _ _ _ _ (selected_mem_pool draws _ _ _ hsel).1
    refine ⟨pr, oldReviewer, reviewers, team, all, newReviewer, by simpa using hlog, hres,
      hpool.1, hpool.2.1, ?_⟩
    intro D hD
    rw [hD, selectRandomReviewers_all draws [D] 1 (by simp)] at hsel
    simp only [List.cons.injEq] at hsel
    exact hsel.1.symm
  · intro draws prID oldUserID s s' newUserID h
    obtain ⟨row, oldReviewer, newReviewer, hrow, _, hold, hsel, hres, hin, hnotin, hs'⟩ :=
      ReassignReviewer_pg_ok draws prID oldUserID s s' newUserID h
    have hpool := mem_replacementPool _ _ _ _ _
      (selected_mem_pool draws _ _ _ hsel).1
    have hmem := List.mem_filter.mp hpool.1
    have hids : s'.reviewerIDs row.id
        = (s.reviewerIDs row.id).filter (fun x => x != oldReviewer.ID)
          ++ [newReviewer.ID] := by
      rw [hs']; exact reviewerIDs_after_reassign s row.id oldReviewer.ID newReviewer.ID
    refine ⟨row, oldReviewer, newReviewer, hrow, hold, hmem.1, hpool.2.1,
      by simpa using hmem.2, hres, hids, ?_⟩
    have hold_in : oldReviewer.ID ∈ (s.reviewerIDs row.id).toFinset := by
      rw [List.mem_toFinset, mem_reviewerIDs]; exact hin
    have hnew_out : newReviewer.ID ∉ ((s.reviewerIDs row.id).toFinset).erase oldReviewer.ID := by
      intro hx
      have := Finset.mem_of_mem_erase hx
      rw [List.mem_toFinset, mem_reviewerIDs] at this
      exact hnotin this
    have hset : (s'.reviewerIDs row.id).toFinset
        = insert newReviewer.ID (((s.reviewerIDs row.id).toFinset).erase oldReviewer.ID) := by
      rw [hids]
      ext x
      simp only [List.toFinset_append, List.toFinset_cons, List.toFinset_nil,
        Finset.mem_union, List.mem_toFinset, List.mem_filter, bne_iff_ne, ne_eq,
        Finset.mem_insert, Finset.mem_erase, Finset.mem_singleton, insert_emptyc_eq]
      tauto
    rw [hset, Finset.card_insert_of_not_mem hnew_out, Finset.card_erase_of_mem hold_in]
    have : 0 < (s.reviewerIDs row.id).toFinset.card := Finset.card_pos.mpr ⟨_, hold_in⟩
    omega

/-- Witness of C9: on "pr-1" of the sample store, by u1 with the reviewers u3
and u2, the only candidate to replace u2 is u4. -/
theorem reassign_result_witness :
    (∃ (pr : PullRequest) (oldReviewer : User) (reviewers : List User) (team : Team)
        (all : List User) (newReviewer : User),
        sampleReassign.2.2 = [Event.prGetByPRID "pr-1" (Except.ok pr),
          Event.userGetByUserID "u2" (Except.ok oldReviewer),
          Event.prGetReviewers pr.ID (Except.ok reviewers),
          Event.teamGetByID oldReviewer.TeamID (Except.ok team),
          Event.userGetByTeamID oldReviewer.TeamID (Except.ok all),
          Event.prRemoveReviewer pr.ID oldReviewer.ID (Except.ok ()),
          Event.prAddReviewer pr.ID newReviewer.ID (Except.ok ())] ∧
        "u4" = newReviewer.UserID ∧
        newReviewer ∈ all ∧
        newReviewer.IsActive = true ∧
        (∀ D : User, replacementPool all pr.AuthorID oldReviewer.ID reviewers = [D] →
          newReviewer = D)) ∧
    (∃ (row : PRRow) (oldReviewer newReviewer : User),
        sampleCreated.pull_requests.find? (fun row => row.pull_request_id == "pr-1")
          = some row ∧
        sampleCreated.users.find? (fun u => u.UserID == "u2") = some oldReviewer ∧
        newReviewer ∈ sampleCreated.users ∧
        newReviewer.IsActive = true ∧
        newReviewer.TeamID = oldReviewer.TeamID ∧
        "u4" = newReviewer.UserID ∧
        sampleReassign.2.1.reviewerIDs row.id
          = (sampleCreated.reviewerIDs row.id).filter (fun x => x != oldReviewer.ID)
            ++ [newReviewer.ID] ∧
        (sampleReassign.2.1.reviewerIDs row.id).toFinset.card
          = (sampleCreated.reviewerIDs row.id).toFinset.card) :=
  ⟨reassign_result.1 pgRepos [5] "pr-1" "u2" sampleCreated sampleReassign.2.1 "u4"
      sampleReassign.2.2 rfl,
   reassign_result.2 [5] "pr-1" "u2" sampleCreated sampleReassign.2.1 "u4" rfl⟩
/-! ## C10: merging an open pull request -/

/-- C10. On a pull request that `GetByPRID` returns as open, `MergePR` makes
exactly one write, an `Update` of that pull request with status merged and
`merged_at` set to the current time, its external id, name, author and
reviewers being as read; no reviewer is added or removed. When the `Update`
and the look-up after it succeed, the result is the pull request read by that
look-up. On the PostgreSQL repositories the call succeeds, the pull request
returned is the stored one with status merged and `merged_at` set, the other
fields and the reviewers as before, it is what `GetByPRID` reads from the
store afterwards, and the reviewer associations are untouched. -/
theorem mergePR_open :
    (∀ {σ : Type} (R : Repos σ) (now : Nat) (prID : String) (s s1 : σ) (pr : PullRequest),
      R.prGetByPRID prID s = (Except.ok pr, s1) → pr.StatusID = StatusOpenID →
      (∃ x : PullRequest,
        x.StatusID = StatusMergedID ∧ x.MergedAt = some now ∧
        x.PullRequestID = pr.PullRequestID ∧ x.PullRequestName = pr.PullRequestName ∧
        x.AuthorID = pr.AuthorID ∧ x.Reviewers = pr.Reviewers ∧
        (MergePR (traced R) now prID (s, [])).2.2.filter Event.isWrite
          = [Event.prUpdate x (R.prUpdate x s1).1] ∧
        ∀ (u result : PullRequest) (s2 s3 : σ),
          R.prUpdate x s1 = (Except.ok u, s2) →
          R.prGetByPRID prID s2 = (Except.ok result, s3) →
          MergePR (traced R) now prID (s, [])
            = (Except.ok result,
                (s3, [Event.prGetByPRID prID (Except.ok pr), Event.prUpdate x (Except.ok u),
                  Event.prGetByPRID prID (Except.ok result)])))) ∧
    (∀ (now : Nat) (prID : String) (s : Store) (row : PRRow),
      s.pull_requests.find? (fun row => row.pull_request_id == prID) = some row →
      row.status_id = StatusOpenID →
      ∃ (result : PullRequest) (s' : Store),
        MergePR pgRepos now prID s = (Except.ok result, s') ∧
        result = { row.toPR (s.reviewersOf row.id) with
          StatusID := StatusMergedID, MergedAt := some now } ∧
        PRRepo.GetByPRID prID s' = (Except.ok result, s') ∧
        s'.pr_reviewers = s.pr_reviewers ∧ s'.users = s.users) := by
  constructor
  · intro σ R now prID s s1 pr h1 hst
    have hst' : pr.StatusID ≠ StatusMergedID := by
      rw [hst]; decide
    refine ⟨{ pr with StatusID := StatusMergedID, MergedAt := some now }, rfl, rfl, rfl, rfl,
      rfl, rfl, ?_, ?_⟩
    · simp only [MergePR, traced_prGetByPRID, h1, hst', if_false, traced_prUpdate]
      rcases h2 : R.prUpdate { pr with StatusID := StatusMergedID, MergedAt := some now } s1
        with ⟨r2, s2⟩
      cases r2 with
      | error e => simp [Event.isWrite]
      | ok u =>
        simp only [traced_prGetByPRID]
        rcases h3 : R.prGetByPRID prID s2 with ⟨r3, s3⟩
        cases r3 <;> simp [Event.isWrite]
    · intro u result s2 s3 h2 h3
      simp [MergePR, h1, hst', h2, h3]
  · intro now prID s row hrow hst
    have hst' : ¬ row.status_id = StatusMergedID := by
      rw [hst]; decide
    have h2 := find_after_update s.pull_requests prID row.pull_request_name StatusMergedID
      (some now) row hrow
    refine ⟨{ row.toPR (s.reviewersOf row.id) with
        StatusID := StatusMergedID, MergedAt := some now },
      { s with pull_requests := s.pull_requests.map (fun r =>
          if r.pull_request_id == prID then
            { r with pull_request_name := row.pull_request_name,
                     status_id := StatusMergedID, merged_at := some now }
          else r) }, ?_, rfl, ?_, rfl, rfl⟩
    · rw [MergePR_pg now prID s row hrow, if_neg hst']
      rfl
    · simp only [PRRepo.GetByPRID, h2, PRRepo.GetReviewers]
      rfl

/-- Witness of C10: "pr-1" of the sample store is merged at time 7. -/
theorem mergePR_open_witness :
    (∃ x : PullRequest,
        x.StatusID = StatusMergedID ∧ x.MergedAt = some 7 ∧
        x.PullRequestID = samplePR.PullRequestID ∧
        x.PullRequestName = samplePR.PullRequestName ∧
        x.AuthorID = samplePR.AuthorID ∧ x.Reviewers = samplePR.Reviewers ∧
        (MergePR (traced pgRepos) 7 "pr-1" (sampleCreated, [])).2.2.filter Event.isWrite
          = [Event.prUpdate x (pgRepos.prUpdate x sampleCreated).1] ∧
        ∀ (u result : PullRequest) (s2 s3 : Store),
          pgRepos.prUpdate x sampleCreated = (Except.ok u, s2) →
          pgRepos.prGetByPRID "pr-1" s2 = (Except.ok result, s3) →
          MergePR (traced pgRepos) 7 "pr-1" (sampleCreated, [])
            = (Except.ok result,
                (s3, [Event.prGetByPRID "pr-1" (Except.ok samplePR),
                  Event.prUpdate x (Except.ok u),
                  Event.prGetByPRID "pr-1" (Except.ok result)]))) ∧
    (∃ (result : PullRequest) (s' : Store),
        MergePR pgRepos 7 "pr-1" sampleCreated = (Except.ok result, s') ∧
        result = sampleMergedPR ∧
        PRRepo.GetByPRID "pr-1" s' = (Except.ok result, s') ∧
        s'.pr_reviewers = sampleCreated.pr_reviewers ∧ s'.users = sampleCreated.users) :=
  ⟨mergePR_open.1 pgRepos 7 "pr-1" sampleCreated sampleCreated samplePR rfl rfl,
   mergePR_open.2 7 "pr-1" sampleCreated
      { id := 1, pull_request_id := "pr-1", pull_request_name := "Add X", author_id := 1,
        status_id := StatusOpenID, merged_at := none, created_at := 100 } rfl rfl⟩

/-! ## C13 and C14: look-ups that find nothing -/

/-- C13. When the author's `GetByUserID` fails, or the author resolves and
the `GetByID` of the author's team fails, `CreatePR` returns an error `e` with
`errors.Is(e, ErrNotFound)` after look-ups only: no `Create` and no
`AddReviewer` is called (both calls are reached only after the look-up of the
id has found no pull request). On the PostgreSQL repositories the store is
unchanged. -/
theorem createPR_author_not_found :
    (∀ {σ : Type} (R : Repos σ) (draws : List Nat) (prID prName authorUserID : String)
      (s s1 s2 : σ) (e1 e2 : Err),
      R.prGetByPRID prID s = (Except.error e1, s1) →
      R.userGetByUserID authorUserID s1 = (Except.error e2, s2) →
      ∃ e : Err, errorsIs e ErrNotFound = true ∧
        CreatePR (traced R) draws prID prName authorUserID (s, [])
          = (Except.error e,
              (s2, [Event.prGetByPRID prID (Except.error e1),
                Event.userGetByUserID authorUserID (Except.error e2)]))) ∧
    (∀ {σ : Type} (R : Repos σ) (draws : List Nat) (prID prName authorUserID : String)
      (s s1 s2 s3 : σ) (e1 e3 : Err) (author : User),
      R.prGetByPRID prID s = (Except.error e1, s1) →
      R.userGetByUserID authorUserID s1 = (Except.ok author, s2) →
      R.teamGetByID author.TeamID s2 = (Except.error e3, s3) →
      ∃ e : Err, errorsIs e ErrNotFound = true ∧
        CreatePR (traced R) draws prID prName authorUserID (s, [])
          = (Except.error e,
              (s3, [Event.prGetByPRID prID (Except.error e1),
                Event.userGetByUserID authorUserID (Except.ok author),
                Event.teamGetByID author.TeamID (Except.error e3)]))) ∧
    (∀ (draws : List Nat) (prID prName authorUserID : String) (s : Store),
      s.pull_requests.find? (fun row => row.pull_request_id == prID) = none →
      (s.users.find? (fun u => u.UserID == authorUserID) = none ∨
        ∃ author : User, s.users.find? (fun u => u.UserID == authorUserID) = some author ∧
          s.teams.find? (fun row => row.id == author.TeamID) = none) →
      ∃ e : Err, errorsIs e ErrNotFound = true ∧
        CreatePR pgRepos draws prID prName authorUserID s = (Except.error e, s)) := by
  refine ⟨?_, ?_, ?_⟩
  · intro σ R draws prID prName authorUserID s s1 s2 e1 e2 h1 h2
    exact ⟨Err.wrap "%w: author not found" ErrNotFound, by decide, by simp [CreatePR, h1, h2]⟩
  · intro σ R draws prID prName authorUserID s s1 s2 s3 e1 e3 author h1 h2 h3
    exact ⟨Err.wrap "%w: author team not found" ErrNotFound, by decide,
      by simp [CreatePR, h1, h2, h3]⟩
  · intro draws prID prName authorUserID s hpr hcase
    rcases hcase with hu | ⟨author, hu, ht⟩
    · exact ⟨Err.wrap "%w: author not found" ErrNotFound, by decide,
        by simp [CreatePR, PRRepo.GetByPRID, hpr, UserStorage.GetByUserID, hu]⟩
    · exact ⟨Err.wrap "%w: author team not found" ErrNotFound, by decide,
        by simp [CreatePR, PRRepo.GetByPRID, hpr, UserStorage.GetByUserID, hu,
          TeamRepo.GetByID, ht]⟩

/-- Witness of C13: on the sample store nobody has the external id "u9", and
on the sample store with u1 moved to a team that does not exist the team of
u1 does not resolve. -/
theorem createPR_author_not_found_witness :
    (∃ e : Err, errorsIs e ErrNotFound = true ∧
        CreatePR (traced pgRepos) [] "pr-2" "Add Y" "u9" (sampleStore, [])
          = (Except.error e,
              (sampleStore, [Event.prGetByPRID "pr-2" (Except.error
                  (pgError "repository.PRRepo.GetByPRID" "no rows in result set")),
                Event.userGetByUserID "u9" (Except.error
                  (pgError "storage.postgresql.UserStorage.GetByUserID"
                    "no rows in result set"))]))) ∧
    (∃ e : Err, errorsIs e ErrNotFound = true ∧
        CreatePR (traced pgRepos) [] "pr-2" "Add Y" "u1" (orphanStore, [])
          = (Except.error e,
              (orphanStore, [Event.prGetByPRID "pr-2" (Except.error
                  (pgError "repository.PRRepo.GetByPRID" "no rows in result set")),
                Event.userGetByUserID "u1" (Except.ok (sampleUser 1 "u1" true 7)),
                Event.teamGetByID 7 (Except.error
                  (pgError "repository.TeamRepo.GetByID" "no rows in result set"))]))) ∧
    (∃ e : Err, errorsIs e ErrNotFound = true ∧
        CreatePR pgRepos [] "pr-2" "Add Y" "u9" sampleStore = (Except.error e, sampleStore)) :=
  ⟨createPR_author_not_found.1 pgRepos [] "pr-2" "Add Y" "u9" sampleStore sampleStore
      sampleStore _ _ rfl rfl,
   createPR_author_not_found.2.1 pgRepos [] "pr-2" "Add Y" "u1" orphanStore orphanStore
      orphanStore orphanStore _ _ (sampleUser 1 "u1" true 7) rfl rfl rfl,
   createPR_author_not_found.2.2 [] "pr-2" "Add Y" "u9" sampleStore rfl (Or.inl rfl)⟩

/-- C14. When `GetByPRID` fails for the id, `MergePR` and `ReassignReviewer`
both return an error `e` with `errors.Is(e, ErrNotFound)` and the look-up is
their only repository call: no `Update`, `RemoveReviewer` or `AddReviewer`.
On the PostgreSQL repositories an id that no row carries makes the look-up
fail and the store is unchanged. -/
theorem pr_not_found :
    (∀ {σ : Type} (R : Repos σ) (now : Nat) (draws : List Nat) (prID oldUserID : String)
      (s s1 : σ) (e1 : Err),
      R.prGetByPRID prID s = (Except.error e1, s1) →
      ∃ e : Err, errorsIs e ErrNotFound = true ∧
        MergePR (traced R) now prID (s, [])
          = (Except.error e, (s1, [Event.prGetByPRID prID (Except.error e1)])) ∧
        ReassignReviewer (traced R) draws prID oldUserID (s, [])
          = (Except.error e, (s1, [Event.prGetByPRID prID (Except.error e1)]))) ∧
    (∀ (now : Nat) (draws : List Nat) (prID oldUserID : String) (s : Store),
      s.pull_requests.find? (fun row => row.pull_request_id == prID) = none →
      ∃ e : Err, errorsIs e ErrNotFound = true ∧
        MergePR pgRepos now prID s = (Except.error e, s) ∧
        ReassignReviewer pgRepos draws prID oldUserID s = (Except.error e, s)) := by
  constructor
  · intro σ R now draws prID oldUserID s s1 e1 h1
    exact ⟨Err.wrap "%w: PR not found" ErrNotFound, by decide, by simp [MergePR, h1],
      by simp [ReassignReviewer, h1]⟩
  · intro now draws prID oldUserID s h
    exact ⟨Err.wrap "%w: PR not found" ErrNotFound, by decide,
      by simp [MergePR, PRRepo.GetByPRID, h], by simp [ReassignReviewer, PRRepo.GetByPRID, h]⟩

/-- Witness of C14: the sample store has no pull request. -/
theorem pr_not_found_witness :
    (∃ e : Err, errorsIs e ErrNotFound = true ∧
        MergePR (traced pgRepos) 7 "pr-1" (sampleStore, [])
          = (Except.error e, (sampleStore, [Event.prGetByPRID "pr-1" (Except.error
              (pgError "repository.PRRepo.GetByPRID" "no rows in result set"))])) ∧
        ReassignReviewer (traced pgRepos) [] "pr-1" "u2" (sampleStore, [])
          = (Except.error e, (sampleStore, [Event.prGetByPRID "pr-1" (Except.error
              (pgError "repository.PRRepo.GetByPRID" "no rows in result set"))]))) ∧
    (∃ e : Err, errorsIs e ErrNotFound = true ∧
        MergePR pgRepos 7 "pr-1" sampleStore = (Except.error e, sampleStore) ∧
        ReassignReviewer pgRepos [] "pr-1" "u2" sampleStore = (Except.error e, sampleStore)) :=
  ⟨pr_not_found.1 pgRepos 7 [] "pr-1" "u2" sampleStore sampleStore _ rfl,
   pr_not_found.2 7 [] "pr-1" "u2" sampleStore rfl⟩

/-! ## C15: a duplicate that only the insert detects -/

/-- C15 fails as stated: "pr-1" is taken, the look-up of the id fails on the
connection, the insert is refused as a duplicate, and the error `CreatePR`
returns is the wrapped error of the insert, for which
`errors.Is(e, ErrPRExists)` is false. -/
theorem createPR_collision_is_not_PRExists :
    sampleCreated.pull_requests.any (fun row => row.pull_request_id == "pr-1") = true ∧
    sampleCollide.1 = Except.error (Err.wrap "failed to create PR: %w"
      (pgError "repository.PRRepo.Create" "duplicate key value")) ∧
    errorsIs (Err.wrap "failed to create PR: %w"
      (pgError "repository.PRRepo.Create" "duplicate key value")) ErrPRExists = false := by
  refine ⟨rfl, rfl, rfl⟩

/-- C15, amended. When the look-up of the id did not report a pull request
and the duplicate is detected only by `prRepo.Create` failing, `CreatePR`
fails with the error of `Create` wrapped as "failed to create PR", after the
three look-ups and the `Create` and with no reviewer added: `errors.Is` finds
`ErrPRExists` in it only if it does in the error of `Create`. It does not on
the PostgreSQL repositories: with the id taken, the look-up failing on the
connection and the author and the team resolving, the error is the wrapped
duplicate-key error, not `ErrPRExists`, and the store is unchanged. -/
theorem createPR_collision :
    (∀ {σ : Type} (R : Repos σ) (draws : List Nat) (prID prName authorUserID : String)
      (s s1 s2 s3 s4 : σ) (e1 e4 : Err) (author : User) (team : Team),
      R.prGetByPRID prID s = (Except.error e1, s1) →
      R.userGetByUserID authorUserID s1 = (Except.ok author, s2) →
      R.teamGetByID author.TeamID s2 = (Except.ok team, s3) →
      R.prCreate (newPR prID prName author.ID) s3 = (Except.error e4, s4) →
      CreatePR (traced R) draws prID prName authorUserID (s, [])
          = (Except.error (Err.wrap "failed to create PR: %w" e4),
              (s4, [Event.prGetByPRID prID (Except.error e1),
                Event.userGetByUserID authorUserID (Except.ok author),
                Event.teamGetByID author.TeamID (Except.ok team),
                Event.prCreate (newPR prID prName author.ID) (Except.error e4)])) ∧
        errorsIs (Err.wrap "failed to create PR: %w" e4) ErrPRExists
          = errorsIs e4 ErrPRExists) ∧
    (∀ (draws : List Nat) (prID prName authorUserID : String) (s : Store)
      (rest : List Bool) (author : User) (team : TeamRow),
      s.hasPR prID →
      s.users.find? (fun u => u.UserID == authorUserID) = some author →
      s.teams.find? (fun row => row.id == author.TeamID) = some team →
      CreatePR (faulty pgRepos) draws prID prName authorUserID
          (s, true :: false :: false :: false :: rest)
        = (Except.error (Err.wrap "failed to create PR: %w"
            (pgError "repository.PRRepo.Create" "duplicate key value")), (s, rest)) ∧
      errorsIs (Err.wrap "failed to create PR: %w"
        (pgError "repository.PRRepo.Create" "duplicate key value")) ErrPRExists = false) := by
  constructor
  · intro σ R draws prID prName authorUserID s s1 s2 s3 s4 e1 e4 author team h1 h2 h3 h4
    simp only [newPR] at h4
    refine ⟨by simp [CreatePR, h1, h2, h3, h4, newPR], ?_⟩
    simp [errorsIs, ErrPRExists]
  · intro draws prID prName authorUserID s rest author team hpr hu ht
    have hany : s.pull_requests.any (fun row => row.pull_request_id == prID) = true := by
      obtain ⟨row, hrow, hid⟩ := hpr
      rw [List.any_eq_true]
      exact ⟨row, hrow, by simp [hid]⟩
    refine ⟨?_, rfl⟩
    simp [CreatePR, failing, UserStorage.GetByUserID, hu, TeamRepo.GetByID, ht,
      PRRepo.Create, hany]

/-- Witness of C15, amended: the second `CreatePR` of "pr-1" on the sample
store. -/
theorem createPR_collision_witness :
    (CreatePR (traced (faulty pgRepos)) [] "pr-1" "Again" "u1" ((sampleCreated, [true]), [])
          = (Except.error (Err.wrap "failed to create PR: %w"
              (pgError "repository.PRRepo.Create" "duplicate key value")),
              ((sampleCreated, []), [Event.prGetByPRID "pr-1" (Except.error ErrConnection),
                Event.userGetByUserID "u1" (Except.ok (sampleUser 1 "u1" true 1)),
                Event.teamGetByID 1
                  (Except.ok { ID := 1, Name := "backend", CreatedAt := 0, Users := [] }),
                Event.prCreate (newPR "pr-1" "Again" 1) (Except.error
                  (pgError "repository.PRRepo.Create" "duplicate key value"))])) ∧
        errorsIs (Err.wrap "failed to create PR: %w"
            (pgError "repository.PRRepo.Create" "duplicate key value")) ErrPRExists
          = errorsIs (pgError "repository.PRRepo.Create" "duplicate key value") ErrPRExists) ∧
    (CreatePR (faulty pgRepos) [] "pr-1" "Again" "u1"
          (sampleCreated, [true, false, false, false])
        = (Except.error (Err.wrap "failed to create PR: %w"
            (pgError "repository.PRRepo.Create" "duplicate key value")), (sampleCreated, [])) ∧
      errorsIs (Err.wrap "failed to create PR: %w"
        (pgError "repository.PRRepo.Create" "duplicate key value")) ErrPRExists = false) :=
  ⟨createPR_collision.1 (faulty pgRepos) [] "pr-1" "Again" "u1" (sampleCreated, [true])
      (sampleCreated, []) (sampleCreated, []) (sampleCreated, []) (sampleCreated, [])
      ErrConnection (pgError "repository.PRRepo.Create" "duplicate key value")
      (sampleUser 1 "u1" true 1) { ID := 1, Name := "backend", CreatedAt := 0, Users := [] }
      rfl rfl rfl rfl,
   createPR_collision.2 [] "pr-1" "Again" "u1" sampleCreated [] (sampleUser 1 "u1" true 1)
      { id := 1, name := "backend", created_at := 0 } ⟨_, List.Mem.head _, rfl⟩ rfl rfl⟩

/-! ## C16: what the candidate selector returns -/

/-- C16. For every pool, every count and every outcome of the draws,
`selectRandomReviewers` returns a list of length `min (max count 0) |pool|`
that is a prefix of a rearrangement of the pool, so that its elements come
from distinct positions of the pool and none is returned more often than it
occurs in the pool; the list is empty when `count ≤ 0` or the pool is empty,
and it is a permutation of the whole pool when `count ≥ |pool|`. -/
theorem selectRandomReviewers_spec (draws : List Nat) (candidates : List User)
    (count : Int) :
    (selectRandomReviewers draws candidates count).length
      = min (max count 0).toNat candidates.length ∧
    (∃ p : List User, p.Perm candidates ∧
      selectRandomReviewers draws candidates count = p.take (max count 0).toNat) ∧
    (∀ u : User, (selectRandomReviewers draws candidates count).count u
      ≤ candidates.count u) ∧
    (count ≤ 0 ∨ candidates = [] → selectRandomReviewers draws candidates count = []) ∧
    ((candidates.length : Int) ≤ count →
      (selectRandomReviewers draws candidates count).Perm candidates) := by
  have hmax : (max count 0).toNat = count.toNat := by
    rcases le_total count 0 with h | h
    · rw [max_eq_right h]; omega
    · rw [max_eq_left h]
  obtain ⟨p, hp, hsel⟩ := selectRandomReviewers_prefix draws candidates count
  refine ⟨by rw [hmax]; exact selectRandomReviewers_length draws candidates count,
    ⟨p, hp, by rw [hmax]; exact hsel⟩, ?_, ?_, ?_⟩
  · intro u
    rw [hsel, ← hp.count_eq u]
    exact (List.take_sublist _ _).count_le u
  · intro h
    unfold selectRandomReviewers
    rw [if_pos]
    rcases h with h | h
    · exact Or.inl h
    · exact Or.inr (by rw [h]; rfl)
  · intro h
    rw [selectRandomReviewers_all draws candidates count h]

/-- Witness of C16: one of the four users of the sample store, with the
draws 2, 0, 1. -/
theorem selectRandomReviewers_spec_witness :
    (selectRandomReviewers [2, 0, 1] sampleStore.users 1).length
      = min (max (1 : Int) 0).toNat sampleStore.users.length ∧
    (∃ p : List User, p.Perm sampleStore.users ∧
      selectRandomReviewers [2, 0, 1] sampleStore.users 1 = p.take (max (1 : Int) 0).toNat) ∧
    (∀ u : User, (selectRandomReviewers [2, 0, 1] sampleStore.users 1).count u
      ≤ sampleStore.users.count u) ∧
    ((1 : Int) ≤ 0 ∨ sampleStore.users = [] →
      selectRandomReviewers [2, 0, 1] sampleStore.users 1 = []) ∧
    ((sampleStore.users.length : Int) ≤ 1 →
      (selectRandomReviewers [2, 0, 1] sampleStore.users 1).Perm sampleStore.users) :=
  selectRandomReviewers_spec [2, 0, 1] sampleStore.users 1

/-! ## What the services preserve

A property of the store that every repository call of a service preserves
is preserved by the service, whatever the calls return. -/

theorem addReviewers_preserves {σ : Type} (R : Repos σ) (P : σ → Prop)
    (hadd : ∀ (x y : Int) (s : σ), P s → P (R.prAddReviewer x y s).2) (prID : Int) :
    ∀ (l : List User) (s : σ), P s → P (addReviewers R prID l s).2
  | [], s, h => h
  | u :: rest, s, h => by
    have h1 := hadd prID u.ID s h
    rcases hr : R.prAddReviewer prID u.ID s with ⟨r, s1⟩
    rw [hr] at h1
    cases r with
    | error e => simpa [addReviewers, hr] using h1
    | ok v =>
      simp only [addReviewers, hr]
      exact addReviewers_preserves R P hadd prID rest s1 h1

theorem CreatePR_preserves {σ : Type} (R : Repos σ) (P : σ → Prop)
    (hget : ∀ (x : String) (s : σ), P s → P (R.prGetByPRID x s).2)
    (huser : ∀ (x : String) (s : σ), P s → P (R.userGetByUserID x s).2)
    (hteam : ∀ (x : Int) (s : σ), P s → P (R.teamGetByID x s).2)
    (hcreate : ∀ (x : PullRequest) (s : σ), P s → P (R.prCreate x s).2)
    (hlist : ∀ (x : Int) (s : σ), P s → P (R.userGetByTeamID x s).2)
    (hadd : ∀ (x y : Int) (s : σ), P s → P (R.prAddReviewer x y s).2)
    (draws : List Nat) (prID prName authorUserID : String) (s : σ) (hs : P s) :
    P (CreatePR R draws prID prName authorUserID s).2 := by
  unfold CreatePR
  have k1 := hget prID s hs
  rcases h1 : R.prGetByPRID prID s with ⟨r1, s1⟩
  rw [h1] at k1
  cases r1 with
  | ok v => exact k1
  | error e =>
  simp only
  have k2 := huser authorUserID s1 k1
  rcases h2 : R.userGetByUserID authorUserID s1 with ⟨r2, s2⟩
  rw [h2] at k2
  cases r2 with
  | error e2 => exact k2
  | ok author =>
  simp only
  have k3 := hteam author.TeamID s2 k2
  rcases h3 : R.teamGetByID author.TeamID s2 with ⟨r3, s3⟩
  rw [h3] at k3
  cases r3 with
  | error e3 => exact k3
  | ok team =>
  simp only
  have k4 := hcreate (newPR prID prName author.ID) s3 k3
  rcases h4 : R.prCreate (newPR prID prName author.ID) s3 with ⟨r4, s4⟩
  rw [h4] at k4
  simp only [newPR] at h4
  rw [h4]
  cases r4 with
  | error e4 => exact k4
  | ok pr =>
  simp only [getActiveTeamMembers]
  have k5 := hlist author.TeamID s4 k4
  rcases h5 : R.userGetByTeamID author.TeamID s4 with ⟨r5, s5⟩
  rw [h5] at k5
  cases r5 with
  | error e5 => exact k5
  | ok all =>
  simp only
  generalize selectRandomReviewers draws _ _ = sel
  have k6 := addReviewers_preserves R P hadd pr.ID sel s5 k5
  rcases h6 : addReviewers R pr.ID sel s5 with ⟨r6, s6⟩
  rw [h6] at k6
  cases r6 with
  | error e6 => exact k6
  | ok u =>
  simp only
  have k7 := hget prID s6 k6
  rcases h7 : R.prGetByPRID prID s6 with ⟨r7, s7⟩
  rw [h7] at k7
  cases r7 <;> exact k7

theorem ReassignReviewer_preserves {σ : Type} (R : Repos σ) (P : σ → Prop)
    (hget : ∀ (x : String) (s : σ), P s → P (R.prGetByPRID x s).2)
    (huser : ∀ (x : String) (s : σ), P s → P (R.userGetByUserID x s).2)
    (hrev : ∀ (x : Int) (s : σ), P s → P (R.prGetReviewers x s).2)
    (hteam : ∀ (x : Int) (s : σ), P s → P (R.teamGetByID x s).2)
    (hlist : ∀ (x : Int) (s : σ), P s → P (R.userGetByTeamID x s).2)
    (hrm : ∀ (x y : Int) (s : σ), P s → P (R.prRemoveReviewer x y s).2)
    (hadd : ∀ (x y : Int) (s : σ), P s → P (R.prAddReviewer x y s).2)
    (draws : List Nat) (prID oldUserID : String) (s : σ) (hs : P s) :
    P (ReassignReviewer R draws prID oldUserID s).2 := by
  unfold ReassignReviewer
  have k1 := hget prID s hs
  rcases h1 : R.prGetByPRID prID s with ⟨r1, s1⟩
  rw [h1] at k1
  cases r1 with
  | error e => exact k1
  | ok pr =>
  simp only
  split
  · exact k1
  have k2 := huser oldUserID s1 k1
  rcases h2 : R.userGetByUserID oldUserID s1 with ⟨r2, s2⟩
  rw [h2] at k2
  cases r2 with
  | error e2 => exact k2
  | ok oldReviewer =>
  simp only
  have k3 := hrev pr.ID s2 k2
  rcases h3 : R.prGetReviewers pr.ID s2 with ⟨r3, s3⟩
  rw [h3] at k3
  cases r3 with
  | error e3 => exact k3
  | ok reviewers =>
  simp only
  split
  · exact k3
  have k4 := hteam oldReviewer.TeamID s3 k3
  rcases h4 : R.teamGetByID oldReviewer.TeamID s3 with ⟨r4, s4⟩
  rw [h4] at k4
  cases r4 with
  | error e4 => exact k4
  | ok team =>
  simp only [getActiveTeamMembersExcluding]
  have k5 := hlist oldReviewer.TeamID s4 k4
  rcases h5 : R.userGetByTeamID oldReviewer.TeamID s4 with ⟨r5, s5⟩
  rw [h5] at k5
  cases r5 with
  | error e5 => exact k5
  | ok all =>
  simp only
  split
  · exact k5
  split
  · exact k5
  rename_i newReviewer others hsel
  have k6 := hrm pr.ID oldReviewer.ID s5 k5
  rcases h6 : R.prRemoveReviewer pr.ID oldReviewer.ID s5 with ⟨r6, s6⟩
  rw [h6] at k6
  cases r6 with
  | error e6 => exact k6
  | ok u6 =>
  simp only
  have k7 := hadd pr.ID newReviewer.ID s6 k6
  rcases h7 : R.prAddReviewer pr.ID newReviewer.ID s6 with ⟨r7, s7⟩
  rw [h7] at k7
  cases r7 <;> exact k7

theorem upsertUsers_preserves {σ : Type} (R : Repos σ) (P : σ → Prop)
    (huser : ∀ (x : String) (s : σ), P s → P (R.userGetByUserID x s).2)
    (hcreate : ∀ (x : User) (s : σ), P s → P (R.userCreate x s).2)
    (hupdate : ∀ (x : User) (s : σ), P s → P (R.userUpdate x s).2) (teamID : Int) :
    ∀ (l : List User) (s : σ), P s → P (upsertUsers R teamID l s).2
  | [], s, h => h
  | user :: rest, s, h => by
    unfold upsertUsers
    have k1 := huser user.UserID s h
    rcases h1 : R.userGetByUserID user.UserID s with ⟨r1, s1⟩
    rw [h1] at k1
    cases r1 with
    | error e =>
      simp only
      have k2 := hcreate { user with TeamID := teamID } s1 k1
      rcases h2 : R.userCreate { user with TeamID := teamID } s1 with ⟨r2, s2⟩
      rw [h2] at k2
      cases r2 with
      | error e2 => exact k2
      | ok created =>
        simp only
        have k3 := upsertUsers_preserves R P huser hcreate hupdate teamID rest s2 k2
        rcases h3 : upsertUsers R teamID rest s2 with ⟨r3, s3⟩
        rw [h3] at k3
        cases r3 <;> exact k3
    | ok existingUser =>
      simp only
      have k2 := hupdate
        { existingUser with
          Username := user.Username, IsActive := user.IsActive, TeamID := teamID } s1 k1
      rcases h2 : R.userUpdate
        { existingUser with
          Username := user.Username, IsActive := user.IsActive, TeamID := teamID } s1
        with ⟨r2, s2⟩
      rw [h2] at k2
      cases r2 with
      | error e2 => exact k2
      | ok updated =>
        simp only
        have k3 := upsertUsers_preserves R P huser hcreate hupdate teamID rest s2 k2
        rcases h3 : upsertUsers R teamID rest s2 with ⟨r3, s3⟩
        rw [h3] at k3
        cases r3 <;> exact k3

theorem CreateTeam_preserves {σ : Type} (R : Repos σ) (P : σ → Prop)
    (hexists : ∀ (x : String) (s : σ), P s → P (R.teamExistsByName x s).2)
    (hteam : ∀ (x : Team) (s : σ), P s → P (R.teamCreate x s).2)
    (huser : ∀ (x : String) (s : σ), P s → P (R.userGetByUserID x s).2)
    (hcreate : ∀ (x : User) (s : σ), P s → P (R.userCreate x s).2)
    (hupdate : ∀ (x : User) (s : σ), P s → P (R.userUpdate x s).2)
    (hget : ∀ (x : Int) (s : σ), P s → P (R.teamGetWithUsers x s).2)
    (team : Team) (s : σ) (hs : P s) : P (CreateTeam R team s).2 := by
  unfold CreateTeam
  have k1 := hexists team.Name s hs
  rcases h1 : R.teamExistsByName team.Name s with ⟨r1, s1⟩
  rw [h1] at k1
  cases r1 with
  | error e => exact k1
  | ok taken =>
  simp only
  split
  · exact k1
  have k2 := hteam team s1 k1
  rcases h2 : R.teamCreate team s1 with ⟨r2, s2⟩
  rw [h2] at k2
  cases r2 with
  | error e2 => exact k2
  | ok created =>
  simp only
  have k3 := upsertUsers_preserves R P huser hcreate hupdate created.ID created.Users s2 k2
  rcases h3 : upsertUsers R created.ID created.Users s2 with ⟨r3, s3⟩
  rw [h3] at k3
  cases r3 with
  | error e3 => exact k3
  | ok users =>
  simp only
  have k4 := hget created.ID s3 k3
  rcases h4 : R.teamGetWithUsers created.ID s3 with ⟨r4, s4⟩
  rw [h4] at k4
  cases r4 <;> exact k4

theorem SetIsActive_preserves {σ : Type} (R : Repos σ) (P : σ → Prop)
    (huser : ∀ (x : String) (s : σ), P s → P (R.userGetByUserID x s).2)
    (hset : ∀ (x : String) (b : Bool) (s : σ), P s → P (R.userSetIsActive x b s).2)
    (userID : String) (isActive : Bool) (s : σ) (hs : P s) :
    P (SetIsActive R userID isActive s).2 := by
  unfold SetIsActive
  have k1 := huser userID s hs
  rcases h1 : R.userGetByUserID userID s with ⟨r1, s1⟩
  rw [h1] at k1
  cases r1 with
  | error e => exact k1
  | ok user =>
  simp only
  have k2 := hset userID isActive s1 k1
  rcases h2 : R.userSetIsActive userID isActive s1 with ⟨r2, s2⟩
  rw [h2] at k2
  cases r2 <;> exact k2

theorem DeactivateTeamUsers_preserves {σ : Type} (R : Repos σ) (P : σ → Prop)
    (hteam : ∀ (x : Int) (s : σ), P s → P (R.teamGetByID x s).2)
    (hdeact : ∀ (x : Int) (s : σ), P s → P (R.userDeactivateByTeamID x s).2)
    (teamID : Int) (s : σ) (hs : P s) : P (DeactivateTeamUsers R teamID s).2 := by
  unfold DeactivateTeamUsers
  have k1 := hteam teamID s hs
  rcases h1 : R.teamGetByID teamID s with ⟨r1, s1⟩
  rw [h1] at k1
  cases r1 with
  | error e => exact k1
  | ok team =>
  simp only
  have k2 := hdeact teamID s1 k1
  rcases h2 : R.userDeactivateByTeamID teamID s1 with ⟨r2, s2⟩
  rw [h2] at k2
  cases r2 <;> exact k2

/-! ## C18: a taken team name -/

/-- Calling `CreateTeam` with a name for which `ExistsByName` returns true:
`ErrTeamExists`, and the check is the only call. -/
theorem CreateTeam_exists {σ : Type} (R : Repos σ) (team : Team) (s s1 : σ)
    (log0 : List Event) (h : R.teamExistsByName team.Name s = (Except.ok true, s1)) :
    CreateTeam (traced R) team (s, log0)
      = (Except.error ErrTeamExists,
          (s1, log0 ++ [Event.teamExistsByName team.Name (Except.ok true)])) := by
  simp [CreateTeam, h]

/-- On a store that keeps its teams, `CreateTeam` with a stored name fails
with `ErrTeamExists` and the name stays stored. -/
theorem CreateTeam_has {σ : Type} (R : Repos σ) (Has : String → σ → Prop)
    (hR : KeepsTeams R Has) (team : Team) (s : σ) (h : Has team.Name s) :
    (CreateTeam R team s).1 = Except.error ErrTeamExists ∧
      Has team.Name (CreateTeam R team s).2 := by
  have hf := hR.found team.Name s h
  have hk := hR.teamExistsByName team.Name team.Name s h
  rcases h1 : R.teamExistsByName team.Name s with ⟨r1, s1⟩
  rw [h1] at hf hk
  simp only at hf
  subst hf
  simp only [CreateTeam, h1, if_true]
  exact ⟨trivial, hk⟩

/-- On a store that keeps its teams, a successful `CreateTeam` leaves its
name stored. -/
theorem CreateTeam_ok_has {σ : Type} (R : Repos σ) (Has : String → σ → Prop)
    (hR : KeepsTeams R Has) (team : Team) (s : σ)
    (h : succeeded (CreateTeam R team s).1 = true) :
    Has team.Name (CreateTeam R team s).2 := by
  unfold CreateTeam at h ⊢
  rcases h1 : R.teamExistsByName team.Name s with ⟨r1, s1⟩
  cases r1 with
  | error e => simp [h1, succeeded] at h
  | ok taken =>
  simp only [h1] at h ⊢
  by_cases ht : taken = true
  · simp [ht, succeeded] at h
  simp only [ht, if_false] at h ⊢
  rcases h2 : R.teamCreate team s1 with ⟨r2, s2⟩
  cases r2 with
  | error e2 => simp [h2, succeeded] at h
  | ok created =>
  simp only [h2] at h ⊢
  have k2 : Has team.Name s2 := hR.created _ _ _ _ h2
  have k3 := upsertUsers_preserves R (Has team.Name) (hR.userGetByUserID team.Name)
    (hR.userCreate team.Name) (hR.userUpdate team.Name) created.ID created.Users s2 k2
  rcases h3 : upsertUsers R created.ID created.Users s2 with ⟨r3, s3⟩
  rw [h3] at k3
  cases r3 with
  | error e3 => simp [h3, succeeded] at h
  | ok users =>
  simp only [h3] at h ⊢
  have k4 := hR.teamGetWithUsers team.Name created.ID s3 k3
  rcases h4 : R.teamGetWithUsers created.ID s3 with ⟨r4, s4⟩
  rw [h4] at k4
  cases r4 <;> exact k4

/-- Once the name is stored, every further `CreateTeam` with it fails. -/
theorem createTeamAll_has {σ : Type} (R : Repos σ) (Has : String → σ → Prop)
    (hR : KeepsTeams R Has) (name : String) :
    ∀ (teams : List Team) (s : σ), (∀ t ∈ teams, t.Name = name) → Has name s →
      ((createTeamAll R teams s).1.filter succeeded).length = 0
  | [], s, _, h => rfl
  | team :: rest, s, hn, h => by
    have hname : team.Name = name := hn team (List.mem_cons_self _ _)
    obtain ⟨h1, h2⟩ := CreateTeam_has R Has hR team s (hname ▸ h)
    have ih := createTeamAll_has R Has hR name rest _
      (fun t ht => hn t (List.mem_cons_of_mem _ ht)) (hname ▸ h2)
    simp only [createTeamAll]
    simp [h1, succeeded, ih]

/-- Of a sequence of `CreateTeam` calls with one name on a store that keeps
its teams, at most one succeeds. -/
theorem createTeamAll_at_most_one {σ : Type} (R : Repos σ) (Has : String → σ → Prop)
    (hR : KeepsTeams R Has) (name : String) :
    ∀ (teams : List Team) (s : σ), (∀ t ∈ teams, t.Name = name) →
      ((createTeamAll R teams s).1.filter succeeded).length ≤ 1
  | [], s, _ => by simp [createTeamAll]
  | team :: rest, s, hn => by
    have hname : team.Name = name := hn team (List.mem_cons_self _ _)
    have hrest : ∀ t ∈ rest, t.Name = name := fun t ht => hn t (List.mem_cons_of_mem _ ht)
    simp only [createTeamAll]
    by_cases hs : succeeded (CreateTeam R team s).1 = true
    · have hk := CreateTeam_ok_has R Has hR team s hs
      have h0 := createTeamAll_has R Has hR name rest _ hrest (hname ▸ hk)
      simp [hs, h0]
    · have ih := createTeamAll_at_most_one R Has hR name rest (CreateTeam R team s).2 hrest
      simpa [hs] using ih

/-- The PostgreSQL repositories keep the teams they created. -/
theorem pgRepos_keepsTeams : KeepsTeams pgRepos Store.hasTeam where
  created := by
    intro team team' s s' h
    simp only [pgRepos_teamCreate, TeamRepo.Create] at h
    split at h
    · simp at h
    · simp only [Prod.mk.injEq] at h
      rw [← h.2]
      exact ⟨_, List.mem_append_right _ (List.mem_singleton_self _), rfl⟩
  found := by
    intro name s h
    obtain ⟨row, hrow, hid⟩ := h
    simp only [pgRepos_teamExistsByName, TeamRepo.ExistsByName, Except.ok.injEq,
      List.any_eq_true]
    exact ⟨row, hrow, by simp [hid]⟩
  teamExistsByName := by
    intro name x s h
    exact h
  teamCreate := by
    intro name x s h
    simp only [pgRepos_teamCreate, TeamRepo.Create]
    split
    · exact h
    · obtain ⟨row, hrow, hid⟩ := h
      exact ⟨row, by simp [hrow], hid⟩
  userGetByUserID := by
    intro name x s h
    simp only [pgRepos_userGetByUserID, UserStorage.GetByUserID]
    split <;> exact h
  userCreate := by
    intro name x s h
    simp only [pgRepos_userCreate, UserStorage.Create]
    split <;> exact h
  userUpdate := by
    intro name x s h
    simp only [pgRepos_userUpdate, UserStorage.Update]
    split <;> exact h
  teamGetWithUsers := by
    intro name x s h
    simp only [pgRepos_teamGetWithUsers, TeamRepo.GetWithUsers]
    split <;> exact h

/-- C18. `CreateTeam` with a name for which `ExistsByName` returns true fails
with exactly `ErrTeamExists` and makes no other repository call, hence no
team `Create` and no user `Create` or `Update`. Consequently, of every
sequence of `CreateTeam` calls with the same name against a store that keeps
the teams it created, at most one succeeds. -/
theorem createTeam_exists_at_most_one :
    (∀ {σ : Type} (R : Repos σ) (team : Team) (s s1 : σ),
      R.teamExistsByName team.Name s = (Except.ok true, s1) →
      CreateTeam (traced R) team (s, [])
        = (Except.error ErrTeamExists,
            (s1, [Event.teamExistsByName team.Name (Except.ok true)]))) ∧
    (∀ {σ : Type} (R : Repos σ) (Has : String → σ → Prop), KeepsTeams R Has →
      ∀ (name : String) (teams : List Team) (s : σ), (∀ t ∈ teams, t.Name = name) →
        ((createTeamAll R teams s).1.filter succeeded).length ≤ 1) :=
  ⟨fun R team s s1 h => by simpa using CreateTeam_exists R team s s1 [] h,
   fun R Has hR name teams s hn => createTeamAll_at_most_one R Has hR name teams s hn⟩

/-- Witness of C18: team "backend" is created twice, with different rosters. -/
theorem createTeam_exists_at_most_one_witness :
    CreateTeam (traced pgRepos) backendTeam (sampleStore, [])
        = (Except.error ErrTeamExists,
            (sampleStore, [Event.teamExistsByName "backend" (Except.ok true)])) ∧
    ((createTeamAll pgRepos [backendTeam, { backendTeam with Users := [] }]
        (emptyStore 100)).1.filter succeeded).length ≤ 1 :=
  ⟨createTeam_exists_at_most_one.1 pgRepos backendTeam sampleStore sampleStore rfl,
   createTeam_exists_at_most_one.2 pgRepos Store.hasTeam pgRepos_keepsTeams "backend"
      [backendTeam, { backendTeam with Users := [] }] (emptyStore 100) (by decide)⟩

/-! ## C19: the roster after CreateTeam -/

/-- A successful run of the member loop of `CreateTeam` logs the calls
`UpsertCalls` describes and nothing else. -/
theorem upsertUsers_traced_ok {σ : Type} (R : Repos σ) (teamID : Int) :
    ∀ (l : List User) (s : σ) (log : List Event) (users : List User) (s' : σ)
      (log' : List Event),
      upsertUsers (traced R) teamID l (s, log) = (Except.ok users, (s', log')) →
      ∃ calls : List Event, UpsertCalls teamID l calls ∧ log' = log ++ calls
  | [], s, log, users, s', log', h => by
    simp only [upsertUsers, Prod.mk.injEq] at h
    exact ⟨[], UpsertCalls.nil, by simp [h.2.2]⟩
  | user :: rest, s, log, users, s', log', h => by
    unfold upsertUsers at h
    rcases h1 : R.userGetByUserID user.UserID s with ⟨r1, s1⟩
    cases r1 with
    | error e =>
      simp only [traced_userGetByUserID, h1, traced_userCreate] at h
      rcases h2 : R.userCreate { user with TeamID := teamID } s1 with ⟨r2, s2⟩
      cases r2 with
      | error e2 => simp [h2] at h
      | ok created =>
        simp only [h2] at h
        simp only [List.append_assoc, List.singleton_append, List.cons_append, List.nil_append] at h
        rcases h3 : upsertUsers (traced R) teamID rest
          (s2, log ++ [Event.userGetByUserID user.UserID (Except.error e),
            Event.userCreate { user with TeamID := teamID } (Except.ok created)])
          with ⟨r3, s3, log3⟩
        cases r3 with
        | error e3 => simp [h3] at h
        | ok users3 =>
          simp only [h3, Prod.mk.injEq] at h
          obtain ⟨calls, hcalls, hlog⟩ := upsertUsers_traced_ok R teamID rest _ _ _ _ _ h3
          refine ⟨_, UpsertCalls.create user rest e created calls hcalls, ?_⟩
          rw [← h.2.2, hlog]
          simp
    | ok existingUser =>
      simp only [traced_userGetByUserID, h1, traced_userUpdate] at h
      rcases h2 : R.userUpdate
        { existingUser with
          Username := user.Username, IsActive := user.IsActive, TeamID := teamID } s1
        with ⟨r2, s2⟩
      cases r2 with
      | error e2 => simp [h2] at h
      | ok updated =>
        simp only [h2] at h
        simp only [List.append_assoc, List.singleton_append, List.cons_append, List.nil_append] at h
        rcases h3 : upsertUsers (traced R) teamID rest
          (s2, log ++ [Event.userGetByUserID user.UserID (Except.ok existingUser),
            Event.userUpdate
              { existingUser with
                Username := user.Username, IsActive := user.IsActive, TeamID := teamID }
              (Except.ok updated)])
          with ⟨r3, s3, log3⟩
        cases r3 with
        | error e3 => simp [h3] at h
        | ok users3 =>
          simp only [h3, Prod.mk.injEq] at h
          obtain ⟨calls, hcalls, hlog⟩ := upsertUsers_traced_ok R teamID rest _ _ _ _ _ h3
          refine ⟨_, UpsertCalls.update user rest existingUser updated calls hcalls, ?_⟩
          rw [← h.2.2, hlog]
          simp

/-- The calls of a successful `CreateTeam`, in order: the check of the name,
the insert of the team, the calls of the member loop and the final
`GetWithUsers`, whose team is the result. -/
theorem CreateTeam_traced_ok {σ : Type} (R : Repos σ) (team : Team) (s : σ)
    (log0 : List Event) (result : Team) (s' : σ) (log : List Event)
    (h : CreateTeam (traced R) team (s, log0) = (Except.ok result, (s', log))) :
    ∃ (created : Team) (calls : List Event),
      UpsertCalls created.ID created.Users calls ∧
      log = log0 ++
        [Event.teamExistsByName team.Name (Except.ok false),
         Event.teamCreate team (Except.ok created)] ++ calls ++
        [Event.teamGetWithUsers created.ID (Except.ok result)] := by
  unfold CreateTeam at h
  rcases h1 : R.teamExistsByName team.Name s with ⟨r1, s1⟩
  cases r1 with
  | error e => simp [h1] at h
  | ok taken =>
  simp only [traced_teamExistsByName, h1] at h
  cases taken with
  | true => simp at h
  | false =>
  simp only [Bool.false_eq_true, if_false, traced_teamCreate] at h
  rcases h2 : R.teamCreate team s1 with ⟨r2, s2⟩
  cases r2 with
  | error e2 => simp [h2] at h
  | ok created =>
  simp only [h2] at h
  simp only [List.append_assoc, List.singleton_append, List.cons_append, List.nil_append] at h
  rcases h3 : upsertUsers (traced R) created.ID created.Users
    (s2, log0 ++ [Event.teamExistsByName team.Name (Except.ok false),
      Event.teamCreate team (Except.ok created)]) with ⟨r3, s3, log3⟩
  cases r3 with
  | error e3 => simp [h3] at h
  | ok users =>
  simp only [h3, traced_teamGetWithUsers] at h
  obtain ⟨calls, hcalls, hlog3⟩ := upsertUsers_traced_ok R created.ID created.Users _ _ _ _ _ h3
  rcases h4 : R.teamGetWithUsers created.ID s3 with ⟨r4, s4⟩
  cases r4 with
  | error e4 => simp [h4] at h
  | ok res =>
  simp only [h4, Prod.mk.injEq, Except.ok.injEq] at h
  obtain ⟨hres, _, hlog⟩ := h
  subst hres
  refine ⟨created, calls, hcalls, ?_⟩
  rw [← hlog, hlog3]

/-- On the PostgreSQL repositories the member loop of `CreateTeam` does not
fail and leaves the store that `Store.upsert` describes, round by round. -/
theorem upsertUsers_pg (teamID : Int) :
    ∀ (l : List User) (s : Store), ∃ users : List User,
      upsertUsers pgRepos teamID l s = (Except.ok users, l.foldl (Store.upsert teamID) s)
  | [], s => ⟨[], rfl⟩
  | user :: rest, s => by
    cases hf : s.users.find? (fun u => u.UserID == user.UserID) with
    | none =>
      have hany := any_eq_false_of_find_none _ _ hf
      obtain ⟨users, ih⟩ := upsertUsers_pg teamID rest (Store.upsert teamID s user)
      have hs : Store.upsert teamID s user
          = { s with users := s.users ++
                       [{ user with TeamID := teamID, ID := s.userSeq, CreatedAt := s.now }],
                     userSeq := s.userSeq + 1 } := by
        simp only [Store.upsert, hf]
      rw [hs] at ih
      simp only [upsertUsers, pgRepos_userGetByUserID, UserStorage.GetByUserID, hf,
        pgRepos_userCreate, UserStorage.Create, hany, Bool.false_eq_true, if_false, ih,
        List.foldl_cons, hs]
      exact ⟨_, rfl⟩
    | some existingUser =>
      have hid : existingUser.UserID = user.UserID := by simpa using List.find?_some hf
      obtain ⟨users, ih⟩ := upsertUsers_pg teamID rest (Store.upsert teamID s user)
      have hs : Store.upsert teamID s user
          = { s with
              users := s.users.map (fun u =>
                if u.UserID == user.UserID then
                  { u with Username := user.Username, TeamID := teamID,
                           IsActive := user.IsActive }
                else u) } := by
        simp only [Store.upsert, hf]
      rw [hs] at ih
      simp only [upsertUsers, pgRepos_userGetByUserID, UserStorage.GetByUserID, hf,
        pgRepos_userUpdate, UserStorage.Update, hid, ih, List.foldl_cons, hs]
      exact ⟨_, rfl⟩

/-- After a round of the member loop for `m`, a user with the external id of
`m` exists and every such user has the name and the active flag of `m` and
the team. -/
theorem upsert_self (teamID : Int) (s : Store) (m : User) :
    (∃ u ∈ (Store.upsert teamID s m).users, u.UserID = m.UserID) ∧
    ∀ u ∈ (Store.upsert teamID s m).users, u.UserID = m.UserID →
      u.TeamID = teamID ∧ u.Username = m.Username ∧ u.IsActive = m.IsActive := by
  unfold Store.upsert
  cases hf : s.users.find? (fun u => u.UserID == m.UserID) with
  | none =>
    rw [List.find?_eq_none] at hf
    simp only [List.mem_append, List.mem_singleton]
    refine ⟨⟨_, Or.inr rfl, rfl⟩, ?_⟩
    rintro u (hu | hu) hid
    · exact absurd (by simpa using hid) (hf u hu)
    · subst hu
      exact ⟨rfl, rfl, rfl⟩
  | some existingUser =>
    have hid : existingUser.UserID = m.UserID := by simpa using List.find?_some hf
    have hmem := List.mem_of_find?_eq_some hf
    simp only [List.mem_map]
    refine ⟨⟨_, ⟨existingUser, hmem, rfl⟩, by simp [hid]⟩, ?_⟩
    rintro u ⟨v, hv, rfl⟩ hu
    by_cases hvid : v.UserID = m.UserID
    · simp [hvid]
    · simp [hvid] at hu

/-- A round of the member loop for `m` leaves the users with another
external id as they are. -/
theorem upsert_other (teamID : Int) (s : Store) (m : User) (userID : String)
    (hne : m.UserID ≠ userID) (u : User) :
    (u ∈ (Store.upsert teamID s m).users ∧ u.UserID = userID) ↔
      (u ∈ s.users ∧ u.UserID = userID) := by
  unfold Store.upsert
  cases hf : s.users.find? (fun u => u.UserID == m.UserID) with
  | none =>
    simp only [List.mem_append, List.mem_singleton]
    constructor
    · rintro ⟨hu | hu, hid⟩
      · exact ⟨hu, hid⟩
      · subst hu
        exact absurd hid hne
    · rintro ⟨hu, hid⟩
      exact ⟨Or.inl hu, hid⟩
  | some existingUser =>
    simp only [List.mem_map]
    constructor
    · rintro ⟨⟨v, hv, rfl⟩, hid⟩
      by_cases hvid : v.UserID = m.UserID
      · simp [hvid] at hid
        exact absurd hid hne
      · simp only [beq_iff_eq, hvid, if_false] at hid ⊢
        exact ⟨hv, hid⟩
    · rintro ⟨hu, hid⟩
      refine ⟨⟨u, hu, ?_⟩, hid⟩
      have : ¬ u.UserID = m.UserID := by
        rw [hid]; exact fun h => hne h.symm
      simp [this]

theorem lastWith_append (init : List User) (last : User) (userID : String) :
    lastWith (init ++ [last]) userID
      = if last.UserID == userID then some last else lastWith init userID := by
  unfold lastWith
  simp [List.find?_cons]
  split <;> simp_all

/-- After the member loop, the users with an external id of the roster have
the team and the name and active flag of the last member with that id. -/
theorem upsert_fold_spec (teamID : Int) (userID : String) (m' : User) :
    ∀ (l : List User) (s : Store), lastWith l userID = some m' →
      (∃ u ∈ (l.foldl (Store.upsert teamID) s).users, u.UserID = userID) ∧
      ∀ u ∈ (l.foldl (Store.upsert teamID) s).users, u.UserID = userID →
        u.TeamID = teamID ∧ u.Username = m'.Username ∧ u.IsActive = m'.IsActive := by
  intro l
  induction l using List.reverseRecOn with
  | nil => intro s h; simp [lastWith] at h
  | append_singleton init last ih =>
    intro s h
    rw [lastWith_append] at h
    rw [List.foldl_append]
    simp only [List.foldl_cons, List.foldl_nil]
    by_cases hl : last.UserID = userID
    · simp only [hl, beq_self_eq_true, if_true, Option.some.injEq] at h
      subst h
      subst hl
      exact upsert_self teamID _ last
    · have hl' : (last.UserID == userID) = false := by simpa using hl
      simp only [hl', Bool.false_eq_true, if_false] at h
      obtain ⟨⟨u, hu, hid⟩, hall⟩ := ih s h
      constructor
      · exact ⟨u, ((upsert_other teamID _ last userID hl u).mpr ⟨hu, hid⟩).1, hid⟩
      · intro v hv hvid
        exact hall v ((upsert_other teamID _ last userID hl v).mp ⟨hv, hvid⟩).1 hvid

theorem lastWith_of_mem (users : List User) (m : User) (h : m ∈ users) :
    ∃ m', lastWith users m.UserID = some m' := by
  unfold lastWith
  cases hf : users.reverse.find? (fun x => x.UserID == m.UserID) with
  | some m' => exact ⟨m', rfl⟩
  | none =>
    rw [List.find?_eq_none] at hf
    exact absurd (by simp) (hf m (List.mem_reverse.mpr h))

/-- A successful `CreateTeam` on the PostgreSQL repositories: the name was
free, the store is the one with the new team row after the member loop, and
the result is what `GetWithUsers` reads for the new team there. -/
theorem CreateTeam_pg_ok (team : Team) (s s' : Store) (result : Team)
    (h : CreateTeam pgRepos team s = (Except.ok result, s')) :
    s.teams.any (fun row => row.name == team.Name) = false ∧
    s' = team.Users.foldl (Store.upsert s.teamSeq)
      { s with teams := s.teams ++ [{ id := s.teamSeq, name := team.Name,
                                      created_at := s.now }],
               teamSeq := s.teamSeq + 1 } ∧
    TeamRepo.GetWithUsers s.teamSeq s' = (Except.ok result, s') := by
  unfold CreateTeam at h
  simp only [pgRepos_teamExistsByName, TeamRepo.ExistsByName] at h
  cases hany : s.teams.any (fun row => row.name == team.Name) with
  | true => simp [hany] at h
  | false =>
  simp only [hany, Bool.false_eq_true, if_false, pgRepos_teamCreate, TeamRepo.Create] at h
  obtain ⟨users, hup⟩ := upsertUsers_pg s.teamSeq team.Users
    { s with teams := s.teams ++ [{ id := s.teamSeq, name := team.Name,
                                    created_at := s.now }],
             teamSeq := s.teamSeq + 1 }
  simp only [hup, pgRepos_teamGetWithUsers] at h
  generalize hfin : team.Users.foldl (Store.upsert s.teamSeq)
    { s with teams := s.teams ++ [{ id := s.teamSeq, name := team.Name,
                                    created_at := s.now }],
             teamSeq := s.teamSeq + 1 } = fin at h
  have hframe : (TeamRepo.GetWithUsers s.teamSeq fin).2 = fin := by
    unfold TeamRepo.GetWithUsers
    split <;> rfl
  rcases hget : TeamRepo.GetWithUsers s.teamSeq fin with ⟨r4, s4⟩
  rw [hget] at h hframe
  simp only at hframe
  subst hframe
  cases r4 with
  | error e => simp at h
  | ok res =>
    simp only [Prod.mk.injEq, Except.ok.injEq] at h
    obtain ⟨hres, hs'⟩ := h
    subst hres
    subst hs'
    exact ⟨rfl, rfl, hget⟩

/-- C19. A successful `CreateTeam` checks the name, inserts the team and
then, for every supplied member in turn, looks the external id up and either
creates the member under the new team, when the look-up failed, or updates
the user found with the member's name and active flag and the new team; its
result is the team the final `GetWithUsers` returns. On the PostgreSQL
repositories every supplied `user_id` afterwards resolves to a user whose team
is the new team and whose name and active flag are those of the last member
supplied with that id, and the result is the new team as re-read from the
store. -/
theorem createTeam_roster :
    (∀ {σ : Type} (R : Repos σ) (team : Team) (s s' : σ) (result : Team)
      (log : List Event),
      CreateTeam (traced R) team (s, []) = (Except.ok result, (s', log)) →
      ∃ (created : Team) (calls : List Event),
        UpsertCalls created.ID created.Users calls ∧
        log = [Event.teamExistsByName team.Name (Except.ok false),
          Event.teamCreate team (Except.ok created)] ++ calls ++
          [Event.teamGetWithUsers created.ID (Except.ok result)]) ∧
    (∀ (team : Team) (s s' : Store) (result : Team),
      CreateTeam pgRepos team s = (Except.ok result, s') →
      TeamRepo.GetWithUsers s.teamSeq s' = (Except.ok result, s') ∧
      result.ID = s.teamSeq ∧
      { id := s.teamSeq, name := team.Name, created_at := s.now } ∈ s'.teams ∧
      ∀ m ∈ team.Users, ∃ (m' u : User),
        lastWith team.Users m.UserID = some m' ∧
        s'.users.find? (fun u => u.UserID == m.UserID) = some u ∧
        u.TeamID = s.teamSeq ∧ u.Username = m'.Username ∧ u.IsActive = m'.IsActive) := by
  constructor
  · intro σ R team s s' result log h
    obtain ⟨created, calls, hcalls, hlog⟩ := CreateTeam_traced_ok R team s [] result s' log h
    exact ⟨created, calls, hcalls, by simpa using hlog⟩
  · intro team s s' result h
    obtain ⟨_, hs', hget⟩ := CreateTeam_pg_ok team s s' result h
    have hteams : ∀ (l : List User) (st : Store),
        (l.foldl (Store.upsert s.teamSeq) st).teams = st.teams := by
      intro l
      induction l with
      | nil => intro st; rfl
      | cons m rest ih =>
        intro st
        rw [List.foldl_cons, ih]
        unfold Store.upsert
        split <;> rfl
    refine ⟨hget, ?_, ?_, ?_⟩
    · unfold TeamRepo.GetWithUsers at hget
      split at hget
      · simp at hget
      · rename_i row hrow
        simp only [Prod.mk.injEq, Except.ok.injEq] at hget
        rw [← hget.1]
        simpa using List.find?_some hrow
    · rw [hs', hteams]
      simp
    · intro m hm
      obtain ⟨m', hlast⟩ := lastWith_of_mem team.Users m hm
      obtain ⟨⟨u, hu, hid⟩, hall⟩ := upsert_fold_spec s.teamSeq m.UserID m' team.Users
        { s with teams := s.teams ++ [{ id := s.teamSeq, name := team.Name,
                                        created_at := s.now }],
                 teamSeq := s.teamSeq + 1 } hlast
      rw [← hs'] at hu hall
      cases hf : s'.users.find? (fun u => u.UserID == m.UserID) with
      | none =>
        rw [List.find?_eq_none] at hf
        exact absurd (by simpa using hid) (hf u hu)
      | some v =>
        have hv := hall v (List.mem_of_find?_eq_some hf) (by simpa using List.find?_some hf)
        exact ⟨m', v, hlast, rfl, hv⟩

/-- Witness of C19: team "frontend" is created on the store that holds team
"backend" with Alice and Bob, with Bob listed twice. -/
theorem createTeam_roster_witness :
    (∃ (created : Team) (calls : List Event),
        UpsertCalls created.ID created.Users calls ∧
        (CreateTeam (traced pgRepos) frontendTeam (backendStore, [])).2.2
          = [Event.teamExistsByName "frontend" (Except.ok false),
            Event.teamCreate frontendTeam (Except.ok created)] ++ calls ++
            [Event.teamGetWithUsers created.ID (Except.ok frontendCreated)]) ∧
    (TeamRepo.GetWithUsers backendStore.teamSeq (CreateTeam pgRepos frontendTeam backendStore).2
        = (Except.ok frontendCreated, (CreateTeam pgRepos frontendTeam backendStore).2) ∧
      frontendCreated.ID = backendStore.teamSeq ∧
      { id := backendStore.teamSeq, name := "frontend", created_at := backendStore.now }
        ∈ (CreateTeam pgRepos frontendTeam backendStore).2.teams ∧
      ∀ m ∈ frontendTeam.Users, ∃ (m' u : User),
        lastWith frontendTeam.Users m.UserID = some m' ∧
        (CreateTeam pgRepos frontendTeam backendStore).2.users.find?
          (fun u => u.UserID == m.UserID) = some u ∧
        u.TeamID = backendStore.teamSeq ∧ u.Username = m'.Username ∧
        u.IsActive = m'.IsActive) :=
  ⟨createTeam_roster.1 pgRepos frontendTeam backendStore
      (CreateTeam pgRepos frontendTeam backendStore).2 frontendCreated _ rfl,
   createTeam_roster.2 frontendTeam backendStore
      (CreateTeam pgRepos frontendTeam backendStore).2 frontendCreated rfl⟩

/-! ## C20: user identity under team creation -/

/-- What a call preserves on the store it preserves behind the failing
connection. -/
theorem failing_preserves {σ α : Type} (op : Op σ α) (P : σ → Prop)
    (hop : ∀ s, P s → P (op s).2) (st : σ × List Bool) (h : P st.1) :
    P (failing op st).2.1 := by
  unfold failing
  rcases hf : st.2 with _ | ⟨b, rest⟩
  · exact hop st.1 h
  · cases b with
    | true => exact h
    | false => exact hop st.1 h

/-- A sequence of `CreateTeam` calls preserves what each call preserves. -/
theorem createTeamAll_preserves {σ : Type} (R : Repos σ) (P : σ → Prop)
    (hP : ∀ (team : Team) (s : σ), P s → P (CreateTeam R team s).2) :
    ∀ (teams : List Team) (s : σ), P s → P (createTeamAll R teams s).2
  | [], s, h => h
  | team :: rest, s, h => by
    simp only [createTeamAll]
    exact createTeamAll_preserves R P hP rest _ (hP team s h)

theorem Create_user_unique (x : User) (s : Store) (h : s.uniqueUsers) :
    (UserStorage.Create x s).2.uniqueUsers := by
  unfold UserStorage.Create
  split
  · exact h
  · rename_i hany
    unfold Store.uniqueUsers at h ⊢
    simp only [List.map_append, List.map_cons, List.map_nil]
    rw [List.nodup_append]
    refine ⟨h, List.nodup_singleton _, ?_⟩
    intro a ha hb
    rw [List.mem_singleton] at hb
    subst hb
    apply hany
    rw [List.mem_map] at ha
    obtain ⟨u, hu, hid⟩ := ha
    rw [List.any_eq_true]
    exact ⟨u, hu, by simp [hid]⟩

theorem Update_user_ids (x : User) (s : Store) :
    (UserStorage.Update x s).2.users.map User.UserID = s.users.map User.UserID := by
  unfold UserStorage.Update
  split
  · rfl
  · simp only [List.map_map]
    apply List.map_congr_left
    intro u _
    simp only [Function.comp]
    split <;> rfl

theorem Update_user_unique (x : User) (s : Store) (h : s.uniqueUsers) :
    (UserStorage.Update x s).2.uniqueUsers := by
  unfold Store.uniqueUsers at h ⊢
  rw [Update_user_ids]
  exact h

theorem Create_user_identity (u x : User) (s : Store) (h : s.hasIdentity u) :
    (UserStorage.Create x s).2.hasIdentity u := by
  unfold UserStorage.Create
  split
  · exact h
  · obtain ⟨u', hu', hid⟩ := h
    exact ⟨u', List.mem_append_left _ hu', hid⟩

theorem Update_user_identity (u x : User) (s : Store) (h : s.hasIdentity u) :
    (UserStorage.Update x s).2.hasIdentity u := by
  unfold UserStorage.Update
  split
  · exact h
  · obtain ⟨u', hu', h1, h2, h3⟩ := h
    by_cases hx : (u'.UserID == x.UserID) = true
    · exact ⟨{ u' with Username := x.Username, TeamID := x.TeamID, IsActive := x.IsActive },
        List.mem_map.mpr ⟨u', hu', by simp only [hx, if_true]⟩, h1, h2, h3⟩
    · exact ⟨u', List.mem_map.mpr ⟨u', hu', by simp only [hx, if_false]; rfl⟩, h1, h2, h3⟩

/-- A property of the table `users` that the INSERT and the UPDATE of
`UserStorage` preserve is preserved by `CreateTeam` on the PostgreSQL
repositories behind a failing connection, whatever the call returns. -/
theorem CreateTeam_faulty_pg_users (P : Store → Prop)
    (hframe : ∀ s s' : Store, s'.users = s.users → P s → P s')
    (hcreate : ∀ (x : User) (s : Store), P s → P (UserStorage.Create x s).2)
    (hupdate : ∀ (x : User) (s : Store), P s → P (UserStorage.Update x s).2)
    (team : Team) (s : Store) (faults : List Bool) (h : P s) :
    P (CreateTeam (faulty pgRepos) team (s, faults)).2.1 := by
  refine CreateTeam_preserves (faulty pgRepos) (fun st => P st.1) ?_ ?_ ?_ ?_ ?_ ?_ team
    (s, faults) h
  · intro x st hst
    exact failing_preserves (TeamRepo.ExistsByName x) P (fun s hs => hs) st hst
  · intro x st hst
    refine failing_preserves (TeamRepo.Create x) P (fun s hs => ?_) st hst
    refine hframe s _ ?_ hs
    unfold TeamRepo.Create
    split <;> rfl
  · intro x st hst
    refine failing_preserves (UserStorage.GetByUserID x) P (fun s hs => ?_) st hst
    rw [GetByUserID_pg_frame]; exact hs
  · intro x st hst
    exact failing_preserves (UserStorage.Create x) P (hcreate x) st hst
  · intro x st hst
    exact failing_preserves (UserStorage.Update x) P (hupdate x) st hst
  · intro x st hst
    refine failing_preserves (TeamRepo.GetWithUsers x) P (fun s hs => ?_) st hst
    refine hframe s _ ?_ hs
    unfold TeamRepo.GetWithUsers
    split <;> rfl

/-- C20. User identity is unique and immutable under team creation. On the
PostgreSQL repositories, behind a connection that may fail at any call and
whatever `CreateTeam` returns: a store with at most one user per `user_id`
still has at most one user per `user_id` after the call, every user it had
is still there with the same surrogate id, `user_id` and creation timestamp,
and two users of the store after the call with the same `user_id` are the
same user, hence on one team. So every store reached from the empty one
through `CreateTeam` calls has at most one user per `user_id`. -/
theorem user_identity :
    (∀ (team : Team) (s : Store) (faults : List Bool), s.uniqueUsers →
      (CreateTeam (faulty pgRepos) team (s, faults)).2.1.uniqueUsers ∧
      (∀ u ∈ s.users, (CreateTeam (faulty pgRepos) team (s, faults)).2.1.hasIdentity u) ∧
      (∀ u ∈ (CreateTeam (faulty pgRepos) team (s, faults)).2.1.users,
        ∀ v ∈ (CreateTeam (faulty pgRepos) team (s, faults)).2.1.users,
          u.UserID = v.UserID → u = v ∧ u.TeamID = v.TeamID)) ∧
    (∀ (teams : List Team) (now : Nat) (faults : List Bool),
      (createTeamAll (faulty pgRepos) teams (emptyStore now, faults)).2.1.uniqueUsers) := by
  have huniq : ∀ (team : Team) (s : Store) (faults : List Bool), s.uniqueUsers →
      (CreateTeam (faulty pgRepos) team (s, faults)).2.1.uniqueUsers := by
    intro team s faults h
    refine CreateTeam_faulty_pg_users Store.uniqueUsers ?_ Create_user_unique
      Update_user_unique team s faults h
    intro s s' heq hs
    unfold Store.uniqueUsers at hs ⊢
    rw [heq]; exact hs
  constructor
  · intro team s faults h
    refine ⟨huniq team s faults h, ?_, ?_⟩
    · intro u hu
      refine CreateTeam_faulty_pg_users (Store.hasIdentity u) ?_ (Create_user_identity u)
        (Update_user_identity u) team s faults ⟨u, hu, rfl, rfl, rfl⟩
      intro s s' heq hs
      unfold Store.hasIdentity at hs ⊢
      rw [heq]; exact hs
    · intro u hu v hv hid
      have := List.inj_on_of_nodup_map (huniq team s faults h) hu hv hid
      exact ⟨this, by rw [this]⟩
  · intro teams now faults
    exact createTeamAll_preserves (faulty pgRepos) (fun st => st.1.uniqueUsers)
      (fun team st hst => huniq team st.1 st.2 hst) teams (emptyStore now, faults)
      List.nodup_nil

/-- Witness of C20: team "frontend", which lists Bob of team "backend", is
created on the store that holds team "backend", behind a connection that
fails at the look-up of Bob. -/
theorem user_identity_witness :
    ((CreateTeam (faulty pgRepos) frontendTeam
        (backendStore, [false, false, true])).2.1.uniqueUsers ∧
      (∀ u ∈ backendStore.users, (CreateTeam (faulty pgRepos) frontendTeam
        (backendStore, [false, false, true])).2.1.hasIdentity u) ∧
      (∀ u ∈ (CreateTeam (faulty pgRepos) frontendTeam
          (backendStore, [false, false, true])).2.1.users,
        ∀ v ∈ (CreateTeam (faulty pgRepos) frontendTeam
          (backendStore, [false, false, true])).2.1.users,
          u.UserID = v.UserID → u = v ∧ u.TeamID = v.TeamID)) ∧
    (createTeamAll (faulty pgRepos) [backendTeam, frontendTeam]
      (emptyStore 100, [])).2.1.uniqueUsers :=
  ⟨user_identity.1 frontendTeam backendStore [false, false, true]
      (by unfold Store.uniqueUsers; decide),
   user_identity.2 [backendTeam, frontendTeam] 100 []⟩

/-! ## Sequences of engine operations -/

theorem GetWithUsers_pg_frame (teamID : Int) (s : Store) :
    (TeamRepo.GetWithUsers teamID s).2 = s := by
  unfold TeamRepo.GetWithUsers
  split <;> rfl

/-- Behind the failing connection a call leaves the store as it was or as the
call itself leaves it. -/
theorem failing_preserves_at {σ α : Type} (op : Op σ α) (P : σ → Prop)
    (st : σ × List Bool) (h : P st.1) (hop : P (op st.1).2) : P (failing op st).2.1 := by
  unfold failing
  rcases hf : st.2 with _ | ⟨b, rest⟩
  · exact hop
  · cases b with
    | true => exact h
    | false => exact hop

/-- `MergePR` preserves what the look-up preserves and what the update of
an unmerged pull request just read preserves. -/
theorem MergePR_preserves {σ : Type} (R : Repos σ) (P : σ → Prop)
    (hget : ∀ (x : String) (s : σ), P s → P (R.prGetByPRID x s).2)
    (hupd : ∀ (prID : String) (now : Nat) (s : σ) (pr : PullRequest), P s →
      (R.prGetByPRID prID s).1 = Except.ok pr → pr.StatusID ≠ StatusMergedID →
      P (R.prUpdate { pr with StatusID := StatusMergedID, MergedAt := some now }
        (R.prGetByPRID prID s).2).2)
    (now : Nat) (prID : String) (s : σ) (hs : P s) : P (MergePR R now prID s).2 := by
  unfold MergePR
  have k1 := hget prID s hs
  have u1 := hupd prID now s
  rcases h1 : R.prGetByPRID prID s with ⟨r1, s1⟩
  rw [h1] at k1 u1
  cases r1 with
  | error e => exact k1
  | ok pr =>
  simp only
  split
  · exact k1
  rename_i hst
  have k2 := u1 pr hs rfl hst
  simp only at k2
  rcases h2 : R.prUpdate { pr with StatusID := StatusMergedID, MergedAt := some now } s1
    with ⟨r2, s2⟩
  rw [h2] at k2
  cases r2 with
  | error e2 => exact k2
  | ok u =>
  simp only
  have k3 := hget prID s2 k2
  rcases h3 : R.prGetByPRID prID s2 with ⟨r3, s3⟩
  rw [h3] at k3
  cases r3 <;> exact k3

/-- `CreatePR` on the PostgreSQL repositories behind a failing connection
preserves what the INSERT into `pull_requests` and the INSERT into
`pr_reviewers` preserve. -/
theorem CreatePR_faulty_pg_preserves (P : Store → Prop)
    (hcreate : ∀ (x : PullRequest) (s : Store), P s → P (PRRepo.Create x s).2)
    (hadd : ∀ (x y : Int) (s : Store), P s → P (PRRepo.AddReviewer x y s).2)
    (draws : List Nat) (prID prName authorUserID : String) (st : Store × List Bool)
    (h : P st.1) : P (CreatePR (faulty pgRepos) draws prID prName authorUserID st).2.1 := by
  refine CreatePR_preserves (faulty pgRepos) (fun st => P st.1) ?_ ?_ ?_ ?_ ?_ ?_ draws prID
    prName authorUserID st h
  · intro x st hst
    refine failing_preserves (PRRepo.GetByPRID x) P (fun s hs => ?_) st hst
    rw [GetByPRID_pg_frame]; exact hs
  · intro x st hst
    refine failing_preserves (UserStorage.GetByUserID x) P (fun s hs => ?_) st hst
    rw [GetByUserID_pg_frame]; exact hs
  · intro x st hst
    refine failing_preserves (TeamRepo.GetByID x) P (fun s hs => ?_) st hst
    rw [GetByID_pg_frame]; exact hs
  · intro x st hst
    exact failing_preserves (PRRepo.Create x) P (hcreate x) st hst
  · intro x st hst
    exact failing_preserves (UserStorage.GetByTeamID x) P (fun s hs => hs) st hst
  · intro x y st hst
    exact failing_preserves (PRRepo.AddReviewer x y) P (hadd x y) st hst

/-- `ReassignReviewer` on the PostgreSQL repositories behind a failing
connection preserves what the DELETE from and the INSERT into `pr_reviewers`
preserve. -/
theorem ReassignReviewer_faulty_pg_preserves (P : Store → Prop)
    (hrm : ∀ (x y : Int) (s : Store), P s → P (PRRepo.RemoveReviewer x y s).2)
    (hadd : ∀ (x y : Int) (s : Store), P s → P (PRRepo.AddReviewer x y s).2)
    (draws : List Nat) (prID oldUserID : String) (st : Store × List Bool)
    (h : P st.1) : P (ReassignReviewer (faulty pgRepos) draws prID oldUserID st).2.1 := by
  refine ReassignReviewer_preserves (faulty pgRepos) (fun st => P st.1) ?_ ?_ ?_ ?_ ?_ ?_ ?_
    draws prID oldUserID st h
  · intro x st hst
    refine failing_preserves (PRRepo.GetByPRID x) P (fun s hs => ?_) st hst
    rw [GetByPRID_pg_frame]; exact hs
  · intro x st hst
    refine failing_preserves (UserStorage.GetByUserID x) P (fun s hs => ?_) st hst
    rw [GetByUserID_pg_frame]; exact hs
  · intro x st hst
    exact failing_preserves (PRRepo.GetReviewers x) P (fun s hs => hs) st hst
  · intro x st hst
    refine failing_preserves (TeamRepo.GetByID x) P (fun s hs => ?_) st hst
    rw [GetByID_pg_frame]; exact hs
  · intro x st hst
    exact failing_preserves (UserStorage.GetByTeamID x) P (fun s hs => hs) st hst
  · intro x y st hst
    exact failing_preserves (PRRepo.RemoveReviewer x y) P (hrm x y) st hst
  · intro x y st hst
    exact failing_preserves (PRRepo.AddReviewer x y) P (hadd x y) st hst

/-- `MergePR` on the PostgreSQL repositories behind a failing connection
preserves what the UPDATE of an unmerged row to MERGED preserves. -/
theorem MergePR_faulty_pg_preserves (P : Store → Prop)
    (hupd : ∀ (prID : String) (now : Nat) (s : Store) (row : PRRow), P s →
      s.pull_requests.find? (fun row => row.pull_request_id == prID) = some row →
      row.status_id ≠ StatusMergedID →
      P (PRRepo.Update { row.toPR (s.reviewersOf row.id) with
          StatusID := StatusMergedID, MergedAt := some now } s).2)
    (now : Nat) (prID : String) (st : Store × List Bool)
    (h : P st.1) : P (MergePR (faulty pgRepos) now prID st).2.1 := by
  refine MergePR_preserves (faulty pgRepos) (fun st => P st.1) ?_ ?_ now prID st h
  · intro x st hst
    refine failing_preserves (PRRepo.GetByPRID x) P (fun s hs => ?_) st hst
    rw [GetByPRID_pg_frame]; exact hs
  · intro prID now st pr hst hget hstatus
    rcases hg : (faulty pgRepos).prGetByPRID prID st with ⟨r, st1⟩
    rw [hg] at hget
    simp only at hget
    subst hget
    have hpg := failing_ok (PRRepo.GetByPRID prID) st st1 pr hg
    obtain ⟨row, hrow, hpr, hs1⟩ := GetByPRID_pg_ok prID st.1 st1.1 pr hpg
    simp only
    refine failing_preserves_at (PRRepo.Update _) P st1 (by rw [hs1]; exact hst) ?_
    rw [hs1, hpr]
    exact hupd prID now st.1 row hst hrow (by rw [hpr] at hstatus; exact hstatus)


/-- An engine operation on the PostgreSQL repositories behind a failing
connection preserves what the three operations on pull requests and the
writes of the user and team repositories preserve. -/
theorem EngineOp_faulty_pg_preserves (P : Store → Prop)
    (hucreate : ∀ (x : User) (s : Store), P s → P (UserStorage.Create x s).2)
    (huupdate : ∀ (x : User) (s : Store), P s → P (UserStorage.Update x s).2)
    (huset : ∀ (x : String) (b : Bool) (s : Store), P s → P (UserStorage.SetIsActive x b s).2)
    (hudeact : ∀ (x : Int) (s : Store), P s → P (UserStorage.DeactivateByTeamID x s).2)
    (htcreate : ∀ (x : Team) (s : Store), P s → P (TeamRepo.Create x s).2)
    (hcreatePR : ∀ (draws : List Nat) (prID prName authorUserID : String)
      (st : Store × List Bool), P st.1 →
      P (CreatePR (faulty pgRepos) draws prID prName authorUserID st).2.1)
    (hmergePR : ∀ (now : Nat) (prID : String) (st : Store × List Bool), P st.1 →
      P (MergePR (faulty pgRepos) now prID st).2.1)
    (hreassign : ∀ (draws : List Nat) (prID oldUserID : String)
      (st : Store × List Bool), P st.1 →
      P (ReassignReviewer (faulty pgRepos) draws prID oldUserID st).2.1)
    (op : EngineOp) (st : Store × List Bool) (h : P st.1) :
    P (op.run (faulty pgRepos) st).1 := by
  cases op with
  | createPR draws prID prName authorUserID =>
    exact hcreatePR draws prID prName authorUserID st h
  | mergePR now prID => exact hmergePR now prID st h
  | reassignReviewer draws prID oldUserID => exact hreassign draws prID oldUserID st h
  | createTeam team =>
    refine CreateTeam_preserves (faulty pgRepos) (fun st => P st.1) ?_ ?_ ?_ ?_ ?_ ?_ team st h
    · intro x st hst
      exact failing_preserves (TeamRepo.ExistsByName x) P (fun s hs => hs) st hst
    · intro x st hst
      exact failing_preserves (TeamRepo.Create x) P (htcreate x) st hst
    · intro x st hst
      refine failing_preserves (UserStorage.GetByUserID x) P (fun s hs => ?_) st hst
      rw [GetByUserID_pg_frame]; exact hs
    · intro x st hst
      exact failing_preserves (UserStorage.Create x) P (hucreate x) st hst
    · intro x st hst
      exact failing_preserves (UserStorage.Update x) P (huupdate x) st hst
    · intro x st hst
      refine failing_preserves (TeamRepo.GetWithUsers x) P (fun s hs => ?_) st hst
      rw [GetWithUsers_pg_frame]; exact hs
  | setIsActive userID isActive =>
    refine SetIsActive_preserves (faulty pgRepos) (fun st => P st.1) ?_ ?_ userID isActive st h
    · intro x st hst
      refine failing_preserves (UserStorage.GetByUserID x) P (fun s hs => ?_) st hst
      rw [GetByUserID_pg_frame]; exact hs
    · intro x b st hst
      exact failing_preserves (UserStorage.SetIsActive x b) P (huset x b) st hst
  | deactivateTeamUsers teamID =>
    refine DeactivateTeamUsers_preserves (faulty pgRepos) (fun st => P st.1) ?_ ?_ teamID st h
    · intro x st hst
      refine failing_preserves (TeamRepo.GetByID x) P (fun s hs => ?_) st hst
      rw [GetByID_pg_frame]; exact hs
    · intro x st hst
      exact failing_preserves (UserStorage.DeactivateByTeamID x) P (hudeact x) st hst

/-- A property of the store that the clock does not affect and that every
engine operation preserves holds along every history. -/
theorem Steps_preserves (P : Store → Prop)
    (htick : ∀ (s : Store) (t : Nat), P s → P { s with now := t })
    (hstep : ∀ (op : EngineOp) (st : Store × List Bool), P st.1 →
      P (op.run (faulty pgRepos) st).1)
    (s s1 : Store) (h : Steps s s1) (hs : P s) : P s1 := by
  induction h with
  | refl => exact hs
  | tick t _ ih => exact htick _ t ih
  | step op faults _ ih => exact hstep op (_, faults) ih

/-- The user and team repositories do not write to the tables of pull
requests: a property of `pull_requests`, `pr_reviewers` and the sequence of
`pull_requests` alone is preserved by their writes and by the clock. -/
theorem pg_pr_tables_frame (P : Store → Prop)
    (hframe : ∀ s s1 : Store, s1.pull_requests = s.pull_requests →
      s1.pr_reviewers = s.pr_reviewers → s1.prSeq = s.prSeq → P s → P s1) :
    (∀ (x : User) (s : Store), P s → P (UserStorage.Create x s).2) ∧
    (∀ (x : User) (s : Store), P s → P (UserStorage.Update x s).2) ∧
    (∀ (x : String) (b : Bool) (s : Store), P s → P (UserStorage.SetIsActive x b s).2) ∧
    (∀ (x : Int) (s : Store), P s → P (UserStorage.DeactivateByTeamID x s).2) ∧
    (∀ (x : Team) (s : Store), P s → P (TeamRepo.Create x s).2) ∧
    (∀ (s : Store) (t : Nat), P s → P { s with now := t }) := by
  refine ⟨?_, ?_, ?_, ?_, ?_, ?_⟩
  · intro x s hs
    refine hframe s _ ?_ ?_ ?_ hs <;> (unfold UserStorage.Create; split <;> rfl)
  · intro x s hs
    refine hframe s _ ?_ ?_ ?_ hs <;> (unfold UserStorage.Update; split <;> rfl)
  · intro x b s hs
    refine hframe s _ ?_ ?_ ?_ hs <;> (unfold UserStorage.SetIsActive; split <;> rfl)
  · intro x s hs
    exact hframe s _ rfl rfl rfl hs
  · intro x s hs
    refine hframe s _ ?_ ?_ ?_ hs <;> (unfold TeamRepo.Create; split <;> rfl)
  · intro s t hs
    exact hframe s _ rfl rfl rfl hs

/-! ## C11: the life cycle of a pull request -/

/-- A successful `CreatePR` on a connection that never fails: the id was
free, the author exists, and the store gains the row of the new pull
request, which is what the call returns. -/
theorem CreatePR_pg_ok (draws : List Nat) (prID prName authorUserID : String)
    (s s1 : Store) (result : PullRequest)
    (h : CreatePR pgRepos draws prID prName authorUserID s = (Except.ok result, s1)) :
    ∃ author : User,
      s.pull_requests.find? (fun row => row.pull_request_id == prID) = none ∧
      s.users.find? (fun u => u.UserID == authorUserID) = some author ∧
      s1.pull_requests = s.pull_requests ++ [s.newRow prID prName author.ID] ∧
      result = (s.newRow prID prName author.ID).toPR (s1.reviewersOf s.prSeq) := by
  cases hfree : s.pull_requests.find? (fun row => row.pull_request_id == prID) with
  | some row =>
    simp [CreatePR, PRRepo.GetByPRID, hfree, PRRepo.GetReviewers] at h
  | none =>
  cases hauthor : s.users.find? (fun u => u.UserID == authorUserID) with
  | none => simp [CreatePR, PRRepo.GetByPRID, hfree, UserStorage.GetByUserID, hauthor] at h
  | some author =>
  cases hteam : s.teams.find? (fun row => row.id == author.TeamID) with
  | none =>
    simp [CreatePR, PRRepo.GetByPRID, hfree, UserStorage.GetByUserID, hauthor,
      TeamRepo.GetByID, hteam] at h
  | some team =>
  have hany := any_eq_false_of_find_none _ _ hfree
  simp only [CreatePR, pgRepos_prGetByPRID, pgRepos_userGetByUserID, pgRepos_teamGetByID,
    pgRepos_prCreate, pgRepos_userGetByTeamID, PRRepo.GetByPRID, hfree,
    UserStorage.GetByUserID, hauthor,
    TeamRepo.GetByID, hteam, PRRepo.Create, hany, getActiveTeamMembers,
    UserStorage.GetByTeamID] at h
  simp only [Bool.false_eq_true, if_false] at h
  generalize hsel : selectRandomReviewers draws _ _ = sel at h
  obtain ⟨s6, h6, hprs, _, _⟩ := addReviewers_pg s.prSeq sel
    { s with
      pull_requests := s.pull_requests ++
        [{ id := s.prSeq, pull_request_id := prID, pull_request_name := prName,
           author_id := author.ID, status_id := StatusOpenID, merged_at := none,
           created_at := s.now }],
      prSeq := s.prSeq + 1 }
  simp only [h6] at h
  have hrow : s6.pull_requests.find? (fun row => row.pull_request_id == prID)
      = some (s.newRow prID prName author.ID) := by
    rw [hprs]
    simp [List.find?_append, hfree, Store.newRow]
  simp only [hrow, PRRepo.GetReviewers, Prod.mk.injEq, Except.ok.injEq] at h
  obtain ⟨hres, hs1⟩ := h
  subst hs1
  exact ⟨author, rfl, rfl, hprs, hres.symm⟩

theorem Create_pr_keepsRows (rs : List PRRow) (x : PullRequest) (s : Store)
    (h : s.keepsRows rs) : (PRRepo.Create x s).2.keepsRows rs := by
  unfold PRRepo.Create
  split
  · exact h
  · rename_i hany
    obtain ⟨hu, hm, hr⟩ := h
    refine ⟨?_, ?_, fun r hrs => List.mem_append_left _ (hr r hrs)⟩
    · unfold Store.uniquePRs at hu ⊢
      simp only [List.map_append, List.map_cons, List.map_nil]
      rw [List.nodup_append]
      refine ⟨hu, List.nodup_singleton _, ?_⟩
      intro a ha hb
      rw [List.mem_singleton] at hb
      subst hb
      apply hany
      rw [List.mem_map] at ha
      obtain ⟨row, hrow, hid⟩ := ha
      rw [List.any_eq_true]
      exact ⟨row, hrow, by simp [hid]⟩
    · intro row hrow hset
      simp only [List.mem_append, List.mem_singleton] at hrow
      rcases hrow with hrow | hrow
      · exact hm row hrow hset
      · subst hrow
        exact absurd rfl hset

theorem AddReviewer_keepsRows (rs : List PRRow) (x y : Int) (s : Store)
    (h : s.keepsRows rs) : (PRRepo.AddReviewer x y s).2.keepsRows rs := by
  unfold PRRepo.AddReviewer
  split <;> exact h

theorem RemoveReviewer_keepsRows (rs : List PRRow) (x y : Int) (s : Store)
    (h : s.keepsRows rs) : (PRRepo.RemoveReviewer x y s).2.keepsRows rs := by
  unfold PRRepo.RemoveReviewer
  split <;> exact h

/-- The UPDATE by which `MergePR` merges the unmerged row it has read leaves
every merged row as it is. -/
theorem Update_keepsRows (rs : List PRRow) (hrs : ∀ r ∈ rs, r.status_id = StatusMergedID)
    (prID : String) (now : Nat) (s : Store) (row : PRRow) (h : s.keepsRows rs)
    (hrow : s.pull_requests.find? (fun row => row.pull_request_id == prID) = some row)
    (hopen : row.status_id ≠ StatusMergedID) :
    (PRRepo.Update { row.toPR (s.reviewersOf row.id) with
        StatusID := StatusMergedID, MergedAt := some now } s).2.keepsRows rs := by
  obtain ⟨hu, hm, hr⟩ := h
  have hmem : row ∈ s.pull_requests := List.mem_of_find?_eq_some hrow
  unfold PRRepo.Update
  split
  · exact ⟨hu, hm, hr⟩
  · simp only [PRRow.toPR]
    refine ⟨?_, ?_, ?_⟩
    · unfold Store.uniquePRs at hu ⊢
      simp only [List.map_map]
      have : (s.pull_requests.map (PRRow.pull_request_id ∘ fun r : PRRow =>
          if r.pull_request_id == row.pull_request_id then
            { r with pull_request_name := row.pull_request_name,
                     status_id := StatusMergedID, merged_at := some now }
          else r)) = s.pull_requests.map PRRow.pull_request_id := by
        apply List.map_congr_left
        intro r _
        simp only [Function.comp]
        split <;> rfl
      rw [this]
      exact hu
    · intro r hr2 hset
      simp only [List.mem_map] at hr2
      obtain ⟨r0, hr0, hf⟩ := hr2
      by_cases hc : (r0.pull_request_id == row.pull_request_id) = true
      · simp only [hc, if_true] at hf
        subst hf
        rfl
      · simp only [hc, if_false] at hf
        subst hf
        exact hm _ hr0 hset
    · intro r hrin
      have hr1 := hr r hrin
      have hne : ¬ (r.pull_request_id == row.pull_request_id) = true := by
        intro hc
        have heq : r = row := List.inj_on_of_nodup_map hu hr1 hmem (by simpa using hc)
        exact hopen (heq ▸ hrs r hrin)
      exact List.mem_map.mpr ⟨r, hr1, by simp only [hne, if_false]; rfl⟩

/-- Every engine operation, behind a connection that may fail at any call,
leaves the merged rows `rs` in `pull_requests`. -/
theorem EngineOp_keepsRows (rs : List PRRow) (hrs : ∀ r ∈ rs, r.status_id = StatusMergedID)
    (op : EngineOp) (st : Store × List Bool) (h : st.1.keepsRows rs) :
    (op.run (faulty pgRepos) st).1.keepsRows rs := by
  obtain ⟨h1, h2, h3, h4, h5, _⟩ := pg_pr_tables_frame (Store.keepsRows rs)
    (fun s s1 hp _ _ hs => by
      unfold Store.keepsRows Store.uniquePRs Store.mergedAtMerged at hs ⊢
      rw [hp]; exact hs)
  refine EngineOp_faulty_pg_preserves (Store.keepsRows rs) h1 h2 h3 h4 h5 ?_ ?_ ?_ op st h
  · exact CreatePR_faulty_pg_preserves _ (Create_pr_keepsRows rs) (AddReviewer_keepsRows rs)
  · exact MergePR_faulty_pg_preserves _ (fun prID now s row hs hrow hopen =>
      Update_keepsRows rs hrs prID now s row hs hrow hopen)
  · exact ReassignReviewer_faulty_pg_preserves _ (RemoveReviewer_keepsRows rs)
      (AddReviewer_keepsRows rs)

theorem Steps_keepsRows (rs : List PRRow) (hrs : ∀ r ∈ rs, r.status_id = StatusMergedID)
    (s s1 : Store) (h : Steps s s1) (hs : s.keepsRows rs) : s1.keepsRows rs :=
  Steps_preserves (Store.keepsRows rs) (fun _ _ hs => hs) (EngineOp_keepsRows rs hrs) s s1 h hs

/-- C11. The life cycle of a pull request is one-way. A successful `CreatePR`
(PostgreSQL repositories, no failure) returns and stores the pull request
with status OPEN and `merged_at` unset. In every store reached from the
empty one by engine operations, each behind a connection that may fail at
any call, a row with `merged_at` set has status MERGED; and a row that has
status MERGED there is a row of every store reached from there by further
engine operations, unchanged, so with status MERGED and the same
`merged_at`, and it is the row a look-up of its `pull_request_id` reads. -/
theorem pr_lifecycle_one_way :
    (∀ (draws : List Nat) (prID prName authorUserID : String) (s s1 : Store)
      (result : PullRequest),
      CreatePR pgRepos draws prID prName authorUserID s = (Except.ok result, s1) →
      result.StatusID = StatusOpenID ∧ result.MergedAt = none ∧
      ∃ row, s1.pull_requests.find? (fun row => row.pull_request_id == prID) = some row ∧
        row.status_id = StatusOpenID ∧ row.merged_at = none) ∧
    (∀ (now : Nat) (s s1 : Store) (r : PRRow), Steps (emptyStore now) s → Steps s s1 →
      r ∈ s.pull_requests →
      (r.merged_at ≠ none → r.status_id = StatusMergedID) ∧
      (r.status_id = StatusMergedID →
        r ∈ s1.pull_requests ∧
        s1.pull_requests.find? (fun row => row.pull_request_id == r.pull_request_id)
          = some r)) := by
  constructor
  · intro draws prID prName authorUserID s s1 result h
    obtain ⟨author, hfree, _, hprs, hres⟩ := CreatePR_pg_ok draws prID prName authorUserID
      s s1 result h
    subst hres
    refine ⟨rfl, rfl, s.newRow prID prName author.ID, ?_, rfl, rfl⟩
    rw [hprs]
    simp [List.find?_append, hfree, Store.newRow]
  · intro now s s1 r hreach hsteps hr
    have h0 : (emptyStore now).keepsRows [] :=
      ⟨List.nodup_nil, fun _ h => by simp [emptyStore] at h, fun _ h => by simp at h⟩
    have hs := Steps_keepsRows [] (fun _ h => by simp at h) _ _ hreach h0
    refine ⟨hs.2.1 r hr, fun hmerged => ?_⟩
    have hs1 := Steps_keepsRows [r] (fun x hx => by
      rw [List.mem_singleton] at hx; rw [hx]; exact hmerged) s s1 hsteps
      ⟨hs.1, hs.2.1, fun x hx => by rw [List.mem_singleton] at hx; rw [hx]; exact hr⟩
    have hr1 := hs1.2.2 r (List.mem_singleton.mpr rfl)
    refine ⟨hr1, ?_⟩
    cases hf : s1.pull_requests.find? (fun row => row.pull_request_id == r.pull_request_id) with
    | none =>
      rw [List.find?_eq_none] at hf
      exact absurd (by simp) (hf r hr1)
    | some row =>
      have hrow := List.mem_of_find?_eq_some hf
      have hid := List.find?_some hf
      have : row = r := List.inj_on_of_nodup_map hs1.1 hrow hr1 (by simpa using hid)
      rw [this]

/-- Witness of C11: "pr-1" is created on the sample store; and the row of
"pr-1", merged at time 7 in `mergedStore`, is still the row of "pr-1" in
`laterStore`. -/
theorem pr_lifecycle_one_way_witness :
    (samplePR.StatusID = StatusOpenID ∧ samplePR.MergedAt = none ∧
      ∃ row, sampleCreated.pull_requests.find? (fun row => row.pull_request_id == "pr-1")
          = some row ∧
        row.status_id = StatusOpenID ∧ row.merged_at = none) ∧
    (mergedRow ∈ laterStore.pull_requests ∧
      laterStore.pull_requests.find?
        (fun row => row.pull_request_id == mergedRow.pull_request_id) = some mergedRow) :=
  ⟨pr_lifecycle_one_way.1 [2, 0, 1] "pr-1" "Add X" "u1" sampleStore sampleCreated samplePR rfl,
   (pr_lifecycle_one_way.2 100 mergedStore laterStore mergedRow
      (Steps.step (EngineOp.mergePR 7 "pr-1") []
        (Steps.step (EngineOp.createPR [] "pr-1" "Add X" "u1") []
          (Steps.step (EngineOp.createTeam backendTeam) [] (Steps.refl (emptyStore 100)))))
      (Steps.step (EngineOp.mergePR 9 "pr-1") [false, true]
        (Steps.step (EngineOp.reassignReviewer [1] "pr-1" "u2") [] (Steps.refl mergedStore)))
      (by decide)).2 rfl⟩

/-! ## C12: the reviewers of a pull request -/

theorem selectRandomReviewers_mem (draws : List Nat) (candidates : List User) (count : Int)
    (u : User) (h : u ∈ selectRandomReviewers draws candidates count) : u ∈ candidates := by
  obtain ⟨p, hp, heq⟩ := selectRandomReviewers_prefix draws candidates count
  rw [heq] at h
  exact hp.subset (List.mem_of_mem_take h)

/-- The reviewer loop of `CreatePR` under a budget: when every `AddReviewer`
of somebody other than the author spends one unit of `Q`, a list no longer
than the budget leaves `Q` at some budget, whatever the calls return. -/
theorem addReviewers_spends {σ : Type} (R : Repos σ) (Q : Nat → σ → Prop)
    (authorID prID : Int)
    (hadd : ∀ (k : Nat) (y : Int) (s : σ), Q (k + 1) s → y ≠ authorID →
      Q k (R.prAddReviewer prID y s).2) :
    ∀ (l : List User) (k : Nat) (s : σ), l.length ≤ k → (∀ u ∈ l, u.ID ≠ authorID) →
      Q k s → ∃ k1, Q k1 (addReviewers R prID l s).2
  | [], k, s, _, _, h => ⟨k, h⟩
  | u :: rest, 0, s, hl, _, _ => by simp at hl
  | u :: rest, k + 1, s, hl, hne, h => by
    have h1 := hadd k u.ID s h (hne u (List.mem_cons_self _ _))
    rcases hr : R.prAddReviewer prID u.ID s with ⟨r, s1⟩
    rw [hr] at h1
    cases r with
    | error e => exact ⟨k, by simpa [addReviewers, hr] using h1⟩
    | ok v =>
      simp only [addReviewers, hr]
      exact addReviewers_spends R Q authorID prID hadd rest k s1
        (by simpa using hl) (fun x hx => hne x (List.mem_cons_of_mem _ hx)) h1

/-- `CreatePR` keeps an invariant `P` of the store when the insert of the
pull request establishes `Q` with a budget of two reviewers for the new
pull request and its author, every `AddReviewer` of somebody other than the
author spends one unit of it, and `Q` at any budget gives back `P`. -/
theorem CreatePR_establishes {σ : Type} (R : Repos σ) (P : σ → Prop)
    (Q : Int → Int → Nat → σ → Prop)
    (hget : ∀ (x : String) (s : σ), P s → P (R.prGetByPRID x s).2)
    (huser : ∀ (x : String) (s : σ), P s → P (R.userGetByUserID x s).2)
    (hteam : ∀ (x : Int) (s : σ), P s → P (R.teamGetByID x s).2)
    (hcreate : ∀ (x : PullRequest) (s : σ), P s → P (R.prCreate x s).2)
    (hcreated : ∀ (x pr : PullRequest) (s s1 : σ), P s →
      R.prCreate x s = (Except.ok pr, s1) → Q pr.ID x.AuthorID 2 s1)
    (hlist : ∀ (p a : Int) (k : Nat) (x : Int) (s : σ), Q p a k s →
      Q p a k (R.userGetByTeamID x s).2)
    (hadd : ∀ (p a : Int) (k : Nat) (y : Int) (s : σ), Q p a (k + 1) s → y ≠ a →
      Q p a k (R.prAddReviewer p y s).2)
    (hweak : ∀ (p a : Int) (k : Nat) (s : σ), Q p a k s → P s)
    (draws : List Nat) (prID prName authorUserID : String) (s : σ) (hs : P s) :
    P (CreatePR R draws prID prName authorUserID s).2 := by
  unfold CreatePR
  have k1 := hget prID s hs
  rcases h1 : R.prGetByPRID prID s with ⟨r1, s1⟩
  rw [h1] at k1
  cases r1 with
  | ok v => exact k1
  | error e =>
  simp only
  have k2 := huser authorUserID s1 k1
  rcases h2 : R.userGetByUserID authorUserID s1 with ⟨r2, s2⟩
  rw [h2] at k2
  cases r2 with
  | error e2 => exact k2
  | ok author =>
  simp only
  have k3 := hteam author.TeamID s2 k2
  rcases h3 : R.teamGetByID author.TeamID s2 with ⟨r3, s3⟩
  rw [h3] at k3
  cases r3 with
  | error e3 => exact k3
  | ok team =>
  simp only
  have k4 := hcreate (newPR prID prName author.ID) s3 k3
  have q4 := hcreated (newPR prID prName author.ID)
  rcases h4 : R.prCreate (newPR prID prName author.ID) s3 with ⟨r4, s4⟩
  rw [h4] at k4
  simp only [newPR] at h4
  rw [h4]
  cases r4 with
  | error e4 => exact k4
  | ok pr =>
  have q4 : Q pr.ID author.ID 2 s4 := q4 pr s3 s4 k3 (by simp only [newPR]; exact h4)
  simp only [getActiveTeamMembers]
  have k5 := hlist pr.ID author.ID 2 author.TeamID s4 q4
  rcases h5 : R.userGetByTeamID author.TeamID s4 with ⟨r5, s5⟩
  rw [h5] at k5
  cases r5 with
  | error e5 => exact hweak _ _ _ _ k5
  | ok all =>
  simp only
  generalize hsel : selectRandomReviewers draws _ _ = sel
  have hlen : sel.length ≤ 2 := by
    rw [← hsel, selectRandomReviewers_length]
    unfold MaxReviewers
    split <;> omega
  have hne : ∀ u ∈ sel, u.ID ≠ author.ID := by
    intro u hu
    rw [← hsel] at hu
    have := selectRandomReviewers_mem _ _ _ _ hu
    simp only [List.mem_filter, Bool.and_eq_true, bne_iff_ne, ne_eq] at this
    exact this.2.2
  obtain ⟨k6, q6⟩ := addReviewers_spends R (Q pr.ID author.ID) author.ID pr.ID
    (fun k y s => hadd pr.ID author.ID k y s) sel 2 s5 hlen hne k5
  rcases h6 : addReviewers R pr.ID sel s5 with ⟨r6, s6⟩
  rw [h6] at q6
  have k6 := hweak _ _ _ _ q6
  cases r6 with
  | error e6 => exact k6
  | ok u =>
  simp only
  have k7 := hget prID s6 k6
  rcases h7 : R.prGetByPRID prID s6 with ⟨r7, s7⟩
  rw [h7] at k7
  cases r7 <;> exact k7

/-- `ReassignReviewer` keeps an invariant `P` of the store when the look-up
of the pull request establishes `Q` for it and its author, the removal of a
reviewer frees one unit of budget, and the `AddReviewer` of somebody other
than the author spends one. -/
theorem ReassignReviewer_maintains {σ : Type} (R : Repos σ) (P : σ → Prop)
    (Q : Int → Int → Nat → σ → Prop)
    (hget : ∀ (x : String) (s : σ), P s → P (R.prGetByPRID x s).2)
    (hgot : ∀ (x : String) (pr : PullRequest) (s s1 : σ), P s →
      R.prGetByPRID x s = (Except.ok pr, s1) → Q pr.ID pr.AuthorID 0 s1)
    (huser : ∀ (p a : Int) (k : Nat) (x : String) (s : σ), Q p a k s →
      Q p a k (R.userGetByUserID x s).2)
    (hrev : ∀ (p a : Int) (k : Nat) (x : Int) (s : σ), Q p a k s →
      Q p a k (R.prGetReviewers x s).2)
    (hteam : ∀ (p a : Int) (k : Nat) (x : Int) (s : σ), Q p a k s →
      Q p a k (R.teamGetByID x s).2)
    (hlist : ∀ (p a : Int) (k : Nat) (x : Int) (s : σ), Q p a k s →
      Q p a k (R.userGetByTeamID x s).2)
    (hrm : ∀ (p a y : Int) (s : σ), Q p a 0 s → Q p a 0 (R.prRemoveReviewer p y s).2)
    (hremoved : ∀ (p a y : Int) (s s1 : σ), Q p a 0 s →
      R.prRemoveReviewer p y s = (Except.ok (), s1) → Q p a 1 s1)
    (hadd : ∀ (p a : Int) (k : Nat) (y : Int) (s : σ), Q p a (k + 1) s → y ≠ a →
      Q p a k (R.prAddReviewer p y s).2)
    (hweak : ∀ (p a : Int) (k : Nat) (s : σ), Q p a k s → P s)
    (draws : List Nat) (prID oldUserID : String) (s : σ) (hs : P s) :
    P (ReassignReviewer R draws prID oldUserID s).2 := by
  unfold ReassignReviewer
  have k1 := hget prID s hs
  have q1 := hgot prID
  rcases h1 : R.prGetByPRID prID s with ⟨r1, s1⟩
  rw [h1] at k1
  cases r1 with
  | error e => exact k1
  | ok pr =>
  have q1 : Q pr.ID pr.AuthorID 0 s1 := q1 pr s s1 hs h1
  simp only
  split
  · exact k1
  have k2 := huser _ _ _ oldUserID s1 q1
  rcases h2 : R.userGetByUserID oldUserID s1 with ⟨r2, s2⟩
  rw [h2] at k2
  cases r2 with
  | error e2 => exact hweak _ _ _ _ k2
  | ok oldReviewer =>
  simp only
  have k3 := hrev _ _ _ pr.ID s2 k2
  rcases h3 : R.prGetReviewers pr.ID s2 with ⟨r3, s3⟩
  rw [h3] at k3
  cases r3 with
  | error e3 => exact hweak _ _ _ _ k3
  | ok reviewers =>
  simp only
  split
  · exact hweak _ _ _ _ k3
  have k4 := hteam _ _ _ oldReviewer.TeamID s3 k3
  rcases h4 : R.teamGetByID oldReviewer.TeamID s3 with ⟨r4, s4⟩
  rw [h4] at k4
  cases r4 with
  | error e4 => exact hweak _ _ _ _ k4
  | ok team =>
  simp only [getActiveTeamMembersExcluding]
  have k5 := hlist _ _ _ oldReviewer.TeamID s4 k4
  rcases h5 : R.userGetByTeamID oldReviewer.TeamID s4 with ⟨r5, s5⟩
  rw [h5] at k5
  cases r5 with
  | error e5 => exact hweak _ _ _ _ k5
  | ok all =>
  simp only
  split
  · exact hweak _ _ _ _ k5
  split
  · exact hweak _ _ _ _ k5
  rename_i newReviewer others hsel
  have hne : newReviewer.ID ≠ pr.AuthorID :=
    (mem_replacementPool all pr.AuthorID oldReviewer.ID reviewers newReviewer
      (selected_mem_pool draws _ newReviewer others hsel).1).2.2.1
  have k6 := hrm _ _ oldReviewer.ID s5 k5
  have q6 := hremoved pr.ID pr.AuthorID oldReviewer.ID s5
  rcases h6 : R.prRemoveReviewer pr.ID oldReviewer.ID s5 with ⟨r6, s6⟩
  rw [h6] at k6
  cases r6 with
  | error e6 => exact hweak _ _ _ _ k6
  | ok u6 =>
  simp only
  have k7 := hadd _ _ 0 newReviewer.ID s6 (q6 s6 k5 h6) hne
  rcases h7 : R.prAddReviewer pr.ID newReviewer.ID s6 with ⟨r7, s7⟩
  rw [h7] at k7
  cases r7 <;> exact hweak _ _ _ _ k7

theorem ReviewersOK_frame (s s1 : Store) (h1 : s1.pull_requests = s.pull_requests)
    (h2 : s1.pr_reviewers = s.pr_reviewers) (h3 : s1.prSeq = s.prSeq)
    (h : ReviewersOK s) : ReviewersOK s1 := by
  obtain ⟨a, b, c, d, e, f⟩ := h
  constructor
  · rw [h2]; exact a
  · unfold Store.reviewerCount at b ⊢; rw [h2]; exact b
  · rw [h1, h2]; exact c
  · rw [h2, h3]; exact d
  · rw [h1, h3]; exact e
  · rw [h1]; exact f

theorem Budget.weaken {p a : Int} {k : Nat} {s : Store} (h : Budget p a (k + 1) s) :
    Budget p a k s :=
  ⟨h.ok, by have := h.count; omega, h.author, h.below⟩

/-- The insert of a pull request keeps the invariant and opens a budget of
two reviewers for the new pull request. -/
theorem Create_pr_budget (x pr : PullRequest) (s s1 : Store) (h : ReviewersOK s)
    (hc : PRRepo.Create x s = (Except.ok pr, s1)) : Budget pr.ID x.AuthorID 2 s1 := by
  unfold PRRepo.Create at hc
  split at hc
  · simp at hc
  · simp only [Prod.mk.injEq, Except.ok.injEq] at hc
    obtain ⟨hpr, hs1⟩ := hc
    subst hpr hs1
    have hzero : s.reviewerCount s.prSeq = 0 := by
      unfold Store.reviewerCount
      rw [List.countP_eq_zero]
      intro prr hprr hc
      have := h.pairsBelow prr hprr
      simp only [beq_iff_eq] at hc
      omega
    refine ⟨⟨h.nodup, h.atMost, ?_, ?_, ?_, ?_⟩, ?_, ?_, ?_⟩
    · intro row hrow hmem
      simp only [List.mem_append, List.mem_singleton] at hrow
      rcases hrow with hrow | hrow
      · exact h.notAuthor row hrow hmem
      · subst hrow
        have := h.pairsBelow _ hmem
        simp only at this
        omega
    · intro prr hprr
      have := h.pairsBelow prr hprr
      simp only
      omega
    · intro row hrow
      simp only [List.mem_append, List.mem_singleton] at hrow
      simp only
      rcases hrow with hrow | hrow
      · have := h.rowsBelow row hrow
        omega
      · subst hrow
        simp only
        omega
    · intro r hr r1 hr1 hid
      simp only [List.mem_append, List.mem_singleton] at hr hr1
      rcases hr with hr | hr <;> rcases hr1 with hr1 | hr1
      · exact h.oneAuthor r hr r1 hr1 hid
      · subst hr1
        have := h.rowsBelow r hr
        simp only at hid
        omega
      · subst hr
        have := h.rowsBelow r1 hr1
        simp only at hid
        omega
      · subst hr hr1
        rfl
    · show s.reviewerCount s.prSeq + 2 ≤ 2
      omega
    · intro row hrow hid
      simp only [List.mem_append, List.mem_singleton] at hrow
      rcases hrow with hrow | hrow
      · have := h.rowsBelow row hrow
        simp only at hid
        omega
      · subst hrow
        rfl
    · simp only
      omega

theorem Create_pr_ok (x : PullRequest) (s : Store) (h : ReviewersOK s) :
    ReviewersOK (PRRepo.Create x s).2 := by
  rcases hc : PRRepo.Create x s with ⟨r, s1⟩
  cases r with
  | ok pr => exact (Create_pr_budget x pr s s1 h hc).ok
  | error e =>
    unfold PRRepo.Create at hc
    split at hc
    · simp only [Prod.mk.injEq] at hc
      rw [← hc.2]; exact h
    · simp at hc

/-- An `AddReviewer` of somebody other than the author spends one unit of
the budget of the pull request. -/
theorem AddReviewer_budget (p a : Int) (k : Nat) (y : Int) (s : Store)
    (h : Budget p a (k + 1) s) (hne : y ≠ a) : Budget p a k (PRRepo.AddReviewer p y s).2 := by
  unfold PRRepo.AddReviewer
  split
  · exact h.weaken
  · rename_i hnew
    have hcount : ∀ q : Int,
        ({ s with pr_reviewers := s.pr_reviewers ++ [(p, y)] } : Store).reviewerCount q
          = s.reviewerCount q + if p = q then 1 else 0 := by
      intro q
      unfold Store.reviewerCount
      simp only [List.countP_append, List.countP_cons, List.countP_nil, beq_iff_eq, zero_add]
    refine ⟨⟨?_, ?_, ?_, ?_, h.ok.rowsBelow, h.ok.oneAuthor⟩, ?_, h.author, h.below⟩
    · simp only
      rw [List.nodup_append]
      refine ⟨h.ok.nodup, List.nodup_singleton _, ?_⟩
      intro prr hprr hb
      rw [List.mem_singleton] at hb
      subst hb
      exact hnew hprr
    · intro q
      rw [hcount]
      have h1 := h.ok.atMost q
      have h2 := h.count
      split
      · rename_i hq
        subst hq
        omega
      · omega
    · intro row hrow hmem
      simp only [List.mem_append, List.mem_singleton, Prod.mk.injEq] at hmem
      rcases hmem with hmem | hmem
      · exact h.ok.notAuthor row hrow hmem
      · exact hne (hmem.2.symm.trans (h.author row hrow hmem.1))
    · intro prr hprr
      simp only [List.mem_append, List.mem_singleton] at hprr
      rcases hprr with hprr | hprr
      · exact h.ok.pairsBelow prr hprr
      · subst hprr
        exact h.below
    · rw [hcount]
      have h2 := h.count
      simp only [if_true]
      omega

theorem count_after_remove (p y : Int) :
    ∀ l : List (Int × Int), (p, y) ∈ l →
      (l.filter (fun prr => !(prr == (p, y)))).countP (fun prr => prr.1 == p) + 1
        ≤ l.countP (fun prr => prr.1 == p)
  | [], h => by simp at h
  | x :: l, h => by
    by_cases hx : x = (p, y)
    · subst hx
      have hle : (l.filter (fun prr => !(prr == (p, y)))).countP (fun prr => prr.1 == p)
          ≤ l.countP (fun prr => prr.1 == p) :=
        List.Sublist.countP_le _ (List.filter_sublist l)
      simp only [List.filter_cons, beq_self_eq_true, Bool.not_true, Bool.false_eq_true,
        if_false, List.countP_cons, if_true]
      omega
    · have hmem : (p, y) ∈ l := by
        rcases List.mem_cons.mp h with h1 | h1
        · exact absurd h1.symm hx
        · exact h1
      have ih := count_after_remove p y l hmem
      have hb : (!(x == (p, y))) = true := by simp [hx]
      simp only [List.filter_cons, hb, if_true, List.countP_cons]
      omega

/-- A successful `RemoveReviewer` frees one unit of the budget of the pull
request. -/
theorem RemoveReviewer_budget (p a y : Int) (s s1 : Store) (h : Budget p a 0 s)
    (hr : PRRepo.RemoveReviewer p y s = (Except.ok (), s1)) : Budget p a 1 s1 := by
  obtain ⟨hmem, hs1⟩ := RemoveReviewer_pg_ok p y s s1 hr
  subst hs1
  have hsub : (s.pr_reviewers.filter (fun prr => !(prr == (p, y)))).Sublist s.pr_reviewers :=
    List.filter_sublist _
  refine ⟨⟨h.ok.nodup.sublist hsub, ?_, ?_, ?_, h.ok.rowsBelow, h.ok.oneAuthor⟩, ?_,
    h.author, h.below⟩
  · intro q
    exact le_trans (List.Sublist.countP_le _ hsub) (h.ok.atMost q)
  · intro row hrow hm
    exact h.ok.notAuthor row hrow (hsub.subset hm)
  · intro prr hprr
    exact h.ok.pairsBelow prr (hsub.subset hprr)
  · have := count_after_remove p y s.pr_reviewers hmem
    have h2 := h.ok.atMost p
    unfold Store.reviewerCount at h2 ⊢
    simp only
    omega

theorem RemoveReviewer_budget_any (p a y : Int) (s : Store) (h : Budget p a 0 s) :
    Budget p a 0 (PRRepo.RemoveReviewer p y s).2 := by
  rcases hr : PRRepo.RemoveReviewer p y s with ⟨r, s1⟩
  cases r with
  | ok u => exact (RemoveReviewer_budget p a y s s1 h hr).weaken
  | error e => rw [RemoveReviewer_pg_error p y s s1 e hr]; exact h

/-- A pull request that `GetByPRID` reads has the budget the invariant
gives it. -/
theorem GetByPRID_budget (x : String) (pr : PullRequest) (s s1 : Store) (h : ReviewersOK s)
    (hg : PRRepo.GetByPRID x s = (Except.ok pr, s1)) : Budget pr.ID pr.AuthorID 0 s1 := by
  obtain ⟨row, hrow, hpr, hs1⟩ := GetByPRID_pg_ok x s s1 pr hg
  subst hpr hs1
  have hmem := List.mem_of_find?_eq_some hrow
  exact ⟨h, h.atMost row.id, fun r hr hid => h.oneAuthor r hr row hmem hid,
    h.rowsBelow row hmem⟩

theorem Update_pr_ok (x : PullRequest) (s : Store) (h : ReviewersOK s) :
    ReviewersOK (PRRepo.Update x s).2 := by
  unfold PRRepo.Update
  split
  · exact h
  · have hkeep : ∀ r1 ∈ s.pull_requests.map (fun row : PRRow =>
          if row.pull_request_id == x.PullRequestID then
            { row with pull_request_name := x.PullRequestName, status_id := x.StatusID,
                       merged_at := x.MergedAt }
          else row),
        ∃ r0 ∈ s.pull_requests, r1.id = r0.id ∧ r1.author_id = r0.author_id := by
      intro r1 hr1
      obtain ⟨r0, hr0, hf⟩ := List.mem_map.mp hr1
      refine ⟨r0, hr0, ?_⟩
      subst hf
      split <;> exact ⟨rfl, rfl⟩
    refine ⟨h.nodup, h.atMost, ?_, h.pairsBelow, ?_, ?_⟩
    · intro row hrow
      obtain ⟨r0, hr0, h1, h2⟩ := hkeep row hrow
      rw [h1, h2]
      exact h.notAuthor r0 hr0
    · intro row hrow
      obtain ⟨r0, hr0, h1, _⟩ := hkeep row hrow
      rw [h1]
      exact h.rowsBelow r0 hr0
    · intro r hr r1 hr1 hid
      obtain ⟨r0, hr0, h1, h2⟩ := hkeep r hr
      obtain ⟨r2, hr2, h3, h4⟩ := hkeep r1 hr1
      rw [h2, h4]
      exact h.oneAuthor r0 hr0 r2 hr2 (by rw [← h1, ← h3]; exact hid)

theorem faulty_AddReviewer_budget (p a : Int) (k : Nat) (y : Int) (st : Store × List Bool)
    (h : Budget p a (k + 1) st.1) (hne : y ≠ a) :
    Budget p a k ((faulty pgRepos).prAddReviewer p y st).2.1 :=
  failing_preserves_at (PRRepo.AddReviewer p y) (Budget p a k) st h.weaken
    (AddReviewer_budget p a k y st.1 h hne)

/-- Every engine operation, behind a connection that may fail at any call,
keeps the invariant of the tables of pull requests. -/
theorem EngineOp_reviewersOK (op : EngineOp) (st : Store × List Bool)
    (h : ReviewersOK st.1) : ReviewersOK (op.run (faulty pgRepos) st).1 := by
  obtain ⟨h1, h2, h3, h4, h5, _⟩ := pg_pr_tables_frame ReviewersOK ReviewersOK_frame
  refine EngineOp_faulty_pg_preserves ReviewersOK h1 h2 h3 h4 h5 ?_ ?_ ?_ op st h
  · intro draws prID prName authorUserID st hst
    refine CreatePR_establishes (faulty pgRepos) (fun st => ReviewersOK st.1)
      (fun p a k st => Budget p a k st.1) ?_ ?_ ?_ ?_ ?_ ?_ faulty_AddReviewer_budget
      (fun _ _ _ _ hq => hq.ok) draws prID prName authorUserID st hst
    · intro x st hst
      refine failing_preserves (PRRepo.GetByPRID x) _ (fun s hs => ?_) st hst
      rw [GetByPRID_pg_frame]; exact hs
    · intro x st hst
      refine failing_preserves (UserStorage.GetByUserID x) _ (fun s hs => ?_) st hst
      rw [GetByUserID_pg_frame]; exact hs
    · intro x st hst
      refine failing_preserves (TeamRepo.GetByID x) _ (fun s hs => ?_) st hst
      rw [GetByID_pg_frame]; exact hs
    · intro x st hst
      exact failing_preserves (PRRepo.Create x) _ (Create_pr_ok x) st hst
    · intro x pr st st1 hst hc
      exact Create_pr_budget x pr st.1 st1.1 hst (failing_ok (PRRepo.Create x) st st1 pr hc)
    · intro p a k x st hst
      exact failing_preserves (UserStorage.GetByTeamID x) (Budget p a k) (fun s hs => hs) st hst
  · exact MergePR_faulty_pg_preserves _ (fun _ _ s _ hs _ _ => Update_pr_ok _ s hs)
  · intro draws prID oldUserID st hst
    refine ReassignReviewer_maintains (faulty pgRepos) (fun st => ReviewersOK st.1)
      (fun p a k st => Budget p a k st.1) ?_ ?_ ?_ ?_ ?_ ?_ ?_ ?_ faulty_AddReviewer_budget
      (fun _ _ _ _ hq => hq.ok) draws prID oldUserID st hst
    · intro x st hst
      refine failing_preserves (PRRepo.GetByPRID x) _ (fun s hs => ?_) st hst
      rw [GetByPRID_pg_frame]; exact hs
    · intro x pr st st1 hst hg
      exact GetByPRID_budget x pr st.1 st1.1 hst (failing_ok (PRRepo.GetByPRID x) st st1 pr hg)
    · intro p a k x st hst
      refine failing_preserves (UserStorage.GetByUserID x) (Budget p a k) (fun s hs => ?_) st hst
      rw [GetByUserID_pg_frame]; exact hs
    · intro p a k x st hst
      exact failing_preserves (PRRepo.GetReviewers x) (Budget p a k) (fun s hs => hs) st hst
    · intro p a k x st hst
      refine failing_preserves (TeamRepo.GetByID x) (Budget p a k) (fun s hs => ?_) st hst
      rw [GetByID_pg_frame]; exact hs
    · intro p a k x st hst
      exact failing_preserves (UserStorage.GetByTeamID x) (Budget p a k) (fun s hs => hs) st hst
    · intro p a y st hst
      exact failing_preserves (PRRepo.RemoveReviewer p y) (Budget p a 0)
        (RemoveReviewer_budget_any p a y) st hst
    · intro p a y st st1 hst hr
      exact RemoveReviewer_budget p a y st.1 st1.1 hst
        (failing_ok (PRRepo.RemoveReviewer p y) st st1 () hr)

theorem UsersOK_frame (s s1 : Store) (h1 : s1.users = s.users) (h2 : s1.userSeq = s.userSeq)
    (h : UsersOK s) : UsersOK s1 := by
  obtain ⟨a, b⟩ := h
  constructor
  · rw [h1]; exact a
  · rw [h1, h2]; exact b

/-- An UPDATE of `users` that leaves the column `id` alone keeps the
invariant of the table. -/
theorem UsersOK_map (f : User → User) (hf : ∀ u, (f u).ID = u.ID) (s : Store)
    (h : UsersOK s) : UsersOK { s with users := s.users.map f } := by
  have hmap : (s.users.map f).map User.ID = s.users.map User.ID := by
    rw [List.map_map]
    exact List.map_congr_left (fun u _ => hf u)
  constructor
  · show ((s.users.map f).map User.ID).Nodup
    rw [hmap]; exact h.nodup
  · intro u hu
    obtain ⟨u0, hu0, hfu⟩ := List.mem_map.mp hu
    subst hfu
    rw [hf]
    exact h.below u0 hu0

/-- Every engine operation, behind a connection that may fail at any call,
keeps the invariant of the table `users`. -/
theorem EngineOp_usersOK (op : EngineOp) (st : Store × List Bool)
    (h : UsersOK st.1) : UsersOK (op.run (faulty pgRepos) st).1 := by
  have hadd : ∀ (x y : Int) (s : Store), UsersOK s → UsersOK (PRRepo.AddReviewer x y s).2 := by
    intro x y s hs
    refine UsersOK_frame s _ ?_ ?_ hs <;> (unfold PRRepo.AddReviewer; split <;> rfl)
  refine EngineOp_faulty_pg_preserves UsersOK ?_ ?_ ?_ ?_ ?_ ?_ ?_ ?_ op st h
  · intro x s hs
    unfold UserStorage.Create
    split
    · exact hs
    · constructor
      · simp only [List.map_append, List.map_cons, List.map_nil]
        rw [List.nodup_append]
        refine ⟨hs.nodup, List.nodup_singleton _, ?_⟩
        intro a ha hb
        rw [List.mem_singleton] at hb
        subst hb
        obtain ⟨u, hu, hid⟩ := List.mem_map.mp ha
        have := hs.below u hu
        omega
      · intro u hu
        simp only [List.mem_append, List.mem_singleton] at hu
        simp only
        rcases hu with hu | hu
        · have := hs.below u hu
          omega
        · subst hu
          simp only
          omega
  · intro x s hs
    unfold UserStorage.Update
    split
    · exact hs
    · exact UsersOK_map _ (fun u => by split <;> rfl) s hs
  · intro x b s hs
    unfold UserStorage.SetIsActive
    split
    · exact hs
    · exact UsersOK_map _ (fun u => by split <;> rfl) s hs
  · intro x s hs
    exact UsersOK_map _ (fun u => by split <;> rfl) s hs
  · intro x s hs
    refine UsersOK_frame s _ ?_ ?_ hs <;> (unfold TeamRepo.Create; split <;> rfl)
  · refine CreatePR_faulty_pg_preserves UsersOK (fun x s hs => ?_) hadd
    refine UsersOK_frame s _ ?_ ?_ hs <;> (unfold PRRepo.Create; split <;> rfl)
  · refine MergePR_faulty_pg_preserves UsersOK (fun _ _ s _ hs _ _ => ?_)
    refine UsersOK_frame s _ ?_ ?_ hs <;> (unfold PRRepo.Update; split <;> rfl)
  · refine ReassignReviewer_faulty_pg_preserves UsersOK (fun x y s hs => ?_) hadd
    refine UsersOK_frame s _ ?_ ?_ hs <;> (unfold PRRepo.RemoveReviewer; split <;> rfl)

theorem filter_id_length_le_one (x : Int) :
    ∀ l : List User, (l.map User.ID).Nodup → (l.filter (fun u => u.ID == x)).length ≤ 1
  | [], _ => by simp
  | u :: l, h => by
    simp only [List.map_cons, List.nodup_cons] at h
    have ih := filter_id_length_le_one x l h.2
    by_cases hu : (u.ID == x) = true
    · have hnil : l.filter (fun u => u.ID == x) = [] := by
        rw [List.filter_eq_nil_iff]
        intro v hv hvx
        apply h.1
        rw [List.mem_map]
        refine ⟨v, hv, ?_⟩
        simp only [beq_iff_eq] at hu hvx
        rw [hu, hvx]
      simp [List.filter_cons, hu, hnil]
    · simp only [List.filter_cons, hu]
      exact ih

theorem flatten_map_length_le {β : Type} (g : β → List User) (hg : ∀ x, (g x).length ≤ 1) :
    ∀ l : List β, ((l.map g).flatten).length ≤ l.length
  | [] => by simp
  | x :: l => by
    have ih := flatten_map_length_le g hg l
    have := hg x
    simp only [List.map_cons, List.flatten_cons, List.length_append, List.length_cons]
    omega

/-- With one user per surrogate id a pull request has no more reviewers than
rows in `pr_reviewers`. -/
theorem reviewersOf_length_le (s : Store) (h : UsersOK s) (p : Int) :
    (s.reviewersOf p).length ≤ s.reviewerCount p := by
  unfold Store.reviewersOf Store.reviewerCount
  rw [List.countP_eq_length_filter]
  exact flatten_map_length_le (fun prr : Int × Int => s.users.filter (fun u => u.ID == prr.2))
    (fun prr => filter_id_length_le_one prr.2 s.users h.nodup) _

/-- C12. In every store reached from the empty store by engine operations
(`CreateTeam`, `SetIsActive`, `DeactivateTeamUsers`, `CreatePR`, `MergePR`,
`ReassignReviewer`) on the PostgreSQL repositories, each operation behind a
connection that may fail at any call and whether or not it succeeds, no
(pull request, reviewer) pair occurs twice in `pr_reviewers`, and every pull
request has at most two pairs there, at most `MaxReviewers` = 2 reviewers,
and neither a pair with its author nor its author among its reviewers. -/
theorem reviewers_invariant (now : Nat) (s : Store) (h : Steps (emptyStore now) s) :
    s.pr_reviewers.Nodup ∧
    ∀ row ∈ s.pull_requests,
      s.reviewerCount row.id ≤ 2 ∧
      ((s.reviewersOf row.id).length : Int) ≤ MaxReviewers ∧
      (row.id, row.author_id) ∉ s.pr_reviewers ∧
      ∀ u ∈ s.reviewersOf row.id, u.ID ≠ row.author_id := by
  have hJ : ReviewersOK s :=
    Steps_preserves ReviewersOK (fun s t hs => ReviewersOK_frame s _ rfl rfl rfl hs)
      EngineOp_reviewersOK _ _ h
      ⟨List.nodup_nil, fun _ => by simp [Store.reviewerCount, emptyStore],
        fun _ hr => by simp [emptyStore] at hr, fun _ hr => by simp [emptyStore] at hr,
        fun _ hr => by simp [emptyStore] at hr, fun _ hr => by simp [emptyStore] at hr⟩
  have hK : UsersOK s :=
    Steps_preserves UsersOK (fun s t hs => UsersOK_frame s _ rfl rfl hs)
      EngineOp_usersOK _ _ h
      ⟨List.nodup_nil, fun _ hu => by simp [emptyStore] at hu⟩
  refine ⟨hJ.nodup, fun row hrow => ⟨hJ.atMost row.id, ?_, hJ.notAuthor row hrow, ?_⟩⟩
  · have h1 := reviewersOf_length_le s hK row.id
    have h2 := hJ.atMost row.id
    unfold MaxReviewers
    omega
  · intro u hu hid
    have := (of_mem_reviewersOf s row.id u hu).2
    rw [hid] at this
    exact hJ.notAuthor row hrow this

/-- Witness of C12: the store in which Alice has opened "pr-1", reviewed by
Bob. -/
theorem reviewers_invariant_witness :
    openStore.pr_reviewers.Nodup ∧
    ∀ row ∈ openStore.pull_requests,
      openStore.reviewerCount row.id ≤ 2 ∧
      ((openStore.reviewersOf row.id).length : Int) ≤ MaxReviewers ∧
      (row.id, row.author_id) ∉ openStore.pr_reviewers ∧
      ∀ u ∈ openStore.reviewersOf row.id, u.ID ≠ row.author_id :=
  reviewers_invariant 100 openStore
    (Steps.step (EngineOp.createPR [] "pr-1" "Add X" "u1") []
      (Steps.step (EngineOp.createTeam backendTeam) [] (Steps.refl (emptyStore 100))))

/-! ## C17: the shuffle is a bijection onto the permutations -/

theorem mem_drawSeqs_succ (i : Nat) (d : List Nat) :
    d ∈ drawSeqs (i + 1) ↔ ∃ j, j < i + 2 ∧ ∃ d1 ∈ drawSeqs i, d = j :: d1 := by
  simp only [drawSeqs, List.mem_flatten, List.mem_map, List.mem_range]
  constructor
  · rintro ⟨l, ⟨j, hj, rfl⟩, hd⟩
    obtain ⟨d1, hd1, rfl⟩ := List.mem_map.mp hd
    exact ⟨j, hj, d1, hd1, rfl⟩
  · rintro ⟨j, hj, d1, hd1, rfl⟩
    exact ⟨_, ⟨j, hj, rfl⟩, List.mem_map.mpr ⟨d1, hd1, rfl⟩⟩

theorem flatten_map_length_const {α β : Type} (g : β → List α) (c : Nat)
    (hg : ∀ x, (g x).length = c) : ∀ l : List β, ((l.map g).flatten).length = l.length * c
  | [] => by simp
  | x :: l => by
    have ih := flatten_map_length_const g c hg l
    simp only [List.map_cons, List.flatten_cons, List.length_append, List.length_cons, hg, ih]
    rw [Nat.add_mul, Nat.one_mul, Nat.add_comm]

/-- There are `(i + 1)!` draw sequences for the loop entered at index `i`. -/
theorem length_drawSeqs : ∀ i : Nat, (drawSeqs i).length = (i + 1).factorial
  | 0 => rfl
  | i + 1 => by
    have ih := length_drawSeqs i
    unfold drawSeqs
    rw [flatten_map_length_const _ (i + 1).factorial (fun j => by rw [List.length_map, ih])]
    rw [List.length_range, Nat.factorial_succ (i + 1)]

theorem nodup_drawSeqs : ∀ i : Nat, (drawSeqs i).Nodup
  | 0 => List.nodup_singleton _
  | i + 1 => by
    have ih := nodup_drawSeqs i
    unfold drawSeqs
    rw [List.nodup_flatten]
    constructor
    · intro l hl
      obtain ⟨j, _, rfl⟩ := List.mem_map.mp hl
      exact ih.map List.cons_injective
    · rw [List.pairwise_map]
      refine List.Pairwise.imp ?_ (List.nodup_range (i + 2))
      intro a b hab x hx hx1
      obtain ⟨d, _, rfl⟩ := List.mem_map.mp hx
      obtain ⟨d1, _, h1⟩ := List.mem_map.mp hx1
      exact hab (List.cons.inj h1).1.symm

theorem swap_length (l : List User) (a b : Nat) : (swap l a b).length = l.length := by
  unfold swap
  split <;> simp

theorem swap_getElem?_ne (l : List User) (a b k : Nat) (ha : k ≠ a) (hb : k ≠ b) :
    (swap l a b)[k]? = l[k]? := by
  unfold swap
  split
  · rw [List.getElem?_set_ne (Ne.symm hb), List.getElem?_set_ne (Ne.symm ha)]
  · rfl

theorem swap_getElem?_left (l : List User) (a b : Nat) (ha : a < l.length)
    (hb : b < l.length) : (swap l a b)[a]? = l[b]? := by
  unfold swap
  rw [List.getElem?_eq_getElem ha, List.getElem?_eq_getElem hb]
  simp only
  by_cases hab : b = a
  · subst hab
    rw [List.getElem?_set_self (by simp [ha])]
  · rw [List.getElem?_set_ne hab, List.getElem?_set_self ha]

/-- The loop entered at index `i` leaves the slice above `i` as it is. -/
theorem shuffleFrom_getElem?_above (k : Nat) :
    ∀ (i : Nat) (d : List Nat) (l : List User), i < k → (shuffleFrom d i l)[k]? = l[k]?
  | 0, d, l, _ => rfl
  | i + 1, d, l, h => by
    unfold shuffleFrom
    simp only
    rw [shuffleFrom_getElem?_above k i _ _ (by omega)]
    have hj : d.headD 0 % (i + 1 + 1) < i + 1 + 1 := Nat.mod_lt _ (by omega)
    exact swap_getElem?_ne l (i + 1) _ k (by omega) (by omega)

theorem shuffleFrom_cons (j : Nat) (d : List Nat) (i : Nat) (l : List User) (hj : j < i + 2) :
    shuffleFrom (j :: d) (i + 1) l = shuffleFrom d i (swap l (i + 1) j) := by
  rw [shuffleFrom]
  simp only [List.headD_cons, List.tail_cons, Nat.mod_eq_of_lt hj]

/-- On a slice without duplicates two draw sequences that give the same
arrangement are the same. -/
theorem shuffleFrom_injective :
    ∀ (i : Nat) (l : List User), l.Nodup → (i = 0 ∨ i < l.length) →
      ∀ d ∈ drawSeqs i, ∀ d1 ∈ drawSeqs i,
        shuffleFrom d i l = shuffleFrom d1 i l → d = d1
  | 0, l, _, _, d, hd, d1, hd1, _ => by
    simp only [drawSeqs, List.mem_singleton] at hd hd1
    rw [hd, hd1]
  | i + 1, l, hl, hi, d, hd, d1, hd1, h => by
    have hlen : i + 1 < l.length := by omega
    obtain ⟨j, hj, e, he, rfl⟩ := (mem_drawSeqs_succ i d).mp hd
    obtain ⟨j1, hj1, e1, he1, rfl⟩ := (mem_drawSeqs_succ i d1).mp hd1
    rw [shuffleFrom_cons j e i l hj, shuffleFrom_cons j1 e1 i l hj1] at h
    have hlast := congrArg (fun x : List User => x[i + 1]?) h
    simp only at hlast
    rw [shuffleFrom_getElem?_above (i + 1) i _ _ (by omega),
      shuffleFrom_getElem?_above (i + 1) i _ _ (by omega),
      swap_getElem?_left l (i + 1) j hlen (by omega),
      swap_getElem?_left l (i + 1) j1 hlen (by omega)] at hlast
    have hjj : j = j1 := List.getElem?_inj (by omega) hl hlast
    subst hjj
    have hnd : (swap l (i + 1) j).Nodup := (swap_perm l (i + 1) j).nodup_iff.mpr hl
    have := shuffleFrom_injective i (swap l (i + 1) j) hnd
      (Or.inr (by rw [swap_length]; omega)) e he e1 he1 h
    rw [this]

/-- The arrangements of a pool without duplicates that the draw sequences
give are the permutations of the pool, each given by one draw sequence. -/
theorem shuffle_perm_permutations (pool : List User) (h : pool.Nodup) :
    ((drawSeqs (pool.length - 1)).map (fun d => shuffleFrom d (pool.length - 1) pool)).Perm
      pool.permutations := by
  have hnd : ((drawSeqs (pool.length - 1)).map
      (fun d => shuffleFrom d (pool.length - 1) pool)).Nodup := by
    refine List.Nodup.map_on ?_ (nodup_drawSeqs _)
    intro d hd d1 hd1 heq
    exact shuffleFrom_injective _ pool h (by omega) d hd d1 hd1 heq
  refine (List.subperm_of_subset hnd ?_).perm_of_length_le ?_
  · intro p hp
    obtain ⟨d, _, rfl⟩ := List.mem_map.mp hp
    exact List.mem_permutations.mpr (shuffleFrom_perm d _ pool)
  · rw [List.length_permutations, List.length_map, length_drawSeqs]
    cases hn : pool.length with
    | zero => simp
    | succ n => simp

/-- The permutations of a list without duplicates whose first `s.length`
elements are those of `s`, a sublist without duplicates, number
`s.length ! * (pool.length - s.length)!`. -/
theorem count_permutations_prefix {α : Type} [DecidableEq α] (pool s : List α)
    (hp : pool.Nodup) (hs : s.Nodup) (hsub : s ⊆ pool) :
    pool.permutations.countP (fun p => decide ((p.take s.length).Perm s))
      = s.length.factorial * (pool.length - s.length).factorial := by
  have hin : (pool.filter (fun x => decide (x ∈ s))).Perm s := by
    rw [List.perm_ext_iff_of_nodup (hp.filter _) hs]
    intro a
    simp only [List.mem_filter, decide_eq_true_eq]
    exact ⟨fun h => h.2, fun h => ⟨hsub h, h⟩⟩
  have hsplit : (s ++ pool.filter (fun x => !decide (x ∈ s))).Perm pool :=
    (hin.symm.append_right _).trans (List.filter_append_perm _ pool)
  generalize hrest : pool.filter (fun x => !decide (x ∈ s)) = rest at hsplit
  have hrnd : rest.Nodup := by rw [← hrest]; exact hp.filter _
  have hlen : rest.length = pool.length - s.length := by
    have := hsplit.length_eq
    rw [List.length_append] at this
    omega
  have hmem : ∀ p : List α,
      p ∈ ((s.permutations.map (fun a => rest.permutations.map (fun b => a ++ b))).flatten)
        ↔ p ∈ pool.permutations.filter (fun p => decide ((p.take s.length).Perm s)) := by
    intro p
    simp only [List.mem_flatten, List.mem_map, List.mem_filter, List.mem_permutations,
      decide_eq_true_eq]
    constructor
    · rintro ⟨l, ⟨a, ha, rfl⟩, hpl⟩
      obtain ⟨b, hb, rfl⟩ := List.mem_map.mp hpl
      rw [List.mem_permutations] at hb
      refine ⟨((ha.append hb).trans hsplit), ?_⟩
      rw [List.take_left' ha.length_eq]
      exact ha
    · rintro ⟨hperm, hpre⟩
      refine ⟨_, ⟨p.take s.length, hpre, rfl⟩, ?_⟩
      rw [List.mem_map]
      refine ⟨p.drop s.length, ?_, List.take_append_drop _ _⟩
      rw [List.mem_permutations]
      have h1 : (p.take s.length ++ p.drop s.length).Perm (p.take s.length ++ rest) := by
        rw [List.take_append_drop]
        exact hperm.trans (hsplit.symm.trans (hpre.symm.append_right rest))
      exact (List.perm_append_left_iff _).mp h1
  have hnd : ((s.permutations.map
      (fun a => rest.permutations.map (fun b => a ++ b))).flatten).Nodup := by
    rw [List.nodup_flatten]
    constructor
    · intro l hl
      obtain ⟨a, _, rfl⟩ := List.mem_map.mp hl
      exact (List.nodup_permutations rest hrnd).map (List.append_right_injective a)
    · rw [List.pairwise_map]
      refine List.Pairwise.imp_of_mem ?_ (List.nodup_permutations s hs)
      intro a a1 ha ha1 hne x hx hx1
      obtain ⟨b, _, rfl⟩ := List.mem_map.mp hx
      obtain ⟨b1, _, h1⟩ := List.mem_map.mp hx1
      rw [List.mem_permutations] at ha ha1
      exact hne (List.append_inj_left h1 (ha1.length_eq.trans ha.length_eq.symm)).symm
  rw [List.countP_eq_length_filter]
  have hperm := (List.perm_ext_iff_of_nodup hnd
    ((List.nodup_permutations pool hp).filter _)).mpr hmem
  rw [← hperm.length_eq, flatten_map_length_const _ rest.length.factorial
    (fun a => by rw [List.length_map, List.length_permutations]),
    List.length_permutations, hlen]

theorem countP_eq_one_of_mem {α : Type} [DecidableEq α] (a : α) :
    ∀ l : List α, l.Nodup → a ∈ l → l.countP (fun q => decide (q = a)) = 1
  | [], _, h => by simp at h
  | x :: l, hnd, h => by
    rw [List.nodup_cons] at hnd
    by_cases hx : x = a
    · subst hx
      have : l.countP (fun q => decide (q = x)) = 0 := by
        rw [List.countP_eq_zero]
        intro q hq hqx
        simp only [decide_eq_true_eq] at hqx
        exact hnd.1 (hqx ▸ hq)
      simp [List.countP_cons, this]
    · have hmem : a ∈ l := by
        rcases List.mem_cons.mp h with h1 | h1
        · exact absurd h1.symm hx
        · exact h1
      have ih := countP_eq_one_of_mem a l hnd.2 hmem
      simp [List.countP_cons, ih, hx]

/-- C17. The shuffle of `selectRandomReviewers` is uniform over the
permutations of the pool. For a pool of `n` pairwise distinct users and the
`n!` draw sequences `j_i ∈ [0, i]`, `i = n - 1` down to 1: the arrangements
they give are, counted with multiplicity, the permutations of the pool; two
draw sequences that give the same arrangement are equal; every permutation
of the pool is given by exactly one draw sequence; and for every set `s` of
`count` users of the pool, `0 < count < n`, exactly
`count ! * (n - count)!` draw sequences make `selectRandomReviewers` return
the users of `s`, whichever set it is. -/
theorem shuffle_uniform (pool : List User) (h : pool.Nodup) :
    ((drawSeqs (pool.length - 1)).map (fun d => shuffleFrom d (pool.length - 1) pool)).Perm
      pool.permutations ∧
    (drawSeqs (pool.length - 1)).length = pool.length.factorial ∧
    (∀ d ∈ drawSeqs (pool.length - 1), ∀ d1 ∈ drawSeqs (pool.length - 1),
      shuffleFrom d (pool.length - 1) pool = shuffleFrom d1 (pool.length - 1) pool → d = d1) ∧
    (∀ p : List User, p.Perm pool →
      (drawSeqs (pool.length - 1)).countP
        (fun d => decide (shuffleFrom d (pool.length - 1) pool = p)) = 1) ∧
    (∀ s : List User, s.Nodup → s ⊆ pool → 0 < s.length → s.length < pool.length →
      (drawSeqs (pool.length - 1)).countP
        (fun d => decide ((selectRandomReviewers d pool (s.length : Int)).Perm s))
        = s.length.factorial * (pool.length - s.length).factorial) := by
  have hperm := shuffle_perm_permutations pool h
  refine ⟨hperm, ?_, ?_, ?_, ?_⟩
  · have := hperm.length_eq
    rw [List.length_map, List.length_permutations] at this
    exact this
  · intro d hd d1 hd1 heq
    exact shuffleFrom_injective _ pool h (by omega) d hd d1 hd1 heq
  · intro p hp
    have h1 := hperm.countP_eq (fun q => decide (q = p))
    rw [List.countP_map] at h1
    exact h1.trans (countP_eq_one_of_mem p pool.permutations
      (List.nodup_permutations pool h) (List.mem_permutations.mpr hp))
  · intro s hs hsub hpos hlt
    have h1 := hperm.countP_eq (fun p => decide ((p.take s.length).Perm s))
    rw [List.countP_map, count_permutations_prefix pool s h hs hsub] at h1
    rw [← h1]
    apply List.countP_congr
    intro d _
    have hsel : selectRandomReviewers d pool (s.length : Int)
        = (shuffleFrom d (pool.length - 1) pool).take s.length := by
      unfold selectRandomReviewers
      rw [if_neg (by omega), if_neg (by omega)]
      simp
    simp only [hsel, Function.comp]

/-- Witness of C17: the pool u2, u3, u4, with its six draw sequences and six
permutations. -/
theorem shuffle_uniform_witness :
    ((drawSeqs (samplePool.length - 1)).map
        (fun d => shuffleFrom d (samplePool.length - 1) samplePool)).Perm
      samplePool.permutations ∧
    (drawSeqs (samplePool.length - 1)).length = samplePool.length.factorial ∧
    (∀ d ∈ drawSeqs (samplePool.length - 1), ∀ d1 ∈ drawSeqs (samplePool.length - 1),
      shuffleFrom d (samplePool.length - 1) samplePool
        = shuffleFrom d1 (samplePool.length - 1) samplePool → d = d1) ∧
    (∀ p : List User, p.Perm samplePool →
      (drawSeqs (samplePool.length - 1)).countP
        (fun d => decide (shuffleFrom d (samplePool.length - 1) samplePool = p)) = 1) ∧
    (∀ s : List User, s.Nodup → s ⊆ samplePool → 0 < s.length →
      s.length < samplePool.length →
      (drawSeqs (samplePool.length - 1)).countP
        (fun d => decide ((selectRandomReviewers d samplePool (s.length : Int)).Perm s))
        = s.length.factorial * (samplePool.length - s.length).factorial) :=
  shuffle_uniform samplePool (by decide)

/-! ## C29: the two candidate filters -/

theorem foldl_append_filter (keep : User → Bool) :
    ∀ (l acc : List User),
      l.foldl (fun activeUsers user => if keep user then activeUsers ++ [user]
        else activeUsers) acc = acc ++ l.filter keep
  | [], acc => by simp
  | u :: l, acc => by
    rw [List.foldl_cons, foldl_append_filter keep l]
    by_cases hk : keep u = true
    · simp [List.filter_cons, hk]
    · simp [List.filter_cons, hk]

/-- The append loop is the filter. -/
theorem appendLoop_eq_filter (keep : User → Bool) (l : List User) :
    appendLoop keep l = l.filter keep := by
  unfold appendLoop
  rw [foldl_append_filter]
  rfl

/-- C29. The two candidate filters agree. For every repository
implementation, team and user id `x`, `getActiveTeamMembers(teamID, x)`
returns what `getActiveTeamMembersExcluding(teamID, {x: true})` returns, the
same list in the same order and the same store. When `GetByTeamID` returns a
list, each returns what its append loop builds from it, which is the list of
the specification: a sublist of the team list holding exactly its active
users whose surrogate id is not excluded; when `GetByTeamID` fails, each
returns its error unchanged. -/
theorem candidate_filters_agree :
    (∀ {σ : Type} (R : Repos σ) (teamID x : Int) (s : σ),
      getActiveTeamMembers R teamID x s
        = getActiveTeamMembersExcluding R teamID (IDSet.empty.insert x) s) ∧
    (∀ {σ : Type} (R : Repos σ) (teamID x : Int) (excludeIDs : IDSet) (s s1 : σ)
      (allUsers : List User),
      R.userGetByTeamID teamID s = (Except.ok allUsers, s1) →
      getActiveTeamMembers R teamID x s
        = (Except.ok (appendLoop (fun user => user.IsActive && user.ID != x) allUsers), s1) ∧
      getActiveTeamMembersExcluding R teamID excludeIDs s
        = (Except.ok (appendLoop (fun user => user.IsActive && !excludeIDs user.ID) allUsers),
            s1) ∧
      appendLoop (fun user => user.IsActive && user.ID != x) allUsers
        = activeNotExcluded allUsers (fun i => decide (i = x)) ∧
      appendLoop (fun user => user.IsActive && !excludeIDs user.ID) allUsers
        = activeNotExcluded allUsers excludeIDs ∧
      (activeNotExcluded allUsers excludeIDs).Sublist allUsers ∧
      ∀ u : User, u ∈ activeNotExcluded allUsers excludeIDs ↔
        u ∈ allUsers ∧ u.IsActive = true ∧ excludeIDs u.ID = false) ∧
    (∀ {σ : Type} (R : Repos σ) (teamID x : Int) (excludeIDs : IDSet) (s s1 : σ) (err : Err),
      R.userGetByTeamID teamID s = (Except.error err, s1) →
      getActiveTeamMembers R teamID x s = (Except.error err, s1) ∧
      getActiveTeamMembersExcluding R teamID excludeIDs s = (Except.error err, s1)) := by
  refine ⟨?_, ?_, ?_⟩
  · intro σ R teamID x s
    unfold getActiveTeamMembers getActiveTeamMembersExcluding
    rcases R.userGetByTeamID teamID s with ⟨r, s1⟩
    cases r with
    | error e => rfl
    | ok allUsers =>
      simp only [Prod.mk.injEq, Except.ok.injEq, and_true]
      apply List.filter_congr
      intro u _
      by_cases hx : u.ID = x <;> simp [IDSet.insert, IDSet.empty, hx]
  · intro σ R teamID x excludeIDs s s1 allUsers h
    refine ⟨?_, ?_, ?_, ?_, List.filter_sublist _, ?_⟩
    · simp only [getActiveTeamMembers, h, appendLoop_eq_filter]
    · simp only [getActiveTeamMembersExcluding, h, appendLoop_eq_filter]
    · rw [appendLoop_eq_filter]
      unfold activeNotExcluded
      apply List.filter_congr
      intro u _
      by_cases hx : u.ID = x <;> simp [hx]
    · rw [appendLoop_eq_filter]
      rfl
    · intro u
      simp [activeNotExcluded, List.mem_filter]
  · intro σ R teamID x excludeIDs s s1 err h
    simp only [getActiveTeamMembers, getActiveTeamMembersExcluding, h, and_self]

/-- Witness of C29: the team list of the sample store with u3 inactive, read
through the mock repositories, with u1 excluded. -/
theorem candidate_filters_agree_witness :
    (getActiveTeamMembers (stubRepos samplePR (sampleUser 2 "u2" true 1) [] sampleTeamList)
        1 1 ()
      = (Except.ok (appendLoop (fun user => user.IsActive && user.ID != 1) sampleTeamList),
          ()) ∧
      getActiveTeamMembersExcluding
          (stubRepos samplePR (sampleUser 2 "u2" true 1) [] sampleTeamList) 1
          (IDSet.empty.insert 1) ()
        = (Except.ok (appendLoop (fun user => user.IsActive && !(IDSet.empty.insert 1) user.ID)
            sampleTeamList), ()) ∧
      appendLoop (fun user => user.IsActive && user.ID != 1) sampleTeamList
        = activeNotExcluded sampleTeamList (fun i => decide (i = 1)) ∧
      appendLoop (fun user => user.IsActive && !(IDSet.empty.insert 1) user.ID) sampleTeamList
        = activeNotExcluded sampleTeamList (IDSet.empty.insert 1) ∧
      (activeNotExcluded sampleTeamList (IDSet.empty.insert 1)).Sublist sampleTeamList ∧
      ∀ u : User, u ∈ activeNotExcluded sampleTeamList (IDSet.empty.insert 1) ↔
        u ∈ sampleTeamList ∧ u.IsActive = true ∧ (IDSet.empty.insert 1) u.ID = false) ∧
    (getActiveTeamMembers (faulty pgRepos) 1 1 (sampleStore, [true])
        = (Except.error ErrConnection, (sampleStore, [])) ∧
      getActiveTeamMembersExcluding (faulty pgRepos) 1 (IDSet.empty.insert 1)
          (sampleStore, [true])
        = (Except.error ErrConnection, (sampleStore, []))) :=
  ⟨candidate_filters_agree.2.1
      (stubRepos samplePR (sampleUser 2 "u2" true 1) [] sampleTeamList) 1 1
      (IDSet.empty.insert 1) () () sampleTeamList rfl,
   candidate_filters_agree.2.2 (faulty pgRepos) 1 1 (IDSet.empty.insert 1)
      (sampleStore, [true]) (sampleStore, []) ErrConnection rfl⟩

/-! ## C28: the index expressions of the candidate selector -/

theorem swapChecked_eq (l : List User) (i j : Nat) (hi : i < l.length) (hj : j < l.length) :
    swapChecked l i j = some (swap l i j) := by
  unfold swapChecked swap
  rw [List.getElem?_eq_getElem hi, List.getElem?_eq_getElem hj]

/-- Entered at an index inside the slice the shuffle loop never panics: every
bound of `Intn` is positive and both indices of every swap are in range. -/
theorem shuffleFromChecked_eq :
    ∀ (i : Nat) (draws : List Nat) (l : List User), (i = 0 ∨ i < l.length) →
      shuffleFromChecked draws i l = some (shuffleFrom draws i l)
  | 0, _, _, _ => rfl
  | i + 1, draws, l, h => by
    have hi : i + 1 < l.length := by omega
    have hj : draws.headD 0 % (i + 1 + 1) < i + 1 + 1 := Nat.mod_lt _ (by omega)
    unfold shuffleFromChecked shuffleFrom
    simp only [IntnChecked, Nat.zero_lt_succ, if_true]
    rw [swapChecked_eq l (i + 1) _ hi (by omega)]
    simp only
    exact shuffleFromChecked_eq i draws.tail _ (Or.inr (by rw [swap_length]; omega))

theorem shuffleFrom_length (draws : List Nat) :
    ∀ (i : Nat) (l : List User), (shuffleFrom draws i l).length = l.length :=
  fun i l => (shuffleFrom_perm draws i l).length_eq

theorem selectRandomReviewers_one (draws : List Nat) (candidates : List User)
    (h : candidates.length ≠ 0) : ∃ u, selectRandomReviewers draws candidates 1 = [u] := by
  have hlen := selectRandomReviewers_length draws candidates 1
  have h1 : (selectRandomReviewers draws candidates 1).length = 1 := by
    rw [hlen]
    simp only [Int.toNat_one]
    omega
  match hs : selectRandomReviewers draws candidates 1, h1 with
  | [u], _ => exact ⟨u, rfl⟩

/-- The result of `ReassignReviewer` is never the panic of the index
expression. -/
theorem ReassignReviewer_no_panic {σ : Type} (R : Repos σ) (draws : List Nat)
    (prID oldUserID : String) (s : σ) (msg : String) :
    (ReassignReviewer R draws prID oldUserID s).1 ≠ Except.error (Err.panic msg) := by
  unfold ReassignReviewer
  rcases R.prGetByPRID prID s with ⟨r1, s1⟩
  cases r1 with
  | error e => simp
  | ok pr =>
  simp only
  split
  · simp [ErrPRMerged]
  rcases R.userGetByUserID oldUserID s1 with ⟨r2, s2⟩
  cases r2 with
  | error e2 => simp
  | ok oldReviewer =>
  simp only
  rcases R.prGetReviewers pr.ID s2 with ⟨r3, s3⟩
  cases r3 with
  | error e3 => simp
  | ok reviewers =>
  simp only
  split
  · simp [ErrNotAssigned]
  rcases R.teamGetByID oldReviewer.TeamID s3 with ⟨r4, s4⟩
  cases r4 with
  | error e4 => simp
  | ok team =>
  simp only
  rcases h5 : getActiveTeamMembersExcluding R oldReviewer.TeamID
    (excludeIDs pr.AuthorID oldReviewer.ID reviewers) s4 with ⟨r5, s5⟩
  cases r5 with
  | error e5 => simp
  | ok candidates =>
  simp only
  split
  · simp [ErrNoCandidate]
  rename_i hne
  obtain ⟨u, hu⟩ := selectRandomReviewers_one draws candidates hne
  rw [hu]
  simp only
  rcases R.prRemoveReviewer pr.ID oldReviewer.ID s5 with ⟨r6, s6⟩
  cases r6 with
  | error e6 => simp
  | ok u6 =>
  simp only
  rcases R.prAddReviewer pr.ID u.ID s6 with ⟨r7, s7⟩
  cases r7 <;> simp

/-- C28. The index expression `selectRandomReviewers(candidates, 1)[0]` of
`ReassignReviewer` never goes out of range. For every pool, count and draws
the selector with the run-time checks of Go made explicit (the bound of
every `Intn`, both indices of every swap, the slice expression) does not
panic and returns what the selector returns; for every non-empty pool and
all draws `selectRandomReviewers(candidates, 1)` has exactly one element,
which is its element 0; and for every repository implementation the result
of `ReassignReviewer` is never the panic of the index expression, which is
evaluated only after the test `len(candidates) == 0` has failed. -/
theorem reassign_index_in_range :
    (∀ (draws : List Nat) (candidates : List User) (count : Int),
      selectRandomReviewersChecked draws candidates count
        = some (selectRandomReviewers draws candidates count)) ∧
    (∀ (draws : List Nat) (candidates : List User), candidates.length ≠ 0 →
      ∃ u, selectRandomReviewers draws candidates 1 = [u] ∧
        (selectRandomReviewers draws candidates 1)[0]? = some u) ∧
    (∀ {σ : Type} (R : Repos σ) (draws : List Nat) (prID oldUserID : String) (s : σ)
      (msg : String),
      (ReassignReviewer R draws prID oldUserID s).1 ≠ Except.error (Err.panic msg)) := by
  refine ⟨?_, ?_, fun R draws prID oldUserID s msg =>
    ReassignReviewer_no_panic R draws prID oldUserID s msg⟩
  · intro draws candidates count
    unfold selectRandomReviewersChecked selectRandomReviewers
    split
    · rfl
    · rename_i h1
      split
      · rfl
      · rename_i h2
        rw [shuffleFromChecked_eq _ draws candidates (by omega)]
        simp only
        rw [if_pos]
        rw [shuffleFrom_length]
        omega
  · intro draws candidates h
    obtain ⟨u, hu⟩ := selectRandomReviewers_one draws candidates h
    exact ⟨u, hu, by rw [hu]; rfl⟩

/-- Witness of C28: one reviewer is selected from the pool u2, u3, u4 with
the draws 5, 0. -/
theorem reassign_index_in_range_witness :
    ∃ u, selectRandomReviewers [5, 0] samplePool 1 = [u] ∧
      (selectRandomReviewers [5, 0] samplePool 1)[0]? = some u :=
  reassign_index_in_range.2.1 [5, 0] samplePool (by decide)

/-! ## C23: setting the active flag of one user -/

/-- C23. `UserService.SetIsActive(userID, isActive)`, for both values of
`isActive`. For every repository implementation: when `GetByUserID` fails
the call fails with `ErrNotFound` wrapped ("user not found") and the look-up
is its only repository call; when it returns a user the service calls
`userRepo.SetIsActive(userID, isActive)` once and nothing else, and returns,
when that call succeeds, the looked-up user with `IsActive` equal to
`isActive` and `ID`, `UserID`, `Username`, `TeamID` and `CreatedAt` as they
were, and when it fails, its error wrapped. On the PostgreSQL repositories
an unknown `user_id` leaves the store as it is and a known one sets
`is_active` on the rows with that `user_id` and changes nothing else. -/
theorem setIsActive_spec :
    (∀ {σ : Type} (R : Repos σ) (userID : String) (isActive : Bool) (s s1 : σ) (e0 : Err),
      R.userGetByUserID userID s = (Except.error e0, s1) →
      SetIsActive (traced R) userID isActive (s, [])
        = (Except.error (Err.wrap "%w: user not found" ErrNotFound),
            (s1, [Event.userGetByUserID userID (Except.error e0)])) ∧
      errorsIs (Err.wrap "%w: user not found" ErrNotFound) ErrNotFound = true) ∧
    (∀ {σ : Type} (R : Repos σ) (userID : String) (isActive : Bool) (s s1 s2 : σ)
      (user : User) (res : Except Err Unit),
      R.userGetByUserID userID s = (Except.ok user, s1) →
      R.userSetIsActive userID isActive s1 = (res, s2) →
      ∃ result : Except Err User,
        SetIsActive (traced R) userID isActive (s, [])
          = (result, (s2, [Event.userGetByUserID userID (Except.ok user),
              Event.userSetIsActive userID isActive res])) ∧
        (res = Except.ok () →
          ∃ returned : User, result = Except.ok returned ∧
            returned.IsActive = isActive ∧ returned.ID = user.ID ∧
            returned.UserID = user.UserID ∧ returned.Username = user.Username ∧
            returned.TeamID = user.TeamID ∧ returned.CreatedAt = user.CreatedAt) ∧
        (∀ e : Err, res = Except.error e →
          result = Except.error (Err.wrap "failed to set is_active: %w" e))) ∧
    (∀ (userID : String) (isActive : Bool) (s : Store),
      s.users.find? (fun u => u.UserID == userID) = none →
      SetIsActive pgRepos userID isActive s
        = (Except.error (Err.wrap "%w: user not found" ErrNotFound), s)) ∧
    (∀ (userID : String) (isActive : Bool) (s : Store) (user : User),
      s.users.find? (fun u => u.UserID == userID) = some user →
      SetIsActive pgRepos userID isActive s
        = (Except.ok { user with IsActive := isActive },
            { s with users := s.users.map (fun u =>
                if u.UserID == userID then { u with IsActive := isActive } else u) })) := by
  refine ⟨?_, ?_, ?_, ?_⟩
  · intro σ R userID isActive s s1 e0 h
    refine ⟨?_, by decide⟩
    simp [SetIsActive, h]
  · intro σ R userID isActive s s1 s2 user res h1 h2
    cases res with
    | error e =>
      refine ⟨Except.error (Err.wrap "failed to set is_active: %w" e), ?_, ?_, ?_⟩
      · simp [SetIsActive, h1, h2]
      · intro h; cases h
      · intro e1 h; cases h; rfl
    | ok v =>
      refine ⟨Except.ok { user with IsActive := isActive }, ?_, ?_, ?_⟩
      · simp [SetIsActive, h1, h2]
      · intro _
        exact ⟨_, rfl, rfl, rfl, rfl, rfl, rfl, rfl⟩
      · intro e1 h; cases h
  · intro userID isActive s h
    simp [SetIsActive, UserStorage.GetByUserID, h]
  · intro userID isActive s user h
    have hmem := List.mem_of_find?_eq_some h
    have hid := List.find?_some h
    have hne : ¬ (s.users.filter (fun u => u.UserID == userID)).length = 0 := by
      intro h0
      have := List.length_eq_zero.mp h0
      rw [List.filter_eq_nil_iff] at this
      exact this user hmem hid
    simp [SetIsActive, UserStorage.GetByUserID, h, UserStorage.SetIsActive, hne]

/-- Witness of C23: u2 of the sample store is set inactive, a user "u9",
which the store does not have, is set active, and u2 is set active. -/
theorem setIsActive_spec_witness :
    (SetIsActive (traced pgRepos) "u9" true (sampleStore, [])
        = (Except.error (Err.wrap "%w: user not found" ErrNotFound),
            (sampleStore, [Event.userGetByUserID "u9"
              (Except.error (pgError "storage.postgresql.UserStorage.GetByUserID"
                "no rows in result set"))])) ∧
      errorsIs (Err.wrap "%w: user not found" ErrNotFound) ErrNotFound = true) ∧
    (∃ result : Except Err User,
      SetIsActive (traced pgRepos) "u2" false (sampleStore, [])
        = (result, ((pgRepos.userSetIsActive "u2" false sampleStore).2,
            [Event.userGetByUserID "u2" (Except.ok (sampleUser 2 "u2" true 1)),
              Event.userSetIsActive "u2" false (Except.ok ())])) ∧
      ((Except.ok () : Except Err Unit) = Except.ok () →
        ∃ returned : User, result = Except.ok returned ∧
          returned.IsActive = false ∧ returned.ID = (sampleUser 2 "u2" true 1).ID ∧
          returned.UserID = (sampleUser 2 "u2" true 1).UserID ∧
          returned.Username = (sampleUser 2 "u2" true 1).Username ∧
          returned.TeamID = (sampleUser 2 "u2" true 1).TeamID ∧
          returned.CreatedAt = (sampleUser 2 "u2" true 1).CreatedAt) ∧
      (∀ e : Err, (Except.ok () : Except Err Unit) = Except.error e →
        result = Except.error (Err.wrap "failed to set is_active: %w" e))) ∧
    (SetIsActive pgRepos "u9" false sampleStore
      = (Except.error (Err.wrap "%w: user not found" ErrNotFound), sampleStore)) ∧
    (SetIsActive pgRepos "u2" false sampleStore
      = (Except.ok { sampleUser 2 "u2" true 1 with IsActive := false },
          { sampleStore with users := sampleStore.users.map (fun u =>
              if u.UserID == "u2" then { u with IsActive := false } else u) })) ∧
    (SetIsActive pgRepos "u2" true sampleStore
      = (Except.ok { sampleUser 2 "u2" true 1 with IsActive := true },
          { sampleStore with users := sampleStore.users.map (fun u =>
              if u.UserID == "u2" then { u with IsActive := true } else u) })) :=
  ⟨setIsActive_spec.1 pgRepos "u9" true sampleStore sampleStore _ rfl,
   setIsActive_spec.2.1 pgRepos "u2" false sampleStore sampleStore _
      (sampleUser 2 "u2" true 1) (Except.ok ()) rfl rfl,
   setIsActive_spec.2.2.1 "u9" false sampleStore rfl,
   setIsActive_spec.2.2.2 "u2" false sampleStore (sampleUser 2 "u2" true 1) rfl,
   setIsActive_spec.2.2.2 "u2" true sampleStore (sampleUser 2 "u2" true 1) rfl⟩

/-! ## C21: deactivating the users of a team -/

/-- C21. `TeamService.DeactivateTeamUsers(teamID)`. For every repository
implementation: when `GetByID` fails the call fails with `ErrNotFound` wrapped
("team not found") and the look-up is its only repository call, so nobody is
deactivated; when it finds the team the service calls
`DeactivateByTeamID(teamID)` once and nothing else, and returns nil or that
call's error wrapped. On the PostgreSQL repositories an unknown team leaves
the store as it is, and a known one sets `is_active` to false on every user
whose team is `teamID` and changes nothing else: the users keep their
position, surrogate id, `user_id`, name, team and creation timestamp, users
of other teams are unchanged, and teams, pull requests, reviewer
associations, sequences and clock are unchanged. -/
theorem deactivateTeamUsers_frame :
    (∀ {σ : Type} (R : Repos σ) (teamID : Int) (s s1 : σ) (e0 : Err),
      R.teamGetByID teamID s = (Except.error e0, s1) →
      DeactivateTeamUsers (traced R) teamID (s, [])
        = (Except.error (Err.wrap "%w: team not found" ErrNotFound),
            (s1, [Event.teamGetByID teamID (Except.error e0)])) ∧
      errorsIs (Err.wrap "%w: team not found" ErrNotFound) ErrNotFound = true) ∧
    (∀ {σ : Type} (R : Repos σ) (teamID : Int) (s s1 s2 : σ) (team : Team)
      (res : Except Err Unit),
      R.teamGetByID teamID s = (Except.ok team, s1) →
      R.userDeactivateByTeamID teamID s1 = (res, s2) →
      DeactivateTeamUsers (traced R) teamID (s, [])
        = (match res with
            | Except.ok _ => Except.ok ()
            | Except.error e => Except.error (Err.wrap "failed to deactivate team users: %w" e),
            (s2, [Event.teamGetByID teamID (Except.ok team),
              Event.userDeactivateByTeamID teamID res]))) ∧
    (∀ (teamID : Int) (s : Store),
      s.teams.find? (fun row => row.id == teamID) = none →
      DeactivateTeamUsers pgRepos teamID s
        = (Except.error (Err.wrap "%w: team not found" ErrNotFound), s)) ∧
    (∀ (teamID : Int) (s : Store) (row : TeamRow),
      s.teams.find? (fun row => row.id == teamID) = some row →
      ∃ s1 : Store, DeactivateTeamUsers pgRepos teamID s = (Except.ok (), s1) ∧
        s1 = { s with users := s.users.map (fun u =>
          if u.TeamID == teamID then { u with IsActive := false } else u) } ∧
        s1.teams = s.teams ∧ s1.pull_requests = s.pull_requests ∧
        s1.pr_reviewers = s.pr_reviewers ∧ s1.teamSeq = s.teamSeq ∧
        s1.userSeq = s.userSeq ∧ s1.prSeq = s.prSeq ∧ s1.now = s.now ∧
        s1.users.length = s.users.length ∧
        (∀ (i : Nat) (u u1 : User), s.users[i]? = some u → s1.users[i]? = some u1 →
          u1.ID = u.ID ∧ u1.UserID = u.UserID ∧ u1.Username = u.Username ∧
          u1.TeamID = u.TeamID ∧ u1.CreatedAt = u.CreatedAt ∧
          (u.TeamID = teamID → u1.IsActive = false) ∧
          (u.TeamID ≠ teamID → u1 = u)) ∧
        (∀ u1 ∈ s1.users, u1.TeamID = teamID → u1.IsActive = false)) := by
  refine ⟨?_, ?_, ?_, ?_⟩
  · intro σ R teamID s s1 e0 h
    refine ⟨?_, by decide⟩
    simp [DeactivateTeamUsers, h]
  · intro σ R teamID s s1 s2 team res h1 h2
    cases res <;> simp [DeactivateTeamUsers, h1, h2]
  · intro teamID s h
    simp [DeactivateTeamUsers, TeamRepo.GetByID, h]
  · intro teamID s row h
    refine ⟨_, ?_, rfl, rfl, rfl, rfl, rfl, rfl, rfl, rfl, ?_, ?_, ?_⟩
    · simp [DeactivateTeamUsers, TeamRepo.GetByID, h, UserStorage.DeactivateByTeamID]
    · simp
    · intro i u u1 hu hu1
      simp only [List.getElem?_map, hu, Option.map_some', Option.some.injEq] at hu1
      subst hu1
      by_cases ht : u.TeamID = teamID
      · simp [ht]
      · simp [ht]
    · intro u1 hu1 ht
      simp only [List.mem_map] at hu1
      obtain ⟨u, _, hf⟩ := hu1
      by_cases hc : u.TeamID = teamID
      · simp only [hc, beq_self_eq_true, if_true] at hf
        rw [← hf]
      · have hb : (u.TeamID == teamID) = false := by simpa using hc
        simp only [hb, Bool.false_eq_true, if_false] at hf
        subst hf
        exact absurd ht hc

/-- Witness of C21: team 7, which the sample store does not have, and team 1
of the sample store are deactivated. -/
theorem deactivateTeamUsers_frame_witness :
    (DeactivateTeamUsers (traced pgRepos) 7 (sampleStore, [])
        = (Except.error (Err.wrap "%w: team not found" ErrNotFound),
            (sampleStore, [Event.teamGetByID 7
              (Except.error (pgError "repository.TeamRepo.GetByID" "no rows in result set"))])) ∧
      errorsIs (Err.wrap "%w: team not found" ErrNotFound) ErrNotFound = true) ∧
    (DeactivateTeamUsers (traced pgRepos) 1 (sampleStore, [])
      = (Except.ok (),
          ((pgRepos.userDeactivateByTeamID 1 sampleStore).2,
            [Event.teamGetByID 1
                (Except.ok { ID := 1, Name := "backend", CreatedAt := 0, Users := [] }),
              Event.userDeactivateByTeamID 1 (Except.ok ())]))) ∧
    (DeactivateTeamUsers pgRepos 7 sampleStore
      = (Except.error (Err.wrap "%w: team not found" ErrNotFound), sampleStore)) ∧
    (∃ s1 : Store, DeactivateTeamUsers pgRepos 1 sampleCreated = (Except.ok (), s1) ∧
        s1 = { sampleCreated with users := sampleCreated.users.map (fun u =>
          if u.TeamID == 1 then { u with IsActive := false } else u) } ∧
        s1.teams = sampleCreated.teams ∧ s1.pull_requests = sampleCreated.pull_requests ∧
        s1.pr_reviewers = sampleCreated.pr_reviewers ∧ s1.teamSeq = sampleCreated.teamSeq ∧
        s1.userSeq = sampleCreated.userSeq ∧ s1.prSeq = sampleCreated.prSeq ∧
        s1.now = sampleCreated.now ∧
        s1.users.length = sampleCreated.users.length ∧
        (∀ (i : Nat) (u u1 : User), sampleCreated.users[i]? = some u →
          s1.users[i]? = some u1 →
          u1.ID = u.ID ∧ u1.UserID = u.UserID ∧ u1.Username = u.Username ∧
          u1.TeamID = u.TeamID ∧ u1.CreatedAt = u.CreatedAt ∧
          (u.TeamID = 1 → u1.IsActive = false) ∧
          (u.TeamID ≠ 1 → u1 = u)) ∧
        (∀ u1 ∈ s1.users, u1.TeamID = 1 → u1.IsActive = false)) :=
  ⟨deactivateTeamUsers_frame.1 pgRepos 7 sampleStore sampleStore _ rfl,
   deactivateTeamUsers_frame.2.1 pgRepos 1 sampleStore sampleStore _
      { ID := 1, Name := "backend", CreatedAt := 0, Users := [] } (Except.ok ()) rfl rfl,
   deactivateTeamUsers_frame.2.2.1 7 sampleStore rfl,
   deactivateTeamUsers_frame.2.2.2 1 sampleCreated { id := 1, name := "backend", created_at := 0 }
      rfl⟩

/-! ## C27: the order of the checks of a reassignment -/

/-- C27. `ReassignReviewer` makes its precondition checks in the order: pull
request unknown, pull request merged, old reviewer unknown, old reviewer not
assigned, old reviewer's team unknown, empty candidate pool. For every
repository implementation, a check that fails after the earlier ones have
passed decides the error (`ErrNotFound` wrapped, `ErrPRMerged`,
`ErrNotFound` wrapped, `ErrNotAssigned`, `ErrNotFound` wrapped,
`ErrNoCandidate`), whatever the later checks would find, and the log of the
call holds the look-ups made so far and neither `RemoveReviewer` nor
`AddReviewer`. On the PostgreSQL repositories the error returned is that of
the first failing check of the list and the store is unchanged; when no
check fails the call goes on to `RemoveReviewer`. -/
theorem reassign_check_order :
    (∀ {σ : Type} (R : Repos σ) (draws : List Nat) (prID oldUserID : String) (s s1 : σ)
      (e1 : Err),
      R.prGetByPRID prID s = (Except.error e1, s1) →
      ReassignReviewer (traced R) draws prID oldUserID (s, [])
        = (Except.error (Err.wrap "%w: PR not found" ErrNotFound),
            (s1, [Event.prGetByPRID prID (Except.error e1)]))) ∧
    (∀ {σ : Type} (R : Repos σ) (draws : List Nat) (prID oldUserID : String) (s s1 : σ)
      (pr : PullRequest),
      R.prGetByPRID prID s = (Except.ok pr, s1) → pr.StatusID = StatusMergedID →
      ReassignReviewer (traced R) draws prID oldUserID (s, [])
        = (Except.error ErrPRMerged, (s1, [Event.prGetByPRID prID (Except.ok pr)]))) ∧
    (∀ {σ : Type} (R : Repos σ) (draws : List Nat) (prID oldUserID : String) (s s1 s2 : σ)
      (pr : PullRequest) (e2 : Err),
      R.prGetByPRID prID s = (Except.ok pr, s1) → pr.StatusID ≠ StatusMergedID →
      R.userGetByUserID oldUserID s1 = (Except.error e2, s2) →
      ReassignReviewer (traced R) draws prID oldUserID (s, [])
        = (Except.error (Err.wrap "%w: old reviewer not found" ErrNotFound),
            (s2, [Event.prGetByPRID prID (Except.ok pr),
              Event.userGetByUserID oldUserID (Except.error e2)]))) ∧
    (∀ {σ : Type} (R : Repos σ) (draws : List Nat) (prID oldUserID : String)
      (s s1 s2 s3 : σ) (pr : PullRequest) (oldReviewer : User) (reviewers : List User),
      R.prGetByPRID prID s = (Except.ok pr, s1) → pr.StatusID ≠ StatusMergedID →
      R.userGetByUserID oldUserID s1 = (Except.ok oldReviewer, s2) →
      R.prGetReviewers pr.ID s2 = (Except.ok reviewers, s3) →
      isAssigned reviewers oldUserID = false →
      ReassignReviewer (traced R) draws prID oldUserID (s, [])
        = (Except.error ErrNotAssigned,
            (s3, [Event.prGetByPRID prID (Except.ok pr),
              Event.userGetByUserID oldUserID (Except.ok oldReviewer),
              Event.prGetReviewers pr.ID (Except.ok reviewers)]))) ∧
    (∀ {σ : Type} (R : Repos σ) (draws : List Nat) (prID oldUserID : String)
      (s s1 s2 s3 s4 : σ) (pr : PullRequest) (oldReviewer : User) (reviewers : List User)
      (e4 : Err),
      R.prGetByPRID prID s = (Except.ok pr, s1) → pr.StatusID ≠ StatusMergedID →
      R.userGetByUserID oldUserID s1 = (Except.ok oldReviewer, s2) →
      R.prGetReviewers pr.ID s2 = (Except.ok reviewers, s3) →
      isAssigned reviewers oldUserID = true →
      R.teamGetByID oldReviewer.TeamID s3 = (Except.error e4, s4) →
      ReassignReviewer (traced R) draws prID oldUserID (s, [])
        = (Except.error (Err.wrap "%w: reviewer team not found" ErrNotFound),
            (s4, [Event.prGetByPRID prID (Except.ok pr),
              Event.userGetByUserID oldUserID (Except.ok oldReviewer),
              Event.prGetReviewers pr.ID (Except.ok reviewers),
              Event.teamGetByID oldReviewer.TeamID (Except.error e4)]))) ∧
    (∀ {σ : Type} (R : Repos σ) (draws : List Nat) (prID oldUserID : String)
      (s s1 s2 s3 s4 s5 : σ) (pr : PullRequest) (oldReviewer : User)
      (reviewers : List User) (team : Team) (all : List User),
      R.prGetByPRID prID s = (Except.ok pr, s1) → pr.StatusID ≠ StatusMergedID →
      R.userGetByUserID oldUserID s1 = (Except.ok oldReviewer, s2) →
      R.prGetReviewers pr.ID s2 = (Except.ok reviewers, s3) →
      isAssigned reviewers oldUserID = true →
      R.teamGetByID oldReviewer.TeamID s3 = (Except.ok team, s4) →
      R.userGetByTeamID oldReviewer.TeamID s4 = (Except.ok all, s5) →
      replacementPool all pr.AuthorID oldReviewer.ID reviewers = [] →
      ReassignReviewer (traced R) draws prID oldUserID (s, [])
        = (Except.error ErrNoCandidate,
            (s5, [Event.prGetByPRID prID (Except.ok pr),
              Event.userGetByUserID oldUserID (Except.ok oldReviewer),
              Event.prGetReviewers pr.ID (Except.ok reviewers),
              Event.teamGetByID oldReviewer.TeamID (Except.ok team),
              Event.userGetByTeamID oldReviewer.TeamID (Except.ok all)]))) ∧
    (∀ {σ : Type} (R : Repos σ) (draws : List Nat) (prID oldUserID : String)
      (s s1 s2 s3 s4 s5 : σ) (pr : PullRequest) (oldReviewer : User)
      (reviewers : List User) (team : Team) (all : List User),
      R.prGetByPRID prID s = (Except.ok pr, s1) → pr.StatusID ≠ StatusMergedID →
      R.userGetByUserID oldUserID s1 = (Except.ok oldReviewer, s2) →
      R.prGetReviewers pr.ID s2 = (Except.ok reviewers, s3) →
      isAssigned reviewers oldUserID = true →
      R.teamGetByID oldReviewer.TeamID s3 = (Except.ok team, s4) →
      R.userGetByTeamID oldReviewer.TeamID s4 = (Except.ok all, s5) →
      replacementPool all pr.AuthorID oldReviewer.ID reviewers ≠ [] →
      ∃ (res : Except Err Unit) (rest : List Event),
        (ReassignReviewer (traced R) draws prID oldUserID (s, [])).2.2
          = [Event.prGetByPRID prID (Except.ok pr),
              Event.userGetByUserID oldUserID (Except.ok oldReviewer),
              Event.prGetReviewers pr.ID (Except.ok reviewers),
              Event.teamGetByID oldReviewer.TeamID (Except.ok team),
              Event.userGetByTeamID oldReviewer.TeamID (Except.ok all),
              Event.prRemoveReviewer pr.ID oldReviewer.ID res] ++ rest) ∧
    (∀ (draws : List Nat) (prID oldUserID : String) (s : Store) (e : Err),
      s.firstFailedCheck prID oldUserID = some e →
      ∃ log : List Event,
        ReassignReviewer (traced pgRepos) draws prID oldUserID (s, [])
          = (Except.error e, (s, log)) ∧
        log.filter Event.isWrite = []) ∧
    (∀ (draws : List Nat) (prID oldUserID : String) (s : Store),
      s.firstFailedCheck prID oldUserID = none →
      ∃ (prID1 reviewerID : Int) (res : Except Err Unit) (rest : List Event),
        (ReassignReviewer (traced pgRepos) draws prID oldUserID (s, [])).2.2.filter
            Event.isWrite
          = Event.prRemoveReviewer prID1 reviewerID res :: rest) := by
  have g1 : ∀ {σ : Type} (R : Repos σ) (draws : List Nat) (prID oldUserID : String) (s s1 : σ)
      (e1 : Err),
      R.prGetByPRID prID s = (Except.error e1, s1) →
      ReassignReviewer (traced R) draws prID oldUserID (s, [])
        = (Except.error (Err.wrap "%w: PR not found" ErrNotFound),
            (s1, [Event.prGetByPRID prID (Except.error e1)])) := by
    intro σ R draws prID oldUserID s s1 e1 h1
    simp [ReassignReviewer, h1]
  have g2 : ∀ {σ : Type} (R : Repos σ) (draws : List Nat) (prID oldUserID : String) (s s1 : σ)
      (pr : PullRequest),
      R.prGetByPRID prID s = (Except.ok pr, s1) → pr.StatusID = StatusMergedID →
      ReassignReviewer (traced R) draws prID oldUserID (s, [])
        = (Except.error ErrPRMerged, (s1, [Event.prGetByPRID prID (Except.ok pr)])) := by
    intro σ R draws prID oldUserID s s1 pr h1 hst
    simp [ReassignReviewer, h1, hst]
  have g3 : ∀ {σ : Type} (R : Repos σ) (draws : List Nat) (prID oldUserID : String)
      (s s1 s2 : σ) (pr : PullRequest) (e2 : Err),
      R.prGetByPRID prID s = (Except.ok pr, s1) → pr.StatusID ≠ StatusMergedID →
      R.userGetByUserID oldUserID s1 = (Except.error e2, s2) →
      ReassignReviewer (traced R) draws prID oldUserID (s, [])
        = (Except.error (Err.wrap "%w: old reviewer not found" ErrNotFound),
            (s2, [Event.prGetByPRID prID (Except.ok pr),
              Event.userGetByUserID oldUserID (Except.error e2)])) := by
    intro σ R draws prID oldUserID s s1 s2 pr e2 h1 hst h2
    simp [ReassignReviewer, h1, hst, h2]
  have g4 : ∀ {σ : Type} (R : Repos σ) (draws : List Nat) (prID oldUserID : String)
      (s s1 s2 s3 : σ) (pr : PullRequest) (oldReviewer : User) (reviewers : List User),
      R.prGetByPRID prID s = (Except.ok pr, s1) → pr.StatusID ≠ StatusMergedID →
      R.userGetByUserID oldUserID s1 = (Except.ok oldReviewer, s2) →
      R.prGetReviewers pr.ID s2 = (Except.ok reviewers, s3) →
      isAssigned reviewers oldUserID = false →
      ReassignReviewer (traced R) draws prID oldUserID (s, [])
        = (Except.error ErrNotAssigned,
            (s3, [Event.prGetByPRID prID (Except.ok pr),
              Event.userGetByUserID oldUserID (Except.ok oldReviewer),
              Event.prGetReviewers pr.ID (Except.ok reviewers)])) := by
    intro σ R draws prID oldUserID s s1 s2 s3 pr oldReviewer reviewers h1 hst h2 h3 has
    simp [ReassignReviewer, h1, hst, h2, h3, has]
  have g5 : ∀ {σ : Type} (R : Repos σ) (draws : List Nat) (prID oldUserID : String)
      (s s1 s2 s3 s4 : σ) (pr : PullRequest) (oldReviewer : User) (reviewers : List User)
      (e4 : Err),
      R.prGetByPRID prID s = (Except.ok pr, s1) → pr.StatusID ≠ StatusMergedID →
      R.userGetByUserID oldUserID s1 = (Except.ok oldReviewer, s2) →
      R.prGetReviewers pr.ID s2 = (Except.ok reviewers, s3) →
      isAssigned reviewers oldUserID = true →
      R.teamGetByID oldReviewer.TeamID s3 = (Except.error e4, s4) →
      ReassignReviewer (traced R) draws prID oldUserID (s, [])
        = (Except.error (Err.wrap "%w: reviewer team not found" ErrNotFound),
            (s4, [Event.prGetByPRID prID (Except.ok pr),
              Event.userGetByUserID oldUserID (Except.ok oldReviewer),
              Event.prGetReviewers pr.ID (Except.ok reviewers),
              Event.teamGetByID oldReviewer.TeamID (Except.error e4)])) := by
    intro σ R draws prID oldUserID s s1 s2 s3 s4 pr oldReviewer reviewers e4 h1 hst h2 h3
      has h4
    simp [ReassignReviewer, h1, hst, h2, h3, has, h4]
  have g6 : ∀ {σ : Type} (R : Repos σ) (draws : List Nat) (prID oldUserID : String)
      (s s1 s2 s3 s4 s5 : σ) (pr : PullRequest) (oldReviewer : User)
      (reviewers : List User) (team : Team) (all : List User),
      R.prGetByPRID prID s = (Except.ok pr, s1) → pr.StatusID ≠ StatusMergedID →
      R.userGetByUserID oldUserID s1 = (Except.ok oldReviewer, s2) →
      R.prGetReviewers pr.ID s2 = (Except.ok reviewers, s3) →
      isAssigned reviewers oldUserID = true →
      R.teamGetByID oldReviewer.TeamID s3 = (Except.ok team, s4) →
      R.userGetByTeamID oldReviewer.TeamID s4 = (Except.ok all, s5) →
      replacementPool all pr.AuthorID oldReviewer.ID reviewers = [] →
      ReassignReviewer (traced R) draws prID oldUserID (s, [])
        = (Except.error ErrNoCandidate,
            (s5, [Event.prGetByPRID prID (Except.ok pr),
              Event.userGetByUserID oldUserID (Except.ok oldReviewer),
              Event.prGetReviewers pr.ID (Except.ok reviewers),
              Event.teamGetByID oldReviewer.TeamID (Except.ok team),
              Event.userGetByTeamID oldReviewer.TeamID (Except.ok all)])) := by
    intro σ R draws prID oldUserID s s1 s2 s3 s4 s5 pr oldReviewer reviewers team all
      h1 hst h2 h3 has h4 h5 hpool
    unfold replacementPool at hpool
    simp [ReassignReviewer, getActiveTeamMembersExcluding, h1, hst, h2, h3, has, h4, h5,
      hpool]
  have g7 : ∀ {σ : Type} (R : Repos σ) (draws : List Nat) (prID oldUserID : String)
      (s s1 s2 s3 s4 s5 : σ) (pr : PullRequest) (oldReviewer : User)
      (reviewers : List User) (team : Team) (all : List User),
      R.prGetByPRID prID s = (Except.ok pr, s1) → pr.StatusID ≠ StatusMergedID →
      R.userGetByUserID oldUserID s1 = (Except.ok oldReviewer, s2) →
      R.prGetReviewers pr.ID s2 = (Except.ok reviewers, s3) →
      isAssigned reviewers oldUserID = true →
      R.teamGetByID oldReviewer.TeamID s3 = (Except.ok team, s4) →
      R.userGetByTeamID oldReviewer.TeamID s4 = (Except.ok all, s5) →
      replacementPool all pr.AuthorID oldReviewer.ID reviewers ≠ [] →
      ∃ (res : Except Err Unit) (rest : List Event),
        (ReassignReviewer (traced R) draws prID oldUserID (s, [])).2.2
          = [Event.prGetByPRID prID (Except.ok pr),
              Event.userGetByUserID oldUserID (Except.ok oldReviewer),
              Event.prGetReviewers pr.ID (Except.ok reviewers),
              Event.teamGetByID oldReviewer.TeamID (Except.ok team),
              Event.userGetByTeamID oldReviewer.TeamID (Except.ok all),
              Event.prRemoveReviewer pr.ID oldReviewer.ID res] ++ rest := by
    intro σ R draws prID oldUserID s s1 s2 s3 s4 s5 pr oldReviewer reviewers team all
      h1 hst h2 h3 has h4 h5 hpool
    have hlen : (replacementPool all pr.AuthorID oldReviewer.ID reviewers).length ≠ 0 :=
      fun h0 => hpool (List.length_eq_zero.mp h0)
    obtain ⟨u, hu⟩ := selectRandomReviewers_one draws _ hlen
    unfold replacementPool at hlen hu
    rcases hrm : R.prRemoveReviewer pr.ID oldReviewer.ID s5 with ⟨r6, s6⟩
    cases r6 with
    | error e6 =>
      refine ⟨Except.error e6, [], ?_⟩
      simp [ReassignReviewer, getActiveTeamMembersExcluding, h1, hst, h2, h3, has, h4, h5,
        hlen, hu, hrm]
    | ok v =>
      rcases hadd : R.prAddReviewer pr.ID u.ID s6 with ⟨r7, s7⟩
      refine ⟨Except.ok (), [Event.prAddReviewer pr.ID u.ID r7], ?_⟩
      cases r7 <;>
      simp [ReassignReviewer, getActiveTeamMembersExcluding, h1, hst, h2, h3, has, h4, h5,
        hlen, hu, hrm, hadd]
  refine ⟨g1, g2, g3, g4, g5, g6, g7, ?_, ?_⟩
  · intro draws prID oldUserID s e h
    unfold Store.firstFailedCheck at h
    cases hrow : s.pull_requests.find? (fun row => row.pull_request_id == prID) with
    | none =>
      simp only [hrow, Option.some.injEq] at h
      subst h
      exact ⟨_, g1 pgRepos draws prID oldUserID s s
        (pgError "repository.PRRepo.GetByPRID" "no rows in result set")
        (by simp [PRRepo.GetByPRID, hrow]), rfl⟩
    | some row =>
    simp only [hrow] at h
    have hget : pgRepos.prGetByPRID prID s
        = (Except.ok (row.toPR (s.reviewersOf row.id)), s) := by
      simp [PRRepo.GetByPRID, PRRepo.GetReviewers, hrow]
    by_cases hst : row.status_id = StatusMergedID
    · simp only [hst, if_true, Option.some.injEq] at h
      subst h
      exact ⟨_, g2 pgRepos draws prID oldUserID s s _ hget hst, rfl⟩
    simp only [hst, if_false] at h
    cases hold : s.users.find? (fun u => u.UserID == oldUserID) with
    | none =>
      simp only [hold, Option.some.injEq] at h
      subst h
      exact ⟨_, g3 pgRepos draws prID oldUserID s s s _
        (pgError "storage.postgresql.UserStorage.GetByUserID" "no rows in result set") hget hst
        (by simp [UserStorage.GetByUserID, hold]), rfl⟩
    | some oldReviewer =>
    simp only [hold] at h
    have huser : pgRepos.userGetByUserID oldUserID s = (Except.ok oldReviewer, s) := by
      simp [UserStorage.GetByUserID, hold]
    have hrev : pgRepos.prGetReviewers (row.toPR (s.reviewersOf row.id)).ID s
        = (Except.ok (s.reviewersOf row.id), s) := by
      simp [PRRepo.GetReviewers, PRRow.toPR]
    by_cases has : isAssigned (s.reviewersOf row.id) oldUserID = false
    · simp only [has, if_true, Option.some.injEq] at h
      subst h
      exact ⟨_, g4 pgRepos draws prID oldUserID s s s s _ oldReviewer _ hget hst huser hrev
        has, rfl⟩
    rw [if_neg has] at h
    have has1 : isAssigned (s.reviewersOf row.id) oldUserID = true := by simpa using has
    cases hteam : s.teams.find? (fun t => t.id == oldReviewer.TeamID) with
    | none =>
      simp only [hteam, Option.some.injEq] at h
      subst h
      exact ⟨_, g5 pgRepos draws prID oldUserID s s s s s _ oldReviewer _
        (pgError "repository.TeamRepo.GetByID" "no rows in result set") hget hst huser
        hrev has1 (by simp [TeamRepo.GetByID, hteam]), rfl⟩
    | some team =>
    simp only [hteam] at h
    by_cases hpool : replacementPool
        (s.users.filter (fun u => u.TeamID == oldReviewer.TeamID))
        row.author_id oldReviewer.ID (s.reviewersOf row.id) = []
    · simp only [hpool, if_true, Option.some.injEq] at h
      subst h
      exact ⟨_, g6 pgRepos draws prID oldUserID s s s s s s _ oldReviewer _ (team.toTeam [])
        _ hget hst huser hrev has1 (by simp [TeamRepo.GetByID, hteam])
        (by simp [UserStorage.GetByTeamID]) hpool, rfl⟩
    · simp [hpool] at h
  · intro draws prID oldUserID s h
    unfold Store.firstFailedCheck at h
    cases hrow : s.pull_requests.find? (fun row => row.pull_request_id == prID) with
    | none => simp [hrow] at h
    | some row =>
    simp only [hrow] at h
    by_cases hst : row.status_id = StatusMergedID
    · simp [hst] at h
    simp only [hst, if_false] at h
    cases hold : s.users.find? (fun u => u.UserID == oldUserID) with
    | none => simp [hold] at h
    | some oldReviewer =>
    simp only [hold] at h
    by_cases has : isAssigned (s.reviewersOf row.id) oldUserID = false
    · simp [has] at h
    rw [if_neg has] at h
    have has1 : isAssigned (s.reviewersOf row.id) oldUserID = true := by simpa using has
    cases hteam : s.teams.find? (fun t => t.id == oldReviewer.TeamID) with
    | none => simp [hteam] at h
    | some team =>
    simp only [hteam] at h
    by_cases hpool : replacementPool
        (s.users.filter (fun u => u.TeamID == oldReviewer.TeamID))
        row.author_id oldReviewer.ID (s.reviewersOf row.id) = []
    · simp [hpool] at h
    have hget : pgRepos.prGetByPRID prID s
        = (Except.ok (row.toPR (s.reviewersOf row.id)), s) := by
      simp [PRRepo.GetByPRID, PRRepo.GetReviewers, hrow]
    obtain ⟨res, rest, hlog⟩ := g7 pgRepos draws prID oldUserID s s s s s s _ oldReviewer
      (s.reviewersOf row.id) (team.toTeam []) _ hget hst
      (by simp [UserStorage.GetByUserID, hold])
      (by simp [PRRepo.GetReviewers, PRRow.toPR]) has1
      (by simp [TeamRepo.GetByID, hteam]) (by simp [UserStorage.GetByTeamID]) hpool
    refine ⟨row.id, oldReviewer.ID, res, rest.filter Event.isWrite, ?_⟩
    rw [hlog]
    simp [Event.isWrite, PRRow.toPR]

/-- Witness of C27: on the open "pr-1" of the sample store a reassignment of
"u9", whom the store does not have, fails with `ErrNotFound`; on the merged
"pr-1" it fails with `ErrPRMerged`; and a reassignment of the reviewer u2 of
the open "pr-1" passes all checks. -/
theorem reassign_check_order_witness :
    (ReassignReviewer (traced pgRepos) [] "pr-1" "u9" (sampleCreated, [])
      = (Except.error (Err.wrap "%w: old reviewer not found" ErrNotFound),
          (sampleCreated, [Event.prGetByPRID "pr-1" (Except.ok samplePR),
            Event.userGetByUserID "u9"
              (Except.error (pgError "storage.postgresql.UserStorage.GetByUserID"
                "no rows in result set"))]))) ∧
    (∃ log : List Event,
      ReassignReviewer (traced pgRepos) [] "pr-1" "u9" (sampleMerged.2, [])
        = (Except.error ErrPRMerged, (sampleMerged.2, log)) ∧
      log.filter Event.isWrite = []) ∧
    (∃ (prID1 reviewerID : Int) (res : Except Err Unit) (rest : List Event),
      (ReassignReviewer (traced pgRepos) [5] "pr-1" "u2" (sampleCreated, [])).2.2.filter
          Event.isWrite
        = Event.prRemoveReviewer prID1 reviewerID res :: rest) :=
  ⟨reassign_check_order.2.2.1 pgRepos [] "pr-1" "u9" sampleCreated sampleCreated
      sampleCreated samplePR
      (pgError "storage.postgresql.UserStorage.GetByUserID" "no rows in result set")
      rfl (by decide) rfl,
   reassign_check_order.2.2.2.2.2.2.2.1 [] "pr-1" "u9" sampleMerged.2 ErrPRMerged rfl,
   reassign_check_order.2.2.2.2.2.2.2.2 [5] "pr-1" "u2" sampleCreated rfl⟩

/-! ## C24: the status codes of the domain failures -/

/-- C24 (the code diverges). `errorResponse` answers an error of every
dynamic type other than `*errors.AppError` with status 500 and code
"INTERNAL_ERROR", and the engine returns no `*errors.AppError`: its domain
failures are the sentinels of package `storage`, bare or wrapped. So every
domain failure of the engine is answered with 500: `ErrPRExists` and
`ErrTeamExists` (400 in the interface table), `ErrNotFound` wrapped (404),
`ErrPRMerged`, `ErrNotAssigned` and `ErrNoCandidate` (409). The table itself,
`getHTTPStatus`, gives the codes of package `errors` the statuses of the
interface table, but no engine failure reaches it. A second `CreatePR` of
"pr-1" on the sample store is answered with 500. -/
theorem errorResponse_engine_failures :
    (∀ e : Err, errorResponse (GoError.plain e)
      = (500, { Error := some { Code := "INTERNAL_ERROR",
                                Message := "Internal server error" } })) ∧
    (∀ {α : Type} (success : Nat) (e : Err),
      handlerStatus success (Except.error e : Except Err α) = 500) ∧
    (getHTTPStatus errors.PRExists = 400 ∧ getHTTPStatus errors.TeamExists = 400 ∧
      getHTTPStatus errors.NotFound = 404 ∧ getHTTPStatus errors.PRMerged = 409 ∧
      getHTTPStatus errors.NotAssigned = 409 ∧ getHTTPStatus errors.NoCandidate = 409 ∧
      (errorResponse (GoError.appError errors.ErrPRExists)).1 = 400) ∧
    ((CreatePR pgRepos [] "pr-1" "Again" "u1" sampleCreated).1 = Except.error ErrPRExists ∧
      handlerStatus 201 (CreatePR pgRepos [] "pr-1" "Again" "u1" sampleCreated).1 = 500 ∧
      handlerStatus 200 (MergePR pgRepos 7 "pr-9" sampleCreated).1 = 500 ∧
      handlerStatus 200 (ReassignReviewer pgRepos [] "pr-1" "u2" sampleMerged.2).1 = 500 ∧
      handlerStatus 201 (CreateTeam pgRepos backendTeam backendStore).1 = 500) := by
  refine ⟨fun e => rfl, fun success e => rfl, ?_, ?_⟩
  · decide
  · refine ⟨rfl, rfl, rfl, rfl, rfl⟩

/-! ## C30: a failure after the insert of the pull request -/

/-- `CreatePR` preserves what its repository calls preserve, the insert
being one of a pull request with the id of the call. -/
theorem CreatePR_preserves_id {σ : Type} (R : Repos σ) (P : σ → Prop)
    (draws : List Nat) (prID prName authorUserID : String)
    (hget : ∀ (x : String) (s : σ), P s → P (R.prGetByPRID x s).2)
    (huser : ∀ (x : String) (s : σ), P s → P (R.userGetByUserID x s).2)
    (hteam : ∀ (x : Int) (s : σ), P s → P (R.teamGetByID x s).2)
    (hcreate : ∀ (x : PullRequest) (s : σ), x.PullRequestID = prID → P s →
      P (R.prCreate x s).2)
    (hlist : ∀ (x : Int) (s : σ), P s → P (R.userGetByTeamID x s).2)
    (hadd : ∀ (x y : Int) (s : σ), P s → P (R.prAddReviewer x y s).2)
    (s : σ) (hs : P s) :
    P (CreatePR R draws prID prName authorUserID s).2 := by
  unfold CreatePR
  have k1 := hget prID s hs
  rcases h1 : R.prGetByPRID prID s with ⟨r1, s1⟩
  rw [h1] at k1
  cases r1 with
  | ok v => exact k1
  | error e =>
  simp only
  have k2 := huser authorUserID s1 k1
  rcases h2 : R.userGetByUserID authorUserID s1 with ⟨r2, s2⟩
  rw [h2] at k2
  cases r2 with
  | error e2 => exact k2
  | ok author =>
  simp only
  have k3 := hteam author.TeamID s2 k2
  rcases h3 : R.teamGetByID author.TeamID s2 with ⟨r3, s3⟩
  rw [h3] at k3
  cases r3 with
  | error e3 => exact k3
  | ok team =>
  simp only
  have k4 := hcreate (newPR prID prName author.ID) s3 rfl k3
  rcases h4 : R.prCreate (newPR prID prName author.ID) s3 with ⟨r4, s4⟩
  rw [h4] at k4
  simp only [newPR] at h4
  rw [h4]
  cases r4 with
  | error e4 => exact k4
  | ok pr =>
  simp only [getActiveTeamMembers]
  have k5 := hlist author.TeamID s4 k4
  rcases h5 : R.userGetByTeamID author.TeamID s4 with ⟨r5, s5⟩
  rw [h5] at k5
  cases r5 with
  | error e5 => exact k5
  | ok all =>
  simp only
  generalize selectRandomReviewers draws _ _ = sel
  have k6 := addReviewers_preserves R P hadd pr.ID sel s5 k5
  rcases h6 : addReviewers R pr.ID sel s5 with ⟨r6, s6⟩
  rw [h6] at k6
  cases r6 with
  | error e6 => exact k6
  | ok u =>
  simp only
  have k7 := hget prID s6 k6
  rcases h7 : R.prGetByPRID prID s6 with ⟨r7, s7⟩
  rw [h7] at k7
  cases r7 <;> exact k7

/-- One recorded call keeps the invariant when the store it leaves has the
rows and pairs of the store it found, the event is neither an insert of a
pull request, nor a successful `AddReviewer`, nor a removal or an update. -/
theorem Uncompensated.step {prID : String} {st : (Store × List Bool) × List Event}
    (h : Uncompensated prID st) (s1 : Store) (f1 : List Bool) (ev : Event)
    (hprs : ∀ id : String, st.1.1.hasPR id → s1.hasPR id)
    (hpairs : ∀ prr ∈ st.1.1.pr_reviewers, prr ∈ s1.pr_reviewers)
    (h1 : ∀ (x : PullRequest) (r : Except Err PullRequest), ev = Event.prCreate x r →
      x.PullRequestID = prID ∧ ∀ pr, r = Except.ok pr → s1.hasPR x.PullRequestID)
    (h2 : ∀ (p y : Int), ev = Event.prAddReviewer p y (Except.ok ()) →
      (p, y) ∈ s1.pr_reviewers)
    (h3 : (∀ (p y : Int) (r : Except Err Unit), ev ≠ Event.prRemoveReviewer p y r) ∧
      (∀ (x : PullRequest) (r : Except Err PullRequest), ev ≠ Event.prUpdate x r)) :
    Uncompensated prID ((s1, f1), st.2 ++ [ev]) := by
  constructor
  · intro x r hx
    simp only [List.mem_append, List.mem_singleton] at hx
    rcases hx with hx | hx
    · exact h.forID x r hx
    · exact (h1 x r hx.symm).1
  · intro x pr hx
    simp only [List.mem_append, List.mem_singleton] at hx
    rcases hx with hx | hx
    · exact hprs _ (h.created x pr hx)
    · exact (h1 x _ hx.symm).2 pr rfl
  · intro p y hx
    simp only [List.mem_append, List.mem_singleton] at hx
    rcases hx with hx | hx
    · exact hpairs _ (h.added p y hx)
    · exact h2 p y hx.symm
  · intro e he
    simp only [List.mem_append, List.mem_singleton] at he
    rcases he with he | he
    · exact h.noUndo e he
    · rw [he]; exact h3

/-- A read behind the failing connection keeps the invariant. -/
theorem Uncompensated.read {α : Type} {prID : String}
    {st : (Store × List Bool) × List Event} (h : Uncompensated prID st)
    (op : Op Store α) (hop : ∀ s, (op s).2 = s) (mk : Except Err α → Event)
    (h1 : ∀ (r : Except Err α) (x : PullRequest) (r1 : Except Err PullRequest),
      mk r ≠ Event.prCreate x r1)
    (h2 : ∀ (r : Except Err α) (p y : Int) (r1 : Except Err Unit),
      mk r ≠ Event.prAddReviewer p y r1)
    (h3 : ∀ (r : Except Err α) (p y : Int) (r1 : Except Err Unit),
      mk r ≠ Event.prRemoveReviewer p y r1)
    (h4 : ∀ (r : Except Err α) (x : PullRequest) (r1 : Except Err PullRequest),
      mk r ≠ Event.prUpdate x r1) :
    Uncompensated prID (logged mk (failing op) st).2 := by
  have hs : (failing op st.1).2.1 = st.1.1 := failing_frame op hop st.1
  have := h.step (failing op st.1).2.1 (failing op st.1).2.2 (mk (failing op st.1).1)
    (fun id hid => by rw [hs]; exact hid) (fun prr hp => by rw [hs]; exact hp)
    (fun x r hx => absurd hx (h1 _ x r)) (fun p y hx => absurd hx (h2 _ p y _))
    ⟨fun p y r => h3 _ p y r, fun x r => h4 _ x r⟩
  exact this

theorem failing_Create_has (x : PullRequest) (st : Store × List Bool) (pr : PullRequest)
    (h : (failing (PRRepo.Create x) st).1 = Except.ok pr) :
    (failing (PRRepo.Create x) st).2.1.hasPR x.PullRequestID := by
  rcases hf : failing (PRRepo.Create x) st with ⟨r1, st1⟩
  rw [hf] at h
  simp only at h
  subst h
  have hpg := failing_ok (PRRepo.Create x) st st1 pr hf
  unfold PRRepo.Create at hpg
  split at hpg
  · simp at hpg
  · simp only [Prod.mk.injEq, Except.ok.injEq] at hpg
    show st1.1.hasPR x.PullRequestID
    rw [← hpg.2]
    exact ⟨_, List.mem_append_right _ (List.mem_singleton.mpr rfl), rfl⟩

theorem failing_AddReviewer_has (p y : Int) (st : Store × List Bool)
    (h : (failing (PRRepo.AddReviewer p y) st).1 = Except.ok ()) :
    (p, y) ∈ (failing (PRRepo.AddReviewer p y) st).2.1.pr_reviewers := by
  rcases hf : failing (PRRepo.AddReviewer p y) st with ⟨r1, st1⟩
  rw [hf] at h
  simp only at h
  subst h
  have hpg := failing_ok (PRRepo.AddReviewer p y) st st1 () hf
  unfold PRRepo.AddReviewer at hpg
  show (p, y) ∈ st1.1.pr_reviewers
  split at hpg
  · rename_i hin
    simp only [Prod.mk.injEq, true_and] at hpg
    rw [← hpg]; exact hin
  · simp only [Prod.mk.injEq, true_and] at hpg
    rw [← hpg]
    exact List.mem_append_right _ (List.mem_singleton.mpr rfl)

/-- Every run of `CreatePR` on the recorded PostgreSQL repositories behind a
failing connection keeps the invariant. -/
theorem CreatePR_uncompensated (draws : List Nat) (prID prName authorUserID : String)
    (st : (Store × List Bool) × List Event) (h : Uncompensated prID st) :
    Uncompensated prID
      (CreatePR (traced (faulty pgRepos)) draws prID prName authorUserID st).2 := by
  refine CreatePR_preserves_id (traced (faulty pgRepos)) (Uncompensated prID) draws prID prName
    authorUserID ?_ ?_ ?_ ?_ ?_ ?_ st h
  · intro x st hst
    exact hst.read (PRRepo.GetByPRID x) (GetByPRID_pg_frame x) (Event.prGetByPRID x)
      (fun _ _ _ => by simp) (fun _ _ _ _ => by simp) (fun _ _ _ _ => by simp)
      (fun _ _ _ => by simp)
  · intro x st hst
    exact hst.read (UserStorage.GetByUserID x) (GetByUserID_pg_frame x)
      (Event.userGetByUserID x)
      (fun _ _ _ => by simp) (fun _ _ _ _ => by simp) (fun _ _ _ _ => by simp)
      (fun _ _ _ => by simp)
  · intro x st hst
    exact hst.read (TeamRepo.GetByID x) (GetByID_pg_frame x) (Event.teamGetByID x)
      (fun _ _ _ => by simp) (fun _ _ _ _ => by simp) (fun _ _ _ _ => by simp)
      (fun _ _ _ => by simp)
  · intro x st hid hst
    have hkeep : ∀ id : String, st.1.1.hasPR id → (failing (PRRepo.Create x) st.1).2.1.hasPR id :=
      fun id hid => failing_preserves (PRRepo.Create x) (Store.hasPR id)
        (fun s hs => by
          unfold PRRepo.Create
          split
          · exact hs
          · obtain ⟨row, hrow, hr⟩ := hs
            exact ⟨row, List.mem_append_left _ hrow, hr⟩) st.1 hid
    have hpairs : ∀ prr ∈ st.1.1.pr_reviewers,
        prr ∈ (failing (PRRepo.Create x) st.1).2.1.pr_reviewers :=
      fun prr hp => failing_preserves (PRRepo.Create x) (fun s => prr ∈ s.pr_reviewers)
        (fun s hs => by
          unfold PRRepo.Create
          split <;> exact hs) st.1 hp
    refine hst.step _ (failing (PRRepo.Create x) st.1).2.2
      (Event.prCreate x (failing (PRRepo.Create x) st.1).1) hkeep hpairs ?_
      (fun p y hx => by simp at hx) ⟨fun p y r => by simp, fun x r => by simp⟩
    intro x1 r hx
    simp only [Event.prCreate.injEq] at hx
    obtain ⟨hx1, hr⟩ := hx
    subst hx1
    refine ⟨hid, fun pr hpr => ?_⟩
    rw [hpr] at hr
    exact failing_Create_has x st.1 pr hr
  · intro x st hst
    exact hst.read (UserStorage.GetByTeamID x) (fun _ => rfl) (Event.userGetByTeamID x)
      (fun _ _ _ => by simp) (fun _ _ _ _ => by simp) (fun _ _ _ _ => by simp)
      (fun _ _ _ => by simp)
  · intro p y st hst
    have hkeep : ∀ id : String, st.1.1.hasPR id →
        (failing (PRRepo.AddReviewer p y) st.1).2.1.hasPR id :=
      fun id hid => failing_preserves (PRRepo.AddReviewer p y) (Store.hasPR id)
        (fun s hs => by
          unfold PRRepo.AddReviewer
          split <;> exact hs) st.1 hid
    have hpairs : ∀ prr ∈ st.1.1.pr_reviewers,
        prr ∈ (failing (PRRepo.AddReviewer p y) st.1).2.1.pr_reviewers :=
      fun prr hp => failing_preserves (PRRepo.AddReviewer p y) (fun s => prr ∈ s.pr_reviewers)
        (fun s hs => by
          unfold PRRepo.AddReviewer
          split
          · exact hs
          · exact List.mem_append_left _ hs) st.1 hp
    refine hst.step _ (failing (PRRepo.AddReviewer p y) st.1).2.2
      (Event.prAddReviewer p y (failing (PRRepo.AddReviewer p y) st.1).1) hkeep hpairs
      (fun x r hx => by simp at hx) ?_ ⟨fun p y r => by simp, fun x r => by simp⟩
    intro p1 y1 hx
    simp only [Event.prAddReviewer.injEq] at hx
    obtain ⟨hp1, hy1, hr⟩ := hx
    subst hp1 hy1
    exact failing_AddReviewer_has p y st.1 hr

/-- C30. `CreatePR` does not compensate. On the PostgreSQL repositories behind
a connection that may fail at any call, with every call recorded: when a run
of `CreatePR` for `prID` fails after its `prRepo.Create` has succeeded (at
`GetByTeamID`, at an `AddReviewer` or at the final `GetByPRID`), the store it
leaves has the row of `prID` and the pair of every `AddReviewer` that
succeeded, the run has called neither `RemoveReviewer` nor `Update` (and
`PRRepository` has no method that deletes a pull request), and every retry
of `CreatePR` with the same id on a working connection fails with exactly
`ErrPRExists` and leaves the store as it is. -/
theorem createPR_no_compensation (draws : List Nat) (prID prName authorUserID : String)
    (s : Store) (faults : List Bool) (e : Err) (st : Store × List Bool) (log : List Event)
    (x pr : PullRequest)
    (hrun : CreatePR (traced (faulty pgRepos)) draws prID prName authorUserID
      ((s, faults), []) = (Except.error e, (st, log)))
    (hcreated : Event.prCreate x (Except.ok pr) ∈ log) :
    st.1.hasPR prID ∧
    (∀ (p y : Int), Event.prAddReviewer p y (Except.ok ()) ∈ log →
      (p, y) ∈ st.1.pr_reviewers) ∧
    (∀ (p y : Int) (r : Except Err Unit), Event.prRemoveReviewer p y r ∉ log) ∧
    (∀ (y : PullRequest) (r : Except Err PullRequest), Event.prUpdate y r ∉ log) ∧
    (∀ (draws1 : List Nat) (prName1 authorUserID1 : String),
      CreatePR pgRepos draws1 prID prName1 authorUserID1 st.1
        = (Except.error ErrPRExists, st.1)) := by
  have hinv := CreatePR_uncompensated draws prID prName authorUserID ((s, faults), [])
    ⟨fun _ _ h => by simp at h, fun _ _ h => by simp at h, fun _ _ h => by simp at h,
      fun _ h => by simp at h⟩
  rw [hrun] at hinv
  have hid := hinv.forID x _ hcreated
  have hhas : st.1.hasPR prID := by
    have := hinv.created x pr hcreated
    rw [hid] at this
    exact this
  refine ⟨hhas, hinv.added, fun p y r hin => (hinv.noUndo _ hin).1 p y r rfl,
    fun y r hin => (hinv.noUndo _ hin).2 y r rfl, ?_⟩
  intro draws1 prName1 authorUserID1
  obtain ⟨row, hrow⟩ := find_of_hasPR prID st.1 hhas
  simp [CreatePR, PRRepo.GetByPRID, PRRepo.GetReviewers, hrow]

/-- Witness of C30: `CreatePR` of "pr-1" on the sample store fails at its
second `AddReviewer`; the row of "pr-1" and the first reviewer, u3, stay. -/
theorem createPR_no_compensation_witness :
    sampleHalfCreate.1
      = Except.error (Err.wrap "failed to add reviewer: %w" ErrConnection) ∧
    sampleHalfCreate.2.1.1.pr_reviewers = [(1, 3)] ∧
    sampleHalfCreate.2.1.1.hasPR "pr-1" ∧
    (∀ (p y : Int), Event.prAddReviewer p y (Except.ok ()) ∈ sampleHalfCreate.2.2 →
      (p, y) ∈ sampleHalfCreate.2.1.1.pr_reviewers) ∧
    (∀ (p y : Int) (r : Except Err Unit),
      Event.prRemoveReviewer p y r ∉ sampleHalfCreate.2.2) ∧
    (∀ (y : PullRequest) (r : Except Err PullRequest),
      Event.prUpdate y r ∉ sampleHalfCreate.2.2) ∧
    (∀ (draws1 : List Nat) (prName1 authorUserID1 : String),
      CreatePR pgRepos draws1 "pr-1" prName1 authorUserID1 sampleHalfCreate.2.1.1
        = (Except.error ErrPRExists, sampleHalfCreate.2.1.1)) :=
  ⟨rfl, rfl,
   createPR_no_compensation [2, 0, 1] "pr-1" "Add X" "u1" sampleStore
     [false, false, false, false, false, false, true]
     (Err.wrap "failed to add reviewer: %w" ErrConnection) sampleHalfCreate.2.1
     sampleHalfCreate.2.2 (newPR "pr-1" "Add X" 1)
     { newPR "pr-1" "Add X" 1 with ID := 1, CreatedAt := 100 } rfl (by decide)⟩

/-! ## C22: inactive users and the candidate pools -/

/-- On a connection that never fails the reviewer loop of `CreatePR` adds to
`pr_reviewers` the pairs of its list, and nothing else changes. -/
theorem addReviewers_pg_pairs (prID : Int) :
    ∀ (l : List User) (s : Store), ∃ s1 : Store,
      addReviewers pgRepos prID l s = (Except.ok (), s1) ∧
      s1.pull_requests = s.pull_requests ∧ s1.users = s.users ∧
      ∀ prr : Int × Int, prr ∈ s1.pr_reviewers ↔
        prr ∈ s.pr_reviewers ∨ ∃ v ∈ l, prr = (prID, v.ID)
  | [], s => ⟨s, rfl, rfl, rfl, fun prr => by simp⟩
  | u :: rest, s => by
    by_cases hm : (prID, u.ID) ∈ s.pr_reviewers
    · obtain ⟨s1, h, h1, h2, h3⟩ := addReviewers_pg_pairs prID rest s
      refine ⟨s1, by simp [addReviewers, PRRepo.AddReviewer, hm, h], h1, h2, fun prr => ?_⟩
      rw [h3]
      constructor
      · rintro (hp | ⟨v, hv, hp⟩)
        · exact Or.inl hp
        · exact Or.inr ⟨v, List.mem_cons_of_mem _ hv, hp⟩
      · rintro (hp | ⟨v, hv, hp⟩)
        · exact Or.inl hp
        · rcases List.mem_cons.mp hv with hv | hv
          · subst hv; subst hp
            exact Or.inl hm
          · exact Or.inr ⟨v, hv, hp⟩
    · obtain ⟨s1, h, h1, h2, h3⟩ := addReviewers_pg_pairs prID rest
        { s with pr_reviewers := s.pr_reviewers ++ [(prID, u.ID)] }
      refine ⟨s1, by simp [addReviewers, PRRepo.AddReviewer, hm, h], h1, h2, fun prr => ?_⟩
      rw [h3]
      simp only [List.mem_append, List.mem_cons, List.not_mem_nil, or_false]
      constructor
      · rintro ((hp | hp) | ⟨v, hv, hp⟩)
        · exact Or.inl hp
        · exact Or.inr ⟨u, Or.inl rfl, hp⟩
        · exact Or.inr ⟨v, Or.inr hv, hp⟩
      · rintro (hp | ⟨v, hv | hv, hp⟩)
        · exact Or.inl (Or.inl hp)
        · subst hv
          exact Or.inl (Or.inr hp)
        · exact Or.inr ⟨v, hv, hp⟩

/-- A run of `CreatePR` on a connection that never fails: it fails and
leaves the store as it is, or it succeeds, inserts the row and adds the
pairs of the selected reviewers. -/
theorem CreatePR_pg_cases (draws : List Nat) (prID prName authorUserID : String) (s : Store) :
    (∃ e : Err, CreatePR pgRepos draws prID prName authorUserID s = (Except.error e, s)) ∨
    (∃ (author : User) (result : PullRequest) (s1 : Store),
      s.users.find? (fun u => u.UserID == authorUserID) = some author ∧
      CreatePR pgRepos draws prID prName authorUserID s = (Except.ok result, s1) ∧
      s1.users = s.users ∧
      result = (s.newRow prID prName author.ID).toPR (s1.reviewersOf s.prSeq) ∧
      ∀ prr : Int × Int, prr ∈ s1.pr_reviewers ↔
        prr ∈ s.pr_reviewers ∨
        ∃ v ∈ selectRandomReviewers draws
            (pool (s.users.filter (fun u => u.TeamID == author.TeamID)) author.ID)
            (if ((pool (s.users.filter (fun u => u.TeamID == author.TeamID))
                author.ID).length : Int) < MaxReviewers
              then ((pool (s.users.filter (fun u => u.TeamID == author.TeamID))
                author.ID).length : Int)
              else MaxReviewers),
          prr = (s.prSeq, v.ID)) := by
  cases hfree : s.pull_requests.find? (fun row => row.pull_request_id == prID) with
  | some row =>
    exact Or.inl ⟨ErrPRExists, by
      simp [CreatePR, PRRepo.GetByPRID, hfree, PRRepo.GetReviewers]⟩
  | none =>
  cases hauthor : s.users.find? (fun u => u.UserID == authorUserID) with
  | none =>
    exact Or.inl ⟨Err.wrap "%w: author not found" ErrNotFound, by
      simp [CreatePR, PRRepo.GetByPRID, hfree, UserStorage.GetByUserID, hauthor]⟩
  | some author =>
  cases hteam : s.teams.find? (fun row => row.id == author.TeamID) with
  | none =>
    exact Or.inl ⟨Err.wrap "%w: author team not found" ErrNotFound, by
      simp [CreatePR, PRRepo.GetByPRID, hfree, UserStorage.GetByUserID, hauthor,
        TeamRepo.GetByID, hteam]⟩
  | some team =>
  right
  have hany := any_eq_false_of_find_none _ _ hfree
  simp only [CreatePR, pgRepos_prGetByPRID, pgRepos_userGetByUserID, pgRepos_teamGetByID,
    pgRepos_prCreate, pgRepos_userGetByTeamID, PRRepo.GetByPRID, hfree,
    UserStorage.GetByUserID, hauthor,
    TeamRepo.GetByID, hteam, PRRepo.Create, hany, getActiveTeamMembers,
    UserStorage.GetByTeamID]
  simp only [Bool.false_eq_true, if_false, pool]
  generalize hsel : selectRandomReviewers draws _ _ = sel
  obtain ⟨s6, h6, hprs, husers, hpairs⟩ := addReviewers_pg_pairs s.prSeq sel
    { s with
      pull_requests := s.pull_requests ++
        [{ id := s.prSeq, pull_request_id := prID, pull_request_name := prName,
           author_id := author.ID, status_id := StatusOpenID, merged_at := none,
           created_at := s.now }],
      prSeq := s.prSeq + 1 }
  simp only [h6]
  have hrow : s6.pull_requests.find? (fun row => row.pull_request_id == prID)
      = some (s.newRow prID prName author.ID) := by
    rw [hprs]
    simp [List.find?_append, hfree, Store.newRow]
  simp only [hrow, PRRepo.GetReviewers]
  rw [← hsel] at hpairs
  exact ⟨author, _, s6, rfl, rfl, husers, rfl, hpairs⟩

/-- A failed `ReassignReviewer` on a connection that never fails leaves the
store as it is. -/
theorem ReassignReviewer_pg_error (draws : List Nat) (prID oldUserID : String)
    (s s1 : Store) (e : Err)
    (h : ReassignReviewer pgRepos draws prID oldUserID s = (Except.error e, s1)) : s1 = s := by
  rcases ReassignReviewer_error_frame pgRepos (fun x => x = s)
    (fun x t ht => by rw [ht]; exact GetByPRID_pg_frame x s)
    (fun x t ht => by rw [ht]; exact GetByUserID_pg_frame x s)
    (fun x t ht => by rw [ht]; rfl)
    (fun x t ht => by rw [ht]; exact GetByID_pg_frame x s)
    (fun x t ht => by rw [ht]; rfl)
    (fun x y t t1 e1 ht hr => by rw [ht] at hr; exact RemoveReviewer_pg_error x y s t1 e1 hr)
    draws prID oldUserID s s1 e rfl h with hP | ⟨pr, o, n, t1, t2, t5, t6, e7, _, _, _, _, _, hadd, _⟩
  · exact hP
  · exact absurd hadd (AddReviewer_pg_ne_error _ _ _ _ _)

theorem mem_addedReviewers (p y : Int) (r : Except Err Unit) :
    ∀ log : List Event, Event.prAddReviewer p y r ∈ log → y ∈ addedReviewers log
  | [], h => by simp at h
  | ev :: log, h => by
    rcases List.mem_cons.mp h with h1 | h1
    · rw [← h1]
      simp [addedReviewers]
    · have ih := mem_addedReviewers p y r log h1
      cases ev <;> simp [addedReviewers, ih]

/-- C22. Deactivation removes a user from the candidate pools and leaves the
history. For every repository implementation, a user that the list of
`GetByTeamID` shows as inactive (and that shares its surrogate id with no
other user of the list) is not among the reviewers a successful `CreatePR`
adds, and the replacement a successful `ReassignReviewer` adds is an active
user of that list. On the PostgreSQL repositories with one user per
surrogate id: `CreatePR`, whatever it returns, adds no reviewer association
of a user that is inactive at call time and removes none; `ReassignReviewer`,
whatever it returns, adds none of such a user, and the replacement it
returns is an active user; `SetIsActive(u, false)` and `DeactivateTeamUsers`
leave `pull_requests` and `pr_reviewers` as they are and leave the user, or
the users of the team, inactive; and `CreatePR` by an author whose teammates
are all inactive succeeds, adds no reviewer association and returns the pull
request with the reviewers on record for the fresh surrogate id, which are
none when `pr_reviewers` has no row for it. -/
theorem inactive_never_selected :
    (∀ {σ : Type} (R : Repos σ) (draws : List Nat) (prID prName authorUserID : String)
      (s s1 : σ) (result : PullRequest) (log : List Event),
      CreatePR (traced R) draws prID prName authorUserID (s, [])
        = (Except.ok result, (s1, log)) →
      ∃ (author : User) (all : List User),
        Event.userGetByTeamID author.TeamID (Except.ok all) ∈ log ∧
        ∀ u ∈ all, u.IsActive = false → (∀ v ∈ all, v.ID = u.ID → v = u) →
          u.ID ∉ addedReviewers log) ∧
    (∀ {σ : Type} (R : Repos σ) (draws : List Nat) (prID oldUserID : String) (s s1 : σ)
      (newUserID : String) (log : List Event),
      ReassignReviewer (traced R) draws prID oldUserID (s, [])
        = (Except.ok newUserID, (s1, log)) →
      ∃ (oldReviewer : User) (all : List User) (newReviewer : User),
        Event.userGetByTeamID oldReviewer.TeamID (Except.ok all) ∈ log ∧
        addedReviewers log = [newReviewer.ID] ∧ newUserID = newReviewer.UserID ∧
        newReviewer ∈ all ∧ newReviewer.IsActive = true) ∧
    (∀ (draws : List Nat) (prID prName authorUserID : String) (s : Store) (u : User),
      (s.users.map User.ID).Nodup → u ∈ s.users → u.IsActive = false →
      (∀ prr ∈ (CreatePR pgRepos draws prID prName authorUserID s).2.pr_reviewers,
        prr.2 = u.ID → prr ∈ s.pr_reviewers) ∧
      (∀ prr ∈ s.pr_reviewers,
        prr ∈ (CreatePR pgRepos draws prID prName authorUserID s).2.pr_reviewers)) ∧
    (∀ (draws : List Nat) (prID oldUserID : String) (s : Store) (u : User),
      (s.users.map User.ID).Nodup → u ∈ s.users → u.IsActive = false →
      (∀ prr ∈ (ReassignReviewer pgRepos draws prID oldUserID s).2.pr_reviewers,
        prr.2 = u.ID → prr ∈ s.pr_reviewers) ∧
      (∀ newUserID : String,
        (ReassignReviewer pgRepos draws prID oldUserID s).1 = Except.ok newUserID →
        ∃ newReviewer ∈ s.users, newReviewer.UserID = newUserID ∧
          newReviewer.IsActive = true ∧ newReviewer.ID ≠ u.ID)) ∧
    (∀ (userID : String) (s : Store),
      (SetIsActive pgRepos userID false s).2.pull_requests = s.pull_requests ∧
      (SetIsActive pgRepos userID false s).2.pr_reviewers = s.pr_reviewers ∧
      ((SetIsActive pgRepos userID false s).1.toBool = true →
        ∀ v ∈ (SetIsActive pgRepos userID false s).2.users,
          v.UserID = userID → v.IsActive = false)) ∧
    (∀ (teamID : Int) (s : Store),
      (DeactivateTeamUsers pgRepos teamID s).2.pull_requests = s.pull_requests ∧
      (DeactivateTeamUsers pgRepos teamID s).2.pr_reviewers = s.pr_reviewers ∧
      ((DeactivateTeamUsers pgRepos teamID s).1.toBool = true →
        ∀ v ∈ (DeactivateTeamUsers pgRepos teamID s).2.users,
          v.TeamID = teamID → v.IsActive = false)) ∧
    (∀ (draws : List Nat) (prID prName authorUserID : String) (s : Store) (author : User)
      (team : TeamRow),
      s.pull_requests.find? (fun row => row.pull_request_id == prID) = none →
      s.users.find? (fun u => u.UserID == authorUserID) = some author →
      s.teams.find? (fun row => row.id == author.TeamID) = some team →
      (∀ v ∈ s.users, v.TeamID = author.TeamID → v.ID ≠ author.ID → v.IsActive = false) →
      ∃ (result : PullRequest) (s1 : Store),
        CreatePR pgRepos draws prID prName authorUserID s = (Except.ok result, s1) ∧
        s1.pr_reviewers = s.pr_reviewers ∧
        result.Reviewers = s.reviewersOf s.prSeq ∧
        ((∀ prr ∈ s.pr_reviewers, prr.1 ≠ s.prSeq) → result.Reviewers = [])) := by
  refine ⟨?_, ?_, ?_, ?_, ?_, ?_, ?_⟩
  · intro σ R draws prID prName authorUserID s s1 result log h
    obtain ⟨e, author, team, pr, all, hlog⟩ :=
      CreatePR_traced_ok R draws prID prName authorUserID s [] result s1 log h
    refine ⟨author, all, by simp [hlog], ?_⟩
    intro u hu hinactive huniq hin
    have hadded : addedReviewers log
        = (selectRandomReviewers draws (pool all author.ID)
            (if ((pool all author.ID).length : Int) < MaxReviewers
              then ((pool all author.ID).length : Int) else MaxReviewers)).map User.ID := by
      rw [hlog]
      simp [addedReviewers_append, addedReviewers_map, addedReviewers]
    rw [hadded, List.mem_map] at hin
    obtain ⟨v, hv, hid⟩ := hin
    have hv1 := selectRandomReviewers_mem _ _ _ _ hv
    simp only [pool, List.mem_filter, Bool.and_eq_true] at hv1
    have := huniq v hv1.1 hid
    rw [this] at hv1
    rw [hinactive] at hv1
    exact absurd hv1.2.1 (by simp)
  · intro σ R draws prID oldUserID s s1 newUserID log h
    obtain ⟨pr, oldReviewer, reviewers, team, all, newReviewer, others, _, _, hsel, hres,
      hlog⟩ := ReassignReviewer_traced_ok R draws prID oldUserID s [] newUserID s1 log h
    have hpool := mem_replacementPool _ _ _ _ _ (selected_mem_pool draws _ _ _ hsel).1
    refine ⟨oldReviewer, all, newReviewer, by simp [hlog], ?_, hres, hpool.1, hpool.2.1⟩
    rw [hlog]
    simp [addedReviewers]
  · intro draws prID prName authorUserID s u hnd hu hinactive
    rcases CreatePR_pg_cases draws prID prName authorUserID s with
      ⟨e, he⟩ | ⟨author, result, s1, _, hrun, _, _, hpairs⟩
    · rw [he]
      exact ⟨fun prr hp _ => hp, fun prr hp => hp⟩
    · rw [hrun]
      refine ⟨fun prr hp hid => ?_, fun prr hp => (hpairs prr).mpr (Or.inl hp)⟩
      rcases (hpairs prr).mp hp with hold | ⟨v, hv, hprr⟩
      · exact hold
      · exfalso
        have hv1 := selectRandomReviewers_mem _ _ _ _ hv
        simp only [pool, List.mem_filter, Bool.and_eq_true] at hv1
        have hvid : v.ID = u.ID := by rw [← hid, hprr]
        have := List.inj_on_of_nodup_map hnd hv1.1.1 hu hvid
        rw [this, hinactive] at hv1
        exact absurd hv1.2.1 (by simp)
  · intro draws prID oldUserID s u hnd hu hinactive
    rcases hrun : ReassignReviewer pgRepos draws prID oldUserID s with ⟨r, s1⟩
    cases r with
    | error e =>
      have := ReassignReviewer_pg_error draws prID oldUserID s s1 e hrun
      subst this
      exact ⟨fun prr hp _ => hp, fun n hn => by simp at hn⟩
    | ok newUserID =>
      obtain ⟨row, oldReviewer, newReviewer, _, _, _, hsel, hres, _, _, hs1⟩ :=
        ReassignReviewer_pg_ok draws prID oldUserID s s1 newUserID hrun
      have hpool := mem_replacementPool _ _ _ _ _ (selected_mem_pool draws _ _ _ hsel).1
      have hmem : newReviewer ∈ s.users := (List.mem_filter.mp hpool.1).1
      have hne : newReviewer.ID ≠ u.ID := by
        intro hid
        have := List.inj_on_of_nodup_map hnd hmem hu hid
        rw [this, hinactive] at hpool
        exact absurd hpool.2.1 (by simp)
      constructor
      · intro prr hp hid
        simp only at hp
        rw [hs1] at hp
        simp only [List.mem_append, List.mem_filter, List.mem_singleton] at hp
        rcases hp with hp | hp
        · exact hp.1
        · exact absurd (by rw [← hid, hp]) hne
      · intro n hn
        simp only [Except.ok.injEq] at hn
        subst hn
        exact ⟨newReviewer, hmem, hres.symm, hpool.2.1, hne⟩
  · intro userID s
    cases hfind : s.users.find? (fun u => u.UserID == userID) with
    | none =>
      simp [SetIsActive, UserStorage.GetByUserID, hfind, Except.toBool]
    | some user =>
      have hmem := List.mem_of_find?_eq_some hfind
      have hid := List.find?_some hfind
      have hne : ¬ (s.users.filter (fun u => u.UserID == userID)).length = 0 := by
        intro h0
        have := List.length_eq_zero.mp h0
        rw [List.filter_eq_nil_iff] at this
        exact this user hmem hid
      have hrun : SetIsActive pgRepos userID false s
          = (Except.ok { user with IsActive := false },
              { s with users := s.users.map (fun u =>
                  if u.UserID == userID then { u with IsActive := false } else u) }) := by
        simp [SetIsActive, UserStorage.GetByUserID, hfind, UserStorage.SetIsActive, hne]
      rw [hrun]
      refine ⟨rfl, rfl, fun _ v hv hid => ?_⟩
      simp only [List.mem_map] at hv
      obtain ⟨w, _, hw⟩ := hv
      by_cases hc : (w.UserID == userID) = true
      · simp only [hc, if_true] at hw
        rw [← hw]
      · simp only [hc, if_false] at hw
        subst hw
        exact absurd (by simpa using hid) hc
  · intro teamID s
    cases hfind : s.teams.find? (fun row => row.id == teamID) with
    | none =>
      simp [DeactivateTeamUsers, TeamRepo.GetByID, hfind, Except.toBool]
    | some row =>
      have hrun : DeactivateTeamUsers pgRepos teamID s
          = (Except.ok (), { s with users := s.users.map (fun u =>
              if u.TeamID == teamID then { u with IsActive := false } else u) }) := by
        simp [DeactivateTeamUsers, TeamRepo.GetByID, hfind, UserStorage.DeactivateByTeamID]
      rw [hrun]
      refine ⟨rfl, rfl, fun _ v hv ht => ?_⟩
      simp only [List.mem_map] at hv
      obtain ⟨w, _, hw⟩ := hv
      by_cases hc : (w.TeamID == teamID) = true
      · simp only [hc, if_true] at hw
        rw [← hw]
      · simp only [hc, if_false] at hw
        subst hw
        exact absurd (by simpa using ht) hc
  · intro draws prID prName authorUserID s author team hfree hauthor hteam hidle
    have hany := any_eq_false_of_find_none _ _ hfree
    have hpool : (s.users.filter (fun u => u.TeamID == author.TeamID)).filter
        (fun user => user.IsActive && user.ID != author.ID) = [] := by
      rw [List.filter_eq_nil_iff]
      intro v hv
      rw [List.mem_filter] at hv
      have := hidle v hv.1 (by simpa using hv.2)
      by_cases hid : v.ID = author.ID
      · simp [hid]
      · simp [this hid]
    simp only [CreatePR, pgRepos_prGetByPRID, pgRepos_userGetByUserID, pgRepos_teamGetByID,
      pgRepos_prCreate, pgRepos_userGetByTeamID, PRRepo.GetByPRID, hfree,
      UserStorage.GetByUserID, hauthor,
      TeamRepo.GetByID, hteam, PRRepo.Create, hany, getActiveTeamMembers,
      UserStorage.GetByTeamID]
    simp only [Bool.false_eq_true, if_false, hpool, selectRandomReviewers, List.length_nil,
      or_true, if_true, addReviewers]
    have hrow : (s.pull_requests ++
        [({ id := s.prSeq, pull_request_id := prID, pull_request_name := prName,
            author_id := author.ID, status_id := StatusOpenID, merged_at := none,
            created_at := s.now } : PRRow)]).find? (fun row => row.pull_request_id == prID)
        = some (s.newRow prID prName author.ID) := by
      simp [List.find?_append, hfree, Store.newRow]
    simp only [hrow, PRRepo.GetReviewers]
    refine ⟨_, _, rfl, rfl, rfl, fun hfresh => ?_⟩
    show Store.reviewersOf _ s.prSeq = []
    unfold Store.reviewersOf
    have : s.pr_reviewers.filter (fun prr => prr.1 == s.prSeq) = [] := by
      rw [List.filter_eq_nil_iff]
      intro prr hp
      simpa using hfresh prr hp
    simp [this]

/-- Witness of C22: with u3 inactive a second pull request of u1 on the
sample store gets no association of u3 and a reassignment of u2 on "pr-1"
does not pick u3; and with all teammates of u1 inactive `CreatePR` succeeds
with no reviewer. -/
theorem inactive_never_selected_witness :
    ((∀ prr ∈ (CreatePR pgRepos [1, 1] "pr-2" "Add Y" "u1" sampleInactive).2.pr_reviewers,
        prr.2 = (3 : Int) → prr ∈ sampleInactive.pr_reviewers) ∧
      (∀ prr ∈ sampleInactive.pr_reviewers,
        prr ∈ (CreatePR pgRepos [1, 1] "pr-2" "Add Y" "u1" sampleInactive).2.pr_reviewers)) ∧
    ((∀ prr ∈ (ReassignReviewer pgRepos [0] "pr-1" "u2" sampleInactive).2.pr_reviewers,
        prr.2 = (3 : Int) → prr ∈ sampleInactive.pr_reviewers) ∧
      (∀ newUserID : String,
        (ReassignReviewer pgRepos [0] "pr-1" "u2" sampleInactive).1 = Except.ok newUserID →
        ∃ newReviewer ∈ sampleInactive.users, newReviewer.UserID = newUserID ∧
          newReviewer.IsActive = true ∧ newReviewer.ID ≠ (3 : Int))) ∧
    (∃ (result : PullRequest) (s1 : Store),
      CreatePR pgRepos [] "pr-1" "Add X" "u1" soloStore = (Except.ok result, s1) ∧
      s1.pr_reviewers = soloStore.pr_reviewers ∧
      result.Reviewers = soloStore.reviewersOf soloStore.prSeq ∧
      ((∀ prr ∈ soloStore.pr_reviewers, prr.1 ≠ soloStore.prSeq) → result.Reviewers = [])) :=
  ⟨inactive_never_selected.2.2.1 [1, 1] "pr-2" "Add Y" "u1" sampleInactive
      { sampleUser 3 "u3" true 1 with IsActive := false } (by decide) (by decide) rfl,
   inactive_never_selected.2.2.2.1 [0] "pr-1" "u2" sampleInactive
      { sampleUser 3 "u3" true 1 with IsActive := false } (by decide) (by decide) rfl,
   inactive_never_selected.2.2.2.2.2.2 [] "pr-1" "Add X" "u1" soloStore
      (sampleUser 1 "u1" true 1) { id := 1, name := "backend", created_at := 0 } rfl rfl rfl
      (by decide)⟩

/-! ## C25: how storage failures are reported -/

theorem errorsIs_wrap_sentinel (format : String) (e0 : Err) (t : Sentinel) :
    errorsIs (Err.wrap format e0) (Err.sentinel t) = errorsIs e0 (Err.sentinel t) := by
  rw [errorsIs]
  simp

theorem SetIsActive_reports {σ : Type} (R : Repos σ) (userID : String) (isActive : Bool)
    (s s1 : σ) (log0 log : List Event) (e : Err)
    (h : SetIsActive (traced R) userID isActive (s, log0) = (Except.error e, (s1, log))) :
    ∃ (pre : List Event) (ev : Event), log = pre ++ [ev] ∧ Reports ev e := by
  unfold SetIsActive at h
  rcases h1 : R.userGetByUserID userID s with ⟨r1, t1⟩
  cases r1 with
  | error e1 =>
    simp only [traced_userGetByUserID, h1, Prod.mk.injEq, Except.error.injEq] at h
    obtain ⟨rfl, _, rfl⟩ := h
    exact ⟨_, _, rfl, by simp [Reports, Event.failure, Event.isLookup]⟩
  | ok user =>
  simp only [traced_userGetByUserID, traced_userSetIsActive, h1] at h
  rcases h2 : R.userSetIsActive userID isActive t1 with ⟨r2, t2⟩
  cases r2 with
  | error e2 =>
    simp only [h2, Prod.mk.injEq, Except.error.injEq] at h
    obtain ⟨rfl, _, rfl⟩ := h
    exact ⟨_, _, rfl, by simp [Reports, Event.failure]⟩
  | ok v => simp [h2] at h

theorem DeactivateTeamUsers_reports {σ : Type} (R : Repos σ) (teamID : Int)
    (s s1 : σ) (log0 log : List Event) (e : Err)
    (h : DeactivateTeamUsers (traced R) teamID (s, log0) = (Except.error e, (s1, log))) :
    ∃ (pre : List Event) (ev : Event), log = pre ++ [ev] ∧ Reports ev e := by
  unfold DeactivateTeamUsers at h
  rcases h1 : R.teamGetByID teamID s with ⟨r1, t1⟩
  cases r1 with
  | error e1 =>
    simp only [traced_teamGetByID, h1, Prod.mk.injEq, Except.error.injEq] at h
    obtain ⟨rfl, _, rfl⟩ := h
    exact ⟨_, _, rfl, by simp [Reports, Event.failure, Event.isLookup]⟩
  | ok team =>
  simp only [traced_teamGetByID, traced_userDeactivateByTeamID, h1] at h
  rcases h2 : R.userDeactivateByTeamID teamID t1 with ⟨r2, t2⟩
  cases r2 with
  | error e2 =>
    simp only [h2, Prod.mk.injEq, Except.error.injEq] at h
    obtain ⟨rfl, _, rfl⟩ := h
    exact ⟨_, _, rfl, by simp [Reports, Event.failure]⟩
  | ok v => simp [h2] at h

theorem MergePR_reports {σ : Type} (R : Repos σ) (now : Nat) (prID : String)
    (s s1 : σ) (log0 log : List Event) (e : Err)
    (h : MergePR (traced R) now prID (s, log0) = (Except.error e, (s1, log))) :
    ∃ (pre : List Event) (ev : Event), log = pre ++ [ev] ∧ Reports ev e := by
  unfold MergePR at h
  rcases h1 : R.prGetByPRID prID s with ⟨r1, t1⟩
  cases r1 with
  | error e1 =>
    simp only [traced_prGetByPRID, h1, Prod.mk.injEq, Except.error.injEq] at h
    obtain ⟨rfl, _, rfl⟩ := h
    exact ⟨_, _, rfl, by simp [Reports, Event.failure, Event.isLookup]⟩
  | ok pr =>
  simp only [traced_prGetByPRID, traced_prUpdate, h1] at h
  split at h
  · simp at h
  rcases h2 : R.prUpdate { pr with StatusID := StatusMergedID, MergedAt := some now } t1
    with ⟨r2, t2⟩
  cases r2 with
  | error e2 =>
    simp only [h2, Prod.mk.injEq, Except.error.injEq] at h
    obtain ⟨rfl, _, rfl⟩ := h
    exact ⟨_, _, rfl, by simp [Reports, Event.failure]⟩
  | ok v =>
  simp only [h2, traced_prGetByPRID] at h
  rcases h3 : R.prGetByPRID prID t2 with ⟨r3, t3⟩
  cases r3 with
  | error e3 =>
    simp only [h3, Prod.mk.injEq, Except.error.injEq] at h
    obtain ⟨rfl, _, rfl⟩ := h
    exact ⟨_, _, rfl, by simp [Reports, Event.failure]⟩
  | ok v3 => simp [h3] at h
theorem addReviewers_reports {σ : Type} (R : Repos σ) (prID : Int) :
    ∀ (l : List User) (s s1 : σ) (log0 log : List Event) (e : Err),
      addReviewers (traced R) prID l (s, log0) = (Except.error e, (s1, log)) →
      ∃ (pre : List Event) (ev : Event), log = pre ++ [ev] ∧ Reports ev e
  | [], s, s1, log0, log, e, h => by simp [addReviewers] at h
  | reviewer :: rest, s, s1, log0, log, e, h => by
    rw [addReviewers] at h
    rcases h1 : R.prAddReviewer prID reviewer.ID s with ⟨r1, t1⟩
    cases r1 with
    | error e1 =>
      simp only [traced_prAddReviewer, h1, Prod.mk.injEq, Except.error.injEq] at h
      obtain ⟨rfl, _, rfl⟩ := h
      exact ⟨_, _, rfl, by simp [Reports, Event.failure]⟩
    | ok v =>
      simp only [traced_prAddReviewer, h1] at h
      exact addReviewers_reports R prID rest _ _ _ _ _ h

theorem upsertUsers_reports {σ : Type} (R : Repos σ) (teamID : Int) :
    ∀ (l : List User) (s s1 : σ) (log0 log : List Event) (e : Err),
      upsertUsers (traced R) teamID l (s, log0) = (Except.error e, (s1, log)) →
      ∃ (pre : List Event) (ev : Event), log = pre ++ [ev] ∧ Reports ev e
  | [], s, s1, log0, log, e, h => by simp [upsertUsers] at h
  | user :: rest, s, s1, log0, log, e, h => by
    rw [upsertUsers] at h
    rcases h1 : R.userGetByUserID user.UserID s with ⟨r1, t1⟩
    cases r1 with
    | error e1 =>
      simp only [traced_userGetByUserID, traced_userCreate, h1] at h
      rcases h2 : R.userCreate { user with TeamID := teamID } t1 with ⟨r2, t2⟩
      cases r2 with
      | error e2 =>
        simp only [h2, Prod.mk.injEq, Except.error.injEq] at h
        obtain ⟨rfl, _, rfl⟩ := h
        exact ⟨_, _, rfl, by simp [Reports, Event.failure]⟩
      | ok created =>
        simp only [h2] at h
        rcases h3 : upsertUsers (traced R) teamID rest
          (t2, log0 ++ [Event.userGetByUserID user.UserID (Except.error e1)] ++
            [Event.userCreate { user with TeamID := teamID } (Except.ok created)])
          with ⟨r3, t3, log3⟩
        cases r3 with
        | error e3 =>
          simp only [h3, Prod.mk.injEq, Except.error.injEq] at h
          obtain ⟨rfl, _, rfl⟩ := h
          exact upsertUsers_reports R teamID rest _ _ _ _ _ h3
        | ok v =>
          rw [h3] at h
          simp at h
    | ok existingUser =>
      simp only [traced_userGetByUserID, traced_userUpdate, h1] at h
      rcases h2 : R.userUpdate
        { existingUser with Username := user.Username, IsActive := user.IsActive,
                            TeamID := teamID } t1 with ⟨r2, t2⟩
      cases r2 with
      | error e2 =>
        simp only [h2, Prod.mk.injEq, Except.error.injEq] at h
        obtain ⟨rfl, _, rfl⟩ := h
        exact ⟨_, _, rfl, by simp [Reports, Event.failure]⟩
      | ok updated =>
        simp only [h2] at h
        rcases h3 : upsertUsers (traced R) teamID rest
          (t2, log0 ++ [Event.userGetByUserID user.UserID (Except.ok existingUser)] ++
            [Event.userUpdate
              { existingUser with Username := user.Username, IsActive := user.IsActive,
                                  TeamID := teamID } (Except.ok updated)])
          with ⟨r3, t3, log3⟩
        cases r3 with
        | error e3 =>
          simp only [h3, Prod.mk.injEq, Except.error.injEq] at h
          obtain ⟨rfl, _, rfl⟩ := h
          exact upsertUsers_reports R teamID rest _ _ _ _ _ h3
        | ok v =>
          rw [h3] at h
          simp at h

theorem CreateTeam_reports {σ : Type} (R : Repos σ) (team : Team)
    (s s1 : σ) (log0 log : List Event) (e : Err)
    (h : CreateTeam (traced R) team (s, log0) = (Except.error e, (s1, log))) :
    ∃ (pre : List Event) (ev : Event), log = pre ++ [ev] ∧ Reports ev e := by
  unfold CreateTeam at h
  rcases h1 : R.teamExistsByName team.Name s with ⟨r1, t1⟩
  cases r1 with
  | error e1 =>
    simp only [traced_teamExistsByName, h1, Prod.mk.injEq, Except.error.injEq] at h
    obtain ⟨rfl, _, rfl⟩ := h
    exact ⟨_, _, rfl, by simp [Reports, Event.failure]⟩
  | ok teamExists =>
  simp only [traced_teamExistsByName, traced_teamCreate, h1] at h
  split at h
  · simp only [Prod.mk.injEq, Except.error.injEq] at h
    obtain ⟨rfl, _, rfl⟩ := h
    exact ⟨_, _, rfl, by simp [Reports, Event.failure]⟩
  rcases h2 : R.teamCreate team t1 with ⟨r2, t2⟩
  cases r2 with
  | error e2 =>
    simp only [h2, Prod.mk.injEq, Except.error.injEq] at h
    obtain ⟨rfl, _, rfl⟩ := h
    exact ⟨_, _, rfl, by simp [Reports, Event.failure]⟩
  | ok created =>
  simp only [h2] at h
  rcases h3 : upsertUsers (traced R) created.ID created.Users
    (t2, log0 ++ [Event.teamExistsByName team.Name (Except.ok teamExists)] ++
      [Event.teamCreate team (Except.ok created)]) with ⟨r3, t3, log3⟩
  cases r3 with
  | error e3 =>
    simp only [h3, Prod.mk.injEq, Except.error.injEq] at h
    obtain ⟨rfl, _, rfl⟩ := h
    exact upsertUsers_reports R _ _ _ _ _ _ _ h3
  | ok users =>
  simp only [h3, traced_teamGetWithUsers] at h
  rcases h4 : R.teamGetWithUsers created.ID t3 with ⟨r4, t4⟩
  cases r4 with
  | error e4 =>
    simp only [h4, Prod.mk.injEq, Except.error.injEq] at h
    obtain ⟨rfl, _, rfl⟩ := h
    exact ⟨_, _, rfl, by simp [Reports, Event.failure]⟩
  | ok v => simp [h4] at h

theorem CreatePR_reports {σ : Type} (R : Repos σ) (draws : List Nat)
    (prID prName authorUserID : String)
    (s s1 : σ) (log0 log : List Event) (e : Err)
    (h : CreatePR (traced R) draws prID prName authorUserID (s, log0) =
      (Except.error e, (s1, log))) :
    ∃ (pre : List Event) (ev : Event), log = pre ++ [ev] ∧ Reports ev e := by
  unfold CreatePR at h
  rcases h1 : R.prGetByPRID prID s with ⟨r1, t1⟩
  cases r1 with
  | ok v1 =>
    simp only [traced_prGetByPRID, h1, Prod.mk.injEq, Except.error.injEq] at h
    obtain ⟨rfl, _, rfl⟩ := h
    exact ⟨_, _, rfl, by simp [Reports, Event.failure]⟩
  | error e1 =>
  simp only [traced_prGetByPRID, traced_userGetByUserID, h1] at h
  rcases h2 : R.userGetByUserID authorUserID t1 with ⟨r2, t2⟩
  cases r2 with
  | error e2 =>
    simp only [h2, Prod.mk.injEq, Except.error.injEq] at h
    obtain ⟨rfl, _, rfl⟩ := h
    exact ⟨_, _, rfl, by simp [Reports, Event.failure, Event.isLookup]⟩
  | ok author =>
  simp only [h2, traced_teamGetByID] at h
  rcases h3 : R.teamGetByID author.TeamID t2 with ⟨r3, t3⟩
  cases r3 with
  | error e3 =>
    simp only [h3, Prod.mk.injEq, Except.error.injEq] at h
    obtain ⟨rfl, _, rfl⟩ := h
    exact ⟨_, _, rfl, by simp [Reports, Event.failure, Event.isLookup]⟩
  | ok team =>
  simp only [h3, traced_prCreate] at h
  rcases h4 : R.prCreate
      { ID := 0, PullRequestID := prID, PullRequestName := prName, AuthorID := author.ID,
        StatusID := StatusOpenID, MergedAt := none, CreatedAt := 0, Author := none,
        Reviewers := [] } t3 with ⟨r4, t4⟩
  cases r4 with
  | error e4 =>
    simp only [h4, Prod.mk.injEq, Except.error.injEq] at h
    obtain ⟨rfl, _, rfl⟩ := h
    exact ⟨_, _, rfl, by simp [Reports, Event.failure]⟩
  | ok pr =>
  simp only [h4, getActiveTeamMembers, traced_userGetByTeamID] at h
  rcases h5 : R.userGetByTeamID author.TeamID t4 with ⟨r5, t5⟩
  cases r5 with
  | error e5 =>
    simp only [h5, Prod.mk.injEq, Except.error.injEq] at h
    obtain ⟨rfl, _, rfl⟩ := h
    exact ⟨_, _, rfl, by simp [Reports, Event.failure]⟩
  | ok allUsers =>
  simp only [h5] at h
  generalize hsel : selectRandomReviewers draws _ _ = sel at h
  generalize hlog5 : log0 ++ _ ++ _ ++ _ ++ _ ++ _ = log5 at h
  rcases h6 : addReviewers (traced R) pr.ID sel (t5, log5) with ⟨r6, t6, log6⟩
  cases r6 with
  | error e6 =>
    simp only [h6, Prod.mk.injEq, Except.error.injEq] at h
    obtain ⟨rfl, _, rfl⟩ := h
    exact addReviewers_reports R _ _ _ _ _ _ _ h6
  | ok v6 =>
  simp only [h6, traced_prGetByPRID] at h
  rcases h7 : R.prGetByPRID prID t6 with ⟨r7, t7⟩
  cases r7 with
  | error e7 =>
    simp only [h7, Prod.mk.injEq, Except.error.injEq] at h
    obtain ⟨rfl, _, rfl⟩ := h
    exact ⟨_, _, rfl, by simp [Reports, Event.failure]⟩
  | ok v => simp [h7] at h

theorem ReassignReviewer_reports {σ : Type} (R : Repos σ) (draws : List Nat)
    (prID oldUserID : String)
    (s s1 : σ) (log0 log : List Event) (e : Err)
    (h : ReassignReviewer (traced R) draws prID oldUserID (s, log0) =
      (Except.error e, (s1, log))) :
    ∃ (pre : List Event) (ev : Event), log = pre ++ [ev] ∧ Reports ev e := by
  unfold ReassignReviewer at h
  rcases h1 : R.prGetByPRID prID s with ⟨r1, t1⟩
  cases r1 with
  | error e1 =>
    simp only [traced_prGetByPRID, h1, Prod.mk.injEq, Except.error.injEq] at h
    obtain ⟨rfl, _, rfl⟩ := h
    exact ⟨_, _, rfl, by simp [Reports, Event.failure, Event.isLookup]⟩
  | ok pr =>
  simp only [traced_prGetByPRID, h1] at h
  split at h
  · simp only [Prod.mk.injEq, Except.error.injEq] at h
    obtain ⟨rfl, _, rfl⟩ := h
    exact ⟨_, _, rfl, by simp [Reports, Event.failure]⟩
  simp only [traced_userGetByUserID] at h
  rcases h2 : R.userGetByUserID oldUserID t1 with ⟨r2, t2⟩
  cases r2 with
  | error e2 =>
    simp only [h2, Prod.mk.injEq, Except.error.injEq] at h
    obtain ⟨rfl, _, rfl⟩ := h
    exact ⟨_, _, rfl, by simp [Reports, Event.failure, Event.isLookup]⟩
  | ok oldReviewer =>
  simp only [h2, traced_prGetReviewers] at h
  rcases h3 : R.prGetReviewers pr.ID t2 with ⟨r3, t3⟩
  cases r3 with
  | error e3 =>
    simp only [h3, Prod.mk.injEq, Except.error.injEq] at h
    obtain ⟨rfl, _, rfl⟩ := h
    exact ⟨_, _, rfl, by simp [Reports, Event.failure]⟩
  | ok reviewers =>
  simp only [h3] at h
  split at h
  · simp only [Prod.mk.injEq, Except.error.injEq] at h
    obtain ⟨rfl, _, rfl⟩ := h
    exact ⟨_, _, rfl, by simp [Reports, Event.failure]⟩
  simp only [traced_teamGetByID] at h
  rcases h4 : R.teamGetByID oldReviewer.TeamID t3 with ⟨r4, t4⟩
  cases r4 with
  | error e4 =>
    simp only [h4, Prod.mk.injEq, Except.error.injEq] at h
    obtain ⟨rfl, _, rfl⟩ := h
    exact ⟨_, _, rfl, by simp [Reports, Event.failure, Event.isLookup]⟩
  | ok team =>
  simp only [h4, getActiveTeamMembersExcluding, traced_userGetByTeamID] at h
  rcases h5 : R.userGetByTeamID oldReviewer.TeamID t4 with ⟨r5, t5⟩
  cases r5 with
  | error e5 =>
    simp only [h5, Prod.mk.injEq, Except.error.injEq] at h
    obtain ⟨rfl, _, rfl⟩ := h
    exact ⟨_, _, rfl, by simp [Reports, Event.failure]⟩
  | ok allUsers =>
  simp only [h5] at h
  split at h
  · simp only [Prod.mk.injEq, Except.error.injEq] at h
    obtain ⟨rfl, _, rfl⟩ := h
    exact ⟨_, _, rfl, by simp [Reports, Event.failure]⟩
  rename_i hlen
  obtain ⟨u, hu⟩ := selectRandomReviewers_one draws _ hlen
  simp only [hu, traced_prRemoveReviewer] at h
  rcases h6 : R.prRemoveReviewer pr.ID oldReviewer.ID t5 with ⟨r6, t6⟩
  cases r6 with
  | error e6 =>
    simp only [h6, Prod.mk.injEq, Except.error.injEq] at h
    obtain ⟨rfl, _, rfl⟩ := h
    exact ⟨_, _, rfl, by simp [Reports, Event.failure]⟩
  | ok v6 =>
  simp only [h6, traced_prAddReviewer] at h
  rcases h7 : R.prAddReviewer pr.ID u.ID t6 with ⟨r7, t7⟩
  cases r7 with
  | error e7 =>
    simp only [h7, Prod.mk.injEq, Except.error.injEq] at h
    obtain ⟨rfl, _, rfl⟩ := h
    exact ⟨_, _, rfl, by simp [Reports, Event.failure]⟩
  | ok v => simp [h7] at h
theorem EngineOp_reports {σ : Type} (R : Repos σ) (op : EngineOp) (s : σ) (log0 : List Event)
    (e : Err) (h : op.failure (traced R) (s, log0) = some e) :
    ∃ (pre : List Event) (ev : Event),
      (op.run (traced R) (s, log0)).2 = pre ++ [ev] ∧ Reports ev e := by
  cases op with
  | createPR draws prID prName authorUserID =>
    rcases hr : CreatePR (traced R) draws prID prName authorUserID (s, log0) with ⟨r, s1, log⟩
    simp only [EngineOp.failure, hr] at h
    cases r with
    | ok v => simp [errorOf] at h
    | error e1 =>
      simp only [errorOf, Option.some.injEq] at h
      subst h
      simpa only [EngineOp.run, hr] using CreatePR_reports R _ _ _ _ _ _ _ _ _ hr
  | mergePR now prID =>
    rcases hr : MergePR (traced R) now prID (s, log0) with ⟨r, s1, log⟩
    simp only [EngineOp.failure, hr] at h
    cases r with
    | ok v => simp [errorOf] at h
    | error e1 =>
      simp only [errorOf, Option.some.injEq] at h
      subst h
      simpa only [EngineOp.run, hr] using MergePR_reports R _ _ _ _ _ _ _ hr
  | reassignReviewer draws prID oldUserID =>
    rcases hr : ReassignReviewer (traced R) draws prID oldUserID (s, log0) with ⟨r, s1, log⟩
    simp only [EngineOp.failure, hr] at h
    cases r with
    | ok v => simp [errorOf] at h
    | error e1 =>
      simp only [errorOf, Option.some.injEq] at h
      subst h
      simpa only [EngineOp.run, hr] using ReassignReviewer_reports R _ _ _ _ _ _ _ _ hr
  | createTeam team =>
    rcases hr : CreateTeam (traced R) team (s, log0) with ⟨r, s1, log⟩
    simp only [EngineOp.failure, hr] at h
    cases r with
    | ok v => simp [errorOf] at h
    | error e1 =>
      simp only [errorOf, Option.some.injEq] at h
      subst h
      simpa only [EngineOp.run, hr] using CreateTeam_reports R _ _ _ _ _ _ hr
  | setIsActive userID isActive =>
    rcases hr : SetIsActive (traced R) userID isActive (s, log0) with ⟨r, s1, log⟩
    simp only [EngineOp.failure, hr] at h
    cases r with
    | ok v => simp [errorOf] at h
    | error e1 =>
      simp only [errorOf, Option.some.injEq] at h
      subst h
      simpa only [EngineOp.run, hr] using SetIsActive_reports R _ _ _ _ _ _ _ hr
  | deactivateTeamUsers teamID =>
    rcases hr : DeactivateTeamUsers (traced R) teamID (s, log0) with ⟨r, s1, log⟩
    simp only [EngineOp.failure, hr] at h
    cases r with
    | ok v => simp [errorOf] at h
    | error e1 =>
      simp only [errorOf, Option.some.injEq] at h
      subst h
      simpa only [EngineOp.run, hr] using DeactivateTeamUsers_reports R _ _ _ _ _ _ hr

theorem Reports_wrapped (ev : Event) (e e0 : Err) (h : Reports ev e)
    (hfail : ev.failure = some e0) (hlook : ev.isLookup = false) :
    ∃ format : String, e = Err.wrap format e0 := by
  unfold Reports at h
  rw [hfail] at h
  simpa [hlook] using h

theorem upsertUsers_log_extends {σ : Type} (R : Repos σ) (teamID : Int) :
    ∀ (l : List User) (s : σ) (log0 : List Event),
      ∃ more : List Event, (upsertUsers (traced R) teamID l (s, log0)).2.2 = log0 ++ more
  | [], s, log0 => ⟨[], by simp [upsertUsers]⟩
  | user :: rest, s, log0 => by
    rw [upsertUsers]
    rcases h1 : R.userGetByUserID user.UserID s with ⟨r1, t1⟩
    cases r1 with
    | error e1 =>
      simp only [traced_userGetByUserID, traced_userCreate, h1]
      rcases h2 : R.userCreate { user with TeamID := teamID } t1 with ⟨r2, t2⟩
      cases r2 with
      | error e2 => exact ⟨_, List.append_assoc _ _ _⟩
      | ok created =>
        simp only []
        obtain ⟨more, hm⟩ := upsertUsers_log_extends R teamID rest t2
          (log0 ++ [Event.userGetByUserID user.UserID (Except.error e1)] ++
            [Event.userCreate { user with TeamID := teamID } (Except.ok created)])
        rcases h3 : upsertUsers (traced R) teamID rest
          (t2, log0 ++ [Event.userGetByUserID user.UserID (Except.error e1)] ++
            [Event.userCreate { user with TeamID := teamID } (Except.ok created)])
          with ⟨r3, t3, log3⟩
        rw [h3] at hm
        cases r3 <;> exact ⟨_, by simpa using hm⟩
    | ok existingUser =>
      simp only [traced_userGetByUserID, traced_userUpdate, h1]
      rcases h2 : R.userUpdate
        { existingUser with Username := user.Username, IsActive := user.IsActive,
                            TeamID := teamID } t1 with ⟨r2, t2⟩
      cases r2 with
      | error e2 => exact ⟨_, List.append_assoc _ _ _⟩
      | ok updated =>
        simp only []
        obtain ⟨more, hm⟩ := upsertUsers_log_extends R teamID rest t2
          (log0 ++ [Event.userGetByUserID user.UserID (Except.ok existingUser)] ++
            [Event.userUpdate
              { existingUser with Username := user.Username, IsActive := user.IsActive,
                                  TeamID := teamID } (Except.ok updated)])
        rcases h3 : upsertUsers (traced R) teamID rest
          (t2, log0 ++ [Event.userGetByUserID user.UserID (Except.ok existingUser)] ++
            [Event.userUpdate
              { existingUser with Username := user.Username, IsActive := user.IsActive,
                                  TeamID := teamID } (Except.ok updated)])
          with ⟨r3, t3, log3⟩
        rw [h3] at hm
        cases r3 <;> exact ⟨_, by simpa using hm⟩

/-- A member look-up that fails makes the loop of `CreateTeam` call
`userRepo.Create` next. -/
theorem upsertUsers_creates_after_failed_lookup {σ : Type} (R : Repos σ) (teamID : Int)
    (user : User) (rest : List User) (s s1 : σ) (log0 : List Event) (e0 : Err)
    (h1 : R.userGetByUserID user.UserID s = (Except.error e0, s1)) :
    ∃ (r : Except Err User) (more : List Event),
      (upsertUsers (traced R) teamID (user :: rest) (s, log0)).2.2 =
        log0 ++ [Event.userGetByUserID user.UserID (Except.error e0),
          Event.userCreate { user with TeamID := teamID } r] ++ more := by
  rw [upsertUsers]
  simp only [traced_userGetByUserID, traced_userCreate, h1]
  rcases h2 : R.userCreate { user with TeamID := teamID } s1 with ⟨r2, t2⟩
  cases r2 with
  | error e2 => exact ⟨Except.error e2, [], by simp⟩
  | ok created =>
    simp only []
    obtain ⟨more, hm⟩ := upsertUsers_log_extends R teamID rest t2
      (log0 ++ [Event.userGetByUserID user.UserID (Except.error e0)] ++
        [Event.userCreate { user with TeamID := teamID } (Except.ok created)])
    rcases h3 : upsertUsers (traced R) teamID rest
      (t2, log0 ++ [Event.userGetByUserID user.UserID (Except.error e0)] ++
        [Event.userCreate { user with TeamID := teamID } (Except.ok created)])
      with ⟨r3, t3, log3⟩
    rw [h3] at hm
    cases r3 <;> exact ⟨Except.ok created, more, by simpa using hm⟩
@[simp]
theorem raced_prGetByPRID {σ γ : Type} (R : Repos σ) (other : σ → γ × σ) (prID : String) :
    (raced R other).prGetByPRID prID = interleaved other (R.prGetByPRID prID) := rfl

@[simp]
theorem raced_userGetByUserID {σ γ : Type} (R : Repos σ) (other : σ → γ × σ)
    (userID : String) :
    (raced R other).userGetByUserID userID = interleaved other (R.userGetByUserID userID) :=
  rfl

@[simp]
theorem raced_prGetReviewers {σ γ : Type} (R : Repos σ) (other : σ → γ × σ) (prID : Int) :
    (raced R other).prGetReviewers prID = interleaved other (R.prGetReviewers prID) := rfl

@[simp]
theorem raced_teamGetByID {σ γ : Type} (R : Repos σ) (other : σ → γ × σ) (teamID : Int) :
    (raced R other).teamGetByID teamID = interleaved other (R.teamGetByID teamID) := rfl

@[simp]
theorem raced_userGetByTeamID {σ γ : Type} (R : Repos σ) (other : σ → γ × σ) (teamID : Int) :
    (raced R other).userGetByTeamID teamID = interleaved other (R.userGetByTeamID teamID) :=
  rfl

@[simp]
theorem raced_prRemoveReviewer {σ γ : Type} (R : Repos σ) (other : σ → γ × σ)
    (prID reviewerID : Int) :
    (raced R other).prRemoveReviewer prID reviewerID =
      interleaved other (R.prRemoveReviewer prID reviewerID) := rfl

@[simp]
theorem raced_prAddReviewer {σ γ : Type} (R : Repos σ) (other : σ → γ × σ)
    (prID reviewerID : Int) :
    (raced R other).prAddReviewer prID reviewerID =
      interleaved other (R.prAddReviewer prID reviewerID) := rfl

theorem interleaved_succ {σ γ α : Type} (other : σ → γ × σ) (op : Op σ α) (s : σ) (n : Nat)
    (seen : Option γ) :
    interleaved other op (s, some (n + 1), seen) = ((op s).1, ((op s).2, some n, seen)) := rfl

theorem interleaved_zero {σ γ α : Type} (other : σ → γ × σ) (op : Op σ α) (s : σ)
    (seen : Option γ) :
    interleaved other op (s, some 0, seen) =
      ((op (other s).2).1, ((op (other s).2).2, none, some (other s).1)) := rfl

theorem interleaved_none {σ γ α : Type} (other : σ → γ × σ) (op : Op σ α) (s : σ)
    (seen : Option γ) :
    interleaved other op (s, none, seen) = ((op s).1, ((op s).2, none, seen)) := rfl
theorem GetByID_pg_find (teamID : Int) (s s1 : Store) (team : Team)
    (h : TeamRepo.GetByID teamID s = (Except.ok team, s1)) :
    ∃ row, s.teams.find? (fun row => row.id == teamID) = some row := by
  unfold TeamRepo.GetByID at h
  cases hf : s.teams.find? (fun row => row.id == teamID) with
  | none => simp [hf] at h
  | some row => exact ⟨row, rfl⟩

/-- What a successful `ReassignReviewer` found in the PostgreSQL store. -/
theorem ReassignReviewer_pg_steps (draws : List Nat) (prID oldUserID : String) (s s' : Store)
    (newUserID : String)
    (h : ReassignReviewer pgRepos draws prID oldUserID s = (Except.ok newUserID, s')) :
    ∃ (row : PRRow) (oldReviewer newReviewer : User) (team : TeamRow),
      s.pull_requests.find? (fun row => row.pull_request_id == prID) = some row ∧
      row.status_id ≠ StatusMergedID ∧
      s.users.find? (fun u => u.UserID == oldUserID) = some oldReviewer ∧
      isAssigned (s.reviewersOf row.id) oldUserID = true ∧
      s.teams.find? (fun row => row.id == oldReviewer.TeamID) = some team ∧
      selectRandomReviewers draws
        (replacementPool (s.users.filter (fun u => u.TeamID == oldReviewer.TeamID))
          row.author_id oldReviewer.ID (s.reviewersOf row.id)) 1 = [newReviewer] ∧
      newUserID = newReviewer.UserID ∧
      (row.id, oldReviewer.ID) ∈ s.pr_reviewers ∧
      (row.id, newReviewer.ID) ∉ s.pr_reviewers ∧
      s' = { s with pr_reviewers :=
        s.pr_reviewers.filter (fun prr => !(prr == (row.id, oldReviewer.ID)))
          ++ [(row.id, newReviewer.ID)] } := by
  obtain ⟨row, oldReviewer, newReviewer, hrow, hst, hold, hsel, hres, hin, hnotin, hs'⟩ :=
    ReassignReviewer_pg_ok draws prID oldUserID s s' newUserID h
  obtain ⟨pr, old2, reviewers, team, all, new2, others, s1, s2, s3, s4, s5, s6,
    h1, _, h2, h3, _, h4, _⟩ := ReassignReviewer_ok_inv pgRepos draws prID oldUserID s newUserID s' h
  simp only [pgRepos_prGetByPRID, pgRepos_userGetByUserID, pgRepos_prGetReviewers,
    pgRepos_teamGetByID] at h1 h2 h3 h4
  obtain ⟨row2, hrow2, _, hs1⟩ := GetByPRID_pg_ok prID s s1 pr h1
  rw [hs1] at h2
  obtain ⟨hold2, hs2⟩ := GetByUserID_pg_ok oldUserID _ s2 old2 h2
  rw [hs2] at h3
  simp only [PRRepo.GetReviewers, Prod.mk.injEq, Except.ok.injEq] at h3
  rw [← h3.2] at h4
  rw [hold] at hold2
  cases hold2
  obtain ⟨trow, htrow⟩ := GetByID_pg_find _ _ _ _ h4
  exact ⟨row, oldReviewer, newReviewer, trow, hrow, hst, hold,
    isAssigned_pg s row.id oldUserID oldReviewer hold hin, htrow, hsel, hres, hin, hnotin, hs'⟩

/-- The run of a successful `ReassignReviewer` on the PostgreSQL repositories
with another request scheduled between its `RemoveReviewer` and its
`AddReviewer`, when that request leaves the store as it found it. -/
theorem ReassignReviewer_raced_torn {γ : Type} (other : Store → γ × Store)
    (draws : List Nat) (prID oldUserID : String) (s : Store)
    (row : PRRow) (oldReviewer newReviewer : User) (team : TeamRow) (seen : γ)
    (hrow : s.pull_requests.find? (fun row => row.pull_request_id == prID) = some row)
    (hst : row.status_id ≠ StatusMergedID)
    (hold : s.users.find? (fun u => u.UserID == oldUserID) = some oldReviewer)
    (has : isAssigned (s.reviewersOf row.id) oldUserID = true)
    (hteam : s.teams.find? (fun row => row.id == oldReviewer.TeamID) = some team)
    (hsel : selectRandomReviewers draws
        (replacementPool (s.users.filter (fun u => u.TeamID == oldReviewer.TeamID))
          row.author_id oldReviewer.ID (s.reviewersOf row.id)) 1 = [newReviewer])
    (hin : (row.id, oldReviewer.ID) ∈ s.pr_reviewers)
    (hnotin : (row.id, newReviewer.ID) ∉ s.pr_reviewers)
    (hother : other { s with pr_reviewers :=
        s.pr_reviewers.filter (fun prr => !(prr == (row.id, oldReviewer.ID))) } =
      (seen, { s with pr_reviewers :=
        s.pr_reviewers.filter (fun prr => !(prr == (row.id, oldReviewer.ID))) })) :
    ReassignReviewer (raced pgRepos other) draws prID oldUserID (s, some 6, none) =
      (Except.ok newReviewer.UserID,
        ({ s with pr_reviewers :=
            s.pr_reviewers.filter (fun prr => !(prr == (row.id, oldReviewer.ID)))
              ++ [(row.id, newReviewer.ID)] }, none, some seen)) := by
  have hne : (replacementPool (s.users.filter (fun u => u.TeamID == oldReviewer.TeamID))
      row.author_id oldReviewer.ID (s.reviewersOf row.id)).length ≠ 0 := by
    intro h0
    rw [List.length_eq_zero] at h0
    have := (selected_mem_pool draws _ newReviewer [] hsel).1
    rw [h0] at this
    exact List.not_mem_nil _ this
  have hrm : ¬ (s.pr_reviewers.filter (fun prr => prr == (row.id, oldReviewer.ID))).length = 0 := by
    intro h0
    rw [List.length_eq_zero, List.filter_eq_nil_iff] at h0
    exact h0 _ hin (by simp)
  have hnotin' : (row.id, newReviewer.ID) ∉
      s.pr_reviewers.filter (fun prr => !(prr == (row.id, oldReviewer.ID))) := by
    intro hmem
    exact hnotin (List.mem_filter.mp hmem).1
  unfold replacementPool at hsel hne
  simp only [ReassignReviewer, raced_prGetByPRID, raced_userGetByUserID, raced_prGetReviewers,
    raced_teamGetByID, raced_userGetByTeamID, raced_prRemoveReviewer, raced_prAddReviewer,
    interleaved_succ, interleaved_zero, getActiveTeamMembersExcluding,
    pgRepos_prGetByPRID, pgRepos_userGetByUserID, pgRepos_prGetReviewers,
    pgRepos_teamGetByID, pgRepos_userGetByTeamID, pgRepos_prRemoveReviewer,
    pgRepos_prAddReviewer, PRRepo.GetByPRID, hrow, PRRepo.GetReviewers, PRRow.toPR, hst,
    if_false, UserStorage.GetByUserID, hold, has, Bool.not_true, Bool.false_eq_true,
    TeamRepo.GetByID, hteam, UserStorage.GetByTeamID, hne, hsel, PRRepo.RemoveReviewer, hrm,
    hother, PRRepo.AddReviewer, hnotin']
theorem isAssigned_pg_false (s : Store) (X : List (Int × Int)) (prID : Int)
    (oldUserID : String) (oldReviewer : User) (huniq : s.uniqueUserIDs)
    (hold : s.users.find? (fun u => u.UserID == oldUserID) = some oldReviewer)
    (habs : (prID, oldReviewer.ID) ∉ X) :
    isAssigned (Store.reviewersOf { s with pr_reviewers := X } prID) oldUserID = false := by
  have hmem : oldReviewer ∈ s.users := List.mem_of_find?_eq_some hold
  have hid : oldReviewer.UserID = oldUserID := by simpa using List.find?_some hold
  unfold isAssigned
  rw [List.any_eq_false]
  intro r hr heq
  obtain ⟨hru, hrr⟩ := of_mem_reviewersOf _ prID r hr
  have hUserID : r.UserID = oldUserID := by simpa using heq
  have : r = oldReviewer := huniq r hru oldReviewer hmem (by rw [hUserID, hid])
  rw [this] at hrr
  exact habs hrr

/-- On the PostgreSQL repositories a reassignment of a reviewer whom the
reviewer list does not show fails with `ErrNotAssigned` and changes nothing. -/
theorem ReassignReviewer_pg_not_assigned (draws : List Nat) (prID oldUserID : String)
    (s : Store) (row : PRRow) (oldReviewer : User)
    (hrow : s.pull_requests.find? (fun row => row.pull_request_id == prID) = some row)
    (hst : row.status_id ≠ StatusMergedID)
    (hold : s.users.find? (fun u => u.UserID == oldUserID) = some oldReviewer)
    (hnot : isAssigned (s.reviewersOf row.id) oldUserID = false) :
    ReassignReviewer pgRepos draws prID oldUserID s = (Except.error ErrNotAssigned, s) := by
  simp only [ReassignReviewer, pgRepos_prGetByPRID, pgRepos_userGetByUserID,
    pgRepos_prGetReviewers, PRRepo.GetByPRID, hrow, PRRepo.GetReviewers, PRRow.toPR, hst,
    if_false, UserStorage.GetByUserID, hold, hnot, Bool.not_false, if_true]

/-- The run of `ReassignReviewer` on the PostgreSQL repositories when another
request takes the old reviewer off the pull request after the run has read the
reviewers and before its `RemoveReviewer`. -/
theorem ReassignReviewer_raced_lost {γ : Type} (other : Store → γ × Store)
    (draws : List Nat) (prID oldUserID : String) (s : Store)
    (row : PRRow) (oldReviewer : User) (team : TeamRow) (seen : γ) (X : List (Int × Int))
    (k : Nat) (hk : 3 ≤ k) (hk5 : k ≤ 5)
    (hrow : s.pull_requests.find? (fun row => row.pull_request_id == prID) = some row)
    (hst : row.status_id ≠ StatusMergedID)
    (hold : s.users.find? (fun u => u.UserID == oldUserID) = some oldReviewer)
    (has : isAssigned (s.reviewersOf row.id) oldUserID = true)
    (hteam : s.teams.find? (fun row => row.id == oldReviewer.TeamID) = some team)
    (hne : (replacementPool (s.users.filter (fun u => u.TeamID == oldReviewer.TeamID))
          row.author_id oldReviewer.ID (s.reviewersOf row.id)).length ≠ 0)
    (hother : other s = (seen, { s with pr_reviewers := X }))
    (habs : (row.id, oldReviewer.ID) ∉ X) :
    ReassignReviewer (raced pgRepos other) draws prID oldUserID (s, some k, none) =
      (Except.error (Err.wrap "failed to remove old reviewer: %w"
          (Err.other "repository.PRRepo.RemoveReviewer: reviewer not found for this PR")),
        ({ s with pr_reviewers := X }, none, some seen)) := by
  obtain ⟨u, hu⟩ := selectRandomReviewers_one draws _ hne
  have hrm : (X.filter (fun prr => prr == (row.id, oldReviewer.ID))).length = 0 := by
    rw [List.length_eq_zero, List.filter_eq_nil_iff]
    intro prr hprr heq
    have : prr = (row.id, oldReviewer.ID) := by simpa using heq
    rw [this] at hprr
    exact habs hprr
  unfold replacementPool at hu hne
  interval_cases k <;>
  simp only [ReassignReviewer, raced_prGetByPRID, raced_userGetByUserID, raced_prGetReviewers,
    raced_teamGetByID, raced_userGetByTeamID, raced_prRemoveReviewer, raced_prAddReviewer,
    interleaved_succ, interleaved_zero, interleaved_none, getActiveTeamMembersExcluding,
    pgRepos_prGetByPRID, pgRepos_userGetByUserID, pgRepos_prGetReviewers,
    pgRepos_teamGetByID, pgRepos_userGetByTeamID, pgRepos_prRemoveReviewer,
    pgRepos_prAddReviewer, PRRepo.GetByPRID, hrow, PRRepo.GetReviewers, PRRow.toPR, hst,
    if_false, UserStorage.GetByUserID, hold, has, Bool.not_true, Bool.false_eq_true,
    TeamRepo.GetByID, hteam, UserStorage.GetByTeamID, hne, hu, PRRepo.RemoveReviewer, hrm,
    hother, if_true]

/-- The run of `ReassignReviewer` on the PostgreSQL repositories when another
request takes the old reviewer off the pull request before the run reads the
reviewers. -/
theorem ReassignReviewer_raced_late {γ : Type} (other : Store → γ × Store)
    (draws : List Nat) (prID oldUserID : String) (s : Store)
    (row : PRRow) (oldReviewer : User) (seen : γ) (X : List (Int × Int))
    (k : Nat) (hk : k ≤ 2)
    (hrow : s.pull_requests.find? (fun row => row.pull_request_id == prID) = some row)
    (hst : row.status_id ≠ StatusMergedID)
    (hold : s.users.find? (fun u => u.UserID == oldUserID) = some oldReviewer)
    (hother : other s = (seen, { s with pr_reviewers := X }))
    (hnot : isAssigned (Store.reviewersOf { s with pr_reviewers := X } row.id) oldUserID =
      false) :
    ReassignReviewer (raced pgRepos other) draws prID oldUserID (s, some k, none) =
      (Except.error ErrNotAssigned, ({ s with pr_reviewers := X }, none, some seen)) := by
  interval_cases k <;>
  simp only [ReassignReviewer, raced_prGetByPRID, raced_userGetByUserID, raced_prGetReviewers,
    interleaved_succ, interleaved_zero, interleaved_none,
    pgRepos_prGetByPRID, pgRepos_userGetByUserID, pgRepos_prGetReviewers,
    PRRepo.GetByPRID, hrow, PRRepo.GetReviewers, PRRow.toPR, hst,
    if_false, UserStorage.GetByUserID, hold, hnot, Bool.not_false, if_true, hother]

theorem GetByPRID_pg_found (prID : String) (s : Store) (row : PRRow) (X : List (Int × Int))
    (hrow : s.pull_requests.find? (fun row => row.pull_request_id == prID) = some row) :
    PRRepo.GetByPRID prID { s with pr_reviewers := X } =
      (Except.ok (row.toPR (Store.reviewersOf { s with pr_reviewers := X } row.id)),
        { s with pr_reviewers := X }) := by
  simp only [PRRepo.GetByPRID, hrow, PRRepo.GetReviewers]

/-- The seven steps of the cut method are the method. -/
theorem Reassigning_steps_eq {σ : Type} (R : Repos σ) (draws : List Nat)
    (prID oldUserID : String) (s : σ) :
    Reassigning.steps R draws prID oldUserID 7 (Reassigning.start, s) =
      (Reassigning.done (ReassignReviewer R draws prID oldUserID s).1,
        (ReassignReviewer R draws prID oldUserID s).2) := by
  simp only [Reassigning.steps]
  unfold ReassignReviewer
  simp only [Reassigning.step]
  rcases h1 : R.prGetByPRID prID s with ⟨r1, s1⟩
  cases r1 with
  | error e1 => simp only [Reassigning.step]
  | ok pr =>
  simp only []
  by_cases hst : pr.StatusID = StatusMergedID
  · simp only [hst, if_true, Reassigning.step]
  simp only [hst, if_false, Reassigning.step]
  rcases h2 : R.userGetByUserID oldUserID s1 with ⟨r2, s2⟩
  cases r2 with
  | error e2 => simp only [Reassigning.step]
  | ok oldReviewer =>
  simp only [Reassigning.step]
  rcases h3 : R.prGetReviewers pr.ID s2 with ⟨r3, s3⟩
  cases r3 with
  | error e3 => simp only [Reassigning.step]
  | ok reviewers =>
  simp only []
  by_cases has : isAssigned reviewers oldUserID = true
  swap
  · simp only [has, Bool.not_false, Bool.not_eq_true] at has ⊢
    simp only [has, Bool.not_false, if_true, Reassigning.step]
  simp only [has, Bool.not_true, Bool.false_eq_true, if_false, Reassigning.step]
  rcases h4 : R.teamGetByID oldReviewer.TeamID s3 with ⟨r4, s4⟩
  cases r4 with
  | error e4 => simp only [Reassigning.step]
  | ok team =>
  simp only [Reassigning.step]
  rcases h5 : getActiveTeamMembersExcluding R oldReviewer.TeamID
    (excludeIDs pr.AuthorID oldReviewer.ID reviewers) s4 with ⟨r5, s5⟩
  cases r5 with
  | error e5 => simp only [Reassigning.step]
  | ok candidates =>
  simp only []
  by_cases hlen : candidates.length = 0
  · simp only [hlen, if_true, Reassigning.step]
  simp only [hlen, if_false]
  rcases hsel : selectRandomReviewers draws candidates 1 with _ | ⟨newReviewer, others⟩
  · simp only [Reassigning.step]
  simp only [Reassigning.step]
  rcases h6 : R.prRemoveReviewer pr.ID oldReviewer.ID s5 with ⟨r6, s6⟩
  cases r6 with
  | error e6 => simp only [Reassigning.step]
  | ok v6 =>
  simp only [Reassigning.step]
  rcases h7 : R.prAddReviewer pr.ID newReviewer.ID s6 with ⟨r7, s7⟩
  cases r7 <;> simp only [Reassigning.step]

/-- One repository call of a reassignment on the PostgreSQL repositories: it
leaves `pull_requests` and `users` alone, keeps the surrogate ids the call
holds, never associates the old reviewer anew, and comes to have removed the
old reviewer only by finding the association and deleting it. -/
theorem Reassigning_step_pg (draws : List Nat) (prID oldUserID : String) (rid oid : Int)
    (x : Reassigning) (s : Store)
    (hrid : ∀ row, s.pull_requests.find? (fun row => row.pull_request_id == prID) = some row →
      row.id = rid)
    (hoid : ∀ u, s.users.find? (fun u => u.UserID == oldUserID) = some u → u.ID = oid)
    (hx : x.holds rid oid) :
    (Reassigning.step pgRepos draws prID oldUserID x s).2.pull_requests = s.pull_requests ∧
    (Reassigning.step pgRepos draws prID oldUserID x s).2.users = s.users ∧
    (Reassigning.step pgRepos draws prID oldUserID x s).1.holds rid oid ∧
    ((rid, oid) ∉ s.pr_reviewers →
      (rid, oid) ∉ (Reassigning.step pgRepos draws prID oldUserID x s).2.pr_reviewers) ∧
    ((Reassigning.step pgRepos draws prID oldUserID x s).1.hasRemoved = true →
      x.hasRemoved = true ∨
      ((rid, oid) ∈ s.pr_reviewers ∧
        (rid, oid) ∉ (Reassigning.step pgRepos draws prID oldUserID x s).2.pr_reviewers)) := by
  cases x with
  | start =>
    simp only [Reassigning.step, pgRepos_prGetByPRID, PRRepo.GetByPRID, PRRepo.GetReviewers]
    cases hf : s.pull_requests.find? (fun row => row.pull_request_id == prID) with
    | none => simp [Reassigning.holds, Reassigning.hasRemoved]
    | some row =>
      simp only []
      by_cases hst : (row.toPR (s.reviewersOf row.id)).StatusID = StatusMergedID
      · simp [hst, Reassigning.holds, Reassigning.hasRemoved]
      · simp only [hst, if_false]
        refine ⟨trivial, trivial, ?_, fun h => h, ?_⟩
        · exact hrid row hf
        · simp [Reassigning.hasRemoved]
  | gotPR pr =>
    simp only [Reassigning.step, pgRepos_userGetByUserID, UserStorage.GetByUserID]
    cases hf : s.users.find? (fun u => u.UserID == oldUserID) with
    | none => simp [Reassigning.holds, Reassigning.hasRemoved]
    | some u =>
      refine ⟨rfl, rfl, ?_, fun h => h, ?_⟩
      · exact ⟨hx, hoid u hf⟩
      · simp [Reassigning.hasRemoved]
  | gotOld pr oldReviewer =>
    simp only [Reassigning.step, pgRepos_prGetReviewers, PRRepo.GetReviewers]
    by_cases has : isAssigned (s.reviewersOf pr.ID) oldUserID = true
    · simp only [has, Bool.not_true, Bool.false_eq_true, if_false]
      refine ⟨trivial, trivial, hx, fun h => h, ?_⟩
      simp [Reassigning.hasRemoved]
    · simp only [Bool.not_eq_true] at has
      simp [has, Reassigning.holds, Reassigning.hasRemoved]
  | gotReviewers pr oldReviewer reviewers =>
    simp only [Reassigning.step, pgRepos_teamGetByID, TeamRepo.GetByID]
    cases hf : s.teams.find? (fun row => row.id == oldReviewer.TeamID) with
    | none => simp [Reassigning.holds, Reassigning.hasRemoved]
    | some row =>
      refine ⟨rfl, rfl, hx, fun h => h, ?_⟩
      simp [Reassigning.hasRemoved]
  | gotTeam pr oldReviewer reviewers =>
    simp only [Reassigning.step, getActiveTeamMembersExcluding, pgRepos_userGetByTeamID,
      UserStorage.GetByTeamID]
    split
    · simp [Reassigning.holds, Reassigning.hasRemoved]
    · split
      · simp [Reassigning.holds, Reassigning.hasRemoved]
      · rename_i newReviewer others hsel
        refine ⟨rfl, rfl, ?_, fun h => h, ?_⟩
        · have hmem := (selected_mem_pool draws _ newReviewer others hsel).1
          have hpool := mem_replacementPool
            (s.users.filter (fun u => u.TeamID == oldReviewer.TeamID)) pr.AuthorID
            oldReviewer.ID reviewers newReviewer hmem
          exact ⟨hx.1, hx.2, fun heq => hpool.2.2.2.1 (heq.trans hx.2.symm)⟩
        · simp [Reassigning.hasRemoved]
  | chosen pr oldReviewer newReviewer =>
    obtain ⟨h1, h2, h3⟩ := hx
    simp only [Reassigning.step, pgRepos_prRemoveReviewer, PRRepo.RemoveReviewer, h1, h2]
    by_cases hlen : (s.pr_reviewers.filter (fun prr => prr == (rid, oid))).length = 0
    · simp [hlen, Reassigning.holds, Reassigning.hasRemoved]
    · simp only [hlen, if_false]
      have hin : (rid, oid) ∈ s.pr_reviewers := by
        by_contra hnot
        apply hlen
        rw [List.length_eq_zero, List.filter_eq_nil_iff]
        intro prr hprr heq
        have : prr = (rid, oid) := by simpa using heq
        rw [this] at hprr
        exact hnot hprr
      have hout : (rid, oid) ∉ s.pr_reviewers.filter (fun prr => !(prr == (rid, oid))) := by
        intro hmem
        simpa using (List.mem_filter.mp hmem).2
      exact ⟨trivial, trivial, ⟨h1, h2, h3⟩, fun _ => hout, fun _ => Or.inr ⟨hin, hout⟩⟩
  | removed pr oldReviewer newReviewer =>
    obtain ⟨h1, h2, h3⟩ := hx
    simp only [Reassigning.step, pgRepos_prAddReviewer, PRRepo.AddReviewer, h1]
    by_cases hmem : (rid, newReviewer.ID) ∈ s.pr_reviewers
    · simp only [hmem, if_true]
      exact ⟨trivial, trivial, trivial, fun h => h, fun _ => Or.inl rfl⟩
    · simp only [hmem, if_false]
      refine ⟨trivial, trivial, trivial, ?_, fun _ => Or.inl rfl⟩
      intro hnot hin
      rw [List.mem_append, List.mem_singleton, Prod.mk.injEq] at hin
      rcases hin with hin | ⟨_, heq⟩
      · exact hnot hin
      · exact h3 heq.symm
  | done result =>
    simp only [Reassigning.step]
    exact ⟨trivial, trivial, hx, fun h => h, fun h => Or.inl h⟩

/-- What every interleaving of two reassignments on the PostgreSQL
repositories keeps: the ids the two calls hold, and that at most one of them
has removed the old reviewer, who is then off the pull request. -/
theorem race_pg_invariant (drawsA drawsB : List Nat) (prID oldUserID : String)
    (rid oid : Int) :
    ∀ (schedule : List Bool) (a b : Reassigning) (s : Store),
      (∀ row, s.pull_requests.find? (fun row => row.pull_request_id == prID) = some row →
        row.id = rid) →
      (∀ u, s.users.find? (fun u => u.UserID == oldUserID) = some u → u.ID = oid) →
      a.holds rid oid → b.holds rid oid →
      (a.hasRemoved = true ∨ b.hasRemoved = true → (rid, oid) ∉ s.pr_reviewers) →
      ¬ (a.hasRemoved = true ∧ b.hasRemoved = true) →
      ¬ ((race pgRepos drawsA drawsB prID oldUserID schedule (a, b, s)).1.hasRemoved = true ∧
        (race pgRepos drawsA drawsB prID oldUserID schedule (a, b, s)).2.1.hasRemoved = true)
  | [], a, b, s, _, _, _, _, _, hnot => by simpa [race] using hnot
  | true :: rest, a, b, s, hrid, hoid, ha, hb, hoff, hnot => by
    obtain ⟨k1, k2, k3, k4, k5⟩ :=
      Reassigning_step_pg drawsA prID oldUserID rid oid a s hrid hoid ha
    rw [race]
    apply race_pg_invariant drawsA drawsB prID oldUserID rid oid rest
    · rw [k1]; exact hrid
    · rw [k2]; exact hoid
    · exact k3
    · exact hb
    · rintro (h | h)
      · rcases k5 h with h' | ⟨_, h'⟩
        · exact k4 (hoff (Or.inl h'))
        · exact h'
      · exact k4 (hoff (Or.inr h))
    · rintro ⟨h, hb'⟩
      rcases k5 h with h' | ⟨h', _⟩
      · exact hnot ⟨h', hb'⟩
      · exact hoff (Or.inr hb') h'
  | false :: rest, a, b, s, hrid, hoid, ha, hb, hoff, hnot => by
    obtain ⟨k1, k2, k3, k4, k5⟩ :=
      Reassigning_step_pg drawsB prID oldUserID rid oid b s hrid hoid hb
    rw [race]
    apply race_pg_invariant drawsA drawsB prID oldUserID rid oid rest
    · rw [k1]; exact hrid
    · rw [k2]; exact hoid
    · exact ha
    · exact k3
    · rintro (h | h)
      · exact k4 (hoff (Or.inl h))
      · rcases k5 h with h' | ⟨_, h'⟩
        · exact k4 (hoff (Or.inr h'))
        · exact h'
    · rintro ⟨ha', h⟩
      rcases k5 h with h' | ⟨h', _⟩
      · exact hnot ⟨ha', h'⟩
      · exact hoff (Or.inl ha') h'

/-- In no interleaving of two reassignments of the same old reviewer on the
PostgreSQL repositories have both calls returned a replacement. -/
theorem race_pg_not_both (drawsA drawsB : List Nat) (prID oldUserID : String)
    (schedule : List Bool) (s : Store) (newA newB : String) :
    ¬ ((race pgRepos drawsA drawsB prID oldUserID schedule
          (Reassigning.start, Reassigning.start, s)).1 = Reassigning.done (Except.ok newA) ∧
      (race pgRepos drawsA drawsB prID oldUserID schedule
          (Reassigning.start, Reassigning.start, s)).2.1 =
        Reassigning.done (Except.ok newB)) := by
  rintro ⟨hA, hB⟩
  refine race_pg_invariant drawsA drawsB prID oldUserID
    (((s.pull_requests.find? (fun row => row.pull_request_id == prID)).map PRRow.id).getD 0)
    (((s.users.find? (fun u => u.UserID == oldUserID)).map User.ID).getD 0)
    schedule Reassigning.start Reassigning.start s ?_ ?_ trivial trivial ?_ ?_ ?_
  · intro row hrow
    simp [hrow]
  · intro u hu
    simp [hu]
  · simp [Reassigning.hasRemoved]
  · simp [Reassigning.hasRemoved]
  · rw [hA, hB]
    exact ⟨rfl, rfl⟩

/-- On the PostgreSQL repositories a call that has removed the old reviewer
stays so: its `AddReviewer` does not fail. -/
theorem Reassigning_step_pg_removed (draws : List Nat) (prID oldUserID : String)
    (x : Reassigning) (s : Store) (hx : x.hasRemoved = true) :
    (Reassigning.step pgRepos draws prID oldUserID x s).1.hasRemoved = true := by
  cases x with
  | removed pr oldReviewer newReviewer =>
    simp only [Reassigning.step, pgRepos_prAddReviewer, PRRepo.AddReviewer]
    by_cases hmem : (pr.ID, newReviewer.ID) ∈ s.pr_reviewers
    · simp only [hmem, if_true]
      rfl
    · simp only [hmem, if_false]
      rfl
  | done result =>
    cases result with
    | ok v => rfl
    | error e => simp [Reassigning.hasRemoved] at hx
  | _ => simp [Reassigning.hasRemoved] at hx

/-- On a PostgreSQL store where a reassignment alone succeeds, a call that has
read that store so far reads on, or removes the old reviewer. -/
theorem Reassigning_step_pg_reads (draws : List Nat) (prID oldUserID : String) (s : Store)
    (row : PRRow) (old : User) (team : TeamRow) (x : Reassigning)
    (hrow : s.pull_requests.find? (fun row => row.pull_request_id == prID) = some row)
    (hst : row.status_id ≠ StatusMergedID)
    (hold : s.users.find? (fun u => u.UserID == oldUserID) = some old)
    (has : isAssigned (s.reviewersOf row.id) oldUserID = true)
    (hteam : s.teams.find? (fun row => row.id == old.TeamID) = some team)
    (hne : (replacementPool (s.users.filter (fun u => u.TeamID == old.TeamID))
          row.author_id old.ID (s.reviewersOf row.id)).length ≠ 0)
    (hin : (row.id, old.ID) ∈ s.pr_reviewers)
    (hx : x.reads row old (s.reviewersOf row.id)) :
    ((Reassigning.step pgRepos draws prID oldUserID x s).2 = s ∧
      (Reassigning.step pgRepos draws prID oldUserID x s).1.reads row old
        (s.reviewersOf row.id)) ∨
    (Reassigning.step pgRepos draws prID oldUserID x s).1.hasRemoved = true := by
  cases x with
  | start =>
    left
    simp only [Reassigning.step, pgRepos_prGetByPRID, PRRepo.GetByPRID, hrow,
      PRRepo.GetReviewers, PRRow.toPR, hst, if_false]
    exact ⟨trivial, rfl⟩
  | gotPR pr =>
    left
    simp only [Reassigning.step, pgRepos_userGetByUserID, UserStorage.GetByUserID, hold]
    exact ⟨trivial, hx, rfl⟩
  | gotOld pr oldReviewer =>
    left
    obtain ⟨h1, h2⟩ := hx
    subst h1
    simp only [Reassigning.step, pgRepos_prGetReviewers, PRRepo.GetReviewers, PRRow.toPR, has,
      Bool.not_true, Bool.false_eq_true, if_false]
    exact ⟨trivial, rfl, h2, rfl⟩
  | gotReviewers pr oldReviewer reviewers =>
    left
    obtain ⟨h1, h2, h3⟩ := hx
    subst h2
    simp only [Reassigning.step, pgRepos_teamGetByID, TeamRepo.GetByID, hteam]
    exact ⟨trivial, h1, rfl, h3⟩
  | gotTeam pr oldReviewer reviewers =>
    left
    obtain ⟨h1, h2, h3⟩ := hx
    subst h1 h2 h3
    obtain ⟨u, hu⟩ := selectRandomReviewers_one draws _ hne
    unfold replacementPool at hu hne
    simp only [Reassigning.step, getActiveTeamMembersExcluding, pgRepos_userGetByTeamID,
      UserStorage.GetByTeamID, PRRow.toPR, hne, if_false, hu]
    exact ⟨trivial, rfl, rfl⟩
  | chosen pr oldReviewer newReviewer =>
    right
    obtain ⟨h1, h2⟩ := hx
    subst h1 h2
    have hrm : ¬ (s.pr_reviewers.filter
        (fun prr => prr == (row.id, oldReviewer.ID))).length = 0 := by
      intro h0
      rw [List.length_eq_zero, List.filter_eq_nil_iff] at h0
      exact h0 _ hin (by simp)
    simp only [Reassigning.step, pgRepos_prRemoveReviewer, PRRepo.RemoveReviewer, PRRow.toPR,
      hrm, if_false]
    rfl
  | removed pr oldReviewer newReviewer => exact absurd hx (by simp [Reassigning.reads])
  | done result => exact absurd hx (by simp [Reassigning.reads])

/-- What every interleaving of two reassignments keeps on a PostgreSQL store
where a reassignment alone succeeds: one of the calls has removed the old
reviewer, or both have only read the store, which is as it was. -/
theorem race_pg_progress (drawsA drawsB : List Nat) (prID oldUserID : String) (s : Store)
    (row : PRRow) (old : User) (team : TeamRow)
    (hrow : s.pull_requests.find? (fun row => row.pull_request_id == prID) = some row)
    (hst : row.status_id ≠ StatusMergedID)
    (hold : s.users.find? (fun u => u.UserID == oldUserID) = some old)
    (has : isAssigned (s.reviewersOf row.id) oldUserID = true)
    (hteam : s.teams.find? (fun row => row.id == old.TeamID) = some team)
    (hne : (replacementPool (s.users.filter (fun u => u.TeamID == old.TeamID))
          row.author_id old.ID (s.reviewersOf row.id)).length ≠ 0)
    (hin : (row.id, old.ID) ∈ s.pr_reviewers) :
    ∀ (schedule : List Bool) (a b : Reassigning) (t : Store),
      (a.hasRemoved = true ∨ b.hasRemoved = true ∨
        (t = s ∧ a.reads row old (s.reviewersOf row.id) ∧
          b.reads row old (s.reviewersOf row.id))) →
      ((race pgRepos drawsA drawsB prID oldUserID schedule (a, b, t)).1.hasRemoved = true ∨
        (race pgRepos drawsA drawsB prID oldUserID schedule (a, b, t)).2.1.hasRemoved = true ∨
        ((race pgRepos drawsA drawsB prID oldUserID schedule (a, b, t)).2.2 = s ∧
          (race pgRepos drawsA drawsB prID oldUserID schedule (a, b, t)).1.reads row old
            (s.reviewersOf row.id) ∧
          (race pgRepos drawsA drawsB prID oldUserID schedule (a, b, t)).2.1.reads row old
            (s.reviewersOf row.id)))
  | [], a, b, t, h => by simpa [race] using h
  | true :: rest, a, b, t, h => by
    rw [race]
    apply race_pg_progress drawsA drawsB prID oldUserID s row old team hrow hst hold has hteam
      hne hin rest
    rcases h with h | h | ⟨ht, ha, hb⟩
    · exact Or.inl (Reassigning_step_pg_removed drawsA prID oldUserID a t h)
    · exact Or.inr (Or.inl h)
    · subst ht
      rcases Reassigning_step_pg_reads drawsA prID oldUserID t row old team a hrow hst hold has
        hteam hne hin ha with ⟨k1, k2⟩ | k
      · exact Or.inr (Or.inr ⟨k1, k2, hb⟩)
      · exact Or.inl k
  | false :: rest, a, b, t, h => by
    rw [race]
    apply race_pg_progress drawsA drawsB prID oldUserID s row old team hrow hst hold has hteam
      hne hin rest
    rcases h with h | h | ⟨ht, ha, hb⟩
    · exact Or.inl h
    · exact Or.inr (Or.inl (Reassigning_step_pg_removed drawsB prID oldUserID b t h))
    · subst ht
      rcases Reassigning_step_pg_reads drawsB prID oldUserID t row old team b hrow hst hold has
        hteam hne hin hb with ⟨k1, k2⟩ | k
      · exact Or.inr (Or.inr ⟨k1, ha, k2⟩)
      · exact Or.inr (Or.inl k)

/-- A schedule that lets the first call make `n` calls in a row. -/
theorem race_replicate_true {σ : Type} (R : Repos σ) (drawsA drawsB : List Nat)
    (prID oldUserID : String) (rest : List Bool) :
    ∀ (n : Nat) (a b : Reassigning) (s : σ),
      race R drawsA drawsB prID oldUserID (List.replicate n true ++ rest) (a, b, s) =
        race R drawsA drawsB prID oldUserID rest
          ((Reassigning.steps R drawsA prID oldUserID n (a, s)).1, b,
            (Reassigning.steps R drawsA prID oldUserID n (a, s)).2)
  | 0, a, b, s => rfl
  | n + 1, a, b, s => by
    rw [List.replicate_succ, List.cons_append, race, race_replicate_true R drawsA drawsB prID
      oldUserID rest n]
    rfl

/-- A schedule that lets the second call make `n` calls in a row. -/
theorem race_replicate_false {σ : Type} (R : Repos σ) (drawsA drawsB : List Nat)
    (prID oldUserID : String) (rest : List Bool) :
    ∀ (n : Nat) (a b : Reassigning) (s : σ),
      race R drawsA drawsB prID oldUserID (List.replicate n false ++ rest) (a, b, s) =
        race R drawsA drawsB prID oldUserID rest
          (a, (Reassigning.steps R drawsB prID oldUserID n (b, s)).1,
            (Reassigning.steps R drawsB prID oldUserID n (b, s)).2)
  | 0, a, b, s => rfl
  | n + 1, a, b, s => by
    rw [List.replicate_succ, List.cons_append, race, race_replicate_false R drawsA drawsB prID
      oldUserID rest n]
    rfl

/-- The schedule that lets the first call return before the second starts is
the two calls of the method one after the other. -/
theorem race_sequential {σ : Type} (R : Repos σ) (drawsA drawsB : List Nat)
    (prID oldUserID : String) (s : σ) :
    race R drawsA drawsB prID oldUserID (List.replicate 7 true ++ List.replicate 7 false)
        (Reassigning.start, Reassigning.start, s) =
      (Reassigning.done (ReassignReviewer R drawsA prID oldUserID s).1,
        Reassigning.done (ReassignReviewer R drawsB prID oldUserID
          (ReassignReviewer R drawsA prID oldUserID s).2).1,
        (ReassignReviewer R drawsB prID oldUserID
          (ReassignReviewer R drawsA prID oldUserID s).2).2) := by
  rw [race_replicate_true, Reassigning_steps_eq]
  have h := race_replicate_false R drawsA drawsB prID oldUserID [] 7
    (Reassigning.done (ReassignReviewer R drawsA prID oldUserID s).1) Reassigning.start
    (ReassignReviewer R drawsA prID oldUserID s).2
  rw [List.append_nil] at h
  rw [h, Reassigning_steps_eq]
  rfl

theorem Reassigning.fine_holds (row : PRRow) (old : User) (current : List User)
    (x : Reassigning) (hx : x.fine row old current) : x.holds row.id old.ID := by
  cases x with
  | start => trivial
  | gotPR pr => exact hx.1
  | gotOld pr oldReviewer => exact ⟨hx.1, by rw [hx.2.2]⟩
  | gotReviewers pr oldReviewer reviewers => exact ⟨hx.1, by rw [hx.2.2.1]⟩
  | gotTeam pr oldReviewer reviewers => exact ⟨hx.1, by rw [hx.2.2.1]⟩
  | chosen pr oldReviewer newReviewer => exact ⟨hx.1, by rw [hx.2.1], hx.2.2⟩
  | removed pr oldReviewer newReviewer => exact ⟨hx.1, by rw [hx.2.1], hx.2.2⟩
  | done result => trivial

theorem reviewersOf_congr (s t : Store) (prID : Int) (hu : t.users = s.users)
    (hr : t.pr_reviewers = s.pr_reviewers) : t.reviewersOf prID = s.reviewersOf prID := by
  unfold Store.reviewersOf
  rw [hu, hr]

/-- One repository call of a reassignment on a PostgreSQL store that differs
from a store `s`, where a reassignment alone succeeds, in `pr_reviewers` at
most: the call goes on as on `s` or fails with `ErrNotAssigned` or with the
wrapped error of `RemoveReviewer`, and it changes `pr_reviewers` only by
removing the old reviewer or after having removed the old reviewer. -/
theorem Reassigning_step_pg_fine (draws : List Nat) (prID oldUserID : String) (s t : Store)
    (row : PRRow) (old : User) (team : TeamRow) (x : Reassigning)
    (huniq : s.uniqueUserIDs)
    (hrow : s.pull_requests.find? (fun row => row.pull_request_id == prID) = some row)
    (hst : row.status_id ≠ StatusMergedID)
    (hold : s.users.find? (fun u => u.UserID == oldUserID) = some old)
    (has : isAssigned (s.reviewersOf row.id) oldUserID = true)
    (hteam : s.teams.find? (fun row => row.id == old.TeamID) = some team)
    (hne : (replacementPool (s.users.filter (fun u => u.TeamID == old.TeamID))
          row.author_id old.ID (s.reviewersOf row.id)).length ≠ 0)
    (hp : t.pull_requests = s.pull_requests) (hu : t.users = s.users)
    (ht : t.teams = s.teams)
    (hr : (row.id, old.ID) ∉ t.pr_reviewers ∨ t.pr_reviewers = s.pr_reviewers)
    (hx : x.fine row old (s.reviewersOf row.id)) :
    (Reassigning.step pgRepos draws prID oldUserID x t).1.fine row old (s.reviewersOf row.id) ∧
    (Reassigning.step pgRepos draws prID oldUserID x t).2.teams = s.teams ∧
    ((Reassigning.step pgRepos draws prID oldUserID x t).1.hasRemoved = false →
      (Reassigning.step pgRepos draws prID oldUserID x t).2.pr_reviewers = t.pr_reviewers) := by
  cases x with
  | start =>
    simp only [Reassigning.step, pgRepos_prGetByPRID, PRRepo.GetByPRID, hp, hrow,
      PRRepo.GetReviewers, PRRow.toPR, hst, if_false]
    exact ⟨⟨rfl, rfl⟩, ht, fun _ => by first | rfl | trivial⟩
  | gotPR pr =>
    simp only [Reassigning.step, pgRepos_userGetByUserID, UserStorage.GetByUserID, hu, hold]
    exact ⟨⟨hx.1, hx.2, rfl⟩, ht, fun _ => by first | rfl | trivial⟩
  | gotOld pr oldReviewer =>
    obtain ⟨h1, h2, h3⟩ := hx
    simp only [Reassigning.step, pgRepos_prGetReviewers, PRRepo.GetReviewers, h1]
    rcases hr with hr | hr
    · have hnot : isAssigned (t.reviewersOf row.id) oldUserID = false := by
        rw [reviewersOf_congr { s with pr_reviewers := t.pr_reviewers } t row.id hu rfl]
        exact isAssigned_pg_false s t.pr_reviewers row.id oldUserID old huniq hold hr
      simp only [hnot, Bool.not_false, if_true]
      exact ⟨Or.inl rfl, ht, fun _ => by first | rfl | trivial⟩
    · rw [reviewersOf_congr s t row.id hu hr]
      simp only [has, Bool.not_true, Bool.false_eq_true, if_false]
      exact ⟨⟨h1, h2, h3, rfl⟩, ht, fun _ => by first | rfl | trivial⟩
  | gotReviewers pr oldReviewer reviewers =>
    obtain ⟨h1, h2, h3, h4⟩ := hx
    subst h3
    simp only [Reassigning.step, pgRepos_teamGetByID, TeamRepo.GetByID, ht, hteam]
    exact ⟨⟨h1, h2, rfl, h4⟩, trivial, fun _ => by first | rfl | trivial⟩
  | gotTeam pr oldReviewer reviewers =>
    obtain ⟨h1, h2, h3, h4⟩ := hx
    subst h3 h4
    obtain ⟨u, hsel⟩ := selectRandomReviewers_one draws _ hne
    have hmem := (selected_mem_pool draws _ u [] hsel).1
    have hpool := mem_replacementPool _ _ _ _ _ hmem
    unfold replacementPool at hsel hne
    simp only [Reassigning.step, getActiveTeamMembersExcluding, pgRepos_userGetByTeamID,
      UserStorage.GetByTeamID, hu, h2, hne, if_false, hsel]
    exact ⟨⟨h1, rfl, hpool.2.2.2.1⟩, ht, fun _ => by first | rfl | trivial⟩
  | chosen pr oldReviewer newReviewer =>
    obtain ⟨h1, h2, h3⟩ := hx
    subst h2
    simp only [Reassigning.step, pgRepos_prRemoveReviewer, PRRepo.RemoveReviewer, h1]
    by_cases hlen : (t.pr_reviewers.filter
        (fun prr => prr == (row.id, oldReviewer.ID))).length = 0
    · simp only [hlen, if_true]
      exact ⟨Or.inr rfl, ht, fun _ => by first | rfl | trivial⟩
    · simp only [hlen, if_false]
      exact ⟨⟨h1, rfl, h3⟩, ht, fun h => by simp [Reassigning.hasRemoved] at h⟩
  | removed pr oldReviewer newReviewer =>
    simp only [Reassigning.step, pgRepos_prAddReviewer, PRRepo.AddReviewer]
    by_cases hmem : (pr.ID, newReviewer.ID) ∈ t.pr_reviewers
    · simp only [hmem, if_true]
      exact ⟨trivial, ht, fun _ => by first | rfl | trivial⟩
    · simp only [hmem, if_false]
      exact ⟨trivial, ht, fun h => by simp [Reassigning.hasRemoved] at h⟩
  | done result =>
    simp only [Reassigning.step]
    exact ⟨hx, ht, fun _ => by first | rfl | trivial⟩

/-- What every interleaving of two reassignments keeps on a PostgreSQL store
`s` with unique `user_id`s where a reassignment alone succeeds: the tables
other than `pr_reviewers`, the local variables of the two calls, the only two
errors a call fails with, and `pr_reviewers` itself until one of the calls
removes the old reviewer, who is then off the pull request. -/
theorem race_pg_fine (drawsA drawsB : List Nat) (prID oldUserID : String) (s : Store)
    (row : PRRow) (old : User) (team : TeamRow)
    (huniq : s.uniqueUserIDs)
    (hrow : s.pull_requests.find? (fun row => row.pull_request_id == prID) = some row)
    (hst : row.status_id ≠ StatusMergedID)
    (hold : s.users.find? (fun u => u.UserID == oldUserID) = some old)
    (has : isAssigned (s.reviewersOf row.id) oldUserID = true)
    (hteam : s.teams.find? (fun row => row.id == old.TeamID) = some team)
    (hne : (replacementPool (s.users.filter (fun u => u.TeamID == old.TeamID))
          row.author_id old.ID (s.reviewersOf row.id)).length ≠ 0) :
    ∀ (schedule : List Bool) (a b : Reassigning) (t : Store),
      t.pull_requests = s.pull_requests → t.users = s.users → t.teams = s.teams →
      a.fine row old (s.reviewersOf row.id) → b.fine row old (s.reviewersOf row.id) →
      (a.hasRemoved = true ∨ b.hasRemoved = true → (row.id, old.ID) ∉ t.pr_reviewers) →
      (a.hasRemoved = false → b.hasRemoved = false → t.pr_reviewers = s.pr_reviewers) →
      (race pgRepos drawsA drawsB prID oldUserID schedule (a, b, t)).1.fine row old
          (s.reviewersOf row.id) ∧
        (race pgRepos drawsA drawsB prID oldUserID schedule (a, b, t)).2.1.fine row old
          (s.reviewersOf row.id)
  | [], a, b, t, _, _, _, ha, hb, _, _ => ⟨ha, hb⟩
  | true :: rest, a, b, t, hp, hu, ht, ha, hb, hoff, hsame => by
    have hr : (row.id, old.ID) ∉ t.pr_reviewers ∨ t.pr_reviewers = s.pr_reviewers := by
      cases hA : a.hasRemoved with
      | true => exact Or.inl (hoff (Or.inl hA))
      | false =>
        cases hB : b.hasRemoved with
        | true => exact Or.inl (hoff (Or.inr hB))
        | false => exact Or.inr (hsame hA hB)
    obtain ⟨k1, k2, _, k4, k5⟩ := Reassigning_step_pg drawsA prID oldUserID row.id old.ID a t
      (fun r hfind => by rw [hp, hrow] at hfind; cases hfind; rfl)
      (fun u hfind => by rw [hu, hold] at hfind; cases hfind; rfl)
      (Reassigning.fine_holds row old _ a ha)
    obtain ⟨f1, f2, f3⟩ := Reassigning_step_pg_fine drawsA prID oldUserID s t row old team a
      huniq hrow hst hold has hteam hne hp hu ht hr ha
    rw [race]
    apply race_pg_fine drawsA drawsB prID oldUserID s row old team huniq hrow hst hold has
      hteam hne rest
    · rw [k1]; exact hp
    · rw [k2]; exact hu
    · exact f2
    · exact f1
    · exact hb
    · rintro (h | h)
      · rcases k5 h with h' | ⟨_, h'⟩
        · exact k4 (hoff (Or.inl h'))
        · exact h'
      · exact k4 (hoff (Or.inr h))
    · intro hA' hB
      have hA : a.hasRemoved = false := by
        cases hA : a.hasRemoved with
        | false => rfl
        | true =>
          rw [Reassigning_step_pg_removed drawsA prID oldUserID a t hA] at hA'
          cases hA'
      rw [f3 hA']
      exact hsame hA hB
  | false :: rest, a, b, t, hp, hu, ht, ha, hb, hoff, hsame => by
    have hr : (row.id, old.ID) ∉ t.pr_reviewers ∨ t.pr_reviewers = s.pr_reviewers := by
      cases hA : a.hasRemoved with
      | true => exact Or.inl (hoff (Or.inl hA))
      | false =>
        cases hB : b.hasRemoved with
        | true => exact Or.inl (hoff (Or.inr hB))
        | false => exact Or.inr (hsame hA hB)
    obtain ⟨k1, k2, _, k4, k5⟩ := Reassigning_step_pg drawsB prID oldUserID row.id old.ID b t
      (fun r hfind => by rw [hp, hrow] at hfind; cases hfind; rfl)
      (fun u hfind => by rw [hu, hold] at hfind; cases hfind; rfl)
      (Reassigning.fine_holds row old _ b hb)
    obtain ⟨f1, f2, f3⟩ := Reassigning_step_pg_fine drawsB prID oldUserID s t row old team b
      huniq hrow hst hold has hteam hne hp hu ht hr hb
    rw [race]
    apply race_pg_fine drawsA drawsB prID oldUserID s row old team huniq hrow hst hold has
      hteam hne rest
    · rw [k1]; exact hp
    · rw [k2]; exact hu
    · exact f2
    · exact ha
    · exact f1
    · rintro (h | h)
      · exact k4 (hoff (Or.inl h))
      · rcases k5 h with h' | ⟨_, h'⟩
        · exact k4 (hoff (Or.inr h'))
        · exact h'
    · intro hA hB'
      have hB : b.hasRemoved = false := by
        cases hB : b.hasRemoved with
        | false => rfl
        | true =>
          rw [Reassigning_step_pg_removed drawsB prID oldUserID b t hB] at hB'
          cases hB'
      rw [f3 hB']
      exact hsame hA hB

/-- C26 fails as stated: a reader of "pr-1" that runs between the
`RemoveReviewer` and the `AddReviewer` of a reassignment of u2 sees the pull
request with u3 alone, without u2 and without the replacement u4; and of two
reassignments of u2, the second running right before the `RemoveReviewer` of
the first, the second succeeds and the first fails with the wrapped error of
`RemoveReviewer`, which is not `ErrNotAssigned`. -/
theorem reassign_pair_is_not_atomic :
    samplePR.Reviewers = [sampleUser 3 "u3" true 1, sampleUser 2 "u2" true 1] ∧
    sampleTornRead.1 = Except.ok "u4" ∧
    sampleTornRead.2.2.2 =
      some (Except.ok { samplePR with Reviewers := [sampleUser 3 "u3" true 1] }) ∧
    sampleRace.2.2.2 = some (Except.ok "u4") ∧
    sampleRace.1 = Except.error (Err.wrap "failed to remove old reviewer: %w"
      (Err.other "repository.PRRepo.RemoveReviewer: reviewer not found for this PR")) ∧
    errorsIs (Err.wrap "failed to remove old reviewer: %w"
      (Err.other "repository.PRRepo.RemoveReviewer: reviewer not found for this PR"))
      ErrNotAssigned = false := by
  refine ⟨rfl, rfl, rfl, rfl, rfl, rfl⟩

/-- C26, amended. On the PostgreSQL repositories `RemoveReviewer` and
`AddReviewer` of a successful `ReassignReviewer` are two steps that another
request can come between. A reader of the pull request that runs between them
sees neither the old reviewer nor the replacement (1). The calls of a
reassignment are counted from 0: the look-ups of the pull request and of the
old reviewer, `GetReviewers` at 2, the look-ups of the team and of its
members, `RemoveReviewer` at 5 and `AddReviewer` at 6. Of two reassignments of
the same old reviewer, the second running in one piece before call `k` of the
first and succeeding, the first fails with the wrapped error of
`RemoveReviewer` when it had already read the reviewers, `3 ≤ k ≤ 5` (2), and
with `ErrNotAssigned` when it reads them afterwards, `k ≤ 2`, provided the
`user_id`s are unique (3); when the second runs between the two steps of the
first, the first succeeds and the second fails with `ErrNotAssigned`, again
with unique `user_id`s (4). For the interleavings call by call the method is
cut at its repository calls: seven steps of the cut method are the method, on
every repository (5), and the schedule that lets the first call return before
the second starts is the two calls one after the other (6). Under every
schedule, whichever call makes the next repository call, the two
reassignments have never both succeeded (7); where a reassignment alone
succeeds, once both have returned exactly one has succeeded (8), and with
unique `user_id`s a call that has failed has failed with `ErrNotAssigned` or
with the wrapped error of `RemoveReviewer` (9). -/
theorem reassign_interleavings :
    (∀ (draws : List Nat) (prID oldUserID : String) (s s' : Store) (newUserID : String),
      ReassignReviewer pgRepos draws prID oldUserID s = (Except.ok newUserID, s') →
      ∃ (row : PRRow) (oldReviewer newReviewer : User) (seen : PullRequest),
        s.pull_requests.find? (fun row => row.pull_request_id == prID) = some row ∧
        s.users.find? (fun u => u.UserID == oldUserID) = some oldReviewer ∧
        newReviewer.UserID = newUserID ∧
        (row.id, oldReviewer.ID) ∈ s.pr_reviewers ∧
        (row.id, newReviewer.ID) ∈ s'.pr_reviewers ∧
        ReassignReviewer (raced pgRepos (PRRepo.GetByPRID prID)) draws prID oldUserID
            (s, some 6, none) = (Except.ok newUserID, (s', none, some (Except.ok seen))) ∧
        seen.PullRequestID = prID ∧
        ∀ u ∈ seen.Reviewers, u.ID ≠ oldReviewer.ID ∧ u.ID ≠ newReviewer.ID) ∧
    (∀ (draws draws2 : List Nat) (prID oldUserID : String) (s s2 : Store) (new2 : String)
      (k : Nat), 3 ≤ k → k ≤ 5 →
      ReassignReviewer pgRepos draws2 prID oldUserID s = (Except.ok new2, s2) →
      ReassignReviewer (raced pgRepos (ReassignReviewer pgRepos draws2 prID oldUserID))
          draws prID oldUserID (s, some k, none) =
        (Except.error (Err.wrap "failed to remove old reviewer: %w"
            (Err.other "repository.PRRepo.RemoveReviewer: reviewer not found for this PR")),
          (s2, none, some (Except.ok new2)))) ∧
    (∀ (draws draws2 : List Nat) (prID oldUserID : String) (s s2 : Store) (new2 : String)
      (k : Nat), k ≤ 2 → s.uniqueUserIDs →
      ReassignReviewer pgRepos draws2 prID oldUserID s = (Except.ok new2, s2) →
      ReassignReviewer (raced pgRepos (ReassignReviewer pgRepos draws2 prID oldUserID))
          draws prID oldUserID (s, some k, none) =
        (Except.error ErrNotAssigned, (s2, none, some (Except.ok new2)))) ∧
    (∀ (draws draws2 : List Nat) (prID oldUserID : String) (s s1 : Store) (new1 : String),
      s.uniqueUserIDs →
      ReassignReviewer pgRepos draws prID oldUserID s = (Except.ok new1, s1) →
      ReassignReviewer (raced pgRepos (ReassignReviewer pgRepos draws2 prID oldUserID))
          draws prID oldUserID (s, some 6, none) =
        (Except.ok new1, (s1, none, some (Except.error ErrNotAssigned)))) ∧
    (∀ {σ : Type} (R : Repos σ) (draws : List Nat) (prID oldUserID : String) (s : σ),
      Reassigning.steps R draws prID oldUserID 7 (Reassigning.start, s) =
        (Reassigning.done (ReassignReviewer R draws prID oldUserID s).1,
          (ReassignReviewer R draws prID oldUserID s).2)) ∧
    (∀ {σ : Type} (R : Repos σ) (drawsA drawsB : List Nat) (prID oldUserID : String) (s : σ),
      race R drawsA drawsB prID oldUserID (List.replicate 7 true ++ List.replicate 7 false)
          (Reassigning.start, Reassigning.start, s) =
        (Reassigning.done (ReassignReviewer R drawsA prID oldUserID s).1,
          Reassigning.done (ReassignReviewer R drawsB prID oldUserID
            (ReassignReviewer R drawsA prID oldUserID s).2).1,
          (ReassignReviewer R drawsB prID oldUserID
            (ReassignReviewer R drawsA prID oldUserID s).2).2)) ∧
    (∀ (drawsA drawsB : List Nat) (prID oldUserID : String) (schedule : List Bool)
      (s : Store) (newA newB : String),
      ¬ ((race pgRepos drawsA drawsB prID oldUserID schedule
            (Reassigning.start, Reassigning.start, s)).1 =
          Reassigning.done (Except.ok newA) ∧
        (race pgRepos drawsA drawsB prID oldUserID schedule
            (Reassigning.start, Reassigning.start, s)).2.1 =
          Reassigning.done (Except.ok newB))) ∧
    (∀ (drawsA drawsB draws : List Nat) (prID oldUserID : String) (schedule : List Bool)
      (s s' : Store) (newUserID : String) (resultA resultB : Except Err String),
      ReassignReviewer pgRepos draws prID oldUserID s = (Except.ok newUserID, s') →
      (race pgRepos drawsA drawsB prID oldUserID schedule
          (Reassigning.start, Reassigning.start, s)).1 = Reassigning.done resultA →
      (race pgRepos drawsA drawsB prID oldUserID schedule
          (Reassigning.start, Reassigning.start, s)).2.1 = Reassigning.done resultB →
      (succeeded resultA = true ∧ succeeded resultB = false) ∨
      (succeeded resultA = false ∧ succeeded resultB = true)) ∧
    (∀ (drawsA drawsB draws : List Nat) (prID oldUserID : String) (schedule : List Bool)
      (s s' : Store) (newUserID : String) (e : Err),
      s.uniqueUserIDs →
      ReassignReviewer pgRepos draws prID oldUserID s = (Except.ok newUserID, s') →
      (race pgRepos drawsA drawsB prID oldUserID schedule
            (Reassigning.start, Reassigning.start, s)).1 =
          Reassigning.done (Except.error e) ∨
        (race pgRepos drawsA drawsB prID oldUserID schedule
            (Reassigning.start, Reassigning.start, s)).2.1 =
          Reassigning.done (Except.error e) →
      e = ErrNotAssigned ∨
      e = Err.wrap "failed to remove old reviewer: %w"
        (Err.other "repository.PRRepo.RemoveReviewer: reviewer not found for this PR")) := by
  refine ⟨?_, ?_, ?_, ?_, ?_, ?_, ?_, ?_, ?_⟩
  · intro draws prID oldUserID s s' newUserID h
    obtain ⟨row, oldReviewer, newReviewer, team, hrow, hst, hold, has, hteam, hsel, hres, hin,
      hnotin, hs'⟩ := ReassignReviewer_pg_steps draws prID oldUserID s s' newUserID h
    have hrun := ReassignReviewer_raced_torn (PRRepo.GetByPRID prID) draws prID oldUserID s
      row oldReviewer newReviewer team _ hrow hst hold has hteam hsel hin hnotin
      (GetByPRID_pg_found prID s row _ hrow)
    obtain ⟨X, hX⟩ : ∃ X, X = s.pr_reviewers.filter
        (fun prr => !(prr == (row.id, oldReviewer.ID))) := ⟨_, rfl⟩
    rw [← hX] at hrun
    refine ⟨row, oldReviewer, newReviewer,
      row.toPR (Store.reviewersOf { s with pr_reviewers := X } row.id),
      hrow, hold, hres.symm, hin, ?_, ?_, ?_, ?_⟩
    · rw [hs']
      simp
    · rw [hres, hs', ← hX]
      exact hrun
    · have := List.find?_some hrow
      simpa [PRRow.toPR] using this
    · intro u hu
      obtain ⟨_, hpair⟩ := of_mem_reviewersOf _ row.id u hu
      have hpair' : (row.id, u.ID) ∈ s.pr_reviewers.filter
          (fun prr => !(prr == (row.id, oldReviewer.ID))) := by
        rw [← hX]
        exact hpair
      have hpair' := List.mem_filter.mp hpair'
      constructor
      · intro heq
        rw [heq] at hpair'
        simpa using hpair'.2
      · intro heq
        rw [heq] at hpair'
        exact hnotin hpair'.1
  · intro draws draws2 prID oldUserID s s2 new2 k hk hk5 h
    obtain ⟨row, oldReviewer, newReviewer, team, hrow, hst, hold, has, hteam, hsel, hres, hin,
      hnotin, hs'⟩ := ReassignReviewer_pg_steps draws2 prID oldUserID s s2 new2 h
    have hne : (replacementPool (s.users.filter (fun u => u.TeamID == oldReviewer.TeamID))
        row.author_id oldReviewer.ID (s.reviewersOf row.id)).length ≠ 0 := by
      intro h0
      rw [List.length_eq_zero] at h0
      have := (selected_mem_pool draws2 _ newReviewer [] hsel).1
      rw [h0] at this
      exact List.not_mem_nil _ this
    have hne_id : newReviewer.ID ≠ oldReviewer.ID := by
      intro heq
      rw [heq] at hnotin
      exact hnotin hin
    rw [hs'] at h ⊢
    exact ReassignReviewer_raced_lost _ draws prID oldUserID s row oldReviewer team _ _ k hk hk5
      hrow hst hold has hteam hne h (by
        simp only [List.mem_append, List.mem_filter, List.mem_singleton, Prod.mk.injEq,
          not_or]
        exact ⟨fun hmem => by simpa using hmem.2, fun heq => hne_id heq.2.symm⟩)
  · intro draws draws2 prID oldUserID s s2 new2 k hk huniq h
    obtain ⟨row, oldReviewer, newReviewer, team, hrow, hst, hold, has, hteam, hsel, hres, hin,
      hnotin, hs'⟩ := ReassignReviewer_pg_steps draws2 prID oldUserID s s2 new2 h
    have hne_id : newReviewer.ID ≠ oldReviewer.ID := by
      intro heq
      rw [heq] at hnotin
      exact hnotin hin
    rw [hs'] at h ⊢
    exact ReassignReviewer_raced_late _ draws prID oldUserID s row oldReviewer _ _ k hk
      hrow hst hold h (isAssigned_pg_false s _ row.id oldUserID oldReviewer huniq hold (by
        simp only [List.mem_append, List.mem_filter, List.mem_singleton, Prod.mk.injEq,
          not_or]
        exact ⟨fun hmem => by simpa using hmem.2, fun heq => hne_id heq.2.symm⟩))
  · intro draws draws2 prID oldUserID s s1 new1 huniq h
    obtain ⟨row, oldReviewer, newReviewer, team, hrow, hst, hold, has, hteam, hsel, hres, hin,
      hnotin, hs'⟩ := ReassignReviewer_pg_steps draws prID oldUserID s s1 new1 h
    rw [hres, hs']
    exact ReassignReviewer_raced_torn _ draws prID oldUserID s row oldReviewer newReviewer team
      _ hrow hst hold has hteam hsel hin hnotin
      (ReassignReviewer_pg_not_assigned draws2 prID oldUserID _ row oldReviewer hrow hst hold
        (isAssigned_pg_false s _ row.id oldUserID oldReviewer huniq hold (by
          intro hmem
          simpa using (List.mem_filter.mp hmem).2)))
  · intro σ R draws prID oldUserID s
    exact Reassigning_steps_eq R draws prID oldUserID s
  · intro σ R drawsA drawsB prID oldUserID s
    exact race_sequential R drawsA drawsB prID oldUserID s
  · intro drawsA drawsB prID oldUserID schedule s newA newB
    exact race_pg_not_both drawsA drawsB prID oldUserID schedule s newA newB
  · intro drawsA drawsB draws prID oldUserID schedule s s' newUserID resultA resultB h hA hB
    obtain ⟨row, oldReviewer, newReviewer, team, hrow, hst, hold, has, hteam, hsel, hres, hin,
      hnotin, hs'⟩ := ReassignReviewer_pg_steps draws prID oldUserID s s' newUserID h
    have hne : (replacementPool (s.users.filter (fun u => u.TeamID == oldReviewer.TeamID))
        row.author_id oldReviewer.ID (s.reviewersOf row.id)).length ≠ 0 := by
      intro h0
      rw [List.length_eq_zero] at h0
      have := (selected_mem_pool draws _ newReviewer [] hsel).1
      rw [h0] at this
      exact List.not_mem_nil _ this
    have hprog := race_pg_progress drawsA drawsB prID oldUserID s row oldReviewer team hrow hst
      hold has hteam hne hin schedule Reassigning.start Reassigning.start s
      (Or.inr (Or.inr ⟨rfl, trivial, trivial⟩))
    rw [hA, hB] at hprog
    have hnot := race_pg_not_both drawsA drawsB prID oldUserID schedule s
    rw [hA, hB] at hnot
    cases resultA with
    | ok newA =>
      cases resultB with
      | ok newB => exact absurd ⟨rfl, rfl⟩ (hnot newA newB)
      | error eB => exact Or.inl ⟨rfl, rfl⟩
    | error eA =>
      cases resultB with
      | ok newB => exact Or.inr ⟨rfl, rfl⟩
      | error eB =>
        rcases hprog with h1 | h1 | ⟨_, h1, _⟩
        · simp [Reassigning.hasRemoved] at h1
        · simp [Reassigning.hasRemoved] at h1
        · exact absurd h1 (by simp [Reassigning.reads])
  · intro drawsA drawsB draws prID oldUserID schedule s s' newUserID e huniq h hAB
    obtain ⟨row, oldReviewer, newReviewer, team, hrow, hst, hold, has, hteam, hsel, hres, hin,
      hnotin, hs'⟩ := ReassignReviewer_pg_steps draws prID oldUserID s s' newUserID h
    have hne : (replacementPool (s.users.filter (fun u => u.TeamID == oldReviewer.TeamID))
        row.author_id oldReviewer.ID (s.reviewersOf row.id)).length ≠ 0 := by
      intro h0
      rw [List.length_eq_zero] at h0
      have := (selected_mem_pool draws _ newReviewer [] hsel).1
      rw [h0] at this
      exact List.not_mem_nil _ this
    obtain ⟨fA, fB⟩ := race_pg_fine drawsA drawsB prID oldUserID s row oldReviewer team huniq
      hrow hst hold has hteam hne schedule Reassigning.start Reassigning.start s rfl rfl rfl
      trivial trivial (by simp [Reassigning.hasRemoved]) (fun _ _ => rfl)
    rcases hAB with hA | hB
    · rw [hA] at fA
      exact fA
    · rw [hB] at fB
      exact fB

/-- C26 at sample data: a second reassignment of u2 on "pr-1" that runs right
before the `RemoveReviewer` of the first succeeds with u4, and the first fails
with the wrapped error of `RemoveReviewer`; and when the two take turns call
by call, the first succeeds with u4 and the second fails with the wrapped
error of `RemoveReviewer`, so exactly one of them has succeeded. -/
theorem reassign_interleavings_witness :
    3 ≤ 5 ∧ 5 ≤ 5 ∧
    ReassignReviewer pgRepos [5] "pr-1" "u2" sampleCreated =
      (Except.ok "u4", sampleReassign.2.1) ∧
    ReassignReviewer (raced pgRepos (ReassignReviewer pgRepos [5] "pr-1" "u2"))
        [0] "pr-1" "u2" (sampleCreated, some 5, none) =
      (Except.error (Err.wrap "failed to remove old reviewer: %w"
          (Err.other "repository.PRRepo.RemoveReviewer: reviewer not found for this PR")),
        (sampleReassign.2.1, none, some (Except.ok "u4"))) ∧
    (race pgRepos [5] [0] "pr-1" "u2"
        [true, false, true, false, true, false, true, false, true, false, true, false,
          true, false] (Reassigning.start, Reassigning.start, sampleCreated)).1 =
      Reassigning.done (Except.ok "u4") ∧
    (race pgRepos [5] [0] "pr-1" "u2"
        [true, false, true, false, true, false, true, false, true, false, true, false,
          true, false] (Reassigning.start, Reassigning.start, sampleCreated)).2.1 =
      Reassigning.done (Except.error (Err.wrap "failed to remove old reviewer: %w"
        (Err.other "repository.PRRepo.RemoveReviewer: reviewer not found for this PR"))) ∧
    ((succeeded (Except.ok "u4" : Except Err String) = true ∧
        succeeded (Except.error (Err.wrap "failed to remove old reviewer: %w"
          (Err.other "repository.PRRepo.RemoveReviewer: reviewer not found for this PR")) :
          Except Err String) = false) ∨
      (succeeded (Except.ok "u4" : Except Err String) = false ∧
        succeeded (Except.error (Err.wrap "failed to remove old reviewer: %w"
          (Err.other "repository.PRRepo.RemoveReviewer: reviewer not found for this PR")) :
          Except Err String) = true)) :=
  ⟨by decide, by decide, rfl,
    reassign_interleavings.2.1 [0] [5] "pr-1" "u2" sampleCreated sampleReassign.2.1 "u4" 5
      (by decide) (by decide) rfl,
    rfl, rfl,
    reassign_interleavings.2.2.2.2.2.2.2.1 [5] [0] [5] "pr-1" "u2"
      [true, false, true, false, true, false, true, false, true, false, true, false,
        true, false] sampleCreated sampleReassign.2.1 "u4" _ _ rfl rfl rfl⟩

end ReviewerService
